import Mathlib

/-!
# ADI MS-plane Ethernet driver (`adi-msp.c`): work-unit protocol engine

A shallow embedding of the frame tag allocator, the transmit path
(`adi_msp_send_packet`), the transmit status path (`adi_msp_status`) and the
receive path (`adi_msp_rx`) of `drivers/net/ethernet/adi-msp.c`, and of the
time-of-day arithmetic (`_tod_adjtime`, `tstamp_to_timespec`) of
`drivers/ptp/adi_ptp/ptp_adi.c`, followed by theorems about them.

Conventions.
* `u8` fields are `Nat` with an explicit `% 256` at every store that can
  overflow; `u16` stores use `% 65536`, `u32` stores `u32` (`% 4294967296`).
* `atomic_t` counters are `Int` (they are signed and may go below zero) and the
  64-bit statistics counters are `Nat`, both without wrap-around at the width
  of the C type; addresses of type `dma_addr_t` and sums in `size_t` are `Nat`.
* Ring indices (`int` fields that the code keeps masked) are `Nat`.
* Arrays indexed by a masked ring index are total functions of the index.
* Calls into the kernel that free or deliver a buffer, and register writes,
  are recorded in trace fields of the state (`consumed`, `received`, `mmio`).
-/

namespace AdiMsp

/-! ## Constants -/

@[simp] def WU_TYPE_MASK : Nat := 0x3
@[simp] def WU_TYPE_RX_DATA : Nat := 1
@[simp] def WU_TYPE_RX_STAT : Nat := 2
@[simp] def WU_TYPE_TX_DATA_SOF : Nat := 1
@[simp] def WU_TYPE_TX_STAT : Nat := 3

@[simp] def RX_DATA_WU_HEADER_LEN : Nat := 2
@[simp] def RX_DATA_WU_HEADER_SOF : Nat := 4
@[simp] def RX_DATA_WU_HEADER_RESERVED_BITS : Nat := 0xf8

@[simp] def RX_STAT_WU_HEADER_ERR : Nat := 4
@[simp] def RX_STAT_WU_HEADER_PORT : Nat := 8
@[simp] def RX_STAT_WU_HEADER_DROPPED_ERR : Nat := 16
@[simp] def RX_STAT_WU_HEADER_RESERVED_BITS : Nat := 0xe0

/-- Size of `struct tx_wu_header`: `u8 byte0; u8 frame_tag; u16 frame_len; u8 reserved[4]`. -/
@[simp] def TX_WU_HEADER_LEN : Nat := 8
@[simp] def TX_WU_PTP : Nat := 4
@[simp] def TX_WU_PORT_0 : Nat := 0

/-- Size of `union status_wu` (four 32-bit words). -/
@[simp] def STATUS_WU_LEN : Nat := 16
@[simp] def TX_STATUS_WU_ERR : Nat := 4
@[simp] def TX_STATUS_WU_PTP : Nat := 8

@[simp] def DMA_STAT_IRQERR : Nat := 2
@[simp] def DMA_STAT_IRQDONE : Nat := 1
@[simp] def DMA_STAT_HALT : Nat := 0

/-- The macro `DMA_STAT_RUN(STAT)`, `((STAT) >> 8) & 0x7`. -/
def DMA_STAT_RUN (stat : Nat) : Nat := (stat >>> 8) &&& 0x7

@[simp] def MSIZE08 : Nat := 3

@[simp] def DMA_CFG_DESCIDCPY : Nat := 1 <<< 25
@[simp] def DMA_CFG_INT_XCNT : Nat := 1 <<< 20
@[simp] def DMA_CFG_NDSIZE05 : Nat := 4 <<< 16
@[simp] def DMA_CFG_FLOW_STOP : Nat := 0 <<< 12
@[simp] def DMA_CFG_FLOW_DSCL : Nat := 4 <<< 12
@[simp] def DMA_CFG_FLOW_MASK : Nat := 7 <<< 12
@[simp] def DMA_CFG_PSIZE04 : Nat := 2 <<< 4
@[simp] def DMA_CFG_PSIZE08 : Nat := 3 <<< 4
@[simp] def DMA_CFG_SYNC : Nat := 1 <<< 2
@[simp] def DMA_CFG_READ : Nat := 0 <<< 1
@[simp] def DMA_CFG_WRITE : Nat := 1 <<< 1
@[simp] def DMA_CFG_EN : Nat := 1 <<< 0

def TX_DMA_CFG_COMMON : Nat :=
  DMA_CFG_DESCIDCPY ||| DMA_CFG_INT_XCNT ||| DMA_CFG_NDSIZE05 ||| DMA_CFG_PSIZE08 |||
    DMA_CFG_SYNC ||| DMA_CFG_READ ||| DMA_CFG_EN

@[simp] def RX_MSIZE : Nat := MSIZE08
@[simp] def RX_XMOD : Nat := 1 <<< RX_MSIZE

def RX_DMA_CFG_COMMON : Nat :=
  DMA_CFG_DESCIDCPY ||| DMA_CFG_INT_XCNT ||| DMA_CFG_NDSIZE05 ||| (RX_MSIZE <<< 8) |||
    DMA_CFG_PSIZE08 ||| DMA_CFG_WRITE ||| DMA_CFG_EN

@[simp] def STATUS_MSIZE : Nat := MSIZE08
@[simp] def STATUS_XMOD : Nat := 1 <<< STATUS_MSIZE

def STATUS_DMA_CFG_COMMON : Nat :=
  DMA_CFG_DESCIDCPY ||| DMA_CFG_INT_XCNT ||| DMA_CFG_NDSIZE05 ||| (STATUS_MSIZE <<< 8) |||
    DMA_CFG_PSIZE04 ||| DMA_CFG_WRITE ||| DMA_CFG_EN

/-- Size of `struct dma_desc`: five `u32`. -/
@[simp] def SIZEOF_DMA_DESC : Nat := 20

@[simp] def ADI_MSP_NUM_RDS : Nat := 128
@[simp] def ADI_MSP_NUM_TDS : Nat := 128
@[simp] def ADI_MSP_NUM_SDS : Nat := ADI_MSP_NUM_TDS
@[simp] def ADI_MSP_RDS_MASK : Nat := ADI_MSP_NUM_RDS - 1
@[simp] def ADI_MSP_TDS_MASK : Nat := ADI_MSP_NUM_TDS - 1
@[simp] def ADI_MSP_SDS_MASK : Nat := ADI_MSP_NUM_SDS - 1

@[simp] def ADI_MSP_NUM_FRAME_TAGS : Nat := 255
@[simp] def ADI_MSP_MIN_NONPTP_FRAME_TAG : Nat := 1
@[simp] def ADI_MSP_MAX_NONPTP_FRAME_TAG : Nat := 247
@[simp] def ADI_MSP_MIN_PTP_FRAME_TAG : Nat := ADI_MSP_MAX_NONPTP_FRAME_TAG + 1
@[simp] def ADI_MSP_MAX_PTP_FRAME_TAG : Nat := ADI_MSP_NUM_FRAME_TAGS

@[simp] def ADI_MSP_STOP_QUEUE_TH : Nat := 1

@[simp] def MTU : Nat := 1500
@[simp] def RX_MAX_FRAME_SIZE : Nat := MTU + 18
@[simp] def RX_WU_LEN : Nat := 1536
@[simp] def PREV_RX_SKB_NUM : Nat := 6
/-- The macro `DIV_ROUND_UP(RX_MAX_FRAME_SIZE, RX_WU_LEN)`. -/
@[simp] def DATA_WU_PER_FRAME : Nat := (RX_MAX_FRAME_SIZE + RX_WU_LEN - 1) / RX_WU_LEN
@[simp] def RX_WU_GUARD_SIZE : Nat := 1
@[simp] def RX_WU_BUF_SIZE : Nat := RX_WU_LEN + RX_WU_GUARD_SIZE
@[simp] def STATUS_WU_GUARD_SIZE : Nat := 1
/-- The macro `round_up(STATUS_WU_LEN + STATUS_WU_GUARD_SIZE, STATUS_XMOD)`. -/
@[simp] def STATUS_WU_BUF_SIZE : Nat :=
  (STATUS_WU_LEN + STATUS_WU_GUARD_SIZE + STATUS_XMOD - 1) / STATUS_XMOD * STATUS_XMOD

@[simp] def NSEC_PER_SEC : Nat := 1000000000

/-- Build options of the driver that select code with the preprocessor. -/
structure build_config where
  /-- The option `CONFIG_ADI_MSP_TX_PADDING`. -/
  tx_padding : Bool
  /-- The option `CONFIG_ADI_MSP_WA_TX_WU_SIZE_MULTIPLE_OF_8`. -/
  wa_tx_wu_size_multiple_of_8 : Bool
deriving DecidableEq, Repr

/-- The macro `TX_MIN_FRAME_SIZE`: 60 with `CONFIG_ADI_MSP_TX_PADDING`, else 9. -/
def TX_MIN_FRAME_SIZE (cfg : build_config) : Nat := if cfg.tx_padding then 60 else 9

/-! ## Data model -/

/-- Conversion to `u32`, as at a store into a 32-bit field or register. -/
def u32 (x : Nat) : Nat := x % 4294967296

/-- Conversion of a `u64` to `s64`. -/
def s64_of_u64 (x : Nat) : Int :=
  if x % 18446744073709551616 < 9223372036854775808 then ((x % 18446744073709551616 : Nat) : Int)
  else ((x % 18446744073709551616 : Nat) : Int) - 18446744073709551616

/-- Store `v` at index `i` of an array held as a function of the index. -/
def ring_set {α : Type} (r : Nat → α) (i : Nat) (v : α) : Nat → α :=
  fun j => if j = i then v else r j

/-- The C type `enum chain_status`. -/
inductive chain_status where
  | FILLED
  | EMPTY
deriving DecidableEq, Repr

/-- DMA descriptor (`struct dma_desc`). -/
structure dma_desc where
  dscptr_nxt : Nat
  addrstart : Nat
  cfg : Nat
  xcnt : Nat
  xmod : Nat
deriving DecidableEq, Repr

/-- The registers of `struct dma_regs` that the driver reads, as the hardware
shows them; what the driver writes goes to the trace of `writel` calls. -/
structure dma_regs where
  dscptr_prv : Nat
  addr_cur : Nat
  stat : Nat
deriving DecidableEq, Repr

/-- Status work unit, `union status_wu`, held as its four 32-bit words
(`struct status_wu_t`); the byte view `struct status_wu_s` is read off the
words in the little-endian layout the source documents. -/
structure status_wu where
  timestamp0 : Nat
  timestamp1 : Nat
  timestamp2 : Nat
  timestamp3 : Nat
deriving DecidableEq, Repr

/-- Field `s.byte0` of the union: bits 7:0 of word 0. -/
def status_wu.byte0 (wu : status_wu) : Nat := wu.timestamp0 % 256
/-- Field `s.frame_tag` of the union: bits 15:8 of word 0. -/
def status_wu.frame_tag (wu : status_wu) : Nat := wu.timestamp0 / 256 % 256
/-- Field `s.frame_len` of the union: bits 31:16 of word 3. -/
def status_wu.frame_len (wu : status_wu) : Nat := wu.timestamp3 / 65536 % 65536

/-- The flags of `skb_shinfo(skb)->tx_flags` that the driver tests or changes. -/
structure skb_tx_flags where
  /-- Bit `SKBTX_HW_TSTAMP`. -/
  hw_tstamp : Bool
  /-- Bit `SKBTX_IN_PROGRESS`. -/
  in_progress : Bool
deriving DecidableEq, Repr

/-- Linear socket buffer (`struct sk_buff`): the bytes of its buffer from
`head` to `end`, the offset of `data` from `head`, and `len`; `tail` is
`data + len`. -/
structure sk_buff where
  /-- Byte at each offset from `skb->head`. -/
  buf : Nat → Nat
  /-- Offset of `skb->end` from `skb->head`. -/
  buf_end : Nat
  /-- Offset of `skb->data` from `skb->head` (the headroom). -/
  data : Nat
  /-- Field `skb->len`. -/
  len : Nat
  tx_flags : skb_tx_flags
  /-- Timestamp stored by `skb_hwtstamps(skb)->hwtstamp`, a `ktime_t` (`s64`)
  in nanoseconds. -/
  hwtstamp : Option Int
  /-- Offset of the MAC header once `eth_type_trans` has set it. -/
  mac_header : Option Nat

/-- Registers written through `writel`. -/
inductive mmio_reg where
  | tx_dma_dscptr_nxt
  | tx_dma_cfg
  | rx_dma_stat
  | rx_dma_dscptr_nxt
  | rx_dma_cfg
  | status_dma_stat
  | status_dma_dscptr_nxt
  | status_dma_cfg
deriving DecidableEq, Repr

/-- One `writel(val, reg)`. -/
structure mmio_write where
  reg : mmio_reg
  val : Nat
deriving DecidableEq, Repr

/-- The counters of `struct adi_msp_nl_stats` that the data path updates. -/
structure adi_msp_nl_stats where
  rx_packets : Nat
  tx_packets : Nat
  rx_bytes : Nat
  tx_bytes : Nat
  rx_errors : Nat
  tx_errors : Nat
  rx_dropped : Nat
  tx_dropped : Nat
  tx_reset : Nat
  rx_reset : Nat
deriving DecidableEq, Repr

/-- Driver state, `struct adi_msp_private`, together with the registers of the
three DMA channels, the stopped flag of the transmit queue and the traces of
kernel calls. -/
structure adi_msp_private where
  td_ring : Nat → dma_desc
  rd_ring : Nat → dma_desc
  sd_ring : Nat → dma_desc
  td_dma : Nat
  rd_dma : Nat
  sd_dma : Nat
  tx_skb : Nat → Option sk_buff
  rx_skb : Nat → Option sk_buff
  status_wu : Nat → status_wu
  next_nonptp_frame_tag : Nat
  last_nonptp_frame_tag : Nat
  available_nonptp_frame_tag_count : Int
  next_ptp_frame_tag : Nat
  last_ptp_frame_tag : Nat
  available_ptp_frame_tag_count : Int
  rx_skb_dma : Nat → Nat
  tx_skb_dma : Nat → Nat
  status_wu_dma : Nat
  prev_rx_skb : Nat → Option sk_buff
  prev_rx_skb_count : Nat
  rx_next_done : Nat
  tx_next_done : Nat
  tx_chain_head : Nat
  tx_chain_tail : Nat
  tx_chain_status : chain_status
  tx_count : Int
  stats : adi_msp_nl_stats
  rx_dma_halt_cnt : Int
  status_dma_halt_cnt : Int
  hwtstamp_tx_en : Bool
  hwtstamp_rx_en : Bool
  /-- Registers of the receive DMA channel. -/
  rx_dma_regs : dma_regs
  /-- Registers of the transmit DMA channel. -/
  tx_dma_regs : dma_regs
  /-- Registers of the transmit status DMA channel. -/
  status_dma_regs : dma_regs
  /-- What `netif_queue_stopped(dev)` returns. -/
  queue_stopped : Bool
  /-- Every `writel`, latest first. -/
  mmio : List mmio_write
  /-- Buffers given to `napi_consume_skb` or `dev_kfree_skb_any`, latest first. -/
  consumed : List sk_buff
  /-- Buffers given to `netif_receive_skb`, latest first. -/
  received : List sk_buff
  /-- Calls `skb_tstamp_tx(skb, &shhwtstamps)`, latest first, each with the
  `ktime_t` (`s64`) in `shhwtstamps.hwtstamp`. -/
  tstamp_tx : List (sk_buff × Int)

/-! ## Frame tag allocator -/

/-- The pointer `available_count` that `get_frame_tag` and `put_frame_tag` select. -/
def available_count (lp : adi_msp_private) (ptp : Bool) : Int :=
  if ptp then lp.available_ptp_frame_tag_count else lp.available_nonptp_frame_tag_count

/-- Store through the pointer `available_count`. -/
def set_available_count (lp : adi_msp_private) (ptp : Bool) (v : Int) : adi_msp_private :=
  if ptp then { lp with available_ptp_frame_tag_count := v }
  else { lp with available_nonptp_frame_tag_count := v }

/-- The local `min_tag` of `get_frame_tag` and `put_frame_tag`. -/
def min_tag (ptp : Bool) : Nat :=
  if ptp then ADI_MSP_MIN_PTP_FRAME_TAG else ADI_MSP_MIN_NONPTP_FRAME_TAG

/-- The local `max_tag` of `get_frame_tag` and `put_frame_tag`. -/
def max_tag (ptp : Bool) : Nat :=
  if ptp then ADI_MSP_MAX_PTP_FRAME_TAG else ADI_MSP_MAX_NONPTP_FRAME_TAG

/-- The function `next_frame_tag`; also the value behind the pointer `next_tag`. -/
def next_frame_tag (lp : adi_msp_private) (ptp : Bool) : Nat :=
  if ptp then lp.next_ptp_frame_tag else lp.next_nonptp_frame_tag

/-- Store through the pointer `next_tag` of `get_frame_tag`. -/
def set_next_tag (lp : adi_msp_private) (ptp : Bool) (v : Nat) : adi_msp_private :=
  if ptp then { lp with next_ptp_frame_tag := v } else { lp with next_nonptp_frame_tag := v }

/-- The value behind the pointer `last_tag` of `put_frame_tag`. -/
def last_frame_tag (lp : adi_msp_private) (ptp : Bool) : Nat :=
  if ptp then lp.last_ptp_frame_tag else lp.last_nonptp_frame_tag

/-- Store through the pointer `last_tag` of `put_frame_tag`. -/
def set_last_tag (lp : adi_msp_private) (ptp : Bool) (v : Nat) : adi_msp_private :=
  if ptp then { lp with last_ptp_frame_tag := v } else { lp with last_nonptp_frame_tag := v }

/-- The function `get_frame_tag`: the returned `u8` and the state after the call. -/
def get_frame_tag (lp : adi_msp_private) (ptp : Bool) : Nat × adi_msp_private :=
  if available_count lp ptp = 0 then
    (0, lp)
  else
    -- atomic_dec(available_count)
    let lp1 := set_available_count lp ptp (available_count lp ptp - 1)
    let tag := next_frame_tag lp1 ptp
    let lp2 :=
      if next_frame_tag lp1 ptp = max_tag ptp then
        set_next_tag lp1 ptp (min_tag ptp)
      else
        -- (*next_tag)++ on a u8
        set_next_tag lp1 ptp ((next_frame_tag lp1 ptp + 1) % 256)
    (tag, lp2)

/-- The function `put_frame_tag`: the returned `int` and the state after the call. -/
def put_frame_tag (lp : adi_msp_private) (tag : Nat) (ptp : Bool) : Int × adi_msp_private :=
  if tag < min_tag ptp ∨ tag > max_tag ptp then
    (-1, lp)
  else
    -- atomic_inc(available_count)
    let lp1 := set_available_count lp ptp (available_count lp ptp + 1)
    let expected_tag :=
      if last_frame_tag lp1 ptp = max_tag ptp then min_tag ptp
      else (last_frame_tag lp1 ptp + 1) % 256
    if tag ≠ expected_tag then
      (-1, lp1)
    else
      (0, set_last_tag lp1 ptp tag)

/-! ## Ring addresses -/

/-- The expression `idx & MASK` on a C `int` for `MASK = NUM - 1 = 127`, which
is the residue of `idx` modulo 128 in two's complement, also for negative `idx`. -/
def ring_mask (idx : Int) : Nat := (idx % 128).toNat

/-- The function `adi_msp_rx_dma`. -/
def adi_msp_rx_dma (lp : adi_msp_private) (idx : Int) : Nat :=
  lp.rd_dma + ring_mask idx * SIZEOF_DMA_DESC

/-- The function `adi_msp_tx_dma`. -/
def adi_msp_tx_dma (lp : adi_msp_private) (idx : Int) : Nat :=
  lp.td_dma + ring_mask idx * SIZEOF_DMA_DESC

/-- The function `adi_msp_status_dma`. -/
def adi_msp_status_dma (lp : adi_msp_private) (idx : Int) : Nat :=
  lp.sd_dma + ring_mask idx * SIZEOF_DMA_DESC

/-- The function `adi_msp_status_wu_dma`. -/
def adi_msp_status_wu_dma (lp : adi_msp_private) (idx : Int) : Nat :=
  lp.status_wu_dma + ring_mask idx * STATUS_WU_BUF_SIZE

/-- The function `adi_msp_status_wu`: the work unit of status slot `idx`. -/
def adi_msp_status_wu (lp : adi_msp_private) (idx : Int) : status_wu :=
  lp.status_wu (ring_mask idx)

/-- Append one `writel` to the trace. -/
def writel (lp : adi_msp_private) (val : Nat) (reg : mmio_reg) : adi_msp_private :=
  { lp with mmio := { reg := reg, val := u32 val } :: lp.mmio }

/-! ## Ring set-up and open -/

/-- What the kernel returns for one receive buffer: `napi_alloc_skb`, whether
its `data` address is a multiple of 8, and `dma_map_single` (`none` for a
mapping error). -/
structure rx_alloc_result where
  skb : Option sk_buff
  aligned : Bool
  dma : Option Nat

/-- Store `skb->data[0] = v`. -/
def skb_set_data0 (skb : sk_buff) (v : Nat) : sk_buff :=
  { skb with buf := ring_set skb.buf skb.data v }

/-- Read `skb->data[i]`. -/
def skb_data_at (skb : sk_buff) (i : Nat) : Nat := skb.buf (skb.data + i)

/-- The receive loop of `adi_msp_alloc_ring`, from index `i`, `n` slots to go;
returns 0 or `-ENOMEM` with the state reached. -/
def adi_msp_alloc_ring_rx (alloc : Nat → rx_alloc_result) :
    Nat → Nat → adi_msp_private → Int × adi_msp_private
  | 0, _, lp => (0, lp)
  | n + 1, i, lp =>
    match (alloc i).skb with
    | none => (-12, lp)
    | some skb0 =>
      let skb := skb_set_data0 skb0 0
      let lp := { lp with rx_skb := ring_set lp.rx_skb i (some skb) }
      let cfg := RX_DMA_CFG_COMMON |||
        (if i = ADI_MSP_NUM_RDS - 1 then DMA_CFG_FLOW_STOP else DMA_CFG_FLOW_DSCL)
      let rd : dma_desc :=
        { lp.rd_ring i with cfg := cfg, xcnt := RX_WU_LEN / RX_XMOD, xmod := RX_XMOD }
      let lp := { lp with rd_ring := ring_set lp.rd_ring i rd }
      match (alloc i).dma with
      | none => (-12, lp)
      | some addr =>
        let rd : dma_desc :=
          { lp.rd_ring i with
            addrstart := u32 addr, dscptr_nxt := u32 (adi_msp_rx_dma lp (i + 1)) }
        let lp := { lp with
          rd_ring := ring_set lp.rd_ring i rd
          rx_skb_dma := ring_set lp.rx_skb_dma i addr }
        adi_msp_alloc_ring_rx alloc n (i + 1) lp

/-- The function `adi_msp_alloc_ring`: transmit descriptors, receive
descriptors and buffers, transmit status descriptors. -/
def adi_msp_alloc_ring (lp : adi_msp_private) (alloc : Nat → rx_alloc_result) :
    Int × adi_msp_private :=
  let lp := { lp with
    td_ring := fun i =>
      if i < ADI_MSP_NUM_TDS then
        { dscptr_nxt := 0, addrstart := 0, cfg := 0, xcnt := 0, xmod := 0 }
      else lp.td_ring i
    tx_next_done := 0
    tx_chain_head := 0
    tx_chain_tail := 0
    tx_count := 0
    tx_chain_status := chain_status.EMPTY }
  match adi_msp_alloc_ring_rx alloc ADI_MSP_NUM_RDS 0 lp with
  | (0, lp) =>
    let lp := { lp with rx_next_done := 0 }
    let lp := { lp with
      sd_ring := fun i =>
        if i < ADI_MSP_NUM_SDS then
          { cfg := STATUS_DMA_CFG_COMMON |||
              (if i = ADI_MSP_NUM_SDS - 1 then DMA_CFG_FLOW_STOP else DMA_CFG_FLOW_DSCL)
            xcnt := STATUS_WU_LEN / STATUS_XMOD
            xmod := STATUS_XMOD
            addrstart := u32 (adi_msp_status_wu_dma lp i)
            dscptr_nxt := u32 (adi_msp_status_dma lp (i + 1)) }
        else lp.sd_ring i }
    (0, lp)
  | (e, lp) => (e, lp)

/-- The function `adi_msp_open` on its successful path; `none` stands for
its error returns (a failed `adi_msp_alloc_ring`, or `request_irq` failing,
which is `irq_ok = false`), whose teardown is left out. Writes to the MSP
interface registers (`tx_regs`, `rx_regs`) are not traced. -/
def adi_msp_open (lp : adi_msp_private) (alloc : Nat → rx_alloc_result) (irq_ok : Bool) :
    Option adi_msp_private :=
  let lp := writel lp 0 mmio_reg.tx_dma_cfg
  let lp := writel lp 0 mmio_reg.status_dma_cfg
  let lp := writel lp 0 mmio_reg.rx_dma_cfg
  match adi_msp_alloc_ring lp alloc with
  | (0, lp) =>
    let lp := { lp with
      prev_rx_skb := fun i => if i < PREV_RX_SKB_NUM then none else lp.prev_rx_skb i
      prev_rx_skb_count := 0 }
    let lp := { lp with
      next_nonptp_frame_tag := ADI_MSP_MIN_NONPTP_FRAME_TAG
      last_nonptp_frame_tag := ADI_MSP_MAX_NONPTP_FRAME_TAG }
    let lp := { lp with
      available_nonptp_frame_tag_count :=
        (lp.last_nonptp_frame_tag : Int) - lp.next_nonptp_frame_tag + 1 }
    let lp := { lp with
      next_ptp_frame_tag := ADI_MSP_MIN_PTP_FRAME_TAG
      last_ptp_frame_tag := ADI_MSP_MAX_PTP_FRAME_TAG }
    let lp := { lp with
      available_ptp_frame_tag_count :=
        (lp.last_ptp_frame_tag : Int) - lp.next_ptp_frame_tag + 1 }
    if irq_ok then
      let lp := writel lp (adi_msp_status_dma lp 0) mmio_reg.status_dma_dscptr_nxt
      let lp := writel lp (STATUS_DMA_CFG_COMMON ||| DMA_CFG_FLOW_DSCL) mmio_reg.status_dma_cfg
      let lp := writel lp (adi_msp_rx_dma lp 0) mmio_reg.rx_dma_dscptr_nxt
      let lp := writel lp (RX_DMA_CFG_COMMON ||| DMA_CFG_FLOW_DSCL) mmio_reg.rx_dma_cfg
      -- netif_start_queue(dev)
      some { lp with queue_stopped := false }
    else none
  | _ => none

/-- The zero-filled socket buffer. -/
def sk_buff_zero : sk_buff :=
  { buf := fun _ => 0, buf_end := 0, data := 0, len := 0,
    tx_flags := { hw_tstamp := false, in_progress := false },
    hwtstamp := none, mac_header := none }

/-- The private area as `devm_alloc_etherdev` returns it (zero-filled), with
the descriptor rings and status work units that `adi_msp_probe` allocates and
clears, for ring base addresses `td`, `rd`, `sd` and status buffer address `wu`. -/
def adi_msp_private_probed (td rd sd wu : Nat) : adi_msp_private :=
  { td_ring := fun _ => { dscptr_nxt := 0, addrstart := 0, cfg := 0, xcnt := 0, xmod := 0 }
    rd_ring := fun _ => { dscptr_nxt := 0, addrstart := 0, cfg := 0, xcnt := 0, xmod := 0 }
    sd_ring := fun _ => { dscptr_nxt := 0, addrstart := 0, cfg := 0, xcnt := 0, xmod := 0 }
    td_dma := td, rd_dma := rd, sd_dma := sd
    tx_skb := fun _ => none
    rx_skb := fun _ => none
    status_wu := fun _ => { timestamp0 := 0, timestamp1 := 0, timestamp2 := 0, timestamp3 := 0 }
    next_nonptp_frame_tag := 0, last_nonptp_frame_tag := 0
    available_nonptp_frame_tag_count := 0
    next_ptp_frame_tag := 0, last_ptp_frame_tag := 0
    available_ptp_frame_tag_count := 0
    rx_skb_dma := fun _ => 0
    tx_skb_dma := fun _ => 0
    status_wu_dma := wu
    prev_rx_skb := fun _ => none
    prev_rx_skb_count := 0
    rx_next_done := 0, tx_next_done := 0, tx_chain_head := 0, tx_chain_tail := 0
    tx_chain_status := chain_status.FILLED
    tx_count := 0
    stats := { rx_packets := 0, tx_packets := 0, rx_bytes := 0, tx_bytes := 0, rx_errors := 0,
               tx_errors := 0, rx_dropped := 0, tx_dropped := 0, tx_reset := 0, rx_reset := 0 }
    rx_dma_halt_cnt := 0, status_dma_halt_cnt := 0
    hwtstamp_tx_en := false, hwtstamp_rx_en := false
    rx_dma_regs := { dscptr_prv := 0, addr_cur := 0, stat := 0 }
    tx_dma_regs := { dscptr_prv := 0, addr_cur := 0, stat := 0 }
    status_dma_regs := { dscptr_prv := 0, addr_cur := 0, stat := 0 }
    queue_stopped := true
    mmio := [], consumed := [], received := [], tstamp_tx := [] }

/-- A receive buffer of `RX_WU_BUF_SIZE` bytes as `napi_alloc_skb` returns it,
aligned, mapped at device address `0x10000 + 0x1000 * i`. -/
def rx_alloc_ok (i : Nat) : rx_alloc_result :=
  { skb := some { sk_buff_zero with buf_end := RX_WU_BUF_SIZE }
    aligned := true
    dma := some (0x10000 + 0x1000 * i) }

/-! ## Socket buffer operations of the kernel -/

/-- The kernel function `skb_headroom`. -/
def skb_headroom (skb : sk_buff) : Nat := skb.data

/-- The kernel function `skb_tailroom` of a linear buffer: `end - tail`. -/
def skb_tailroom (skb : sk_buff) : Nat := skb.buf_end - (skb.data + skb.len)

/-- The kernel function `skb_put`: extends the used data area by `n` bytes;
`none` is the `skb_over_panic` it raises when the new tail is past `end`. -/
def skb_put (skb : sk_buff) (n : Nat) : Option sk_buff :=
  if skb.data + skb.len + n > skb.buf_end then none
  else some { skb with len := skb.len + n }

/-- The kernel function `skb_pull`: removes `n` bytes from the start of the
data, or leaves the buffer alone when it holds fewer than `n` bytes. -/
def skb_pull (skb : sk_buff) (n : Nat) : sk_buff :=
  if n > skb.len then skb else { skb with data := skb.data + n, len := skb.len - n }

/-- The kernel function `pskb_expand_head` when it succeeds: the head is
reallocated with `nhead` more bytes of headroom and `ntail` more bytes of
tailroom, the old contents keep their place relative to `data`. -/
def pskb_expand_head (skb : sk_buff) (nhead ntail : Nat) : sk_buff :=
  { skb with
    buf := fun j => if j < nhead then 0 else skb.buf (j - nhead)
    buf_end := skb.buf_end + nhead + ntail
    data := skb.data + nhead }

/-- The kernel function `eth_type_trans` as far as the buffer layout goes: it
records the MAC header at `data` and pulls the 14-byte Ethernet header; the
protocol it returns is not modelled. -/
def eth_type_trans (skb : sk_buff) : sk_buff :=
  skb_pull { skb with mac_header := some skb.data } 14

/-- The bytes of the frame an upper layer sees in a received buffer: from the
MAC header to the tail. -/
def skb_frame_bytes (skb : sk_buff) : List Nat :=
  match skb.mac_header with
  | none => []
  | some m => (List.range (skb.data + skb.len - m)).map (fun j => skb.buf (m + j))

/-- Count of trailing zero bits, on at most `fuel` bits. -/
def ctz_bits : Nat → Nat → Nat
  | 0, _ => 0
  | fuel + 1, x => if x % 2 = 1 then 0 else 1 + ctz_bits fuel (x / 2)

/-- The compiler builtin `__builtin_ctz` on the 32-bit truncation of its
argument; for 0, where C leaves the result undefined, this gives 32. -/
def builtin_ctz (x : Nat) : Nat := ctz_bits 32 (x % 4294967296)

/-! ## Transmit path -/

/-- The work unit header that `adi_msp_send_packet` stores in front of the
data: `byte0`, `frame_tag` and the 16-bit `frame_len` (little-endian) at
offsets 0, 1 and 2 from `skb->data - TX_WU_HEADER_LEN`. -/
def tx_wu_header_fill (skb : sk_buff) (byte0 tag frame_len : Nat) : sk_buff :=
  let wu := skb.data - TX_WU_HEADER_LEN
  let buf := ring_set skb.buf wu (byte0 % 256)
  let buf := ring_set buf (wu + 1) (tag % 256)
  let buf := ring_set buf (wu + 2) (frame_len % 65536 % 256)
  let buf := ring_set buf (wu + 3) (frame_len % 65536 / 256)
  { skb with buf := buf }

/-- Field `frame_tag` of the header in front of `skb->data`. -/
def tx_wu_hdr_frame_tag (skb : sk_buff) : Nat := skb.buf (skb.data - TX_WU_HEADER_LEN + 1)

/-- Field `frame_len` of the header in front of `skb->data`. -/
def tx_wu_hdr_frame_len (skb : sk_buff) : Nat :=
  skb.buf (skb.data - TX_WU_HEADER_LEN + 2) + 256 * skb.buf (skb.data - TX_WU_HEADER_LEN + 3)

/-- The label `drop_packet` of `adi_msp_send_packet`. -/
def drop_packet (lp : adi_msp_private) (skb : sk_buff) : adi_msp_private :=
  { lp with
    stats := { lp.stats with tx_dropped := lp.stats.tx_dropped + 1 }
    consumed := skb :: lp.consumed }

/-- The chain management at the end of `adi_msp_send_packet`, for the slot
`idx` just filled. -/
def tx_chain_submit (lp : adi_msp_private) (idx : Nat) : adi_msp_private :=
  let chain_prev := ring_mask ((idx : Int) - 1)
  let chain_next := ring_mask ((idx : Int) + 1)
  let dma_stat := lp.tx_dma_regs.stat
  if DMA_STAT_RUN dma_stat = DMA_STAT_HALT then
    if lp.tx_chain_status = chain_status.EMPTY then
      let lp := { lp with tx_chain_tail := chain_next }
      let lp := writel lp (adi_msp_tx_dma lp lp.tx_chain_head) mmio_reg.tx_dma_dscptr_nxt
      let lp := writel lp (TX_DMA_CFG_COMMON ||| DMA_CFG_FLOW_DSCL) mmio_reg.tx_dma_cfg
      { lp with tx_chain_head := lp.tx_chain_tail }
    else
      let prev : dma_desc :=
        { lp.td_ring chain_prev with
          cfg := (lp.td_ring chain_prev).cfg ||| DMA_CFG_FLOW_DSCL
          dscptr_nxt := u32 (adi_msp_tx_dma lp idx) }
      let lp := { lp with td_ring := ring_set lp.td_ring chain_prev prev }
      let lp := { lp with tx_chain_tail := chain_next }
      let lp := writel lp (adi_msp_tx_dma lp lp.tx_chain_head) mmio_reg.tx_dma_dscptr_nxt
      let lp := writel lp (TX_DMA_CFG_COMMON ||| DMA_CFG_FLOW_DSCL) mmio_reg.tx_dma_cfg
      { lp with tx_chain_head := lp.tx_chain_tail, tx_chain_status := chain_status.EMPTY }
  else
    if lp.tx_chain_status = chain_status.EMPTY then
      { lp with tx_chain_tail := chain_next, tx_chain_status := chain_status.FILLED }
    else
      let prev : dma_desc :=
        { lp.td_ring chain_prev with
          cfg := (lp.td_ring chain_prev).cfg ||| DMA_CFG_FLOW_DSCL
          dscptr_nxt := u32 (adi_msp_tx_dma lp idx) }
      let lp := { lp with td_ring := ring_set lp.td_ring chain_prev prev }
      { lp with tx_chain_tail := chain_next }

/-- The local `ptp` of `adi_msp_send_packet`: `TX_WU_PTP` when the buffer asks
for a hardware timestamp (`SKBTX_HW_TSTAMP`), else 0. -/
def tx_ptp (skb : sk_buff) : Nat := if skb.tx_flags.hw_tstamp then TX_WU_PTP else 0

/-- The local `frame_length` of `adi_msp_send_packet`. -/
def tx_frame_length (cfg : build_config) (skb : sk_buff) : Nat :=
  if cfg.tx_padding then max skb.len (TX_MIN_FRAME_SIZE cfg) else skb.len

/-- The local `wu_length` of `adi_msp_send_packet`; `round_up(x, 8)` is
`(x + 7) / 8 * 8`. -/
def tx_wu_length (cfg : build_config) (skb : sk_buff) : Nat :=
  if cfg.wa_tx_wu_size_multiple_of_8 then
    (tx_frame_length cfg skb + TX_WU_HEADER_LEN + 7) / 8 * 8
  else tx_frame_length cfg skb + TX_WU_HEADER_LEN

/-- The local `delta_headroom` of `adi_msp_send_packet`. -/
def tx_delta_headroom (skb : sk_buff) : Nat :=
  if skb_headroom skb < TX_WU_HEADER_LEN then TX_WU_HEADER_LEN - skb_headroom skb else 0

/-- The local `delta_tailroom` of `adi_msp_send_packet`. -/
def tx_delta_tailroom (cfg : build_config) (skb : sk_buff) : Nat :=
  let needed_tailroom := tx_wu_length cfg skb - (skb.len + TX_WU_HEADER_LEN)
  if needed_tailroom > skb_tailroom skb then needed_tailroom - skb_tailroom skb else 0

/-- The queue stop of `adi_msp_send_packet`: `netif_stop_queue` when the queue
runs and the ring or the selected tag pool is down to the threshold. -/
def tx_stop_queue (lp : adi_msp_private) (ptp : Bool) : adi_msp_private :=
  if !lp.queue_stopped ∧
      (lp.tx_count ≥ (ADI_MSP_NUM_TDS : Int) - ADI_MSP_STOP_QUEUE_TH ∨
        available_count lp ptp ≤ ADI_MSP_STOP_QUEUE_TH) then
    { lp with queue_stopped := true }
  else lp

/-- Room for the header and the pads in `adi_msp_send_packet`: the buffer
after `pskb_expand_head` when it is needed, `none` when that call fails
(`expand_ok = false`). -/
def tx_make_room (cfg : build_config) (skb : sk_buff) (expand_ok : Bool) : Option sk_buff :=
  if tx_delta_headroom skb > 0 ∨ tx_delta_tailroom cfg skb > 0 then
    if expand_ok then some (pskb_expand_head skb (tx_delta_headroom skb) (tx_delta_tailroom cfg skb))
    else none
  else some skb

/-- The padding of `adi_msp_send_packet` under `CONFIG_ADI_MSP_TX_PADDING`;
`none` when `skb_put` panics. -/
def tx_pad (cfg : build_config) (skb : sk_buff) : Option sk_buff :=
  if cfg.tx_padding ∧ skb.len < TX_MIN_FRAME_SIZE cfg then
    skb_put skb (TX_MIN_FRAME_SIZE cfg - skb.len)
  else some skb

/-- The header of `adi_msp_send_packet`: the tag is peeked with
`next_frame_tag`, `SKBTX_IN_PROGRESS` is set for a PTP frame, and the work
unit header is written. -/
def tx_fill_header (lp : adi_msp_private) (skb : sk_buff) (ptp : Nat) (frame_length : Nat) :
    sk_buff :=
  let tx_port := TX_WU_PORT_0
  let tag := next_frame_tag lp (ptp ≠ 0)
  let skb :=
    if ptp ≠ 0 then { skb with tx_flags := { skb.tx_flags with in_progress := true } }
    else skb
  tx_wu_header_fill skb (WU_TYPE_TX_DATA_SOF ||| ptp ||| tx_port) tag frame_length

/-- The descriptor that `adi_msp_send_packet` sets up for a work unit of
`wu_length` bytes mapped at `addr`, from the old contents `td` of the slot. -/
def tx_fill_desc (td : dma_desc) (addr wu_length : Nat) : dma_desc :=
  let msize := min (builtin_ctz addr) 3
  let xmod := 1 <<< msize
  { td with
    addrstart := u32 addr
    cfg := TX_DMA_CFG_COMMON ||| DMA_CFG_FLOW_STOP ||| (msize <<< 8)
    xcnt := (wu_length + xmod - 1) / xmod
    xmod := xmod }

/-- The part of `adi_msp_send_packet` after a successful mapping: the tag is
taken, `tx_count` goes up, the slot at the chain tail gets the buffer and its
descriptor, and the chain is extended. -/
def tx_commit (lp : adi_msp_private) (skb : sk_buff) (ptp : Bool) (addr wu_length : Nat) :
    adi_msp_private :=
  let lp := (get_frame_tag lp ptp).2
  let lp := { lp with tx_count := lp.tx_count + 1 }
  let idx := lp.tx_chain_tail
  let lp := { lp with tx_skb := ring_set lp.tx_skb idx (some skb) }
  let lp := { lp with tx_skb_dma := ring_set lp.tx_skb_dma idx addr }
  let lp := { lp with
    td_ring := ring_set lp.td_ring idx (tx_fill_desc (lp.td_ring idx) addr wu_length) }
  tx_chain_submit lp idx

/-- The function `adi_msp_send_packet` for the buffer `skb`; `expand_ok` says
whether `pskb_expand_head` succeeds if it is called and `map` is what
`dma_map_single` returns for the work unit (`none` for a mapping error). The
result is `none` when `skb_put` panics. -/
def adi_msp_send_packet (cfg : build_config) (lp : adi_msp_private) (skb : sk_buff)
    (expand_ok : Bool) (map : Option Nat) : Option adi_msp_private :=
  let ptp := tx_ptp skb
  if skb.len > 0xffff then some (drop_packet lp skb)
  else if lp.tx_count > ADI_MSP_NUM_TDS then some (drop_packet lp skb)
  else if lp.tx_count = ADI_MSP_NUM_TDS then some (drop_packet lp skb)
  else if available_count lp (ptp ≠ 0) = 0 then some (drop_packet lp skb)
  else
    let lp := tx_stop_queue lp (ptp ≠ 0)
    match tx_make_room cfg skb expand_ok with
    | none => some (drop_packet lp skb)
    | some skb1 =>
      match tx_pad cfg skb1 with
      | none => none
      | some skb2 =>
        let skb3 := tx_fill_header lp skb2 ptp (tx_frame_length cfg skb)
        match map with
        | none =>
          some (drop_packet lp
            { skb3 with tx_flags := { skb3.tx_flags with in_progress := false } })
        | some addr => some (tx_commit lp skb3 (ptp ≠ 0) addr (tx_wu_length cfg skb))

/-- A transmit buffer of `n` bytes with 16 bytes of headroom and no tailroom. -/
def tx_skb_of_len (n : Nat) : sk_buff :=
  { sk_buff_zero with buf_end := 16 + n, data := 16, len := n }

/-! ## Transmit status path -/

/-- The function `get_timestamp_ns`. -/
def get_timestamp_ns (wu : status_wu) : Nat :=
  let second := wu.timestamp3 &&& 0xffff
  let second := second <<< 32
  let second := second ||| wu.timestamp2
  let ns := wu.timestamp1
  (ns + second * NSEC_PER_SEC) % 18446744073709551616

/-- The kernel function `ns_to_ktime`: the `u64` count of nanoseconds
converted to `ktime_t`, which is an `s64`. -/
def ns_to_ktime (ns : Nat) : Int := s64_of_u64 ns

/-- How the body of the `while` loop of `adi_msp_status` ends for one slot. -/
inductive status_step where
  /-- The statement `break`: the slot is not written yet or not done. -/
  | stop (lp : adi_msp_private)
  /-- The jump `goto reset_tx`, which returns from `adi_msp_status`. -/
  | reset_tx (lp : adi_msp_private)
  /-- The label `reset_desc_and_wu` was passed: the slot is consumed and
  `count` goes up by 1. -/
  | done (lp : adi_msp_private)

/-- The two tests of `adi_msp_status` that `break` out of the loop: the first
byte of the work unit is still 0, or the status DMA is still inside this work
unit and has not yet recorded its descriptor as the previous one. -/
def status_slot_not_ready (lp : adi_msp_private) : Prop :=
  let idx := lp.tx_next_done
  let wu := adi_msp_status_wu lp idx
  wu.byte0 = 0 ∨
    (let addr_cur := lp.status_dma_regs.addr_cur
     let dscptr_prv := lp.status_dma_regs.dscptr_prv / 4 * 4
     let addrstart := (lp.sd_ring idx).addrstart
     addr_cur ≥ addrstart ∧ addr_cur < addrstart + STATUS_WU_LEN ∧
       dscptr_prv ≠ adi_msp_status_dma lp idx)

instance status_slot_not_ready_decidable (lp : adi_msp_private) :
    Decidable (status_slot_not_ready lp) := by
  unfold status_slot_not_ready
  infer_instance

/-- The two statements `lp->stats.nl.tx_errors++; lp->stats.nl.tx_reset++;`
in front of every `goto reset_tx`. -/
def status_count_reset (lp : adi_msp_private) : adi_msp_private :=
  { lp with stats := { lp.stats with
      tx_errors := lp.stats.tx_errors + 1, tx_reset := lp.stats.tx_reset + 1 } }

/-- The wake-up of the queue in `adi_msp_status`. -/
def status_wake_queue (lp : adi_msp_private) : adi_msp_private :=
  if lp.queue_stopped ∧
      lp.tx_count ≤ (ADI_MSP_NUM_TDS : Int) - ADI_MSP_STOP_QUEUE_TH ∧
      lp.available_ptp_frame_tag_count ≥ ADI_MSP_STOP_QUEUE_TH ∧
      lp.available_nonptp_frame_tag_count ≥ ADI_MSP_STOP_QUEUE_TH then
    { lp with queue_stopped := false }
  else lp

/-- The call `napi_consume_skb(skb, budget)`. -/
def napi_consume_skb (lp : adi_msp_private) (skb : sk_buff) : adi_msp_private :=
  { lp with consumed := skb :: lp.consumed }

/-- The statements of `adi_msp_status` from the test of the error bit to the
label `reset_desc_and_wu`, for a slot whose tag matched. -/
def status_report (lp : adi_msp_private) (skb : sk_buff) (wu : status_wu) : adi_msp_private :=
  let byte0 := wu.byte0
  let ptp := byte0 &&& TX_STATUS_WU_PTP
  if byte0 &&& TX_STATUS_WU_ERR ≠ 0 then
    let lp := { lp with stats := { lp.stats with tx_errors := lp.stats.tx_errors + 1 } }
    napi_consume_skb lp skb
  else if skb.tx_flags.in_progress ∧ ptp = 0 then
    let lp := { lp with stats := { lp.stats with tx_errors := lp.stats.tx_errors + 1 } }
    napi_consume_skb lp skb
  else
    let lp :=
      if skb.tx_flags.in_progress then
        { lp with tstamp_tx := (skb, ns_to_ktime (get_timestamp_ns wu)) :: lp.tstamp_tx }
      else lp
    let lp := { lp with stats := { lp.stats with
      tx_packets := lp.stats.tx_packets + 1
      tx_bytes := lp.stats.tx_bytes + tx_wu_hdr_frame_len skb } }
    napi_consume_skb lp skb

/-- The statements of `adi_msp_status` after the label `reset_desc_and_wu`,
`count++` apart: the work unit is zeroed, the descriptor of the slot stops the
chain, the previous one chains on, and `tx_next_done` advances. -/
def status_reset_desc_and_wu (lp : adi_msp_private) (idx : Nat) : adi_msp_private :=
  let lp := { lp with
    status_wu := ring_set lp.status_wu (ring_mask idx)
      { timestamp0 := 0, timestamp1 := 0, timestamp2 := 0, timestamp3 := 0 } }
  let sd : dma_desc := { lp.sd_ring idx with cfg := STATUS_DMA_CFG_COMMON ||| DMA_CFG_FLOW_STOP }
  let lp := { lp with sd_ring := ring_set lp.sd_ring idx sd }
  let chain_prev := ring_mask ((idx : Int) - 1)
  let prev : dma_desc :=
    { lp.sd_ring chain_prev with cfg := STATUS_DMA_CFG_COMMON ||| DMA_CFG_FLOW_DSCL }
  let lp := { lp with sd_ring := ring_set lp.sd_ring chain_prev prev }
  let lp := { lp with tx_next_done := ring_mask ((idx : Int) + 1) }
  writel lp DMA_STAT_IRQDONE mmio_reg.status_dma_stat

/-- The body of the `while` loop of `adi_msp_status` for the slot at
`tx_next_done`. -/
def adi_msp_status_slot (lp : adi_msp_private) : status_step :=
  let idx := lp.tx_next_done
  let wu := adi_msp_status_wu lp idx
  let byte0 := wu.byte0
  let ptp := byte0 &&& TX_STATUS_WU_PTP
  let tag := wu.frame_tag
  if status_slot_not_ready lp then status_step.stop lp
  else if byte0 &&& WU_TYPE_MASK ≠ WU_TYPE_TX_STAT then
    status_step.reset_tx (status_count_reset lp)
  else
    match lp.tx_skb idx with
    | none => status_step.reset_tx (status_count_reset lp)
    | some skb =>
      let lp := { lp with tx_skb := ring_set lp.tx_skb idx none }
      -- atomic_dec_return(&lp->tx_count)
      let lp := { lp with tx_count := lp.tx_count - 1 }
      if (put_frame_tag lp tag (ptp ≠ 0)).1 < 0 then
        status_step.reset_tx (status_count_reset (put_frame_tag lp tag (ptp ≠ 0)).2)
      else
        let lp := (put_frame_tag lp tag (ptp ≠ 0)).2
        let lp := status_wake_queue lp
        if tag ≠ tx_wu_hdr_frame_tag skb then
          status_step.reset_tx (status_count_reset lp)
        else
          status_step.done (status_reset_desc_and_wu (status_report lp skb wu) idx)

/-- The `while (count < budget)` loop of `adi_msp_status`, at most `fuel`
iterations: whether it left through `reset_tx`, with `count` and the state. -/
def adi_msp_status_while (budget : Int) :
    Nat → Int → adi_msp_private → Option (Bool × Int × adi_msp_private)
  | 0, _, _ => none
  | fuel + 1, count, lp =>
    if count < budget then
      match adi_msp_status_slot lp with
      | status_step.stop lp => some (false, count, lp)
      | status_step.reset_tx lp => some (true, count, lp)
      | status_step.done lp => adi_msp_status_while budget fuel (count + 1) lp
    else some (false, count, lp)

/-- The restart of the transmit DMA in `adi_msp_status`, under the lock. -/
def status_restart_tx (lp : adi_msp_private) : adi_msp_private :=
  if DMA_STAT_RUN lp.tx_dma_regs.stat = DMA_STAT_HALT then
    if lp.tx_chain_status = chain_status.FILLED then
      let lp := writel lp (adi_msp_tx_dma lp lp.tx_chain_head) mmio_reg.tx_dma_dscptr_nxt
      let lp := writel lp (TX_DMA_CFG_COMMON ||| DMA_CFG_FLOW_DSCL) mmio_reg.tx_dma_cfg
      { lp with tx_chain_head := lp.tx_chain_tail, tx_chain_status := chain_status.EMPTY }
    else lp
  else lp

/-- The function `adi_msp_status` from the label `msp_status_loop` on, with
the current `count`; each pass through the label uses one unit of `fuel` and
`none` says that the fuel ran out. The result is the returned count and the
state. -/
def adi_msp_status_from (budget : Int) :
    Nat → Int → adi_msp_private → Option (Int × adi_msp_private)
  | 0, _, _ => none
  | fuel + 1, count, lp =>
    match adi_msp_status_while budget ((budget - count).toNat + 1) count lp with
    | none => none
    | some (true, count, lp) => some (count, lp)
    | some (false, count, lp) =>
      let lp := status_restart_tx lp
      if DMA_STAT_RUN lp.status_dma_regs.stat = DMA_STAT_HALT then
        let idx := lp.tx_next_done
        let wu := adi_msp_status_wu lp idx
        let lp := { lp with status_dma_halt_cnt := lp.status_dma_halt_cnt + 1 }
        if wu.byte0 = 0 then
          let lp := writel lp (DMA_STAT_IRQDONE ||| DMA_STAT_IRQERR) mmio_reg.status_dma_stat
          let lp := writel lp (adi_msp_status_dma lp lp.tx_next_done)
            mmio_reg.status_dma_dscptr_nxt
          let lp := writel lp (STATUS_DMA_CFG_COMMON ||| DMA_CFG_FLOW_DSCL)
            mmio_reg.status_dma_cfg
          some (min count (budget - 1), lp)
        else if count < budget then
          adi_msp_status_from budget fuel count lp
        else some (count, lp)
      else some (count, lp)

/-- The function `adi_msp_status`. -/
def adi_msp_status (fuel : Nat) (lp : adi_msp_private) (budget : Int) :
    Option (Int × adi_msp_private) :=
  adi_msp_status_from budget fuel 0 lp

/-- The state a step of the status loop ends in. -/
def status_step.state : status_step → adi_msp_private
  | status_step.stop lp => lp
  | status_step.reset_tx lp => lp
  | status_step.done lp => lp

/-- The step consumed its slot (it passed the label `reset_desc_and_wu`). -/
def status_step.is_done : status_step → Bool
  | status_step.done _ => true
  | _ => false

/-- The hardware writes the status work unit `wu` into status slot `idx` and
shows the registers `regs` on the status DMA channel. -/
def status_wu_arrives (lp : adi_msp_private) (idx : Nat) (wu : status_wu) (regs : dma_regs) :
    adi_msp_private :=
  { lp with status_wu := ring_set lp.status_wu (ring_mask idx) wu, status_dma_regs := regs }

/-- The call `put_frame_tag(lp, tag, ptp)` of `adi_msp_status` for the slot at
`tx_next_done`, made after `lp->tx_skb[idx] = NULL` and
`atomic_dec_return(&lp->tx_count)`: the value returned and the state. -/
def status_release_tag (lp : adi_msp_private) : Int × adi_msp_private :=
  put_frame_tag
    { lp with tx_skb := ring_set lp.tx_skb lp.tx_next_done none, tx_count := lp.tx_count - 1 }
    (adi_msp_status_wu lp lp.tx_next_done).frame_tag
    (decide ((adi_msp_status_wu lp lp.tx_next_done).byte0 &&& TX_STATUS_WU_PTP ≠ 0))

/-! ## Receive path -/

/-- The cast `(union status_wu *)skb->data`: the four little-endian 32-bit
words at the start of the data of a receive status work unit. -/
def status_wu_of_skb (skb : sk_buff) : status_wu :=
  let word := fun (i : Nat) =>
    skb_data_at skb i + 256 * skb_data_at skb (i + 1) + 65536 * skb_data_at skb (i + 2) +
      16777216 * skb_data_at skb (i + 3)
  { timestamp0 := word 0, timestamp1 := word 4, timestamp2 := word 8, timestamp3 := word 12 }

/-- The function `adi_msp_drop_prev_rx_skb`, from index `i` with `n` entries
to go: each recorded buffer is given to `napi_consume_skb` (which ignores a
null pointer) and its entry is cleared. -/
def drop_prev_rx_skb_from (lp : adi_msp_private) : Nat → Nat → adi_msp_private
  | 0, _ => { lp with prev_rx_skb_count := 0 }
  | n + 1, i =>
    let lp :=
      match lp.prev_rx_skb i with
      | none => lp
      | some skb => napi_consume_skb lp skb
    let lp := { lp with prev_rx_skb := ring_set lp.prev_rx_skb i none }
    drop_prev_rx_skb_from lp n (i + 1)

/-- The function `adi_msp_drop_prev_rx_skb`. -/
def adi_msp_drop_prev_rx_skb (lp : adi_msp_private) : adi_msp_private :=
  drop_prev_rx_skb_from lp lp.prev_rx_skb_count 0

/-- The statement `lp->stats.nl.rx_errors++`. -/
def rx_count_error (lp : adi_msp_private) : adi_msp_private :=
  { lp with stats := { lp.stats with rx_errors := lp.stats.rx_errors + 1 } }

/-- The recurring block of `adi_msp_rx` that records the buffer at the end of
`prev_rx_skb`, drops every recorded buffer and counts an error
(`adi_msp_dump_prev_rx_skb` only prints). -/
def rx_append_and_drop (lp : adi_msp_private) (skb : sk_buff) : adi_msp_private :=
  let lp := { lp with prev_rx_skb := ring_set lp.prev_rx_skb lp.prev_rx_skb_count (some skb) }
  let lp := { lp with prev_rx_skb_count := lp.prev_rx_skb_count + 1 }
  rx_count_error (adi_msp_drop_prev_rx_skb lp)

/-- The block of `adi_msp_rx` that records the buffer as the only entry of
`prev_rx_skb`, drops it and counts an error. -/
def rx_set_and_drop (lp : adi_msp_private) (skb : sk_buff) : adi_msp_private :=
  let lp := { lp with prev_rx_skb := ring_set lp.prev_rx_skb 0 (some skb) }
  let lp := { lp with prev_rx_skb_count := 1 }
  rx_count_error (adi_msp_drop_prev_rx_skb lp)

/-- The last branch of the status case of `adi_msp_rx`: the frame made of the
data work unit recorded in `prev_rx_skb[0]` and the status work unit `skb` is
handed to `netif_receive_skb`. The result is `none` when `prev_rx_skb[0]` is
null or `skb_put` panics. -/
def rx_deliver (lp : adi_msp_private) (skb : sk_buff) : Option adi_msp_private :=
  match lp.prev_rx_skb 0 with
  | none => none
  | some skb_prev =>
    let lp := { lp with prev_rx_skb := ring_set lp.prev_rx_skb 0 none }
    let lp := { lp with prev_rx_skb_count := 0 }
    let status_wu := status_wu_of_skb skb
    let pkt_len := status_wu.frame_len
    let skb_prev :=
      if lp.hwtstamp_rx_en then
        { skb_prev with hwtstamp := some (ns_to_ktime (get_timestamp_ns status_wu)) }
      else skb_prev
    let lp := napi_consume_skb lp skb
    match skb_put skb_prev (pkt_len + RX_DATA_WU_HEADER_LEN) with
    | none => none
    | some skb_prev =>
      let skb_prev := skb_pull skb_prev RX_DATA_WU_HEADER_LEN
      let skb_prev := eth_type_trans skb_prev
      let lp := { lp with received := skb_prev :: lp.received }
      some { lp with stats := { lp.stats with
        rx_packets := lp.stats.rx_packets + 1
        rx_bytes := lp.stats.rx_bytes + pkt_len } }

/-- The classification of a completed work unit in `adi_msp_rx` (from the
test of the header type to the end of the `if` chain): the state and the
increment of `count`; `none` when the delivery panics. -/
def adi_msp_rx_wu (lp : adi_msp_private) (skb : sk_buff) : Option (adi_msp_private × Int) :=
  let h := skb_data_at skb 0
  if h &&& WU_TYPE_MASK = WU_TYPE_RX_DATA ∧ h &&& RX_DATA_WU_HEADER_RESERVED_BITS = 0 then
    if h &&& RX_DATA_WU_HEADER_SOF ≠ 0 then
      let lp :=
        if lp.prev_rx_skb_count > 0 then rx_count_error (adi_msp_drop_prev_rx_skb lp) else lp
      let lp := { lp with prev_rx_skb := ring_set lp.prev_rx_skb 0 (some skb) }
      some ({ lp with prev_rx_skb_count := 1 }, 0)
    else if lp.prev_rx_skb_count = 0 then some (rx_set_and_drop lp skb, 0)
    else if lp.prev_rx_skb_count = PREV_RX_SKB_NUM - 1 then some (rx_append_and_drop lp skb, 0)
    else
      let lp := { lp with
        prev_rx_skb := ring_set lp.prev_rx_skb lp.prev_rx_skb_count (some skb) }
      some ({ lp with prev_rx_skb_count := lp.prev_rx_skb_count + 1 }, 0)
  else if h &&& WU_TYPE_MASK = WU_TYPE_RX_STAT ∧ h &&& RX_STAT_WU_HEADER_RESERVED_BITS = 0 then
    if h &&& RX_STAT_WU_HEADER_DROPPED_ERR ≠ 0 then some (rx_append_and_drop lp skb, 1)
    else if h &&& RX_STAT_WU_HEADER_ERR ≠ 0 then some (rx_append_and_drop lp skb, 1)
    else if lp.prev_rx_skb_count = 0 then some (rx_set_and_drop lp skb, 0)
    else if lp.prev_rx_skb_count > DATA_WU_PER_FRAME then some (rx_append_and_drop lp skb, 1)
    else (rx_deliver lp skb).map (fun lp => (lp, 1))
  else some (rx_append_and_drop lp skb, 0)

/-- The two tests of `adi_msp_rx` that `break` out of the loop for the buffer
`skb` of the slot at `rx_next_done`: its first byte is still 0, or the receive
DMA is still inside this work unit and has not yet recorded its descriptor as
the previous one. The locals `addr_cur`, `dscptr_prv` and `addrstart` are
`u32`, and so is the sum `addrstart + RX_WU_LEN` (`RX_WU_LEN` is an `int`
constant), which wraps at `2^32`; the comparison with the `dma_addr_t` of
`adi_msp_rx_dma` is made at its width. -/
def rx_slot_not_ready (lp : adi_msp_private) (skb : sk_buff) : Prop :=
  let idx := lp.rx_next_done
  skb_data_at skb 0 = 0 ∨
    (let addr_cur := u32 lp.rx_dma_regs.addr_cur
     let dscptr_prv := u32 lp.rx_dma_regs.dscptr_prv / 4 * 4
     let addrstart := u32 (lp.rd_ring idx).addrstart
     addr_cur ≥ addrstart ∧ addr_cur < u32 (addrstart + RX_WU_LEN) ∧
       dscptr_prv ≠ adi_msp_rx_dma lp idx)

instance rx_slot_not_ready_decidable (lp : adi_msp_private) (skb : sk_buff) :
    Decidable (rx_slot_not_ready lp skb) := by
  unfold rx_slot_not_ready
  infer_instance

/-- How the body of the `while` loop of `adi_msp_rx` ends for one slot. -/
inductive rx_step where
  /-- The statement `break`; `attempted` says whether `napi_alloc_skb` was called. -/
  | stop (lp : adi_msp_private) (attempted : Bool)
  /-- The slot was consumed; `inc` is what was added to `count`. -/
  | done (lp : adi_msp_private) (inc : Int)

/-- The end of the loop body of `adi_msp_rx`: the descriptor of slot `idx` is
rearmed with the new buffer and stops the chain, the previous one chains on,
and `rx_next_done` advances. -/
def rx_rearm (lp : adi_msp_private) (idx : Nat) : adi_msp_private :=
  let rd : dma_desc :=
    { lp.rd_ring idx with
      addrstart := u32 (lp.rx_skb_dma idx)
      cfg := RX_DMA_CFG_COMMON ||| DMA_CFG_FLOW_STOP }
  let lp := { lp with rd_ring := ring_set lp.rd_ring idx rd }
  let chain_prev := ring_mask ((idx : Int) - 1)
  let prev : dma_desc :=
    { lp.rd_ring chain_prev with cfg := RX_DMA_CFG_COMMON ||| DMA_CFG_FLOW_DSCL }
  let lp := { lp with rd_ring := ring_set lp.rd_ring chain_prev prev }
  let lp := { lp with rx_next_done := ring_mask ((idx : Int) + 1) }
  writel lp DMA_STAT_IRQDONE mmio_reg.rx_dma_stat

/-- The body of the `while` loop of `adi_msp_rx` for the slot at
`rx_next_done`, where `a` is what the kernel returns for the replacement
buffer if one is asked for. The result is `none` when the slot has no buffer
or the delivery panics. -/
def adi_msp_rx_slot (lp : adi_msp_private) (a : rx_alloc_result) : Option rx_step :=
  let idx := lp.rx_next_done
  match lp.rx_skb idx with
  | none => none
  | some skb =>
    if rx_slot_not_ready lp skb then some (rx_step.stop lp false)
    else
      match a.skb with
      | none => some (rx_step.stop lp true)
      | some skb_new =>
        if a.aligned = false then some (rx_step.stop lp true)
        else
          let skb_new := skb_set_data0 skb_new 0
          match a.dma with
          | none => some (rx_step.stop (napi_consume_skb lp skb_new) true)
          | some addr =>
            let lp := { lp with rx_skb := ring_set lp.rx_skb idx (some skb_new) }
            let lp := { lp with rx_skb_dma := ring_set lp.rx_skb_dma idx addr }
            match adi_msp_rx_wu lp skb with
            | none => none
            | some (lp, inc) => some (rx_step.done (rx_rearm lp idx) inc)

/-- The code of `adi_msp_rx` after the `while` loop: the count to return, or
`none` for `goto msp_rx_loop`, and the state; the outer `none` is a slot
without buffer. -/
def rx_after_loop (lp : adi_msp_private) (budget count : Int) :
    Option (Option Int × adi_msp_private) :=
  if DMA_STAT_RUN lp.rx_dma_regs.stat = DMA_STAT_HALT then
    let idx := lp.rx_next_done
    match lp.rx_skb idx with
    | none => none
    | some skb =>
      let lp := { lp with rx_dma_halt_cnt := lp.rx_dma_halt_cnt + 1 }
      if skb_data_at skb 0 = 0 then
        let lp := writel lp (DMA_STAT_IRQDONE ||| DMA_STAT_IRQERR) mmio_reg.rx_dma_stat
        let lp := writel lp (adi_msp_rx_dma lp lp.rx_next_done) mmio_reg.rx_dma_dscptr_nxt
        let lp := writel lp (RX_DMA_CFG_COMMON ||| DMA_CFG_FLOW_DSCL) mmio_reg.rx_dma_cfg
        some (some (min count (budget - 1)), lp)
      else if count < budget then some (none, lp)
      else some (some count, lp)
  else some (some count, lp)

/-- The function `adi_msp_rx` from the test of the `while` loop on, with the
current `count`; `alloc k` is what the kernel returns at the `k`-th request
for a replacement buffer. Each test of the loop uses one unit of `fuel`; the
result is `none` when the fuel runs out, a slot has no buffer or the delivery
panics, else the returned count and the state. -/
def adi_msp_rx_from (alloc : Nat → rx_alloc_result) (budget : Int) :
    Nat → Int → Nat → adi_msp_private → Option (Int × adi_msp_private)
  | 0, _, _, _ => none
  | fuel + 1, count, k, lp =>
    if count < budget then
      match adi_msp_rx_slot lp (alloc k) with
      | none => none
      | some (rx_step.done lp inc) => adi_msp_rx_from alloc budget fuel (count + inc) (k + 1) lp
      | some (rx_step.stop lp attempted) =>
        match rx_after_loop lp budget count with
        | none => none
        | some (some c, lp) => some (c, lp)
        | some (none, lp) =>
          adi_msp_rx_from alloc budget fuel count (if attempted then k + 1 else k) lp
    else
      match rx_after_loop lp budget count with
      | none => none
      | some (some c, lp) => some (c, lp)
      | some (none, lp) => adi_msp_rx_from alloc budget fuel count k lp

/-- The function `adi_msp_rx`. -/
def adi_msp_rx (alloc : Nat → rx_alloc_result) (fuel : Nat) (lp : adi_msp_private)
    (budget : Int) : Option (Int × adi_msp_private) :=
  adi_msp_rx_from alloc budget fuel 0 0 lp

/-- The classification of `adi_msp_rx` applied to the completed work units of
a list, in order; `none` when a delivery panics. -/
def adi_msp_rx_wus : adi_msp_private → List sk_buff → Option adi_msp_private
  | lp, [] => some lp
  | lp, skb :: rest => (adi_msp_rx_wu lp skb).bind (fun p => adi_msp_rx_wus p.1 rest)

/-- The buffers of the reassembly set, oldest first. -/
def prev_rx_skb_list (lp : adi_msp_private) : List sk_buff :=
  (List.range lp.prev_rx_skb_count).filterMap lp.prev_rx_skb

/-! ## Call sequences on the tag allocator -/

/-- The state `adi_msp_open` reaches from a freshly probed device when every
receive buffer is allocated and mapped and every interrupt is granted. -/
def adi_msp_opened : adi_msp_private :=
  (adi_msp_open (adi_msp_private_probed 0x1000 0x2000 0x3000 0x4000) rx_alloc_ok true).getD
    (adi_msp_private_probed 0x1000 0x2000 0x3000 0x4000)

/-- One call on a tag pool. -/
inductive tag_call where
  | get
  | put (tag : Nat)
deriving DecidableEq, Repr

/-- The successor of a tag in the circular order of its pool, as both
`get_frame_tag` and `put_frame_tag` compute it. -/
def tag_succ (ptp : Bool) (t : Nat) : Nat :=
  if t = max_tag ptp then min_tag ptp else (t + 1) % 256

/-- One call on the pool `ptp`, with the list of outstanding tags: the tags
that `get_frame_tag` returned (a return of 0 is no tag) and that no successful
`put_frame_tag` has released yet, earliest first. -/
def tag_call_step (ptp : Bool) (s : adi_msp_private × List Nat) :
    tag_call → adi_msp_private × List Nat
  | tag_call.get =>
    if (get_frame_tag s.1 ptp).1 = 0 then ((get_frame_tag s.1 ptp).2, s.2)
    else ((get_frame_tag s.1 ptp).2, s.2 ++ [(get_frame_tag s.1 ptp).1])
  | tag_call.put t =>
    if (put_frame_tag s.1 t ptp).1 = 0 then ((put_frame_tag s.1 t ptp).2, s.2.erase t)
    else ((put_frame_tag s.1 t ptp).2, s.2)

/-- A sequence of calls on the pool `ptp`. -/
def tag_calls_run (ptp : Bool) (s : adi_msp_private × List Nat) :
    List tag_call → adi_msp_private × List Nat
  | [] => s
  | c :: cs => tag_calls_run ptp (tag_call_step ptp s c) cs

/-- No `put_frame_tag` of the sequence succeeds while no tag is outstanding. -/
def releases_outstanding_only (ptp : Bool) (s : adi_msp_private × List Nat) :
    List tag_call → Prop
  | [] => True
  | tag_call.get :: cs => releases_outstanding_only ptp (tag_call_step ptp s tag_call.get) cs
  | tag_call.put t :: cs =>
    ((put_frame_tag s.1 t ptp).1 = 0 → s.2 ≠ []) ∧
      releases_outstanding_only ptp (tag_call_step ptp s (tag_call.put t)) cs

/-- Call `get_frame_tag` until the availability counter is 0 (at most `fuel`
times): the tags returned, in order, and the state reached. -/
def acquire_all (ptp : Bool) : Nat → adi_msp_private → List Nat × adi_msp_private
  | 0, lp => ([], lp)
  | fuel + 1, lp =>
    if available_count lp ptp = 0 then ([], lp)
    else
      (((get_frame_tag lp ptp).1 :: (acquire_all ptp fuel (get_frame_tag lp ptp).2).1),
        (acquire_all ptp fuel (get_frame_tag lp ptp).2).2)

/-- Call `put_frame_tag` on each tag of the list in order: the values
returned and the state reached. -/
def release_all (ptp : Bool) : List Nat → adi_msp_private → List Int × adi_msp_private
  | [], lp => ([], lp)
  | t :: ts, lp =>
    (((put_frame_tag lp t ptp).1 :: (release_all ptp ts (put_frame_tag lp t ptp).2).1),
      (release_all ptp ts (put_frame_tag lp t ptp).2).2)

/-- A sequence of calls on both pools, each with the pool it selects. -/
def pool_calls_run (lp : adi_msp_private) : List (Bool × tag_call) → adi_msp_private
  | [] => lp
  | (ptp, tag_call.get) :: cs => pool_calls_run (get_frame_tag lp ptp).2 cs
  | (ptp, tag_call.put t) :: cs => pool_calls_run (put_frame_tag lp t ptp).2 cs

/-- The tag lies in the range of the pool. -/
def in_pool (ptp : Bool) (t : Nat) : Prop := min_tag ptp ≤ t ∧ t ≤ max_tag ptp

instance in_pool_decidable (ptp : Bool) (t : Nat) : Decidable (in_pool ptp t) := by
  unfold in_pool
  infer_instance

/-- The `n` tags from `t` on in the circular order of the pool. -/
def tag_seq (ptp : Bool) : Nat → Nat → List Nat
  | _, 0 => []
  | t, n + 1 => t :: tag_seq ptp (tag_succ ptp t) n

/-- Invariant of a call sequence with its outstanding tags: the outstanding
tags are the tags that follow the last released one, up to the next tag. -/
def fifo_inv (ptp : Bool) (s : adi_msp_private × List Nat) : Prop :=
  in_pool ptp (last_frame_tag s.1 ptp) ∧
  s.2 = tag_seq ptp (tag_succ ptp (last_frame_tag s.1 ptp)) s.2.length ∧
  next_frame_tag s.1 ptp = (tag_succ ptp)^[s.2.length] (tag_succ ptp (last_frame_tag s.1 ptp))

/-! ## Transmit descriptor chains -/

/-- The flow mode field of a descriptor configuration word. -/
def dma_cfg_flow (cfg : Nat) : Nat := cfg &&& DMA_CFG_FLOW_MASK

/-- The descriptors of the slots of the list form one chain for the DMA: every
slot but the last has flow mode `DMA_CFG_FLOW_DSCL` and a next pointer equal
to the address of the slot that follows it in the list, which is the next slot
of the ring; the last slot has flow mode `DMA_CFG_FLOW_STOP`. -/
def tx_chain_linked (lp : adi_msp_private) : List Nat → Prop
  | [] => True
  | [a] => dma_cfg_flow (lp.td_ring a).cfg = DMA_CFG_FLOW_STOP
  | a :: b :: rest =>
    dma_cfg_flow (lp.td_ring a).cfg = DMA_CFG_FLOW_DSCL ∧
    (lp.td_ring a).dscptr_nxt = u32 (adi_msp_tx_dma lp b) ∧
    b = ring_mask ((a : Int) + 1) ∧
    tx_chain_linked lp (b :: rest)

instance tx_chain_linked_decidable (lp : adi_msp_private) :
    (p : List Nat) → Decidable (tx_chain_linked lp p)
  | [] => isTrue trivial
  | [a] => by
    unfold tx_chain_linked
    infer_instance
  | a :: b :: rest => by
    unfold tx_chain_linked
    have := tx_chain_linked_decidable lp (b :: rest)
    infer_instance

/-- The `n` consecutive slots of the ring from slot `h` on. -/
def ring_slots (h n : Nat) : List Nat := (List.range n).map (fun j => (h + j) % 128)

/-- The slots submitted since the transmit DMA was last started, after a call
of `adi_msp_send_packet` that took the state `lp` with pending slots `p` to
`r`: unchanged when the frame was dropped; empty when the call started the DMA
(it was halted); else extended by the slot just filled, the old chain tail. -/
def tx_pending_after_send (lp r : adi_msp_private) (p : List Nat) : List Nat :=
  if r.stats.tx_dropped = lp.stats.tx_dropped then
    if DMA_STAT_RUN lp.tx_dma_regs.stat = DMA_STAT_HALT then [] else p ++ [lp.tx_chain_tail]
  else p

/-- The slots submitted since the transmit DMA was last started, after the
restart block of `adi_msp_status`: empty when the block started the DMA (halted
and chain `FILLED`), else unchanged. -/
def tx_pending_after_restart (lp : adi_msp_private) (p : List Nat) : List Nat :=
  if DMA_STAT_RUN lp.tx_dma_regs.stat = DMA_STAT_HALT ∧
      lp.tx_chain_status = chain_status.FILLED then [] else p

/-- The states of the driver reachable after `adi_msp_alloc_ring`, each with
the list of the slots submitted since the transmit DMA was last started,
oldest first. The steps are: calls of `adi_msp_send_packet`, the restart block
of `adi_msp_status`, the loop body of `adi_msp_status` on the slot at
`tx_next_done`, and the hardware changing the registers of the transmit DMA
or writing a status work unit. The hardware reports a status only for a frame
whose descriptor it was started on, so a step of the status loop leaves
`tx_count` at least at the number of slots not yet started. -/
inductive tx_reachable : adi_msp_private → List Nat → Prop
  | alloc_ring (lp0 lp : adi_msp_private) (alloc : Nat → rx_alloc_result) :
      adi_msp_alloc_ring lp0 alloc = (0, lp) → tx_reachable lp []
  | opened (lp0 lp : adi_msp_private) (alloc : Nat → rx_alloc_result) (irq_ok : Bool) :
      adi_msp_open lp0 alloc irq_ok = some lp → tx_reachable lp []
  | send (lp r : adi_msp_private) (p : List Nat) (cfg : build_config) (skb : sk_buff)
      (expand_ok : Bool) (map : Option Nat) :
      tx_reachable lp p → skb.data + skb.len ≤ skb.buf_end →
      adi_msp_send_packet cfg lp skb expand_ok map = some r →
      tx_reachable r (tx_pending_after_send lp r p)
  | restart (lp : adi_msp_private) (p : List Nat) :
      tx_reachable lp p → tx_reachable (status_restart_tx lp) (tx_pending_after_restart lp p)
  | status_slot (lp : adi_msp_private) (p : List Nat) :
      tx_reachable lp p → (p.length : Int) ≤ (adi_msp_status_slot lp).state.tx_count →
      tx_reachable (adi_msp_status_slot lp).state p
  | tx_dma (lp : adi_msp_private) (p : List Nat) (regs : dma_regs) :
      tx_reachable lp p → tx_reachable { lp with tx_dma_regs := regs } p
  | status_dma (lp : adi_msp_private) (p : List Nat) (idx : Nat) (wu : status_wu)
      (regs : dma_regs) :
      tx_reachable lp p → tx_reachable (status_wu_arrives lp idx wu regs) p

/-- Invariant of the reachable states: the slots not yet started are the
consecutive slots from the chain head up to the chain tail, they are frames in
flight, the chain is `EMPTY` exactly when there are none, and their
descriptors are linked. -/
def tx_chain_inv (lp : adi_msp_private) (p : List Nat) : Prop :=
  lp.tx_chain_head < 128 ∧ p = ring_slots lp.tx_chain_head p.length ∧
  lp.tx_chain_tail = (lp.tx_chain_head + p.length) % 128 ∧
  (p.length : Int) ≤ lp.tx_count ∧
  (lp.tx_chain_status = chain_status.EMPTY ↔ p = []) ∧
  tx_chain_linked lp p

/-! ## Example states -/

/-- The state after `adi_msp_open` and one accepted submission of a
non-timestamped frame of `n` bytes, mapped at device address `0x20000`. -/
def tx_example_sent (cfg : build_config) (n : Nat) : adi_msp_private :=
  (adi_msp_send_packet cfg adi_msp_opened (tx_skb_of_len n) true (some 0x20000)).getD
    adi_msp_opened

/-- The state `tx_example_sent` once the hardware has written into status
slot 0 a work unit of type `TX_STAT` with tag 1 and no error or PTP bit. -/
def tx_example_completed (cfg : build_config) (n : Nat) : adi_msp_private :=
  status_wu_arrives (tx_example_sent cfg n) 0
    { timestamp0 := 3 + 256 * 1, timestamp1 := 0, timestamp2 := 0, timestamp3 := 0 }
    { dscptr_prv := 0, addr_cur := 0, stat := 0 }

/-- A receive buffer of `RX_WU_BUF_SIZE` bytes holding a start-of-frame data
work unit: header byte 5 (type `WU_TYPE_RX_DATA`, bit `SOF`), a second header
byte 0, then the bytes 1, 2, 3, ... of the frame. -/
def rx_example_data : sk_buff :=
  { sk_buff_zero with
    buf := fun j => if j = 0 then 5 else if j = 1 then 0 else (j - 1) % 256
    buf_end := RX_WU_BUF_SIZE }

/-- A receive buffer of `RX_WU_BUF_SIZE` bytes holding a status work unit:
header byte 2 (type `WU_TYPE_RX_STAT`, no error, not dropped) and the frame
length `n` in bytes 14 and 15. -/
def rx_example_status (n : Nat) : sk_buff :=
  { sk_buff_zero with
    buf := fun j => if j = 0 then 2 else if j = 14 then n % 256 else if j = 15 then n / 256 % 256
      else 0
    buf_end := RX_WU_BUF_SIZE }

/-- The state after `adi_msp_open` once the hardware has filled receive slot 0
with the data work unit `rx_example_data` and slot 1 with the status work unit
`rx_example_status n`. -/
def rx_example_filled (n : Nat) : adi_msp_private :=
  { adi_msp_opened with
    rx_skb := ring_set (ring_set adi_msp_opened.rx_skb 0 (some rx_example_data)) 1
      (some (rx_example_status n)) }

/-- A transmit buffer of `n` bytes that asks for a hardware timestamp
(`SKBTX_HW_TSTAMP`). -/
def tx_example_ptp_skb (n : Nat) : sk_buff :=
  { tx_skb_of_len n with tx_flags := { hw_tstamp := true, in_progress := false } }

/-- The state after `adi_msp_open` and `n` submissions of a timestamped frame
of 64 bytes, the transmit DMA showing halted at each. -/
def tx_example_ptp_sent : Nat → adi_msp_private
  | 0 => adi_msp_opened
  | n + 1 =>
    (adi_msp_send_packet ⟨false, false⟩ (tx_example_ptp_sent n) (tx_example_ptp_skb 64) true
      (some (0x20000 + 0x1000 * n))).getD (tx_example_ptp_sent n)

/-- The state `tx_example_ptp_sent 8` once the hardware has written into
status slot 0 a work unit of type `TX_STAT` with the PTP bit, tag 248 and the
time 7 s, 5 ns. -/
def tx_example_ptp_completed : adi_msp_private :=
  status_wu_arrives (tx_example_ptp_sent 8) 0
    { timestamp0 := 11 + 256 * 248, timestamp1 := 5, timestamp2 := 7, timestamp3 := 0 }
    { dscptr_prv := 0, addr_cur := 0, stat := 0 }

/-- The state after `adi_msp_open` and two accepted submissions: a
non-timestamped frame (slot 0, tag 1), then a timestamped frame (slot 1, tag
248). -/
def tx_example_two_sent : adi_msp_private :=
  ((adi_msp_send_packet ⟨false, false⟩ adi_msp_opened (tx_skb_of_len 64) true
      (some 0x20000)).bind
    (fun lp => adi_msp_send_packet ⟨false, false⟩ lp (tx_example_ptp_skb 64) true
      (some 0x21000))).getD adi_msp_opened

/-- The state `tx_example_two_sent` once the hardware has written into status
slot 0 the status of the second frame: type `TX_STAT`, PTP bit, tag 248. -/
def tx_example_swapped_status : adi_msp_private :=
  status_wu_arrives tx_example_two_sent 0
    { timestamp0 := 11 + 256 * 248, timestamp1 := 0, timestamp2 := 0, timestamp3 := 0 }
    { dscptr_prv := 0, addr_cur := 0, stat := 0 }

/-- A receive buffer holding a data work unit without the start-of-frame bit:
header byte 1 (type `WU_TYPE_RX_DATA`). -/
def rx_example_continuation : sk_buff :=
  { sk_buff_zero with
    buf := fun j => if j = 0 then 1 else 0
    buf_end := RX_WU_BUF_SIZE }

/-- A receive buffer holding a status work unit with the error bit: header
byte 6 (type `WU_TYPE_RX_STAT`, bit `RX_STAT_WU_HEADER_ERR`). -/
def rx_example_status_error : sk_buff :=
  { sk_buff_zero with
    buf := fun j => if j = 0 then 6 else 0
    buf_end := RX_WU_BUF_SIZE }

/-- The state after `adi_msp_open` once the hardware has filled receive slot 0
with the work unit `skb0`. -/
def rx_example_with (skb0 : sk_buff) : adi_msp_private :=
  { adi_msp_opened with rx_skb := ring_set adi_msp_opened.rx_skb 0 (some skb0) }

/-- The state in which the loop body of `adi_msp_rx` has processed the
start-of-frame work unit `rx_example_data` of slot 0 (with the replacement
buffer `rx_alloc_ok 200`) and the hardware has filled slot 1 with `skb1`. -/
def rx_example_pending_with (skb1 : sk_buff) : adi_msp_private :=
  match adi_msp_rx_slot
      { adi_msp_opened with
        rx_skb := ring_set (ring_set adi_msp_opened.rx_skb 0 (some rx_example_data)) 1
          (some skb1) }
      (rx_alloc_ok 200) with
  | some (rx_step.done lp _) => lp
  | _ => adi_msp_opened

/-- The state after `adi_msp_open` with the transmit DMA showing as running. -/
def tx_example_running : adi_msp_private :=
  { adi_msp_opened with tx_dma_regs := { dscptr_prv := 0, addr_cur := 0, stat := 0x100 } }

/-- The state `tx_example_running` after `n` accepted submissions of a
non-timestamped frame of 64 bytes, none of them started by the DMA yet. -/
def tx_example_queued : Nat → adi_msp_private
  | 0 => tx_example_running
  | n + 1 =>
    (adi_msp_send_packet ⟨false, false⟩ (tx_example_queued n) (tx_skb_of_len 64) true
      (some (0x20000 + 0x1000 * n))).getD (tx_example_queued n)

/-- The state `tx_example_queued 2` once the transmit DMA shows as halted. -/
def tx_example_halted : adi_msp_private :=
  { tx_example_queued 2 with tx_dma_regs := { dscptr_prv := 0, addr_cur := 0, stat := 0 } }

/-- The state `tx_example_halted` after one more accepted submission, which
starts the DMA. -/
def tx_example_started : adi_msp_private :=
  (adi_msp_send_packet ⟨false, false⟩ tx_example_halted (tx_skb_of_len 64) true
    (some 0x22000)).getD tx_example_halted

/-- The fresh buffer of `rx_alloc_ok`. -/
def rx_example_fresh : sk_buff := { sk_buff_zero with buf_end := RX_WU_BUF_SIZE }

/-- The kernel has no replacement buffer: `napi_alloc_skb` returns null. -/
def rx_alloc_fail : rx_alloc_result := { skb := none, aligned := true, dma := none }

/-- The state `rx_example_with rx_example_data` with the receive DMA showing
as running. -/
def rx_example_running : adi_msp_private :=
  { rx_example_with rx_example_data with
    rx_dma_regs := { dscptr_prv := 0, addr_cur := 0, stat := 0x100 } }

/-! ## PTP clock (`ptp_adi.c`) -/

/-- The macro `TOD_1_SEC_IN_NANO` of `ptp_adi.c`. -/
@[simp] def TOD_1_SEC_IN_NANO : Nat := 1000000000
/-- The macro `TOD_FRAC_NANO_NUM` of `ptp_adi.c`. -/
@[simp] def TOD_FRAC_NANO_NUM : Nat := 0x10000

/-- The C type `enum hw_tod_trig_mode`. -/
inductive hw_tod_trig_mode where
  | HW_TOD_TRIG_MODE_GC
  | HW_TOD_TRIG_MODE_PPS
  | HW_TOD_TRIG_MODE_CNT
deriving DecidableEq, Repr

/-- Time of day of the hardware, `struct tod_tstamp`: `u16 frac_nanoseconds`,
`u32 nanoseconds`, `u64 seconds`. -/
structure tod_tstamp where
  frac_nanoseconds : Nat
  nanoseconds : Nat
  seconds : Nat
deriving DecidableEq, Repr

/-- Trigger delay, `struct tod_trig_delay`: `u64 ns`, `u16 frac_ns`. -/
structure tod_trig_delay where
  ns : Nat
  frac_ns : Nat
deriving DecidableEq, Repr

/-- The kernel type `struct timespec64`: `time64_t tv_sec`, `long tv_nsec`. -/
structure timespec64 where
  tv_sec : Int
  tv_nsec : Int
deriving DecidableEq, Repr

/-- Conversion of an integer to `u64`. -/
def u64_of_int (x : Int) : Nat := (x % 18446744073709551616).toNat

/-- Conversion of an integer to `u32`. -/
def u32_of_int (x : Int) : Nat := (x % 4294967296).toNat

/-- The kernel function `div_s64_rem`: quotient and remainder of the division
that truncates toward zero. -/
def div_s64_rem (dividend divisor : Int) : Int × Int :=
  (Int.tdiv dividend divisor, Int.tmod dividend divisor)

/-- The function `tstamp_to_timespec`; `long tv_nsec` has 64 bits, the sum
`tstamp->nanoseconds + 1` is formed in `u32`. -/
def tstamp_to_timespec (tstamp : tod_tstamp) : timespec64 :=
  { tv_sec := s64_of_u64 tstamp.seconds
    tv_nsec :=
      if tstamp.frac_nanoseconds < TOD_FRAC_NANO_NUM / 2 then (tstamp.nanoseconds : Int)
      else (((tstamp.nanoseconds + 1) % 4294967296 : Nat) : Int) }

/-- The function `_tod_hw_tstamp_add_delay`. -/
def _tod_hw_tstamp_add_delay (trig_delay : tod_trig_delay) (tstamp : tod_tstamp) : tod_tstamp :=
  let ns :=
    if tstamp.frac_nanoseconds + trig_delay.frac_ns < TOD_FRAC_NANO_NUM then
      (tstamp.nanoseconds + trig_delay.ns) % 18446744073709551616
    else (tstamp.nanoseconds + trig_delay.ns + 1) % 18446744073709551616
  let tstamp :=
    { tstamp with frac_nanoseconds := (tstamp.frac_nanoseconds + trig_delay.frac_ns) % 65536 }
  if ns ≥ TOD_1_SEC_IN_NANO then
    { tstamp with
      seconds := (tstamp.seconds + ns / TOD_1_SEC_IN_NANO) % 18446744073709551616
      nanoseconds := ns % TOD_1_SEC_IN_NANO }
  else { tstamp with nanoseconds := ns }

/-- The function `_tod_adjtime`, where `rd` is the time of day that
`_tod_hw_gettstamp` stores (`none` when it returns an error): the time of day
handed to `_tod_hw_settstamp`, or `none` for the early error return. -/
def _tod_adjtime (trigger_mode : hw_tod_trig_mode) (trig_delay : tod_trig_delay)
    (rd : Option tod_tstamp) (delta : Int) : Option tod_tstamp :=
  match rd with
  | none => none
  | some tstamp =>
    let tstamp :=
      if trigger_mode = hw_tod_trig_mode.HW_TOD_TRIG_MODE_GC then
        _tod_hw_tstamp_add_delay trig_delay tstamp
      else { tstamp with seconds := (tstamp.seconds + 1) % 18446744073709551616 }
    let seconds := (div_s64_rem delta TOD_1_SEC_IN_NANO).1
    let ns := (div_s64_rem delta TOD_1_SEC_IN_NANO).2
    let tstamp :=
      if ns < 0 ∧ ns.natAbs > tstamp.nanoseconds then
        { tstamp with
          nanoseconds := u32_of_int (TOD_1_SEC_IN_NANO + ns + tstamp.nanoseconds)
          seconds := u64_of_int (tstamp.seconds - 1) }
      else { tstamp with nanoseconds := u32_of_int (tstamp.nanoseconds + ns) }
    if tstamp.nanoseconds < TOD_1_SEC_IN_NANO then
      some { tstamp with seconds := u64_of_int (tstamp.seconds + seconds) }
    else
      some { tstamp with
        nanoseconds := tstamp.nanoseconds - TOD_1_SEC_IN_NANO
        seconds := (tstamp.seconds + 1) % 18446744073709551616 }

/-! ## Conservation of tags and slots -/

/-- The number of transmit slots that hold a buffer: the non-null entries of
`tx_skb`. -/
def tx_skb_occupied (lp : adi_msp_private) : Nat :=
  (List.range ADI_MSP_NUM_TDS).countP (fun i => (lp.tx_skb i).isSome)

/-- The tag of the status work unit at `tx_next_done` lies in the range of the
pool that its PTP bit selects. -/
def status_tag_in_pool (lp : adi_msp_private) : Prop :=
  in_pool (decide ((adi_msp_status_wu lp lp.tx_next_done).byte0 &&& TX_STATUS_WU_PTP ≠ 0))
    (adi_msp_status_wu lp lp.tx_next_done).frame_tag

instance status_tag_in_pool_decidable (lp : adi_msp_private) :
    Decidable (status_tag_in_pool lp) := by
  unfold status_tag_in_pool
  infer_instance

/-- The loop body of `adi_msp_status` takes the buffer of the slot at
`tx_next_done` and then leaves through `reset_tx` (the release of the tag
fails, or the tag differs from the one in the transmit header): the slot is
cleared and `tx_next_done` stays. -/
def status_fault_after_take (lp : adi_msp_private) : Prop :=
  ¬ status_slot_not_ready lp ∧
  (adi_msp_status_wu lp lp.tx_next_done).byte0 &&& WU_TYPE_MASK = WU_TYPE_TX_STAT ∧
  (lp.tx_skb lp.tx_next_done).isSome = true ∧
  (adi_msp_status_slot lp).is_done = false

instance status_fault_after_take_decidable (lp : adi_msp_private) :
    Decidable (status_fault_after_take lp) := by
  unfold status_fault_after_take
  infer_instance

/-- The states reachable from `adi_msp_open` on a closed device (no transmit
slot holds a buffer) through submissions of well-formed buffers, through the
loop body and the transmit restart of `adi_msp_status`, where every status work
unit processed has its tag in the range of the pool its PTP bit selects, and
through what the hardware does in between (a status work unit arrives, the DMA
registers change). The flag says that no loop body so far has left through
`reset_tx` after taking the buffer of its slot. -/
inductive tx_conserve_reachable : adi_msp_private → Bool → Prop
  | opened (lp0 lp : adi_msp_private) (alloc : Nat → rx_alloc_result) (irq_ok : Bool) :
      (∀ i, lp0.tx_skb i = none) → adi_msp_open lp0 alloc irq_ok = some lp →
      tx_conserve_reachable lp true
  | send (lp r : adi_msp_private) (clean : Bool) (cfg : build_config) (skb : sk_buff)
      (expand_ok : Bool) (map : Option Nat) :
      tx_conserve_reachable lp clean → skb.data + skb.len ≤ skb.buf_end →
      adi_msp_send_packet cfg lp skb expand_ok map = some r →
      tx_conserve_reachable r clean
  | status_slot (lp : adi_msp_private) (clean : Bool) :
      tx_conserve_reachable lp clean → status_tag_in_pool lp →
      tx_conserve_reachable (adi_msp_status_slot lp).state
        (clean && !decide (status_fault_after_take lp))
  | restart (lp : adi_msp_private) (clean : Bool) :
      tx_conserve_reachable lp clean → tx_conserve_reachable (status_restart_tx lp) clean
  | tx_dma (lp : adi_msp_private) (clean : Bool) (regs : dma_regs) :
      tx_conserve_reachable lp clean →
      tx_conserve_reachable { lp with tx_dma_regs := regs } clean
  | status_dma (lp : adi_msp_private) (clean : Bool) (idx : Nat) (wu : status_wu)
      (regs : dma_regs) :
      tx_conserve_reachable lp clean →
      tx_conserve_reachable (status_wu_arrives lp idx wu regs) clean

/-- The invariant of the reachable states: the conservation of tags and
slots, the bound on `tx_count`, and, while no loop body has left through
`reset_tx` after taking a buffer, the occupied slots are the `tx_count` slots
from `tx_next_done` up to the chain tail. -/
def tx_conserve_inv (lp : adi_msp_private) (clean : Bool) : Prop :=
  lp.available_nonptp_frame_tag_count + lp.available_ptp_frame_tag_count + lp.tx_count = 255 ∧
  lp.tx_count ≤ 128 ∧
  (tx_skb_occupied lp : Int) ≤ lp.tx_count ∧
  lp.tx_next_done < 128 ∧ lp.tx_chain_tail < 128 ∧
  (clean = true →
    lp.tx_chain_tail = (lp.tx_next_done + lp.tx_count.toNat) % 128 ∧
    (∀ i, i < 128 →
      ((lp.tx_skb i).isSome = true ↔
        (i + 128 - lp.tx_next_done) % 128 < lp.tx_count.toNat)) ∧
    (tx_skb_occupied lp : Int) = lp.tx_count)

/-- The state `tx_example_sent` after the hardware has written into status
slot 0 a work unit of type `TX_STAT` with tag 5, where tag 1 is due, and the
loop body of `adi_msp_status` has processed it: the release of the tag fails,
slot 0 is cleared and `tx_next_done` stays at 0. -/
def tx_example_faulted : adi_msp_private :=
  (adi_msp_status_slot
    (status_wu_arrives (tx_example_sent ⟨false, false⟩ 64) 0
      { timestamp0 := 3 + 256 * 5, timestamp1 := 0, timestamp2 := 0, timestamp3 := 0 }
      { dscptr_prv := 0, addr_cur := 0, stat := 0 })).state

/-- The state `tx_example_faulted` after `n` more submissions of a
non-timestamped frame of 64 bytes. -/
def tx_example_refilled : Nat → adi_msp_private
  | 0 => tx_example_faulted
  | n + 1 =>
    (adi_msp_send_packet ⟨false, false⟩ (tx_example_refilled n) (tx_skb_of_len 64) true
      (some (0x30000 + 0x1000 * n))).getD (tx_example_refilled n)

/-- The state `tx_example_refilled 128` (every slot holds a buffer, the chain
tail is back at 1) once the hardware has written into status slot 0 a work
unit of type `TX_STAT` with tag 1. -/
def tx_example_refilled_status : adi_msp_private :=
  status_wu_arrives (tx_example_refilled 128) 0
    { timestamp0 := 3 + 256 * 1, timestamp1 := 0, timestamp2 := 0, timestamp3 := 0 }
    { dscptr_prv := 0, addr_cur := 0, stat := 0 }

/-- The state `tx_example_refilled_status` after the loop body of
`adi_msp_status`: tag 1 is released, the queue is woken, and the tag differs
from the one in the header of the buffer of slot 0, so that the slot is cleared
and `tx_next_done` stays at 0. -/
def tx_example_faulted_again : adi_msp_private :=
  (adi_msp_status_slot tx_example_refilled_status).state

/-- The state `tx_example_faulted_again` after one more submission, which goes
to slot 1. -/
def tx_example_overwritten : adi_msp_private :=
  (adi_msp_send_packet ⟨false, false⟩ tx_example_faulted_again (tx_skb_of_len 64) true
    (some 0x20000)).getD tx_example_faulted_again

/-! ## Receive and status descriptor rings -/

/-- The state a step of the receive loop ends in. -/
def rx_step.state : rx_step → adi_msp_private
  | rx_step.stop lp _ => lp
  | rx_step.done lp _ => lp

/-- The hardware writes a work unit into the receive buffer of slot `idx`
(the bytes `buf`) and shows the registers `regs` on the receive DMA channel. -/
def rx_wu_arrives (lp : adi_msp_private) (idx : Nat) (buf : Nat → Nat) (regs : dma_regs) :
    adi_msp_private :=
  { lp with
    rx_skb := ring_set lp.rx_skb (ring_mask idx)
      ((lp.rx_skb (ring_mask idx)).map (fun skb => { skb with buf := buf }))
    rx_dma_regs := regs }

/-- The chaining of a receive or status descriptor ring of 128 descriptors,
for the ring index `next_done` and the address `addr idx` of descriptor
`idx mod 128`: every descriptor points to the next one around the ring, the
descriptor before `next_done` is the only one in stop flow mode, and every
other one is in descriptor-list flow mode. -/
def desc_ring_chained (ring : Nat → dma_desc) (addr : Int → Nat) (next_done : Nat) : Prop :=
  next_done < 128 ∧
  ∀ i, i < 128 →
    (ring i).dscptr_nxt = u32 (addr ((i : Int) + 1)) ∧
    (dma_cfg_flow (ring i).cfg = DMA_CFG_FLOW_STOP ↔ i = ring_mask ((next_done : Int) - 1)) ∧
    (i ≠ ring_mask ((next_done : Int) - 1) → dma_cfg_flow (ring i).cfg = DMA_CFG_FLOW_DSCL)

instance desc_ring_chained_decidable (ring : Nat → dma_desc) (addr : Int → Nat)
    (next_done : Nat) : Decidable (desc_ring_chained ring addr next_done) := by
  unfold desc_ring_chained
  infer_instance

/-- The states reachable from `adi_msp_alloc_ring` or `adi_msp_open` through
the loop bodies and whole calls of `adi_msp_rx` and `adi_msp_status`, through
submissions of well-formed buffers, and through what the hardware does in
between (work units arrive, the DMA registers change). -/
inductive desc_rings_reachable : adi_msp_private → Prop
  | alloc_ring (lp0 lp : adi_msp_private) (alloc : Nat → rx_alloc_result) :
      adi_msp_alloc_ring lp0 alloc = (0, lp) → desc_rings_reachable lp
  | opened (lp0 lp : adi_msp_private) (alloc : Nat → rx_alloc_result) (irq_ok : Bool) :
      adi_msp_open lp0 alloc irq_ok = some lp → desc_rings_reachable lp
  | rx_slot (lp : adi_msp_private) (a : rx_alloc_result) (st : rx_step) :
      desc_rings_reachable lp → adi_msp_rx_slot lp a = some st →
      desc_rings_reachable st.state
  | rx (lp r : adi_msp_private) (alloc : Nat → rx_alloc_result) (fuel : Nat)
      (budget c : Int) :
      desc_rings_reachable lp → adi_msp_rx alloc fuel lp budget = some (c, r) →
      desc_rings_reachable r
  | status_slot (lp : adi_msp_private) :
      desc_rings_reachable lp → desc_rings_reachable (adi_msp_status_slot lp).state
  | status (lp r : adi_msp_private) (fuel : Nat) (budget c : Int) :
      desc_rings_reachable lp → adi_msp_status fuel lp budget = some (c, r) →
      desc_rings_reachable r
  | send (lp r : adi_msp_private) (cfg : build_config) (skb : sk_buff) (expand_ok : Bool)
      (map : Option Nat) :
      desc_rings_reachable lp → skb.data + skb.len ≤ skb.buf_end →
      adi_msp_send_packet cfg lp skb expand_ok map = some r → desc_rings_reachable r
  | rx_dma (lp : adi_msp_private) (idx : Nat) (buf : Nat → Nat) (regs : dma_regs) :
      desc_rings_reachable lp → desc_rings_reachable (rx_wu_arrives lp idx buf regs)
  | tx_dma (lp : adi_msp_private) (regs : dma_regs) :
      desc_rings_reachable lp → desc_rings_reachable { lp with tx_dma_regs := regs }
  | status_dma (lp : adi_msp_private) (idx : Nat) (wu : status_wu) (regs : dma_regs) :
      desc_rings_reachable lp → desc_rings_reachable (status_wu_arrives lp idx wu regs)

/-- The state after `adi_msp_open` in which the hardware has written the work
unit `rx_example_data` into receive slot 0. -/
def rings_example_received : adi_msp_private :=
  rx_wu_arrives adi_msp_opened 0 rx_example_data.buf
    { dscptr_prv := 0, addr_cur := 0, stat := 0 }

/-- The state `rings_example_received` after the loop body of `adi_msp_rx` has
consumed slot 0, a frame of 64 bytes has been submitted, the hardware has
written its status work unit (tag 1) into status slot 0, and the loop body of
`adi_msp_status` has consumed that slot. -/
def rings_example : adi_msp_private :=
  (adi_msp_status_slot
    (status_wu_arrives
      ((adi_msp_send_packet ⟨false, false⟩
        ((adi_msp_rx_slot rings_example_received (rx_alloc_ok 200)).getD
          (rx_step.stop rings_example_received false)).state
        (tx_skb_of_len 64) true (some 0x20000)).getD rings_example_received)
      0 { timestamp0 := 3 + 256 * 1, timestamp1 := 0, timestamp2 := 0, timestamp3 := 0 }
      { dscptr_prv := 0, addr_cur := 0, stat := 0 })).state

/-! ## Theorems -/

/-! ### Frame tag allocator -/

@[simp] theorem ring_set_same {α : Type} (r : Nat → α) (i : Nat) (v : α) :
    ring_set r i v i = v := by
  simp [ring_set]

theorem ring_set_ne {α : Type} (r : Nat → α) (i : Nat) (v : α) {j : Nat} (h : j ≠ i) :
    ring_set r i v j = r j := by
  simp [ring_set, h]

theorem available_count_set_available_count (lp : adi_msp_private) (ptp : Bool) (v : Int) :
    available_count (set_available_count lp ptp v) ptp = v := by
  cases ptp <;> simp [available_count, set_available_count]

theorem next_frame_tag_set_next_tag (lp : adi_msp_private) (ptp : Bool) (v : Nat) :
    next_frame_tag (set_next_tag lp ptp v) ptp = v := by
  cases ptp <;> simp [next_frame_tag, set_next_tag]

theorem last_frame_tag_set_last_tag (lp : adi_msp_private) (ptp : Bool) (v : Nat) :
    last_frame_tag (set_last_tag lp ptp v) ptp = v := by
  cases ptp <;> simp [last_frame_tag, set_last_tag]

/-- C1: `get_frame_tag`, for either pool (non-PTP range [1,247], PTP range
[248,255]). With the availability counter at 0 it returns 0 and the state is
unchanged. Otherwise it returns the current next tag, the counter goes down by
exactly 1, the last tag is unchanged, and next becomes min when the old next is
max and the 8-bit increment of the old next otherwise, which is old next + 1
for every old next below 255, in particular inside the range of the pool. -/
theorem get_frame_tag_contract (lp : adi_msp_private) (ptp : Bool) :
    (min_tag false = 1 ∧ max_tag false = 247 ∧ min_tag true = 248 ∧ max_tag true = 255) ∧
    (available_count lp ptp = 0 → get_frame_tag lp ptp = (0, lp)) ∧
    (available_count lp ptp ≠ 0 →
      (get_frame_tag lp ptp).1 = next_frame_tag lp ptp ∧
      available_count (get_frame_tag lp ptp).2 ptp = available_count lp ptp - 1 ∧
      last_frame_tag (get_frame_tag lp ptp).2 ptp = last_frame_tag lp ptp ∧
      next_frame_tag (get_frame_tag lp ptp).2 ptp =
        (if next_frame_tag lp ptp = max_tag ptp then min_tag ptp
         else (next_frame_tag lp ptp + 1) % 256) ∧
      (next_frame_tag lp ptp < 255 →
        next_frame_tag (get_frame_tag lp ptp).2 ptp =
          (if next_frame_tag lp ptp = max_tag ptp then min_tag ptp
           else next_frame_tag lp ptp + 1))) := by
  refine ⟨by simp [min_tag, max_tag], ?_, ?_⟩
  · intro h
    simp [get_frame_tag, h]
  · intro h
    cases ptp <;>
      simp [get_frame_tag, available_count, set_available_count, next_frame_tag,
        set_next_tag, last_frame_tag, min_tag, max_tag] at h ⊢ <;>
      simp [h] <;>
      split <;> simp_all <;> omega

theorem get_frame_tag_contract_witness :
    available_count adi_msp_opened false ≠ 0 ∧
    (get_frame_tag adi_msp_opened false).1 = next_frame_tag adi_msp_opened false ∧
    available_count (get_frame_tag adi_msp_opened false).2 false =
      available_count adi_msp_opened false - 1 :=
  ⟨by decide,
    ((get_frame_tag_contract adi_msp_opened false).2.2 (by decide)).1,
    ((get_frame_tag_contract adi_msp_opened false).2.2 (by decide)).2.1⟩

theorem adi_msp_open_tags {lp0 lp : adi_msp_private} {alloc : Nat → rx_alloc_result}
    {irq_ok : Bool} (h : adi_msp_open lp0 alloc irq_ok = some lp) :
    lp.next_nonptp_frame_tag = 1 ∧ lp.last_nonptp_frame_tag = 247 ∧
    lp.available_nonptp_frame_tag_count = 247 ∧
    lp.next_ptp_frame_tag = 248 ∧ lp.last_ptp_frame_tag = 255 ∧
    lp.available_ptp_frame_tag_count = 8 := by
  unfold adi_msp_open at h
  dsimp only at h
  generalize adi_msp_alloc_ring _ alloc = r at h
  obtain ⟨e, lp1⟩ := r
  split at h
  · cases irq_ok
    · simp at h
    · simp only [if_true, Option.some.injEq] at h
      subst h
      simp [writel]
  · simp at h

theorem adi_msp_opened_eq :
    adi_msp_open (adi_msp_private_probed 0x1000 0x2000 0x3000 0x4000) rx_alloc_ok true =
      some adi_msp_opened := by
  rfl

/-- C2: `put_frame_tag`, for every pool state (the last-released marker being
a `u8`) and every tag: it returns 0 exactly when the tag lies in the range of
the selected pool and equals the expected value (min when the last-released
marker is max, the marker + 1 otherwise); on success the marker becomes the tag
and the availability counter goes up by exactly 1; in every other case it
returns -1. -/
theorem put_frame_tag_contract (lp : adi_msp_private) (tag : Nat) (ptp : Bool)
    (hlast : last_frame_tag lp ptp < 256) :
    ((put_frame_tag lp tag ptp).1 = 0 ↔
      (min_tag ptp ≤ tag ∧ tag ≤ max_tag ptp ∧
        tag = (if last_frame_tag lp ptp = max_tag ptp then min_tag ptp
               else last_frame_tag lp ptp + 1))) ∧
    ((put_frame_tag lp tag ptp).1 = 0 →
      last_frame_tag (put_frame_tag lp tag ptp).2 ptp = tag ∧
      available_count (put_frame_tag lp tag ptp).2 ptp = available_count lp ptp + 1) ∧
    ((put_frame_tag lp tag ptp).1 ≠ 0 → (put_frame_tag lp tag ptp).1 = -1) := by
  cases ptp <;>
    simp only [put_frame_tag, available_count, set_available_count, last_frame_tag,
      set_last_tag, min_tag, max_tag] at hlast ⊢ <;>
    (split_ifs <;> simp_all <;> omega)

theorem put_frame_tag_contract_witness :
    last_frame_tag adi_msp_opened false < 256 ∧
    ((put_frame_tag adi_msp_opened 1 false).1 = 0 ↔
      (min_tag false ≤ 1 ∧ 1 ≤ max_tag false ∧
        1 = (if last_frame_tag adi_msp_opened false = max_tag false then min_tag false
             else last_frame_tag adi_msp_opened false + 1))) :=
  ⟨by decide, (put_frame_tag_contract adi_msp_opened 1 false (by decide)).1⟩

/-- C3 (the code departs from the claim): right after `adi_msp_open`,
`put_frame_tag` of the in-range tag 5 on the non-PTP pool, where tag 1 is
expected, returns -1 and yet leaves the availability counter at 248, one more
than before the call and one more than the pool has tags; the out-of-range
tag 250 is refused with the state unchanged. -/
theorem put_frame_tag_error_changes_counter :
    available_count adi_msp_opened false = 247 ∧
    (put_frame_tag adi_msp_opened 5 false).1 = -1 ∧
    available_count (put_frame_tag adi_msp_opened 5 false).2 false = 248 ∧
    put_frame_tag adi_msp_opened 250 false = (-1, adi_msp_opened) := by
  refine ⟨by decide, by decide, by decide, ?_⟩
  simp [put_frame_tag, min_tag, max_tag]

theorem tag_succ_in_pool {ptp : Bool} {t : Nat} (h : in_pool ptp t) :
    in_pool ptp (tag_succ ptp t) := by
  cases ptp <;> simp [in_pool, tag_succ, min_tag, max_tag] at h ⊢ <;> split_ifs <;> omega

theorem tag_succ_iterate_in_pool {ptp : Bool} (n : Nat) {t : Nat} (h : in_pool ptp t) :
    in_pool ptp ((tag_succ ptp)^[n] t) := by
  induction n generalizing t with
  | zero => simpa using h
  | succ n ih => rw [Function.iterate_succ_apply]; exact ih (tag_succ_in_pool h)

theorem in_pool_ne_zero {ptp : Bool} {t : Nat} (h : in_pool ptp t) : t ≠ 0 := by
  cases ptp <;> simp [in_pool, min_tag, max_tag] at h <;> omega

theorem tag_seq_length (ptp : Bool) (t n : Nat) : (tag_seq ptp t n).length = n := by
  induction n generalizing t with
  | zero => rfl
  | succ n ih => simp [tag_seq, ih]

theorem tag_seq_succ_last (ptp : Bool) (t n : Nat) :
    tag_seq ptp t (n + 1) = tag_seq ptp t n ++ [(tag_succ ptp)^[n] t] := by
  induction n generalizing t with
  | zero => simp [tag_seq]
  | succ n ih =>
    rw [tag_seq, ih (tag_succ ptp t)]
    simp [tag_seq]

theorem get_frame_tag_of_zero {lp : adi_msp_private} {ptp : Bool}
    (h : available_count lp ptp = 0) : get_frame_tag lp ptp = (0, lp) := by
  simp [get_frame_tag, h]

theorem get_frame_tag_fst {lp : adi_msp_private} {ptp : Bool}
    (h : available_count lp ptp ≠ 0) : (get_frame_tag lp ptp).1 = next_frame_tag lp ptp := by
  cases ptp <;>
    simp [get_frame_tag, available_count, set_available_count, next_frame_tag] at h ⊢ <;>
    simp [h]

theorem get_frame_tag_available {lp : adi_msp_private} {ptp : Bool}
    (h : available_count lp ptp ≠ 0) :
    available_count (get_frame_tag lp ptp).2 ptp = available_count lp ptp - 1 := by
  cases ptp <;>
    simp [get_frame_tag, available_count, set_available_count, next_frame_tag,
      set_next_tag] at h ⊢ <;>
    simp [h] <;> split <;> simp

theorem get_frame_tag_next {lp : adi_msp_private} {ptp : Bool}
    (h : available_count lp ptp ≠ 0) :
    next_frame_tag (get_frame_tag lp ptp).2 ptp = tag_succ ptp (next_frame_tag lp ptp) := by
  cases ptp <;>
    simp [get_frame_tag, available_count, set_available_count, next_frame_tag,
      set_next_tag, tag_succ] at h ⊢ <;>
    simp [h] <;> split <;> simp

theorem get_frame_tag_last (lp : adi_msp_private) (ptp : Bool) :
    last_frame_tag (get_frame_tag lp ptp).2 ptp = last_frame_tag lp ptp := by
  by_cases h : available_count lp ptp = 0
  · rw [get_frame_tag_of_zero h]
  · cases ptp <;>
      simp [get_frame_tag, available_count, set_available_count, next_frame_tag,
        set_next_tag, last_frame_tag] at h ⊢ <;>
      simp [h] <;> split <;> simp

theorem put_frame_tag_fst_iff (lp : adi_msp_private) (tag : Nat) (ptp : Bool) :
    (put_frame_tag lp tag ptp).1 = 0 ↔
      in_pool ptp tag ∧ tag = tag_succ ptp (last_frame_tag lp ptp) := by
  cases ptp <;>
    simp only [put_frame_tag, available_count, set_available_count, last_frame_tag,
      set_last_tag, min_tag, max_tag, in_pool, tag_succ] <;>
    (split_ifs <;> simp_all <;> omega)

theorem put_frame_tag_next (lp : adi_msp_private) (tag : Nat) (ptp : Bool) :
    next_frame_tag (put_frame_tag lp tag ptp).2 ptp = next_frame_tag lp ptp := by
  cases ptp <;>
    simp only [put_frame_tag, available_count, set_available_count, last_frame_tag,
      set_last_tag, next_frame_tag] <;>
    (split_ifs <;> simp_all)

theorem put_frame_tag_last (lp : adi_msp_private) (tag : Nat) (ptp : Bool) :
    last_frame_tag (put_frame_tag lp tag ptp).2 ptp =
      if (put_frame_tag lp tag ptp).1 = 0 then tag else last_frame_tag lp ptp := by
  cases ptp <;>
    simp only [put_frame_tag, available_count, set_available_count, last_frame_tag,
      set_last_tag] <;>
    (split_ifs <;> simp_all)

theorem put_frame_tag_available (lp : adi_msp_private) (tag : Nat) (ptp : Bool) :
    available_count (put_frame_tag lp tag ptp).2 ptp =
      if in_pool ptp tag then available_count lp ptp + 1 else available_count lp ptp := by
  cases ptp <;>
    simp only [put_frame_tag, available_count, set_available_count, last_frame_tag,
      set_last_tag, in_pool] <;>
    (split_ifs <;> simp_all <;> omega)

theorem fifo_inv_next_in_pool {ptp : Bool} {s : adi_msp_private × List Nat}
    (h : fifo_inv ptp s) : in_pool ptp (next_frame_tag s.1 ptp) := by
  rw [h.2.2]
  exact tag_succ_iterate_in_pool _ (tag_succ_in_pool h.1)

theorem fifo_inv_head {ptp : Bool} {s : adi_msp_private × List Nat}
    (h : fifo_inv ptp s) (hq : s.2 ≠ []) :
    s.2.head? = some (tag_succ ptp (last_frame_tag s.1 ptp)) := by
  obtain ⟨lp, q⟩ := s
  obtain ⟨_, hseq, _⟩ := h
  simp only at hseq hq ⊢
  cases hlen : q.length with
  | zero => exact absurd (List.length_eq_zero.mp hlen) hq
  | succ n =>
    rw [hlen] at hseq
    rw [hseq]
    simp [tag_seq]

theorem fifo_inv_step {ptp : Bool} {s : adi_msp_private × List Nat} (h : fifo_inv ptp s)
    (c : tag_call)
    (hc : ∀ t, c = tag_call.put t → (put_frame_tag s.1 t ptp).1 = 0 → s.2 ≠ []) :
    fifo_inv ptp (tag_call_step ptp s c) := by
  obtain ⟨lp, q⟩ := s
  have hnext := fifo_inv_next_in_pool h
  obtain ⟨hlast, hseq, hnx⟩ := h
  simp only at hlast hseq hnx hnext hc
  cases c with
  | get =>
    simp only [tag_call_step]
    by_cases hav : available_count lp ptp = 0
    · rw [get_frame_tag_of_zero hav]
      simp only [if_true]
      exact ⟨hlast, hseq, hnx⟩
    · have h1 := get_frame_tag_fst hav
      have hne : (get_frame_tag lp ptp).1 ≠ 0 := by
        rw [h1]; exact in_pool_ne_zero hnext
      rw [if_neg hne]
      refine ⟨?_, ?_, ?_⟩
      · simp only [get_frame_tag_last]; exact hlast
      · simp only [get_frame_tag_last, List.length_append, List.length_singleton]
        rw [tag_seq_succ_last, ← hseq, h1, hnx]
      · simp only [get_frame_tag_last, List.length_append, List.length_singleton]
        rw [get_frame_tag_next hav, hnx, Function.iterate_succ_apply']
  | put t =>
    simp only [tag_call_step]
    by_cases hok : (put_frame_tag lp t ptp).1 = 0
    · rw [if_pos hok]
      have hq : q ≠ [] := hc t rfl hok
      have ht := (put_frame_tag_fst_iff lp t ptp).1 hok
      have hl : last_frame_tag (put_frame_tag lp t ptp).2 ptp = t := by
        rw [put_frame_tag_last, if_pos hok]
      cases hlen : q.length with
      | zero => exact absurd (List.length_eq_zero.mp hlen) hq
      | succ n =>
        rw [hlen] at hseq hnx
        have hq2 : q = t :: tag_seq ptp (tag_succ ptp t) n := by
          rw [hseq, tag_seq, ← ht.2]
        have he : q.erase t = tag_seq ptp (tag_succ ptp t) n := by
          rw [hq2]; simp
        refine ⟨?_, ?_, ?_⟩
        · simp only [hl]; exact ht.1
        · simp only [hl, he, tag_seq_length]
        · simp only [hl, he, tag_seq_length, put_frame_tag_next]
          rw [hnx, Function.iterate_succ_apply, ← ht.2]
    · rw [if_neg hok]
      have hl : last_frame_tag (put_frame_tag lp t ptp).2 ptp = last_frame_tag lp ptp := by
        rw [put_frame_tag_last, if_neg hok]
      refine ⟨?_, ?_, ?_⟩
      · simp only [hl]; exact hlast
      · simp only [hl]; exact hseq
      · simp only [hl, put_frame_tag_next]; exact hnx

theorem fifo_inv_run {ptp : Bool} (calls : List tag_call) {s : adi_msp_private × List Nat}
    (h : fifo_inv ptp s) (hd : releases_outstanding_only ptp s calls) :
    fifo_inv ptp (tag_calls_run ptp s calls) := by
  induction calls generalizing s with
  | nil => exact h
  | cons c cs ih =>
    cases c with
    | get =>
      exact ih (fifo_inv_step h tag_call.get (fun t ht => by cases ht)) hd
    | put t =>
      refine ih (fifo_inv_step h (tag_call.put t) ?_) hd.2
      intro t2 ht2 hok
      cases ht2
      exact hd.1 hok

theorem fifo_inv_of_open {lp0 lp : adi_msp_private} {alloc : Nat → rx_alloc_result}
    {irq_ok : Bool} (h : adi_msp_open lp0 alloc irq_ok = some lp) (ptp : Bool) :
    fifo_inv ptp (lp, []) := by
  obtain ⟨h1, h2, _, h4, h5, _⟩ := adi_msp_open_tags h
  cases ptp <;>
    simp [fifo_inv, in_pool, last_frame_tag, next_frame_tag, tag_seq, tag_succ, min_tag,
      max_tag, h1, h2, h4, h5]

/-- C4 (as stated, refuted): right after `adi_msp_open`, with no call made
and so no tag outstanding, `put_frame_tag` of tag 1 on the non-PTP pool
succeeds. -/
theorem put_frame_tag_succeeds_with_none_outstanding :
    (tag_calls_run false (adi_msp_opened, []) []).2 = [] ∧
    (put_frame_tag (tag_calls_run false (adi_msp_opened, []) []).1 1 false).1 = 0 := by
  constructor
  · rfl
  · decide

/-- C4 (amended): in every sequence of `get_frame_tag` and `put_frame_tag`
calls on one pool from the state set up by `adi_msp_open` in which no release
succeeds while no tag is outstanding, a `put_frame_tag(tag)` made while a tag
is outstanding succeeds only when `tag` is the earliest tag returned by
`get_frame_tag` and not yet released. -/
theorem put_frame_tag_fifo {lp0 lp : adi_msp_private} {alloc : Nat → rx_alloc_result}
    {irq_ok : Bool} (hopen : adi_msp_open lp0 alloc irq_ok = some lp) (ptp : Bool)
    (calls : List tag_call) (hd : releases_outstanding_only ptp (lp, []) calls) (tag : Nat)
    (hout : (tag_calls_run ptp (lp, []) calls).2 ≠ [])
    (hok : (put_frame_tag (tag_calls_run ptp (lp, []) calls).1 tag ptp).1 = 0) :
    (tag_calls_run ptp (lp, []) calls).2.head? = some tag := by
  have hinv := fifo_inv_run calls (fifo_inv_of_open hopen ptp) hd
  rw [fifo_inv_head hinv hout, ((put_frame_tag_fst_iff _ tag ptp).1 hok).2]

theorem put_frame_tag_fifo_witness :
    releases_outstanding_only false (adi_msp_opened, [])
      [tag_call.get, tag_call.get, tag_call.put 1] ∧
    (tag_calls_run false (adi_msp_opened, [])
      [tag_call.get, tag_call.get, tag_call.put 1]).2.head? = some 2 :=
  ⟨by simp [releases_outstanding_only, tag_call_step]; decide,
   put_frame_tag_fifo adi_msp_opened_eq false [tag_call.get, tag_call.get, tag_call.put 1]
     (by simp [releases_outstanding_only, tag_call_step]; decide) 2 (by decide) (by decide)⟩

theorem acquire_all_spec (ptp : Bool) (fuel : Nat) :
    ∀ (k : Nat) (lp : adi_msp_private), available_count lp ptp = (k : Int) → k ≤ fuel →
      (acquire_all ptp fuel lp).1 = tag_seq ptp (next_frame_tag lp ptp) k ∧
      available_count (acquire_all ptp fuel lp).2 ptp = 0 ∧
      next_frame_tag (acquire_all ptp fuel lp).2 ptp =
        (tag_succ ptp)^[k] (next_frame_tag lp ptp) ∧
      last_frame_tag (acquire_all ptp fuel lp).2 ptp = last_frame_tag lp ptp := by
  induction fuel with
  | zero =>
    intro k lp hav hk
    have hk0 : k = 0 := by omega
    subst hk0
    simpa [acquire_all, tag_seq] using hav
  | succ fuel ih =>
    intro k lp hav hk
    cases k with
    | zero =>
      have h0 : available_count lp ptp = 0 := by simpa using hav
      simp [acquire_all, tag_seq, h0]
    | succ k =>
      have hne : available_count lp ptp ≠ 0 := by rw [hav]; omega
      have hav2 : available_count (get_frame_tag lp ptp).2 ptp = (k : Int) := by
        rw [get_frame_tag_available hne, hav]; push_cast; omega
      obtain ⟨i1, i2, i3, i4⟩ := ih k (get_frame_tag lp ptp).2 hav2 (by omega)
      simp only [acquire_all, if_neg hne]
      refine ⟨?_, i2, ?_, ?_⟩
      · rw [i1, get_frame_tag_fst hne, get_frame_tag_next hne, tag_seq]
      · rw [i3, get_frame_tag_next hne, Function.iterate_succ_apply]
      · rw [i4, get_frame_tag_last]

theorem release_all_spec (ptp : Bool) (k : Nat) :
    ∀ lp : adi_msp_private, in_pool ptp (last_frame_tag lp ptp) →
      (release_all ptp (tag_seq ptp (tag_succ ptp (last_frame_tag lp ptp)) k) lp).1 =
        List.replicate k 0 ∧
      available_count
          (release_all ptp (tag_seq ptp (tag_succ ptp (last_frame_tag lp ptp)) k) lp).2 ptp =
        available_count lp ptp + k ∧
      next_frame_tag
          (release_all ptp (tag_seq ptp (tag_succ ptp (last_frame_tag lp ptp)) k) lp).2 ptp =
        next_frame_tag lp ptp := by
  induction k with
  | zero =>
    intro lp _
    simp [release_all, tag_seq]
  | succ k ih =>
    intro lp hl
    have hin := tag_succ_in_pool hl
    have hok : (put_frame_tag lp (tag_succ ptp (last_frame_tag lp ptp)) ptp).1 = 0 :=
      (put_frame_tag_fst_iff _ _ _).2 ⟨hin, rfl⟩
    have hl2 : last_frame_tag (put_frame_tag lp (tag_succ ptp (last_frame_tag lp ptp)) ptp).2 ptp
        = tag_succ ptp (last_frame_tag lp ptp) := by
      rw [put_frame_tag_last, if_pos hok]
    have hih := ih (put_frame_tag lp (tag_succ ptp (last_frame_tag lp ptp)) ptp).2
      (by rw [hl2]; exact hin)
    rw [hl2] at hih
    obtain ⟨i1, i2, i3⟩ := hih
    simp only [tag_seq, release_all]
    refine ⟨?_, ?_, ?_⟩
    · rw [i1, hok, List.replicate_succ]
    · rw [i2, put_frame_tag_available, if_pos hin]; push_cast; omega
    · rw [i3, put_frame_tag_next]

set_option maxRecDepth 8000 in
theorem tag_succ_cycle :
    (tag_succ false)^[247] 1 = 1 ∧ (tag_succ true)^[8] 248 = 248 := by
  decide

/-- C5: from the pool state set up by `adi_msp_open`, for either pool, calling
`get_frame_tag` until the availability counter is 0 (247 tags for the non-PTP
pool, 8 for the PTP pool) and then `put_frame_tag` on the returned tags in the
order returned: every `put_frame_tag` returns 0, and afterwards the
availability counter and the next tag of the pool are what they were before
the first acquire. -/
theorem acquire_release_round_trip {lp0 lp : adi_msp_private}
    {alloc : Nat → rx_alloc_result} {irq_ok : Bool}
    (hopen : adi_msp_open lp0 alloc irq_ok = some lp) (ptp : Bool) (fuel : Nat)
    (hfuel : 247 ≤ fuel) :
    available_count (acquire_all ptp fuel lp).2 ptp = 0 ∧
    (acquire_all ptp fuel lp).1.length = (if ptp then 8 else 247) ∧
    (release_all ptp (acquire_all ptp fuel lp).1 (acquire_all ptp fuel lp).2).1 =
      List.replicate (acquire_all ptp fuel lp).1.length 0 ∧
    available_count
        (release_all ptp (acquire_all ptp fuel lp).1 (acquire_all ptp fuel lp).2).2 ptp =
      available_count lp ptp ∧
    next_frame_tag
        (release_all ptp (acquire_all ptp fuel lp).1 (acquire_all ptp fuel lp).2).2 ptp =
      next_frame_tag lp ptp := by
  obtain ⟨h1, h2, h3, h4, h5, h6⟩ := adi_msp_open_tags hopen
  cases ptp
  · have hav : available_count lp false = ((247 : Nat) : Int) := by
      simp [available_count, h3]
    obtain ⟨a1, a2, a3, a4⟩ := acquire_all_spec false fuel 247 lp hav hfuel
    have hnx : next_frame_tag lp false = 1 := by simp [next_frame_tag, h1]
    have hla : last_frame_tag (acquire_all false fuel lp).2 false = 247 := by
      rw [a4]; simp [last_frame_tag, h2]
    have hr := release_all_spec false 247 (acquire_all false fuel lp).2
      (by rw [hla]; decide)
    rw [hla, show tag_succ false 247 = 1 by decide] at hr
    rw [hnx] at a1 a3
    rw [a1, tag_seq_length]
    obtain ⟨r1, r2, r3⟩ := hr
    refine ⟨a2, by simp, r1, ?_, ?_⟩
    · rw [r2, a2, hav]; simp
    · rw [r3, a3, hnx]; exact tag_succ_cycle.1
  · have hav : available_count lp true = ((8 : Nat) : Int) := by
      simp [available_count, h6]
    obtain ⟨a1, a2, a3, a4⟩ := acquire_all_spec true fuel 8 lp hav (by omega)
    have hnx : next_frame_tag lp true = 248 := by simp [next_frame_tag, h4]
    have hla : last_frame_tag (acquire_all true fuel lp).2 true = 255 := by
      rw [a4]; simp [last_frame_tag, h5]
    have hr := release_all_spec true 8 (acquire_all true fuel lp).2
      (by rw [hla]; decide)
    rw [hla, show tag_succ true 255 = 248 by decide] at hr
    rw [hnx] at a1 a3
    rw [a1, tag_seq_length]
    obtain ⟨r1, r2, r3⟩ := hr
    refine ⟨a2, by simp, r1, ?_, ?_⟩
    · rw [r2, a2, hav]; simp
    · rw [r3, a3, hnx]; exact tag_succ_cycle.2

theorem acquire_release_round_trip_witness :
    247 ≤ 300 ∧
    available_count
        (release_all false (acquire_all false 300 adi_msp_opened).1
          (acquire_all false 300 adi_msp_opened).2).2 false =
      available_count adi_msp_opened false :=
  ⟨by decide, (acquire_release_round_trip adi_msp_opened_eq false 300 (by decide)).2.2.2.1⟩

theorem get_frame_tag_other_pool (lp : adi_msp_private) (ptp : Bool) :
    next_frame_tag (get_frame_tag lp ptp).2 (!ptp) = next_frame_tag lp (!ptp) ∧
    last_frame_tag (get_frame_tag lp ptp).2 (!ptp) = last_frame_tag lp (!ptp) ∧
    available_count (get_frame_tag lp ptp).2 (!ptp) = available_count lp (!ptp) := by
  cases ptp <;>
    simp only [get_frame_tag, available_count, set_available_count, next_frame_tag,
      set_next_tag, last_frame_tag] <;>
    (split_ifs <;> simp_all)

theorem put_frame_tag_other_pool (lp : adi_msp_private) (tag : Nat) (ptp : Bool) :
    next_frame_tag (put_frame_tag lp tag ptp).2 (!ptp) = next_frame_tag lp (!ptp) ∧
    last_frame_tag (put_frame_tag lp tag ptp).2 (!ptp) = last_frame_tag lp (!ptp) ∧
    available_count (put_frame_tag lp tag ptp).2 (!ptp) = available_count lp (!ptp) := by
  cases ptp <;>
    simp only [put_frame_tag, available_count, set_available_count, next_frame_tag,
      set_last_tag, last_frame_tag] <;>
    (split_ifs <;> simp_all)

theorem next_in_pool_get {lp : adi_msp_private}
    (h : ∀ p, in_pool p (next_frame_tag lp p)) (ptp : Bool) :
    ∀ p, in_pool p (next_frame_tag (get_frame_tag lp ptp).2 p) := by
  intro p
  by_cases hp : p = ptp
  · subst hp
    by_cases hav : available_count lp p = 0
    · rw [get_frame_tag_of_zero hav]; exact h p
    · rw [get_frame_tag_next hav]; exact tag_succ_in_pool (h p)
  · have hp2 : p = !ptp := by cases p <;> cases ptp <;> simp_all
    subst hp2
    rw [(get_frame_tag_other_pool lp ptp).1]; exact h _

theorem next_in_pool_put {lp : adi_msp_private}
    (h : ∀ p, in_pool p (next_frame_tag lp p)) (tag : Nat) (ptp : Bool) :
    ∀ p, in_pool p (next_frame_tag (put_frame_tag lp tag ptp).2 p) := by
  intro p
  by_cases hp : p = ptp
  · subst hp
    rw [put_frame_tag_next]; exact h p
  · have hp2 : p = !ptp := by cases p <;> cases ptp <;> simp_all
    subst hp2
    rw [(put_frame_tag_other_pool lp tag ptp).1]; exact h _

theorem next_in_pool_run (calls : List (Bool × tag_call)) {lp : adi_msp_private}
    (h : ∀ p, in_pool p (next_frame_tag lp p)) :
    ∀ p, in_pool p (next_frame_tag (pool_calls_run lp calls) p) := by
  induction calls generalizing lp with
  | nil => exact h
  | cons c cs ih =>
    obtain ⟨ptp, c⟩ := c
    cases c with
    | get => exact ih (next_in_pool_get h ptp)
    | put t => exact ih (next_in_pool_put h t ptp)

theorem next_in_pool_of_open {lp0 lp : adi_msp_private} {alloc : Nat → rx_alloc_result}
    {irq_ok : Bool} (h : adi_msp_open lp0 alloc irq_ok = some lp) :
    ∀ p, in_pool p (next_frame_tag lp p) := by
  obtain ⟨h1, _, _, h4, _, _⟩ := adi_msp_open_tags h
  intro p
  cases p <;> simp [in_pool, next_frame_tag, min_tag, max_tag, h1, h4]

/-- C6: in every state reachable from `adi_msp_open` by `get_frame_tag` and
`put_frame_tag` calls on either pool, a tag returned by `get_frame_tag` with a
non-zero availability counter is not 0 and lies in [1,247] for the non-PTP pool
and in [248,255] for the PTP pool; no tag lies in both ranges; and a call on
one pool leaves next tag, last-released marker and availability counter of the
other pool unchanged. -/
theorem pools_disjoint_and_independent {lp0 lp : adi_msp_private}
    {alloc : Nat → rx_alloc_result} {irq_ok : Bool}
    (hopen : adi_msp_open lp0 alloc irq_ok = some lp) (calls : List (Bool × tag_call))
    (ptp : Bool) (tag : Nat) :
    (available_count (pool_calls_run lp calls) ptp ≠ 0 →
      (get_frame_tag (pool_calls_run lp calls) ptp).1 ≠ 0 ∧
      (if ptp then 248 else 1) ≤ (get_frame_tag (pool_calls_run lp calls) ptp).1 ∧
      (get_frame_tag (pool_calls_run lp calls) ptp).1 ≤ (if ptp then 255 else 247)) ∧
    ¬ (in_pool false tag ∧ in_pool true tag) ∧
    (next_frame_tag (get_frame_tag (pool_calls_run lp calls) ptp).2 (!ptp) =
        next_frame_tag (pool_calls_run lp calls) (!ptp) ∧
      last_frame_tag (get_frame_tag (pool_calls_run lp calls) ptp).2 (!ptp) =
        last_frame_tag (pool_calls_run lp calls) (!ptp) ∧
      available_count (get_frame_tag (pool_calls_run lp calls) ptp).2 (!ptp) =
        available_count (pool_calls_run lp calls) (!ptp)) ∧
    (next_frame_tag (put_frame_tag (pool_calls_run lp calls) tag ptp).2 (!ptp) =
        next_frame_tag (pool_calls_run lp calls) (!ptp) ∧
      last_frame_tag (put_frame_tag (pool_calls_run lp calls) tag ptp).2 (!ptp) =
        last_frame_tag (pool_calls_run lp calls) (!ptp) ∧
      available_count (put_frame_tag (pool_calls_run lp calls) tag ptp).2 (!ptp) =
        available_count (pool_calls_run lp calls) (!ptp)) := by
  have hin := next_in_pool_run calls (next_in_pool_of_open hopen) ptp
  refine ⟨?_, ?_, get_frame_tag_other_pool _ ptp, put_frame_tag_other_pool _ tag ptp⟩
  · intro hav
    rw [get_frame_tag_fst hav]
    refine ⟨in_pool_ne_zero hin, ?_⟩
    cases ptp <;> simpa [in_pool, min_tag, max_tag] using hin
  · simp only [in_pool, min_tag, max_tag]
    simp
    omega

theorem pools_disjoint_and_independent_witness :
    available_count
        (pool_calls_run adi_msp_opened
          [(false, tag_call.get), (true, tag_call.get), (false, tag_call.put 1)]) true ≠ 0 ∧
    (get_frame_tag
        (pool_calls_run adi_msp_opened
          [(false, tag_call.get), (true, tag_call.get), (false, tag_call.put 1)]) true).1 ≠ 0 :=
  ⟨by decide,
   ((pools_disjoint_and_independent adi_msp_opened_eq
      [(false, tag_call.get), (true, tag_call.get), (false, tag_call.put 1)] true 249).1
        (by decide)).1⟩

/-! ### Transmit path -/

theorem tx_ptp_ne_zero (skb : sk_buff) :
    decide (tx_ptp skb ≠ 0) = skb.tx_flags.hw_tstamp := by
  unfold tx_ptp
  cases skb.tx_flags.hw_tstamp <;> simp

theorem tx_stop_queue_eq (lp : adi_msp_private) (ptp : Bool) :
    ∃ b, tx_stop_queue lp ptp = { lp with queue_stopped := b } := by
  unfold tx_stop_queue
  split
  · exact ⟨true, rfl⟩
  · exact ⟨lp.queue_stopped, rfl⟩

theorem tx_frame_length_le_wu_length (cfg : build_config) (skb : sk_buff) :
    tx_frame_length cfg skb + 8 ≤ tx_wu_length cfg skb := by
  unfold tx_wu_length
  split <;> simp only [TX_WU_HEADER_LEN] <;> omega

theorem tx_pad_make_room_ne_none (cfg : build_config) (skb skb1 : sk_buff) (expand_ok : Bool)
    (hwf : skb.data + skb.len ≤ skb.buf_end)
    (h : tx_make_room cfg skb expand_ok = some skb1) : tx_pad cfg skb1 ≠ none := by
  have hfl := tx_frame_length_le_wu_length cfg skb
  unfold tx_pad
  split
  · rename_i hpad
    obtain ⟨hp, hlen⟩ := hpad
    have hmin : TX_MIN_FRAME_SIZE cfg = 60 := by simp [TX_MIN_FRAME_SIZE, hp]
    have hfl2 : 60 ≤ tx_frame_length cfg skb := by
      simp only [tx_frame_length, hp, if_true, hmin]; omega
    unfold tx_make_room at h
    unfold skb_put
    split at h
    · split at h
      · simp only [Option.some.injEq] at h
        subst h
        simp only [pskb_expand_head, tx_delta_tailroom, skb_tailroom, TX_WU_HEADER_LEN, hmin]
          at hlen ⊢
        split_ifs <;> simp <;> omega
      · simp at h
    · rename_i hno
      simp only [Option.some.injEq] at h
      subst h
      simp only [tx_delta_tailroom, skb_tailroom, TX_WU_HEADER_LEN, hmin, not_or,
        not_lt, Nat.le_zero] at hno hlen ⊢
      obtain ⟨_, hno2⟩ := hno
      split_ifs at hno2 ⊢ <;> simp <;> omega
  · simp

theorem adi_msp_send_packet_cases (cfg : build_config) (lp : adi_msp_private) (skb : sk_buff)
    (expand_ok : Bool) (map : Option Nat) (hwf : skb.data + skb.len ≤ skb.buf_end) :
    (∃ b skb1, adi_msp_send_packet cfg lp skb expand_ok map =
        some (drop_packet { lp with queue_stopped := b } skb1)) ∨
    (¬ skb.len > 65535 ∧ lp.tx_count < 128 ∧
      available_count lp skb.tx_flags.hw_tstamp ≠ 0 ∧
      ∃ skb1 skb2 addr,
        tx_make_room cfg skb expand_ok = some skb1 ∧ tx_pad cfg skb1 = some skb2 ∧
        map = some addr ∧
        adi_msp_send_packet cfg lp skb expand_ok map =
          some (tx_commit (tx_stop_queue lp skb.tx_flags.hw_tstamp)
            (tx_fill_header (tx_stop_queue lp skb.tx_flags.hw_tstamp) skb2 (tx_ptp skb)
              (tx_frame_length cfg skb))
            skb.tx_flags.hw_tstamp addr (tx_wu_length cfg skb))) := by
  unfold adi_msp_send_packet
  simp only [tx_ptp_ne_zero, ADI_MSP_NUM_TDS, Nat.cast_ofNat]
  by_cases h1 : skb.len > 0xffff
  · left; exact ⟨lp.queue_stopped, skb, by rw [if_pos h1]⟩
  rw [if_neg h1]
  by_cases h2 : lp.tx_count > 128
  · left; exact ⟨lp.queue_stopped, skb, by rw [if_pos h2]⟩
  rw [if_neg h2]
  by_cases h3 : lp.tx_count = 128
  · left; exact ⟨lp.queue_stopped, skb, by rw [if_pos h3]⟩
  rw [if_neg h3]
  by_cases h4 : available_count lp skb.tx_flags.hw_tstamp = 0
  · left; exact ⟨lp.queue_stopped, skb, by rw [if_pos h4]⟩
  rw [if_neg h4]
  obtain ⟨b, hb⟩ := tx_stop_queue_eq lp skb.tx_flags.hw_tstamp
  cases hroom : tx_make_room cfg skb expand_ok with
  | none => left; exact ⟨b, skb, by rw [hb]⟩
  | some skb1 =>
    have hpad := tx_pad_make_room_ne_none cfg skb skb1 expand_ok hwf hroom
    dsimp only
    cases hp : tx_pad cfg skb1 with
    | none => exact absurd hp hpad
    | some skb2 =>
      dsimp only
      cases map with
      | none => left; exact ⟨b, _, by rw [hb]⟩
      | some addr =>
        right
        exact ⟨by simpa using h1, by omega, h4, skb1, skb2, addr, rfl, hp, rfl, rfl⟩

theorem tx_example_sent_eq (cfg : build_config) (n : Nat) :
    adi_msp_send_packet cfg adi_msp_opened (tx_skb_of_len n) true (some 0x20000) =
      some (tx_example_sent cfg n) := by
  have hwf : (tx_skb_of_len n).data + (tx_skb_of_len n).len ≤ (tx_skb_of_len n).buf_end := by
    simp [tx_skb_of_len]
  unfold tx_example_sent
  rcases adi_msp_send_packet_cases cfg adi_msp_opened (tx_skb_of_len n) true (some 0x20000) hwf
    with hd | ha
  · obtain ⟨b, skb1, hd⟩ := hd
    rw [hd]; rfl
  · obtain ⟨_, _, _, _, _, _, _, _, _, ha⟩ := ha
    rw [ha]; rfl

theorem adi_msp_send_packet_drop_of (cfg : build_config) (lp : adi_msp_private)
    (skb : sk_buff) (expand_ok : Bool) (map : Option Nat)
    (hwf : skb.data + skb.len ≤ skb.buf_end)
    (h : skb.len > 65535 ∨ lp.tx_count = 128 ∨
      available_count lp skb.tx_flags.hw_tstamp = 0 ∨ map = none) :
    ∃ b skb1, adi_msp_send_packet cfg lp skb expand_ok map =
      some (drop_packet { lp with queue_stopped := b } skb1) := by
  rcases adi_msp_send_packet_cases cfg lp skb expand_ok map hwf with hd | ha
  · exact hd
  · obtain ⟨a1, a2, a3, _, _, addr, _, _, a4, _⟩ := ha
    rcases h with h | h | h | h
    · exact absurd h a1
    · omega
    · exact absurd h a3
    · rw [h] at a4; cases a4

/-- C7: `adi_msp_send_packet` drops the frame whenever the buffer length
exceeds 65535, or `tx_count` equals the ring capacity 128, or the availability
counter of the selected pool is 0, or the device mapping of the work unit
fails: it returns with `tx_dropped` increased by exactly 1 and the buffer
freed, and both tag pools, `tx_count`, the `tx_skb` slots, the transmit
descriptors, the chain head, tail and state are unchanged and no register is
written. -/
theorem adi_msp_send_packet_drop (cfg : build_config) (lp : adi_msp_private)
    (skb : sk_buff) (expand_ok : Bool) (map : Option Nat)
    (hwf : skb.data + skb.len ≤ skb.buf_end)
    (h : skb.len > 65535 ∨ lp.tx_count = 128 ∨
      available_count lp skb.tx_flags.hw_tstamp = 0 ∨ map = none) :
    ∃ r, adi_msp_send_packet cfg lp skb expand_ok map = some r ∧
      r.stats.tx_dropped = lp.stats.tx_dropped + 1 ∧
      r.consumed.length = lp.consumed.length + 1 ∧
      (r.next_nonptp_frame_tag = lp.next_nonptp_frame_tag ∧
        r.last_nonptp_frame_tag = lp.last_nonptp_frame_tag ∧
        r.available_nonptp_frame_tag_count = lp.available_nonptp_frame_tag_count ∧
        r.next_ptp_frame_tag = lp.next_ptp_frame_tag ∧
        r.last_ptp_frame_tag = lp.last_ptp_frame_tag ∧
        r.available_ptp_frame_tag_count = lp.available_ptp_frame_tag_count) ∧
      r.tx_count = lp.tx_count ∧ r.tx_skb = lp.tx_skb ∧ r.tx_skb_dma = lp.tx_skb_dma ∧
      r.td_ring = lp.td_ring ∧
      (r.tx_chain_head = lp.tx_chain_head ∧ r.tx_chain_tail = lp.tx_chain_tail ∧
        r.tx_chain_status = lp.tx_chain_status) ∧
      r.mmio = lp.mmio := by
  obtain ⟨b, skb1, hr⟩ := adi_msp_send_packet_drop_of cfg lp skb expand_ok map hwf h
  exact ⟨_, hr, by simp [drop_packet]⟩

theorem adi_msp_send_packet_drop_witness :
    (tx_skb_of_len 70000).data + (tx_skb_of_len 70000).len ≤ (tx_skb_of_len 70000).buf_end ∧
    ∃ r, adi_msp_send_packet ⟨false, true⟩ adi_msp_opened (tx_skb_of_len 70000) true
        (some 0x20000) = some r ∧
      r.stats.tx_dropped = adi_msp_opened.stats.tx_dropped + 1 :=
  ⟨by decide,
    (adi_msp_send_packet_drop ⟨false, true⟩ adi_msp_opened (tx_skb_of_len 70000) true
      (some 0x20000) (by decide) (Or.inl (by decide))).imp (fun _ h => ⟨h.1, h.2.1⟩)⟩

theorem get_frame_tag_frame (lp : adi_msp_private) (ptp : Bool) :
    ∃ a b c d, (get_frame_tag lp ptp).2 =
      { lp with
        next_nonptp_frame_tag := a, available_nonptp_frame_tag_count := b,
        next_ptp_frame_tag := c, available_ptp_frame_tag_count := d } := by
  cases ptp <;>
    simp only [get_frame_tag, available_count, set_available_count, next_frame_tag,
      set_next_tag] <;>
    (split_ifs <;> exact ⟨_, _, _, _, rfl⟩)

theorem put_frame_tag_frame (lp : adi_msp_private) (tag : Nat) (ptp : Bool) :
    ∃ a b c d, (put_frame_tag lp tag ptp).2 =
      { lp with
        last_nonptp_frame_tag := a, available_nonptp_frame_tag_count := b,
        last_ptp_frame_tag := c, available_ptp_frame_tag_count := d } := by
  cases ptp <;>
    simp only [put_frame_tag, available_count, set_available_count, last_frame_tag,
      set_last_tag] <;>
    (split_ifs <;> exact ⟨_, _, _, _, rfl⟩)

@[simp] theorem get_frame_tag_td_ring (lp : adi_msp_private) (ptp : Bool) :
    (get_frame_tag lp ptp).2.td_ring = lp.td_ring := by
  obtain ⟨a, b, c, d, h⟩ := get_frame_tag_frame lp ptp
  rw [h]

@[simp] theorem get_frame_tag_rd_ring (lp : adi_msp_private) (ptp : Bool) :
    (get_frame_tag lp ptp).2.rd_ring = lp.rd_ring := by
  obtain ⟨a, b, c, d, h⟩ := get_frame_tag_frame lp ptp
  rw [h]

@[simp] theorem get_frame_tag_sd_ring (lp : adi_msp_private) (ptp : Bool) :
    (get_frame_tag lp ptp).2.sd_ring = lp.sd_ring := by
  obtain ⟨a, b, c, d, h⟩ := get_frame_tag_frame lp ptp
  rw [h]

@[simp] theorem get_frame_tag_td_dma (lp : adi_msp_private) (ptp : Bool) :
    (get_frame_tag lp ptp).2.td_dma = lp.td_dma := by
  obtain ⟨a, b, c, d, h⟩ := get_frame_tag_frame lp ptp
  rw [h]

@[simp] theorem get_frame_tag_rd_dma (lp : adi_msp_private) (ptp : Bool) :
    (get_frame_tag lp ptp).2.rd_dma = lp.rd_dma := by
  obtain ⟨a, b, c, d, h⟩ := get_frame_tag_frame lp ptp
  rw [h]

@[simp] theorem get_frame_tag_sd_dma (lp : adi_msp_private) (ptp : Bool) :
    (get_frame_tag lp ptp).2.sd_dma = lp.sd_dma := by
  obtain ⟨a, b, c, d, h⟩ := get_frame_tag_frame lp ptp
  rw [h]

@[simp] theorem get_frame_tag_tx_skb (lp : adi_msp_private) (ptp : Bool) :
    (get_frame_tag lp ptp).2.tx_skb = lp.tx_skb := by
  obtain ⟨a, b, c, d, h⟩ := get_frame_tag_frame lp ptp
  rw [h]

@[simp] theorem get_frame_tag_rx_skb (lp : adi_msp_private) (ptp : Bool) :
    (get_frame_tag lp ptp).2.rx_skb = lp.rx_skb := by
  obtain ⟨a, b, c, d, h⟩ := get_frame_tag_frame lp ptp
  rw [h]

@[simp] theorem get_frame_tag_status_wu (lp : adi_msp_private) (ptp : Bool) :
    (get_frame_tag lp ptp).2.status_wu = lp.status_wu := by
  obtain ⟨a, b, c, d, h⟩ := get_frame_tag_frame lp ptp
  rw [h]

@[simp] theorem get_frame_tag_rx_skb_dma (lp : adi_msp_private) (ptp : Bool) :
    (get_frame_tag lp ptp).2.rx_skb_dma = lp.rx_skb_dma := by
  obtain ⟨a, b, c, d, h⟩ := get_frame_tag_frame lp ptp
  rw [h]

@[simp] theorem get_frame_tag_tx_skb_dma (lp : adi_msp_private) (ptp : Bool) :
    (get_frame_tag lp ptp).2.tx_skb_dma = lp.tx_skb_dma := by
  obtain ⟨a, b, c, d, h⟩ := get_frame_tag_frame lp ptp
  rw [h]

@[simp] theorem get_frame_tag_status_wu_dma (lp : adi_msp_private) (ptp : Bool) :
    (get_frame_tag lp ptp).2.status_wu_dma = lp.status_wu_dma := by
  obtain ⟨a, b, c, d, h⟩ := get_frame_tag_frame lp ptp
  rw [h]

@[simp] theorem get_frame_tag_prev_rx_skb (lp : adi_msp_private) (ptp : Bool) :
    (get_frame_tag lp ptp).2.prev_rx_skb = lp.prev_rx_skb := by
  obtain ⟨a, b, c, d, h⟩ := get_frame_tag_frame lp ptp
  rw [h]

@[simp] theorem get_frame_tag_prev_rx_skb_count (lp : adi_msp_private) (ptp : Bool) :
    (get_frame_tag lp ptp).2.prev_rx_skb_count = lp.prev_rx_skb_count := by
  obtain ⟨a, b, c, d, h⟩ := get_frame_tag_frame lp ptp
  rw [h]

@[simp] theorem get_frame_tag_rx_next_done (lp : adi_msp_private) (ptp : Bool) :
    (get_frame_tag lp ptp).2.rx_next_done = lp.rx_next_done := by
  obtain ⟨a, b, c, d, h⟩ := get_frame_tag_frame lp ptp
  rw [h]

@[simp] theorem get_frame_tag_tx_next_done (lp : adi_msp_private) (ptp : Bool) :
    (get_frame_tag lp ptp).2.tx_next_done = lp.tx_next_done := by
  obtain ⟨a, b, c, d, h⟩ := get_frame_tag_frame lp ptp
  rw [h]

@[simp] theorem get_frame_tag_tx_chain_head (lp : adi_msp_private) (ptp : Bool) :
    (get_frame_tag lp ptp).2.tx_chain_head = lp.tx_chain_head := by
  obtain ⟨a, b, c, d, h⟩ := get_frame_tag_frame lp ptp
  rw [h]

@[simp] theorem get_frame_tag_tx_chain_tail (lp : adi_msp_private) (ptp : Bool) :
    (get_frame_tag lp ptp).2.tx_chain_tail = lp.tx_chain_tail := by
  obtain ⟨a, b, c, d, h⟩ := get_frame_tag_frame lp ptp
  rw [h]

@[simp] theorem get_frame_tag_tx_chain_status (lp : adi_msp_private) (ptp : Bool) :
    (get_frame_tag lp ptp).2.tx_chain_status = lp.tx_chain_status := by
  obtain ⟨a, b, c, d, h⟩ := get_frame_tag_frame lp ptp
  rw [h]

@[simp] theorem get_frame_tag_tx_count (lp : adi_msp_private) (ptp : Bool) :
    (get_frame_tag lp ptp).2.tx_count = lp.tx_count := by
  obtain ⟨a, b, c, d, h⟩ := get_frame_tag_frame lp ptp
  rw [h]

@[simp] theorem get_frame_tag_stats (lp : adi_msp_private) (ptp : Bool) :
    (get_frame_tag lp ptp).2.stats = lp.stats := by
  obtain ⟨a, b, c, d, h⟩ := get_frame_tag_frame lp ptp
  rw [h]

@[simp] theorem get_frame_tag_rx_dma_halt_cnt (lp : adi_msp_private) (ptp : Bool) :
    (get_frame_tag lp ptp).2.rx_dma_halt_cnt = lp.rx_dma_halt_cnt := by
  obtain ⟨a, b, c, d, h⟩ := get_frame_tag_frame lp ptp
  rw [h]

@[simp] theorem get_frame_tag_status_dma_halt_cnt (lp : adi_msp_private) (ptp : Bool) :
    (get_frame_tag lp ptp).2.status_dma_halt_cnt = lp.status_dma_halt_cnt := by
  obtain ⟨a, b, c, d, h⟩ := get_frame_tag_frame lp ptp
  rw [h]

@[simp] theorem get_frame_tag_hwtstamp_tx_en (lp : adi_msp_private) (ptp : Bool) :
    (get_frame_tag lp ptp).2.hwtstamp_tx_en = lp.hwtstamp_tx_en := by
  obtain ⟨a, b, c, d, h⟩ := get_frame_tag_frame lp ptp
  rw [h]

@[simp] theorem get_frame_tag_hwtstamp_rx_en (lp : adi_msp_private) (ptp : Bool) :
    (get_frame_tag lp ptp).2.hwtstamp_rx_en = lp.hwtstamp_rx_en := by
  obtain ⟨a, b, c, d, h⟩ := get_frame_tag_frame lp ptp
  rw [h]

@[simp] theorem get_frame_tag_rx_dma_regs (lp : adi_msp_private) (ptp : Bool) :
    (get_frame_tag lp ptp).2.rx_dma_regs = lp.rx_dma_regs := by
  obtain ⟨a, b, c, d, h⟩ := get_frame_tag_frame lp ptp
  rw [h]

@[simp] theorem get_frame_tag_tx_dma_regs (lp : adi_msp_private) (ptp : Bool) :
    (get_frame_tag lp ptp).2.tx_dma_regs = lp.tx_dma_regs := by
  obtain ⟨a, b, c, d, h⟩ := get_frame_tag_frame lp ptp
  rw [h]

@[simp] theorem get_frame_tag_status_dma_regs (lp : adi_msp_private) (ptp : Bool) :
    (get_frame_tag lp ptp).2.status_dma_regs = lp.status_dma_regs := by
  obtain ⟨a, b, c, d, h⟩ := get_frame_tag_frame lp ptp
  rw [h]

@[simp] theorem get_frame_tag_queue_stopped (lp : adi_msp_private) (ptp : Bool) :
    (get_frame_tag lp ptp).2.queue_stopped = lp.queue_stopped := by
  obtain ⟨a, b, c, d, h⟩ := get_frame_tag_frame lp ptp
  rw [h]

@[simp] theorem get_frame_tag_mmio (lp : adi_msp_private) (ptp : Bool) :
    (get_frame_tag lp ptp).2.mmio = lp.mmio := by
  obtain ⟨a, b, c, d, h⟩ := get_frame_tag_frame lp ptp
  rw [h]

@[simp] theorem get_frame_tag_consumed (lp : adi_msp_private) (ptp : Bool) :
    (get_frame_tag lp ptp).2.consumed = lp.consumed := by
  obtain ⟨a, b, c, d, h⟩ := get_frame_tag_frame lp ptp
  rw [h]

@[simp] theorem get_frame_tag_received (lp : adi_msp_private) (ptp : Bool) :
    (get_frame_tag lp ptp).2.received = lp.received := by
  obtain ⟨a, b, c, d, h⟩ := get_frame_tag_frame lp ptp
  rw [h]

@[simp] theorem get_frame_tag_tstamp_tx (lp : adi_msp_private) (ptp : Bool) :
    (get_frame_tag lp ptp).2.tstamp_tx = lp.tstamp_tx := by
  obtain ⟨a, b, c, d, h⟩ := get_frame_tag_frame lp ptp
  rw [h]

@[simp] theorem put_frame_tag_td_ring (lp : adi_msp_private) (tag : Nat) (ptp : Bool) :
    (put_frame_tag lp tag ptp).2.td_ring = lp.td_ring := by
  obtain ⟨a, b, c, d, h⟩ := put_frame_tag_frame lp tag ptp
  rw [h]

@[simp] theorem put_frame_tag_rd_ring (lp : adi_msp_private) (tag : Nat) (ptp : Bool) :
    (put_frame_tag lp tag ptp).2.rd_ring = lp.rd_ring := by
  obtain ⟨a, b, c, d, h⟩ := put_frame_tag_frame lp tag ptp
  rw [h]

@[simp] theorem put_frame_tag_sd_ring (lp : adi_msp_private) (tag : Nat) (ptp : Bool) :
    (put_frame_tag lp tag ptp).2.sd_ring = lp.sd_ring := by
  obtain ⟨a, b, c, d, h⟩ := put_frame_tag_frame lp tag ptp
  rw [h]

@[simp] theorem put_frame_tag_td_dma (lp : adi_msp_private) (tag : Nat) (ptp : Bool) :
    (put_frame_tag lp tag ptp).2.td_dma = lp.td_dma := by
  obtain ⟨a, b, c, d, h⟩ := put_frame_tag_frame lp tag ptp
  rw [h]

@[simp] theorem put_frame_tag_rd_dma (lp : adi_msp_private) (tag : Nat) (ptp : Bool) :
    (put_frame_tag lp tag ptp).2.rd_dma = lp.rd_dma := by
  obtain ⟨a, b, c, d, h⟩ := put_frame_tag_frame lp tag ptp
  rw [h]

@[simp] theorem put_frame_tag_sd_dma (lp : adi_msp_private) (tag : Nat) (ptp : Bool) :
    (put_frame_tag lp tag ptp).2.sd_dma = lp.sd_dma := by
  obtain ⟨a, b, c, d, h⟩ := put_frame_tag_frame lp tag ptp
  rw [h]

@[simp] theorem put_frame_tag_tx_skb (lp : adi_msp_private) (tag : Nat) (ptp : Bool) :
    (put_frame_tag lp tag ptp).2.tx_skb = lp.tx_skb := by
  obtain ⟨a, b, c, d, h⟩ := put_frame_tag_frame lp tag ptp
  rw [h]

@[simp] theorem put_frame_tag_rx_skb (lp : adi_msp_private) (tag : Nat) (ptp : Bool) :
    (put_frame_tag lp tag ptp).2.rx_skb = lp.rx_skb := by
  obtain ⟨a, b, c, d, h⟩ := put_frame_tag_frame lp tag ptp
  rw [h]

@[simp] theorem put_frame_tag_status_wu (lp : adi_msp_private) (tag : Nat) (ptp : Bool) :
    (put_frame_tag lp tag ptp).2.status_wu = lp.status_wu := by
  obtain ⟨a, b, c, d, h⟩ := put_frame_tag_frame lp tag ptp
  rw [h]

@[simp] theorem put_frame_tag_rx_skb_dma (lp : adi_msp_private) (tag : Nat) (ptp : Bool) :
    (put_frame_tag lp tag ptp).2.rx_skb_dma = lp.rx_skb_dma := by
  obtain ⟨a, b, c, d, h⟩ := put_frame_tag_frame lp tag ptp
  rw [h]

@[simp] theorem put_frame_tag_tx_skb_dma (lp : adi_msp_private) (tag : Nat) (ptp : Bool) :
    (put_frame_tag lp tag ptp).2.tx_skb_dma = lp.tx_skb_dma := by
  obtain ⟨a, b, c, d, h⟩ := put_frame_tag_frame lp tag ptp
  rw [h]

@[simp] theorem put_frame_tag_status_wu_dma (lp : adi_msp_private) (tag : Nat) (ptp : Bool) :
    (put_frame_tag lp tag ptp).2.status_wu_dma = lp.status_wu_dma := by
  obtain ⟨a, b, c, d, h⟩ := put_frame_tag_frame lp tag ptp
  rw [h]

@[simp] theorem put_frame_tag_prev_rx_skb (lp : adi_msp_private) (tag : Nat) (ptp : Bool) :
    (put_frame_tag lp tag ptp).2.prev_rx_skb = lp.prev_rx_skb := by
  obtain ⟨a, b, c, d, h⟩ := put_frame_tag_frame lp tag ptp
  rw [h]

@[simp] theorem put_frame_tag_prev_rx_skb_count (lp : adi_msp_private) (tag : Nat) (ptp : Bool) :
    (put_frame_tag lp tag ptp).2.prev_rx_skb_count = lp.prev_rx_skb_count := by
  obtain ⟨a, b, c, d, h⟩ := put_frame_tag_frame lp tag ptp
  rw [h]

@[simp] theorem put_frame_tag_rx_next_done (lp : adi_msp_private) (tag : Nat) (ptp : Bool) :
    (put_frame_tag lp tag ptp).2.rx_next_done = lp.rx_next_done := by
  obtain ⟨a, b, c, d, h⟩ := put_frame_tag_frame lp tag ptp
  rw [h]

@[simp] theorem put_frame_tag_tx_next_done (lp : adi_msp_private) (tag : Nat) (ptp : Bool) :
    (put_frame_tag lp tag ptp).2.tx_next_done = lp.tx_next_done := by
  obtain ⟨a, b, c, d, h⟩ := put_frame_tag_frame lp tag ptp
  rw [h]

@[simp] theorem put_frame_tag_tx_chain_head (lp : adi_msp_private) (tag : Nat) (ptp : Bool) :
    (put_frame_tag lp tag ptp).2.tx_chain_head = lp.tx_chain_head := by
  obtain ⟨a, b, c, d, h⟩ := put_frame_tag_frame lp tag ptp
  rw [h]

@[simp] theorem put_frame_tag_tx_chain_tail (lp : adi_msp_private) (tag : Nat) (ptp : Bool) :
    (put_frame_tag lp tag ptp).2.tx_chain_tail = lp.tx_chain_tail := by
  obtain ⟨a, b, c, d, h⟩ := put_frame_tag_frame lp tag ptp
  rw [h]

@[simp] theorem put_frame_tag_tx_chain_status (lp : adi_msp_private) (tag : Nat) (ptp : Bool) :
    (put_frame_tag lp tag ptp).2.tx_chain_status = lp.tx_chain_status := by
  obtain ⟨a, b, c, d, h⟩ := put_frame_tag_frame lp tag ptp
  rw [h]

@[simp] theorem put_frame_tag_tx_count (lp : adi_msp_private) (tag : Nat) (ptp : Bool) :
    (put_frame_tag lp tag ptp).2.tx_count = lp.tx_count := by
  obtain ⟨a, b, c, d, h⟩ := put_frame_tag_frame lp tag ptp
  rw [h]

@[simp] theorem put_frame_tag_stats (lp : adi_msp_private) (tag : Nat) (ptp : Bool) :
    (put_frame_tag lp tag ptp).2.stats = lp.stats := by
  obtain ⟨a, b, c, d, h⟩ := put_frame_tag_frame lp tag ptp
  rw [h]

@[simp] theorem put_frame_tag_rx_dma_halt_cnt (lp : adi_msp_private) (tag : Nat) (ptp : Bool) :
    (put_frame_tag lp tag ptp).2.rx_dma_halt_cnt = lp.rx_dma_halt_cnt := by
  obtain ⟨a, b, c, d, h⟩ := put_frame_tag_frame lp tag ptp
  rw [h]

@[simp] theorem put_frame_tag_status_dma_halt_cnt (lp : adi_msp_private) (tag : Nat) (ptp : Bool) :
    (put_frame_tag lp tag ptp).2.status_dma_halt_cnt = lp.status_dma_halt_cnt := by
  obtain ⟨a, b, c, d, h⟩ := put_frame_tag_frame lp tag ptp
  rw [h]

@[simp] theorem put_frame_tag_hwtstamp_tx_en (lp : adi_msp_private) (tag : Nat) (ptp : Bool) :
    (put_frame_tag lp tag ptp).2.hwtstamp_tx_en = lp.hwtstamp_tx_en := by
  obtain ⟨a, b, c, d, h⟩ := put_frame_tag_frame lp tag ptp
  rw [h]

@[simp] theorem put_frame_tag_hwtstamp_rx_en (lp : adi_msp_private) (tag : Nat) (ptp : Bool) :
    (put_frame_tag lp tag ptp).2.hwtstamp_rx_en = lp.hwtstamp_rx_en := by
  obtain ⟨a, b, c, d, h⟩ := put_frame_tag_frame lp tag ptp
  rw [h]

@[simp] theorem put_frame_tag_rx_dma_regs (lp : adi_msp_private) (tag : Nat) (ptp : Bool) :
    (put_frame_tag lp tag ptp).2.rx_dma_regs = lp.rx_dma_regs := by
  obtain ⟨a, b, c, d, h⟩ := put_frame_tag_frame lp tag ptp
  rw [h]

@[simp] theorem put_frame_tag_tx_dma_regs (lp : adi_msp_private) (tag : Nat) (ptp : Bool) :
    (put_frame_tag lp tag ptp).2.tx_dma_regs = lp.tx_dma_regs := by
  obtain ⟨a, b, c, d, h⟩ := put_frame_tag_frame lp tag ptp
  rw [h]

@[simp] theorem put_frame_tag_status_dma_regs (lp : adi_msp_private) (tag : Nat) (ptp : Bool) :
    (put_frame_tag lp tag ptp).2.status_dma_regs = lp.status_dma_regs := by
  obtain ⟨a, b, c, d, h⟩ := put_frame_tag_frame lp tag ptp
  rw [h]

@[simp] theorem put_frame_tag_queue_stopped (lp : adi_msp_private) (tag : Nat) (ptp : Bool) :
    (put_frame_tag lp tag ptp).2.queue_stopped = lp.queue_stopped := by
  obtain ⟨a, b, c, d, h⟩ := put_frame_tag_frame lp tag ptp
  rw [h]

@[simp] theorem put_frame_tag_mmio (lp : adi_msp_private) (tag : Nat) (ptp : Bool) :
    (put_frame_tag lp tag ptp).2.mmio = lp.mmio := by
  obtain ⟨a, b, c, d, h⟩ := put_frame_tag_frame lp tag ptp
  rw [h]

@[simp] theorem put_frame_tag_consumed (lp : adi_msp_private) (tag : Nat) (ptp : Bool) :
    (put_frame_tag lp tag ptp).2.consumed = lp.consumed := by
  obtain ⟨a, b, c, d, h⟩ := put_frame_tag_frame lp tag ptp
  rw [h]

@[simp] theorem put_frame_tag_received (lp : adi_msp_private) (tag : Nat) (ptp : Bool) :
    (put_frame_tag lp tag ptp).2.received = lp.received := by
  obtain ⟨a, b, c, d, h⟩ := put_frame_tag_frame lp tag ptp
  rw [h]

@[simp] theorem put_frame_tag_tstamp_tx (lp : adi_msp_private) (tag : Nat) (ptp : Bool) :
    (put_frame_tag lp tag ptp).2.tstamp_tx = lp.tstamp_tx := by
  obtain ⟨a, b, c, d, h⟩ := put_frame_tag_frame lp tag ptp
  rw [h]

theorem ring_mask_succ (idx : Nat) : ring_mask ((idx : Int) + 1) = (idx + 1) % 128 := by
  unfold ring_mask; omega

theorem ring_mask_pred_ne (idx : Nat) : ring_mask ((idx : Int) - 1) ≠ idx := by
  unfold ring_mask; omega

theorem ring_mask_nat (idx : Nat) : ring_mask (idx : Int) = idx % 128 := by
  unfold ring_mask; omega

theorem chain_status_ne_empty {c : chain_status} (h : c ≠ chain_status.EMPTY) :
    c = chain_status.FILLED := by
  cases c
  · rfl
  · exact absurd rfl h

/-- The chain part of the state after `tx_commit`, in each of the four cases
of (DMA halted?, chain state). -/
theorem tx_commit_chain (lp : adi_msp_private) (skb : sk_buff) (ptp : Bool)
    (addr wu_length : Nat) :
    (DMA_STAT_RUN lp.tx_dma_regs.stat = 0 → lp.tx_chain_status = chain_status.EMPTY →
      (tx_commit lp skb ptp addr wu_length).tx_chain_head = (lp.tx_chain_tail + 1) % 128 ∧
      (tx_commit lp skb ptp addr wu_length).tx_chain_tail = (lp.tx_chain_tail + 1) % 128 ∧
      (tx_commit lp skb ptp addr wu_length).tx_chain_status = chain_status.EMPTY ∧
      (tx_commit lp skb ptp addr wu_length).td_ring (ring_mask ((lp.tx_chain_tail : Int) - 1)) =
        lp.td_ring (ring_mask ((lp.tx_chain_tail : Int) - 1)) ∧
      (tx_commit lp skb ptp addr wu_length).mmio =
        ⟨mmio_reg.tx_dma_cfg, u32 (TX_DMA_CFG_COMMON ||| DMA_CFG_FLOW_DSCL)⟩ ::
          ⟨mmio_reg.tx_dma_dscptr_nxt, u32 (adi_msp_tx_dma lp lp.tx_chain_head)⟩ :: lp.mmio) ∧
    (DMA_STAT_RUN lp.tx_dma_regs.stat = 0 → lp.tx_chain_status = chain_status.FILLED →
      (tx_commit lp skb ptp addr wu_length).tx_chain_head = (lp.tx_chain_tail + 1) % 128 ∧
      (tx_commit lp skb ptp addr wu_length).tx_chain_tail = (lp.tx_chain_tail + 1) % 128 ∧
      (tx_commit lp skb ptp addr wu_length).tx_chain_status = chain_status.EMPTY ∧
      (tx_commit lp skb ptp addr wu_length).td_ring (ring_mask ((lp.tx_chain_tail : Int) - 1)) =
        { lp.td_ring (ring_mask ((lp.tx_chain_tail : Int) - 1)) with
          cfg := (lp.td_ring (ring_mask ((lp.tx_chain_tail : Int) - 1))).cfg |||
            DMA_CFG_FLOW_DSCL
          dscptr_nxt := u32 (adi_msp_tx_dma lp lp.tx_chain_tail) } ∧
      (tx_commit lp skb ptp addr wu_length).mmio =
        ⟨mmio_reg.tx_dma_cfg, u32 (TX_DMA_CFG_COMMON ||| DMA_CFG_FLOW_DSCL)⟩ ::
          ⟨mmio_reg.tx_dma_dscptr_nxt, u32 (adi_msp_tx_dma lp lp.tx_chain_head)⟩ :: lp.mmio) ∧
    (DMA_STAT_RUN lp.tx_dma_regs.stat ≠ 0 → lp.tx_chain_status = chain_status.EMPTY →
      (tx_commit lp skb ptp addr wu_length).tx_chain_head = lp.tx_chain_head ∧
      (tx_commit lp skb ptp addr wu_length).tx_chain_tail = (lp.tx_chain_tail + 1) % 128 ∧
      (tx_commit lp skb ptp addr wu_length).tx_chain_status = chain_status.FILLED ∧
      (tx_commit lp skb ptp addr wu_length).td_ring (ring_mask ((lp.tx_chain_tail : Int) - 1)) =
        lp.td_ring (ring_mask ((lp.tx_chain_tail : Int) - 1)) ∧
      (tx_commit lp skb ptp addr wu_length).mmio = lp.mmio) ∧
    (DMA_STAT_RUN lp.tx_dma_regs.stat ≠ 0 → lp.tx_chain_status = chain_status.FILLED →
      (tx_commit lp skb ptp addr wu_length).tx_chain_head = lp.tx_chain_head ∧
      (tx_commit lp skb ptp addr wu_length).tx_chain_tail = (lp.tx_chain_tail + 1) % 128 ∧
      (tx_commit lp skb ptp addr wu_length).tx_chain_status = chain_status.FILLED ∧
      (tx_commit lp skb ptp addr wu_length).td_ring (ring_mask ((lp.tx_chain_tail : Int) - 1)) =
        { lp.td_ring (ring_mask ((lp.tx_chain_tail : Int) - 1)) with
          cfg := (lp.td_ring (ring_mask ((lp.tx_chain_tail : Int) - 1))).cfg |||
            DMA_CFG_FLOW_DSCL
          dscptr_nxt := u32 (adi_msp_tx_dma lp lp.tx_chain_tail) } ∧
      (tx_commit lp skb ptp addr wu_length).mmio = lp.mmio) := by
  have hne := ring_mask_pred_ne lp.tx_chain_tail
  refine ⟨?_, ?_, ?_, ?_⟩ <;> intro hh hs <;>
    simp [tx_commit, tx_chain_submit, hh, hs, writel, adi_msp_tx_dma, ring_mask_succ,
      ring_set_ne _ _ _ hne]

theorem adi_msp_send_packet_accepted (cfg : build_config) (lp r : adi_msp_private)
    (skb : sk_buff) (expand_ok : Bool) (map : Option Nat)
    (hwf : skb.data + skb.len ≤ skb.buf_end)
    (hr : adi_msp_send_packet cfg lp skb expand_ok map = some r)
    (hacc : r.stats.tx_dropped = lp.stats.tx_dropped) :
    ¬ skb.len > 65535 ∧ lp.tx_count < 128 ∧
    available_count lp skb.tx_flags.hw_tstamp ≠ 0 ∧
    ∃ b skb1 skb2 addr,
      tx_make_room cfg skb expand_ok = some skb1 ∧ tx_pad cfg skb1 = some skb2 ∧
      map = some addr ∧
      r = tx_commit { lp with queue_stopped := b }
        (tx_fill_header lp skb2 (tx_ptp skb) (tx_frame_length cfg skb))
        skb.tx_flags.hw_tstamp addr (tx_wu_length cfg skb) := by
  rcases adi_msp_send_packet_cases cfg lp skb expand_ok map hwf with hd | ha
  · obtain ⟨b, skb1, hd⟩ := hd
    rw [hd] at hr
    simp only [Option.some.injEq] at hr
    subst hr
    simp [drop_packet] at hacc
  · obtain ⟨a1, a2, a3, skb1, skb2, addr, a4, a5, a6, a7⟩ := ha
    obtain ⟨b, hb⟩ := tx_stop_queue_eq lp skb.tx_flags.hw_tstamp
    rw [a7, hb] at hr
    simp only [Option.some.injEq] at hr
    exact ⟨a1, a2, a3, b, skb1, skb2, addr, a4, a5, a6, hr.symm⟩

/-- C8: for every accepted submission in `adi_msp_send_packet` (the call
returns without counting a drop), with `idx` the old chain tail and
`next = (idx + 1) mod 128`: halted and EMPTY gives head = tail = next, state
EMPTY, the previous descriptor untouched; halted and FILLED links descriptor
`idx - 1` to `idx` and gives head = tail = next, state EMPTY; running and EMPTY
gives tail = next, head unchanged, state FILLED, the previous descriptor
untouched; running and FILLED links descriptor `idx - 1` to `idx` and gives
tail = next, head unchanged, state FILLED. In the two halted cases the transmit
DMA is started by writing the address of the old head descriptor and the
configuration word; in the two running cases no register is written. -/
theorem adi_msp_send_packet_chain (cfg : build_config) (lp r : adi_msp_private)
    (skb : sk_buff) (expand_ok : Bool) (map : Option Nat)
    (hwf : skb.data + skb.len ≤ skb.buf_end)
    (hr : adi_msp_send_packet cfg lp skb expand_ok map = some r)
    (hacc : r.stats.tx_dropped = lp.stats.tx_dropped) :
    (DMA_STAT_RUN lp.tx_dma_regs.stat = 0 → lp.tx_chain_status = chain_status.EMPTY →
      r.tx_chain_head = (lp.tx_chain_tail + 1) % 128 ∧
      r.tx_chain_tail = (lp.tx_chain_tail + 1) % 128 ∧
      r.tx_chain_status = chain_status.EMPTY ∧
      r.td_ring (ring_mask ((lp.tx_chain_tail : Int) - 1)) =
        lp.td_ring (ring_mask ((lp.tx_chain_tail : Int) - 1)) ∧
      r.mmio =
        ⟨mmio_reg.tx_dma_cfg, u32 (TX_DMA_CFG_COMMON ||| DMA_CFG_FLOW_DSCL)⟩ ::
          ⟨mmio_reg.tx_dma_dscptr_nxt, u32 (adi_msp_tx_dma lp lp.tx_chain_head)⟩ :: lp.mmio) ∧
    (DMA_STAT_RUN lp.tx_dma_regs.stat = 0 → lp.tx_chain_status = chain_status.FILLED →
      r.tx_chain_head = (lp.tx_chain_tail + 1) % 128 ∧
      r.tx_chain_tail = (lp.tx_chain_tail + 1) % 128 ∧
      r.tx_chain_status = chain_status.EMPTY ∧
      r.td_ring (ring_mask ((lp.tx_chain_tail : Int) - 1)) =
        { lp.td_ring (ring_mask ((lp.tx_chain_tail : Int) - 1)) with
          cfg := (lp.td_ring (ring_mask ((lp.tx_chain_tail : Int) - 1))).cfg |||
            DMA_CFG_FLOW_DSCL
          dscptr_nxt := u32 (adi_msp_tx_dma lp lp.tx_chain_tail) } ∧
      r.mmio =
        ⟨mmio_reg.tx_dma_cfg, u32 (TX_DMA_CFG_COMMON ||| DMA_CFG_FLOW_DSCL)⟩ ::
          ⟨mmio_reg.tx_dma_dscptr_nxt, u32 (adi_msp_tx_dma lp lp.tx_chain_head)⟩ :: lp.mmio) ∧
    (DMA_STAT_RUN lp.tx_dma_regs.stat ≠ 0 → lp.tx_chain_status = chain_status.EMPTY →
      r.tx_chain_head = lp.tx_chain_head ∧
      r.tx_chain_tail = (lp.tx_chain_tail + 1) % 128 ∧
      r.tx_chain_status = chain_status.FILLED ∧
      r.td_ring (ring_mask ((lp.tx_chain_tail : Int) - 1)) =
        lp.td_ring (ring_mask ((lp.tx_chain_tail : Int) - 1)) ∧
      r.mmio = lp.mmio) ∧
    (DMA_STAT_RUN lp.tx_dma_regs.stat ≠ 0 → lp.tx_chain_status = chain_status.FILLED →
      r.tx_chain_head = lp.tx_chain_head ∧
      r.tx_chain_tail = (lp.tx_chain_tail + 1) % 128 ∧
      r.tx_chain_status = chain_status.FILLED ∧
      r.td_ring (ring_mask ((lp.tx_chain_tail : Int) - 1)) =
        { lp.td_ring (ring_mask ((lp.tx_chain_tail : Int) - 1)) with
          cfg := (lp.td_ring (ring_mask ((lp.tx_chain_tail : Int) - 1))).cfg |||
            DMA_CFG_FLOW_DSCL
          dscptr_nxt := u32 (adi_msp_tx_dma lp lp.tx_chain_tail) } ∧
      r.mmio = lp.mmio) := by
  obtain ⟨_, _, _, b, skb1, skb2, addr, _, _, _, hrr⟩ :=
    adi_msp_send_packet_accepted cfg lp r skb expand_ok map hwf hr hacc
  subst hrr
  exact tx_commit_chain { lp with queue_stopped := b } _ _ _ _

theorem adi_msp_send_packet_chain_witness :
    (tx_skb_of_len 64).data + (tx_skb_of_len 64).len ≤ (tx_skb_of_len 64).buf_end ∧
    (tx_example_sent ⟨false, true⟩ 64).stats.tx_dropped = adi_msp_opened.stats.tx_dropped ∧
    DMA_STAT_RUN adi_msp_opened.tx_dma_regs.stat = 0 ∧
    adi_msp_opened.tx_chain_status = chain_status.EMPTY ∧
    (tx_example_sent ⟨false, true⟩ 64).tx_chain_head = (adi_msp_opened.tx_chain_tail + 1) % 128 :=
  ⟨by decide, by decide, by decide, by decide,
    ((adi_msp_send_packet_chain ⟨false, true⟩ adi_msp_opened (tx_example_sent ⟨false, true⟩ 64)
      (tx_skb_of_len 64) true (some 0x20000) (by decide) (tx_example_sent_eq _ _)
      (by decide)).1 (by decide) (by decide)).1⟩

/-- C9 (as stated, refuted): with `CONFIG_ADI_MSP_TX_PADDING`, a
non-timestamped frame of 10 bytes submitted right after `adi_msp_open` is
accepted, and when `adi_msp_status` processes its status work unit (type
`TX_STAT`, tag 1, no error or PTP bit) `tx_packets` goes up by 1 but `tx_bytes`
goes up by 60, not by 10. -/
theorem tx_round_trip_padding_counts_60 :
    (tx_example_sent ⟨true, false⟩ 10).stats.tx_dropped = adi_msp_opened.stats.tx_dropped ∧
    (tx_example_sent ⟨true, false⟩ 10).tx_count = adi_msp_opened.tx_count + 1 ∧
    (adi_msp_status_slot (tx_example_completed ⟨true, false⟩ 10)).is_done = true ∧
    (adi_msp_status_slot (tx_example_completed ⟨true, false⟩ 10)).state.stats.tx_packets =
      adi_msp_opened.stats.tx_packets + 1 ∧
    (adi_msp_status_slot (tx_example_completed ⟨true, false⟩ 10)).state.stats.tx_bytes =
      adi_msp_opened.stats.tx_bytes + 60 := by
  decide

theorem tx_chain_submit_frame (lp : adi_msp_private) (idx : Nat) :
    ∃ a b c d e, tx_chain_submit lp idx =
      { lp with td_ring := a, tx_chain_head := b, tx_chain_tail := c, tx_chain_status := d,
                mmio := e } := by
  unfold tx_chain_submit
  dsimp only
  split_ifs <;> exact ⟨_, _, _, _, _, rfl⟩

theorem tx_commit_frame (lp : adi_msp_private) (skb : sk_buff) (ptp : Bool)
    (addr wu_length : Nat) :
    ∃ a b c d e, tx_commit lp skb ptp addr wu_length =
      { (get_frame_tag lp ptp).2 with
        tx_count := lp.tx_count + 1
        tx_skb := ring_set lp.tx_skb lp.tx_chain_tail (some skb)
        tx_skb_dma := ring_set lp.tx_skb_dma lp.tx_chain_tail addr
        td_ring := a, tx_chain_head := b, tx_chain_tail := c, tx_chain_status := d,
        mmio := e } := by
  unfold tx_commit
  dsimp only
  obtain ⟨a, b, c, d, e, h⟩ := tx_chain_submit_frame
    { (get_frame_tag lp ptp).2 with
      tx_count := (get_frame_tag lp ptp).2.tx_count + 1
      tx_skb := ring_set (get_frame_tag lp ptp).2.tx_skb (get_frame_tag lp ptp).2.tx_chain_tail
        (some skb)
      tx_skb_dma := ring_set (get_frame_tag lp ptp).2.tx_skb_dma
        (get_frame_tag lp ptp).2.tx_chain_tail addr
      td_ring := ring_set (get_frame_tag lp ptp).2.td_ring (get_frame_tag lp ptp).2.tx_chain_tail
        (tx_fill_desc ((get_frame_tag lp ptp).2.td_ring (get_frame_tag lp ptp).2.tx_chain_tail)
          addr wu_length) }
    (get_frame_tag lp ptp).2.tx_chain_tail
  rw [h]
  simp only [get_frame_tag_tx_count, get_frame_tag_tx_skb, get_frame_tag_tx_chain_tail,
    get_frame_tag_tx_skb_dma]
  exact ⟨_, _, _, _, _, rfl⟩

theorem tx_make_room_tx_flags {cfg : build_config} {skb skb1 : sk_buff} {expand_ok : Bool}
    (h : tx_make_room cfg skb expand_ok = some skb1) :
    skb1.tx_flags = skb.tx_flags ∧ skb1.len = skb.len := by
  unfold tx_make_room at h
  split_ifs at h <;> simp only [Option.some.injEq] at h <;> subst h <;>
    simp [pskb_expand_head]

theorem tx_pad_tx_flags {cfg : build_config} {skb1 skb2 : sk_buff}
    (h : tx_pad cfg skb1 = some skb2) : skb2.tx_flags = skb1.tx_flags := by
  unfold tx_pad skb_put at h
  split_ifs at h <;> simp only [Option.some.injEq] at h <;> subst h <;> rfl

theorem tx_fill_header_read (lp : adi_msp_private) (skb : sk_buff) (frame_length : Nat) :
    (tx_fill_header lp skb 0 frame_length).tx_flags = skb.tx_flags ∧
    tx_wu_hdr_frame_tag (tx_fill_header lp skb 0 frame_length) =
      lp.next_nonptp_frame_tag % 256 ∧
    tx_wu_hdr_frame_len (tx_fill_header lp skb 0 frame_length) = frame_length % 65536 := by
  refine ⟨?_, ?_, ?_⟩
  · simp [tx_fill_header, tx_wu_header_fill]
  · simp [tx_fill_header, tx_wu_header_fill, tx_wu_hdr_frame_tag, next_frame_tag, ring_set]
  · simp [tx_fill_header, tx_wu_header_fill, tx_wu_hdr_frame_len, ring_set]
    omega

theorem status_wake_queue_eq (lp : adi_msp_private) :
    ∃ b, status_wake_queue lp = { lp with queue_stopped := b } := by
  unfold status_wake_queue
  split
  · exact ⟨false, rfl⟩
  · exact ⟨lp.queue_stopped, rfl⟩

theorem status_reset_desc_and_wu_frame (lp : adi_msp_private) (idx : Nat) :
    ∃ a b c d, status_reset_desc_and_wu lp idx =
      { lp with status_wu := a, sd_ring := b, tx_next_done := c, mmio := d } :=
  ⟨_, _, _, _, rfl⟩

theorem status_report_ok (lp : adi_msp_private) (skb : sk_buff) (wu : status_wu)
    (herr : wu.byte0 &&& 4 = 0) (hnip : skb.tx_flags.in_progress = false) :
    status_report lp skb wu =
      { lp with
        stats := { lp.stats with
          tx_packets := lp.stats.tx_packets + 1
          tx_bytes := lp.stats.tx_bytes + tx_wu_hdr_frame_len skb }
        consumed := skb :: lp.consumed } := by
  simp [status_report, herr, hnip, napi_consume_skb]

theorem adi_msp_status_slot_ok (s : adi_msp_private) (skb : sk_buff)
    (hready : ¬ status_slot_not_ready s)
    (htype : (adi_msp_status_wu s s.tx_next_done).byte0 &&& WU_TYPE_MASK = WU_TYPE_TX_STAT)
    (hskb : s.tx_skb s.tx_next_done = some skb)
    (hin : in_pool (decide ((adi_msp_status_wu s s.tx_next_done).byte0 &&& TX_STATUS_WU_PTP ≠ 0))
      (adi_msp_status_wu s s.tx_next_done).frame_tag)
    (hexp : (adi_msp_status_wu s s.tx_next_done).frame_tag =
      tag_succ (decide ((adi_msp_status_wu s s.tx_next_done).byte0 &&& TX_STATUS_WU_PTP ≠ 0))
        (last_frame_tag s
          (decide ((adi_msp_status_wu s s.tx_next_done).byte0 &&& TX_STATUS_WU_PTP ≠ 0))))
    (htag : (adi_msp_status_wu s s.tx_next_done).frame_tag = tx_wu_hdr_frame_tag skb) :
    adi_msp_status_slot s =
      status_step.done
        (status_reset_desc_and_wu
          (status_report
            (status_wake_queue
              (put_frame_tag
                { s with tx_skb := ring_set s.tx_skb s.tx_next_done none,
                         tx_count := s.tx_count - 1 }
                (adi_msp_status_wu s s.tx_next_done).frame_tag
                (decide ((adi_msp_status_wu s s.tx_next_done).byte0 &&&
                  TX_STATUS_WU_PTP ≠ 0))).2)
            skb (adi_msp_status_wu s s.tx_next_done))
          s.tx_next_done) := by
  have hput : (put_frame_tag
      { s with tx_skb := ring_set s.tx_skb s.tx_next_done none, tx_count := s.tx_count - 1 }
      (adi_msp_status_wu s s.tx_next_done).frame_tag
      (decide ((adi_msp_status_wu s s.tx_next_done).byte0 &&& TX_STATUS_WU_PTP ≠ 0))).1 = 0 :=
    (put_frame_tag_fst_iff _ _ _).2 ⟨hin, hexp⟩
  unfold adi_msp_status_slot
  dsimp only
  rw [if_neg hready, if_neg (not_not.mpr htype), hskb]
  dsimp only
  rw [if_neg (by rw [hput]; exact lt_irrefl 0), if_neg (not_not.mpr htag)]

theorem tx_commit_nonptp (lp : adi_msp_private) (skb : sk_buff) (addr wu_length : Nat)
    (hav : lp.available_nonptp_frame_tag_count ≠ 0) :
    (tx_commit lp skb false addr wu_length).available_nonptp_frame_tag_count =
      lp.available_nonptp_frame_tag_count - 1 ∧
    (tx_commit lp skb false addr wu_length).last_nonptp_frame_tag = lp.last_nonptp_frame_tag ∧
    (tx_commit lp skb false addr wu_length).available_ptp_frame_tag_count =
      lp.available_ptp_frame_tag_count ∧
    (tx_commit lp skb false addr wu_length).next_ptp_frame_tag = lp.next_ptp_frame_tag ∧
    (tx_commit lp skb false addr wu_length).last_ptp_frame_tag = lp.last_ptp_frame_tag ∧
    (tx_commit lp skb false addr wu_length).tx_count = lp.tx_count + 1 ∧
    (tx_commit lp skb false addr wu_length).tx_skb =
      ring_set lp.tx_skb lp.tx_chain_tail (some skb) ∧
    (tx_commit lp skb false addr wu_length).stats = lp.stats ∧
    (tx_commit lp skb false addr wu_length).tx_next_done = lp.tx_next_done ∧
    (tx_commit lp skb false addr wu_length).status_wu = lp.status_wu ∧
    (tx_commit lp skb false addr wu_length).consumed = lp.consumed := by
  obtain ⟨a, b, c, d, e, h⟩ := tx_commit_frame lp skb false addr wu_length
  have h1 := @get_frame_tag_available lp false hav
  have h2 := get_frame_tag_last lp false
  have h3 := get_frame_tag_other_pool lp false
  simp only [available_count, last_frame_tag, next_frame_tag, Bool.not_false, if_true,
    Bool.false_eq_true, if_false] at h1 h2 h3
  rw [h]
  simp [h1, h2, h3]

/-- C9 (amended): from a consistent state with no frame in flight (as after
`adi_msp_open`: `tx_count` 0, the next non-PTP tag follows the last released
one, the status ring pointer is at the chain tail), an accepted submission of a
non-timestamped frame of length L consumes exactly one tag from the non-PTP
pool and none from the PTP pool, raises `tx_count` by 1 and, with the transmit
DMA halted, starts it; when `adi_msp_status` then processes a status work unit
of type `TX_STAT` for that slot with the same tag and error and PTP bit clear,
`tx_packets` goes up by 1, `tx_bytes` by the frame length stored in the
transmit header (L, or 60 when `CONFIG_ADI_MSP_TX_PADDING` pads a shorter
frame), `tx_errors` is unchanged, the buffer is released, and `tx_count` and
the non-PTP availability counter are back at their values before the
submission. -/
theorem tx_round_trip (cfg : build_config) (lp r1 : adi_msp_private) (skb : sk_buff)
    (expand_ok : Bool) (map : Option Nat) (wu : status_wu) (regs : dma_regs)
    (hwf : skb.data + skb.len ≤ skb.buf_end)
    (hnts : skb.tx_flags.hw_tstamp = false) (hnip : skb.tx_flags.in_progress = false)
    (_hcount : lp.tx_count = 0)
    (hlast : in_pool false lp.last_nonptp_frame_tag)
    (hnext : lp.next_nonptp_frame_tag = tag_succ false lp.last_nonptp_frame_tag)
    (hslot : lp.tx_next_done = lp.tx_chain_tail)
    (hhalt : DMA_STAT_RUN lp.tx_dma_regs.stat = 0)
    (hr : adi_msp_send_packet cfg lp skb expand_ok map = some r1)
    (hacc : r1.stats.tx_dropped = lp.stats.tx_dropped)
    (htype : wu.byte0 &&& WU_TYPE_MASK = WU_TYPE_TX_STAT)
    (herr : wu.byte0 &&& TX_STATUS_WU_ERR = 0) (hptp : wu.byte0 &&& TX_STATUS_WU_PTP = 0)
    (htag : wu.frame_tag = lp.next_nonptp_frame_tag)
    (hready : ¬ status_slot_not_ready (status_wu_arrives r1 lp.tx_next_done wu regs)) :
    skb.len ≤ 65535 ∧
    r1.available_nonptp_frame_tag_count = lp.available_nonptp_frame_tag_count - 1 ∧
    (r1.available_ptp_frame_tag_count = lp.available_ptp_frame_tag_count ∧
      r1.next_ptp_frame_tag = lp.next_ptp_frame_tag ∧
      r1.last_ptp_frame_tag = lp.last_ptp_frame_tag) ∧
    r1.tx_count = lp.tx_count + 1 ∧
    r1.mmio =
      ⟨mmio_reg.tx_dma_cfg, u32 (TX_DMA_CFG_COMMON ||| DMA_CFG_FLOW_DSCL)⟩ ::
        ⟨mmio_reg.tx_dma_dscptr_nxt, u32 (adi_msp_tx_dma lp lp.tx_chain_head)⟩ :: lp.mmio ∧
    ∃ r2, adi_msp_status_slot (status_wu_arrives r1 lp.tx_next_done wu regs) =
        status_step.done r2 ∧
      r2.stats.tx_packets = lp.stats.tx_packets + 1 ∧
      r2.stats.tx_bytes =
        lp.stats.tx_bytes + (if cfg.tx_padding then max skb.len 60 else skb.len) ∧
      r2.stats.tx_errors = lp.stats.tx_errors ∧
      r2.consumed.length = lp.consumed.length + 1 ∧
      r2.tx_count = lp.tx_count ∧
      r2.available_nonptp_frame_tag_count = lp.available_nonptp_frame_tag_count := by
  obtain ⟨hlen, _, hav, b, skb1, skb2, addr, hroom, hpad, _, hr1⟩ :=
    adi_msp_send_packet_accepted cfg lp r1 skb expand_ok map hwf hr hacc
  rw [hnts] at hav hr1
  have hptp0 : tx_ptp skb = 0 := by simp [tx_ptp, hnts]
  rw [hptp0] at hr1
  simp only [available_count, Bool.false_eq_true, if_false] at hav
  have hflags : skb2.tx_flags = skb.tx_flags := by
    rw [tx_pad_tx_flags hpad, (tx_make_room_tx_flags hroom).1]
  obtain ⟨f1, f2, f3⟩ := tx_fill_header_read lp skb2 (tx_frame_length cfg skb)
  generalize tx_fill_header lp skb2 0 (tx_frame_length cfg skb) = skb3 at hr1 f1 f2 f3
  obtain ⟨c1, c2, c3, c4, c5, c6, c7, c8, c9, c10, c11⟩ :=
    tx_commit_nonptp { lp with queue_stopped := b } skb3 addr (tx_wu_length cfg skb) hav
  have hmmio := tx_commit_chain { lp with queue_stopped := b } skb3 false addr
    (tx_wu_length cfg skb)
  rw [← hr1] at c1 c2 c3 c4 c5 c6 c7 c8 c9 c10 c11 hmmio
  simp only at c1 c2 c3 c4 c5 c6 c7 c8 c9 c10 c11 hmmio
  have hm : r1.mmio =
      ⟨mmio_reg.tx_dma_cfg, u32 (TX_DMA_CFG_COMMON ||| DMA_CFG_FLOW_DSCL)⟩ ::
        ⟨mmio_reg.tx_dma_dscptr_nxt, u32 (adi_msp_tx_dma lp lp.tx_chain_head)⟩ :: lp.mmio := by
    by_cases hs : lp.tx_chain_status = chain_status.EMPTY
    · exact (hmmio.1 hhalt hs).2.2.2.2
    · exact (hmmio.2.1 hhalt (chain_status_ne_empty hs)).2.2.2.2
  refine ⟨by omega, c1, ⟨c3, c4, c5⟩, c6, hm, ?_⟩
  clear hmmio hm hr1 hr
  have hlt : lp.next_nonptp_frame_tag < 256 := by
    have := tag_succ_in_pool hlast
    rw [← hnext] at this
    simp [in_pool, max_tag] at this
    omega
  have hwu : adi_msp_status_wu (status_wu_arrives r1 lp.tx_next_done wu regs)
      (status_wu_arrives r1 lp.tx_next_done wu regs).tx_next_done = wu := by
    simp [adi_msp_status_wu, status_wu_arrives, c9]
  have hdec : decide (wu.byte0 &&& TX_STATUS_WU_PTP ≠ 0) = false := by rw [hptp]; decide
  have hok := adi_msp_status_slot_ok (status_wu_arrives r1 lp.tx_next_done wu regs) skb3
    hready (by rw [hwu]; exact htype)
    (by simp [status_wu_arrives, c7, c9, hslot])
    (by rw [hwu, hdec, htag, hnext]; exact tag_succ_in_pool hlast)
    (by rw [hwu, hdec, htag, hnext]; simp [last_frame_tag, status_wu_arrives, c2])
    (by rw [hwu, htag, f2, Nat.mod_eq_of_lt hlt])
  rw [hwu, hdec] at hok
  refine ⟨_, hok, ?_⟩
  obtain ⟨q, hq⟩ := status_wake_queue_eq
    (put_frame_tag
      { status_wu_arrives r1 lp.tx_next_done wu regs with
        tx_skb := ring_set (status_wu_arrives r1 lp.tx_next_done wu regs).tx_skb
          (status_wu_arrives r1 lp.tx_next_done wu regs).tx_next_done none
        tx_count := (status_wu_arrives r1 lp.tx_next_done wu regs).tx_count - 1 }
      wu.frame_tag false).2
  have hpa := put_frame_tag_available
    { status_wu_arrives r1 lp.tx_next_done wu regs with
      tx_skb := ring_set (status_wu_arrives r1 lp.tx_next_done wu regs).tx_skb
        (status_wu_arrives r1 lp.tx_next_done wu regs).tx_next_done none
      tx_count := (status_wu_arrives r1 lp.tx_next_done wu regs).tx_count - 1 }
    wu.frame_tag false
  rw [if_pos (by rw [htag, hnext]; exact tag_succ_in_pool hlast)] at hpa
  simp only [available_count, Bool.false_eq_true, if_false] at hpa
  rw [hq, status_report_ok _ _ _ herr (by rw [f1, hflags, hnip])]
  have hfl : tx_frame_length cfg skb % 65536 =
      (if cfg.tx_padding then max skb.len 60 else skb.len) := by
    unfold tx_frame_length TX_MIN_FRAME_SIZE
    split <;> simp <;> omega
  simp only [status_reset_desc_and_wu, writel, put_frame_tag_stats, put_frame_tag_consumed,
    put_frame_tag_tx_count, hpa, f3, hfl]
  simp [status_wu_arrives, c1, c6, c8, c11]

set_option maxRecDepth 8000 in
theorem tx_round_trip_witness :
    (tx_skb_of_len 64).len = 64 ∧ adi_msp_opened.tx_count = 0 ∧
    DMA_STAT_RUN adi_msp_opened.tx_dma_regs.stat = 0 ∧
    (tx_example_sent ⟨false, true⟩ 64).tx_count = adi_msp_opened.tx_count + 1 ∧
    ∃ r2, adi_msp_status_slot (tx_example_completed ⟨false, true⟩ 64) = status_step.done r2 ∧
      r2.stats.tx_packets = adi_msp_opened.stats.tx_packets + 1 ∧
      r2.stats.tx_bytes = adi_msp_opened.stats.tx_bytes + 64 ∧
      r2.tx_count = adi_msp_opened.tx_count :=
  ⟨by decide, by decide, by decide,
    (tx_round_trip ⟨false, true⟩ adi_msp_opened (tx_example_sent ⟨false, true⟩ 64)
      (tx_skb_of_len 64) true (some 0x20000)
      { timestamp0 := 3 + 256 * 1, timestamp1 := 0, timestamp2 := 0, timestamp3 := 0 }
      { dscptr_prv := 0, addr_cur := 0, stat := 0 }
      (by decide) (by decide) (by decide) (by decide) (by decide) (by decide) (by decide)
      (by decide) (tx_example_sent_eq _ _) (by decide) (by decide) (by decide) (by decide)
      (by decide) (by decide)).2.2.2.1,
    (tx_round_trip ⟨false, true⟩ adi_msp_opened (tx_example_sent ⟨false, true⟩ 64)
      (tx_skb_of_len 64) true (some 0x20000)
      { timestamp0 := 3 + 256 * 1, timestamp1 := 0, timestamp2 := 0, timestamp3 := 0 }
      { dscptr_prv := 0, addr_cur := 0, stat := 0 }
      (by decide) (by decide) (by decide) (by decide) (by decide) (by decide) (by decide)
      (by decide) (tx_example_sent_eq _ _) (by decide) (by decide) (by decide) (by decide)
      (by decide) (by decide)).2.2.2.2.2.imp
      (fun _ h => ⟨h.1, h.2.1, h.2.2.1, h.2.2.2.2.2.1⟩)⟩

/-! ### Receive path -/

theorem skb_frame_bytes_eth_type_trans (skb : sk_buff) :
    skb_frame_bytes (eth_type_trans skb) =
      (List.range skb.len).map (fun j => skb.buf (skb.data + j)) := by
  unfold eth_type_trans skb_pull skb_frame_bytes
  dsimp only
  split_ifs with h
  · simp
  · have : skb.data + 14 + (skb.len - 14) - skb.data = skb.len := by omega
    simp [this]

theorem rx_sof_on_empty (lp : adi_msp_private) (skb : sk_buff)
    (hempty : lp.prev_rx_skb_count = 0)
    (htype : skb_data_at skb 0 &&& WU_TYPE_MASK = WU_TYPE_RX_DATA)
    (hres : skb_data_at skb 0 &&& RX_DATA_WU_HEADER_RESERVED_BITS = 0)
    (hsof : skb_data_at skb 0 &&& RX_DATA_WU_HEADER_SOF ≠ 0) :
    adi_msp_rx_wu lp skb =
      some ({ lp with prev_rx_skb := ring_set lp.prev_rx_skb 0 (some skb),
                      prev_rx_skb_count := 1 }, 0) := by
  unfold adi_msp_rx_wu
  dsimp only
  rw [if_pos ⟨htype, hres⟩, if_pos hsof, if_neg (by omega)]

theorem rx_status_on_one (lp : adi_msp_private) (skb : sk_buff)
    (hone : lp.prev_rx_skb_count = 1)
    (htype : skb_data_at skb 0 &&& WU_TYPE_MASK = WU_TYPE_RX_STAT)
    (hres : skb_data_at skb 0 &&& RX_STAT_WU_HEADER_RESERVED_BITS = 0)
    (herr : skb_data_at skb 0 &&& RX_STAT_WU_HEADER_ERR = 0)
    (hdrop : skb_data_at skb 0 &&& RX_STAT_WU_HEADER_DROPPED_ERR = 0) :
    adi_msp_rx_wu lp skb = (rx_deliver lp skb).map (fun lp => (lp, 1)) := by
  unfold adi_msp_rx_wu
  dsimp only
  rw [if_neg (by rw [htype]; simp), if_pos ⟨htype, hres⟩, if_neg (not_not.mpr hdrop),
    if_neg (not_not.mpr herr), if_neg (by omega), if_neg (by rw [hone]; simp)]

/-- C10 (as stated, refuted): with an empty reassembly set and the 1537-byte
buffers the driver allocates, a start-of-frame data work unit followed by a
status work unit with reserved, error and dropped bits clear whose frame
length field is 65535 hands no frame upstream: `skb_put` is asked for 65537
bytes and panics. -/
theorem rx_deliver_overlong_panics :
    adi_msp_opened.prev_rx_skb_count = 0 ∧
    (status_wu_of_skb (rx_example_status 65535)).frame_len = 65535 ∧
    ((adi_msp_rx_wu adi_msp_opened rx_example_data).bind
      (fun r => adi_msp_rx_wu r.1 (rx_example_status 65535))).isNone = true := by
  decide

/-- C10 (amended): with an empty reassembly set, when `adi_msp_rx` processes
a start-of-frame data work unit in a fresh receive buffer and then a status
work unit with reserved, error and dropped bits clear and frame length field
L, where L + 2 bytes fit in the data buffer (so for every L up to 1535 with
the `RX_WU_BUF_SIZE` = 1537 bytes the driver allocates): exactly one frame is
handed upstream, its payload is the L bytes that follow the 2-byte data
header of the data work unit, `rx_packets` goes up by exactly 1, `rx_bytes` by
exactly L, `rx_errors` is unchanged, the status buffer is released and the
reassembly set is empty afterwards. -/
theorem rx_deliver_frame (lp : adi_msp_private) (skb_d skb_s : sk_buff) (L : Nat)
    (hempty : lp.prev_rx_skb_count = 0)
    (hd_type : skb_data_at skb_d 0 &&& WU_TYPE_MASK = WU_TYPE_RX_DATA)
    (hd_res : skb_data_at skb_d 0 &&& RX_DATA_WU_HEADER_RESERVED_BITS = 0)
    (hd_sof : skb_data_at skb_d 0 &&& RX_DATA_WU_HEADER_SOF ≠ 0)
    (hd_fresh : skb_d.len = 0)
    (hs_type : skb_data_at skb_s 0 &&& WU_TYPE_MASK = WU_TYPE_RX_STAT)
    (hs_res : skb_data_at skb_s 0 &&& RX_STAT_WU_HEADER_RESERVED_BITS = 0)
    (hs_err : skb_data_at skb_s 0 &&& RX_STAT_WU_HEADER_ERR = 0)
    (hs_drop : skb_data_at skb_s 0 &&& RX_STAT_WU_HEADER_DROPPED_ERR = 0)
    (hL : (status_wu_of_skb skb_s).frame_len = L)
    (hroom : skb_d.data + (L + 2) ≤ skb_d.buf_end) :
    ∃ lp1 lp2 frame,
      adi_msp_rx_wu lp skb_d = some (lp1, 0) ∧ adi_msp_rx_wu lp1 skb_s = some (lp2, 1) ∧
      lp1.received = lp.received ∧
      lp2.received = frame :: lp.received ∧
      skb_frame_bytes frame =
        (List.range L).map (fun j => skb_data_at skb_d (RX_DATA_WU_HEADER_LEN + j)) ∧
      lp2.stats.rx_packets = lp.stats.rx_packets + 1 ∧
      lp2.stats.rx_bytes = lp.stats.rx_bytes + L ∧
      lp2.stats.rx_errors = lp.stats.rx_errors ∧
      lp2.consumed = skb_s :: lp.consumed ∧
      lp2.prev_rx_skb_count = 0 ∧ lp2.prev_rx_skb 0 = none := by
  have h1 := rx_sof_on_empty lp skb_d hempty hd_type hd_res hd_sof
  have h2 := rx_status_on_one
    { lp with prev_rx_skb := ring_set lp.prev_rx_skb 0 (some skb_d), prev_rx_skb_count := 1 }
    skb_s rfl hs_type hs_res hs_err hs_drop
  have hput : ∀ ts : Option Int,
      skb_put { skb_d with hwtstamp := ts } (L + 2) =
        some { skb_d with hwtstamp := ts, len := L + 2 } := by
    intro ts
    unfold skb_put
    rw [if_neg (by simp only [hd_fresh]; omega)]
    simp [hd_fresh]
  have hput2 : skb_put skb_d (L + 2) = some { skb_d with len := L + 2 } := by
    unfold skb_put
    rw [if_neg (by simp only [hd_fresh]; omega)]
    simp [hd_fresh]
  have hpull : ∀ sk : sk_buff, sk.len = L + 2 →
      (skb_pull sk 2).len = L ∧ (skb_pull sk 2).data = sk.data + 2 ∧
      (skb_pull sk 2).buf = sk.buf := by
    intro sk hsk
    unfold skb_pull
    rw [if_neg (by omega)]
    simp [hsk]
  unfold rx_deliver at h2
  simp only [ring_set_same, hL, RX_DATA_WU_HEADER_LEN] at h2
  by_cases hts : lp.hwtstamp_rx_en = true
  · rw [if_pos hts] at h2
    simp only [hput, Option.map_some', napi_consume_skb] at h2
    obtain ⟨p1, p2, p3⟩ := hpull { skb_d with
      hwtstamp := some (ns_to_ktime (get_timestamp_ns (status_wu_of_skb skb_s))),
      len := L + 2 } rfl
    refine ⟨_, _, _, h1, h2, rfl, rfl, ?_, rfl, rfl, rfl, rfl, rfl, ?_⟩
    · rw [skb_frame_bytes_eth_type_trans, p1, p2, p3]
      simp [skb_data_at, Nat.add_assoc]
    · simp
  · rw [if_neg hts] at h2
    simp only [hput2, Option.map_some', napi_consume_skb] at h2
    obtain ⟨p1, p2, p3⟩ := hpull { skb_d with len := L + 2 } rfl
    refine ⟨_, _, _, h1, h2, rfl, rfl, ?_, rfl, rfl, rfl, rfl, rfl, ?_⟩
    · rw [skb_frame_bytes_eth_type_trans, p1, p2, p3]
      simp [skb_data_at, Nat.add_assoc]
    · simp

theorem rx_deliver_frame_witness :
    adi_msp_opened.prev_rx_skb_count = 0 ∧
    (status_wu_of_skb (rx_example_status 46)).frame_len = 46 ∧
    ∃ lp1 lp2 frame,
      adi_msp_rx_wu adi_msp_opened rx_example_data = some (lp1, 0) ∧
      adi_msp_rx_wu lp1 (rx_example_status 46) = some (lp2, 1) ∧
      lp2.received = frame :: adi_msp_opened.received ∧
      lp2.stats.rx_bytes = adi_msp_opened.stats.rx_bytes + 46 :=
  ⟨by decide, by decide,
    (rx_deliver_frame adi_msp_opened rx_example_data (rx_example_status 46) 46 (by decide)
      (by decide) (by decide) (by decide) (by decide) (by decide) (by decide) (by decide)
      (by decide) (by decide) (by decide)).imp
      (fun _ h => h.imp (fun _ h => h.imp (fun _ h => ⟨h.1, h.2.1, h.2.2.2.1, h.2.2.2.2.2.2.1⟩)))⟩

/-! ### Receive path: protocol violations -/

theorem drop_prev_rx_skb_from_eq (n : Nat) : ∀ (lp : adi_msp_private) (i : Nat),
    drop_prev_rx_skb_from lp n i =
      { lp with
        prev_rx_skb := fun j => if i ≤ j ∧ j < i + n then none else lp.prev_rx_skb j
        prev_rx_skb_count := 0
        consumed := ((List.range n).filterMap (fun k => lp.prev_rx_skb (i + k))).reverse ++
          lp.consumed } := by
  induction n with
  | zero =>
    intro lp i
    have hfun : (fun j => if i ≤ j ∧ j < i + 0 then none else lp.prev_rx_skb j) =
        lp.prev_rx_skb := by
      funext j
      rw [if_neg (by omega)]
    simp only [drop_prev_rx_skb_from, hfun, List.range_zero, List.filterMap_nil,
      List.reverse_nil, List.nil_append]
  | succ n ih =>
    intro lp i
    unfold drop_prev_rx_skb_from
    dsimp only
    rw [ih]
    have hfun : ∀ (f : Nat → Option sk_buff),
        (fun j => if i + 1 ≤ j ∧ j < i + 1 + n then none else ring_set f i none j) =
        (fun j => if i ≤ j ∧ j < i + (n + 1) then none else f j) := by
      intro f
      funext j
      unfold ring_set
      by_cases h1 : j = i
      · subst h1; simp
      · by_cases h2 : i + 1 ≤ j ∧ j < i + 1 + n
        · rw [if_pos h2, if_pos (by omega)]
        · rw [if_neg h2, if_neg h1, if_neg (by omega)]
    have hlist : ∀ (f : Nat → Option sk_buff),
        (List.range n).filterMap (fun k => ring_set f i none (i + 1 + k)) =
        (List.range n).filterMap (fun k => f (i + (k + 1))) := by
      intro f
      congr 1
      funext k
      rw [ring_set_ne _ _ _ (by omega)]
      congr 1
      omega
    rw [List.range_succ_eq_map, List.filterMap_cons, List.filterMap_map]
    cases hp : lp.prev_rx_skb i with
    | none =>
      simp only [hfun, hlist, Nat.add_zero, hp, Function.comp_def]
    | some b =>
      simp only [hfun, hlist, Nat.add_zero, hp, Function.comp_def, napi_consume_skb,
        List.reverse_cons, List.append_assoc, List.singleton_append]

theorem adi_msp_drop_prev_rx_skb_eq (lp : adi_msp_private) :
    adi_msp_drop_prev_rx_skb lp =
      { lp with
        prev_rx_skb := fun j => if j < lp.prev_rx_skb_count then none else lp.prev_rx_skb j
        prev_rx_skb_count := 0
        consumed := (prev_rx_skb_list lp).reverse ++ lp.consumed } := by
  unfold adi_msp_drop_prev_rx_skb prev_rx_skb_list
  rw [drop_prev_rx_skb_from_eq]
  simp

theorem rx_set_and_drop_eq (lp : adi_msp_private) (skb : sk_buff) :
    rx_set_and_drop lp skb =
      { lp with
        prev_rx_skb := fun j => if j < 1 then none else lp.prev_rx_skb j
        prev_rx_skb_count := 0
        consumed := skb :: lp.consumed
        stats := { lp.stats with rx_errors := lp.stats.rx_errors + 1 } } := by
  unfold rx_set_and_drop
  dsimp only
  rw [adi_msp_drop_prev_rx_skb_eq]
  have hfun : (fun j => if j < 1 then none else ring_set lp.prev_rx_skb 0 (some skb) j) =
      (fun j => if j < 1 then none else lp.prev_rx_skb j) := by
    funext j
    by_cases h : j < 1
    · rw [if_pos h, if_pos h]
    · rw [if_neg h, if_neg h, ring_set_ne _ _ _ (by omega)]
  have hlist : (List.range 1).filterMap (ring_set lp.prev_rx_skb 0 (some skb)) = [skb] := by
    simp [List.range_succ]
  simp only [rx_count_error, prev_rx_skb_list, hfun, hlist, List.reverse_singleton,
    List.singleton_append]

theorem rx_append_and_drop_eq (lp : adi_msp_private) (skb : sk_buff) :
    rx_append_and_drop lp skb =
      { lp with
        prev_rx_skb := fun j => if j < lp.prev_rx_skb_count + 1 then none else lp.prev_rx_skb j
        prev_rx_skb_count := 0
        consumed := (prev_rx_skb_list lp ++ [skb]).reverse ++ lp.consumed
        stats := { lp.stats with rx_errors := lp.stats.rx_errors + 1 } } := by
  unfold rx_append_and_drop
  dsimp only
  rw [adi_msp_drop_prev_rx_skb_eq]
  have hfun : (fun j => if j < lp.prev_rx_skb_count + 1 then none
        else ring_set lp.prev_rx_skb lp.prev_rx_skb_count (some skb) j) =
      (fun j => if j < lp.prev_rx_skb_count + 1 then none else lp.prev_rx_skb j) := by
    funext j
    by_cases h : j < lp.prev_rx_skb_count + 1
    · rw [if_pos h, if_pos h]
    · rw [if_neg h, if_neg h, ring_set_ne _ _ _ (by omega)]
  have hlist : (List.range (lp.prev_rx_skb_count + 1)).filterMap
        (ring_set lp.prev_rx_skb lp.prev_rx_skb_count (some skb)) =
      prev_rx_skb_list lp ++ [skb] := by
    unfold prev_rx_skb_list
    rw [List.range_succ, List.filterMap_append]
    congr 1
    · apply List.filterMap_congr
      intro x hx
      rw [ring_set_ne _ _ _ (by simp at hx; omega)]
    · simp
  simp only [rx_count_error, prev_rx_skb_list] at hlist ⊢
  simp only [hfun, hlist]

theorem adi_msp_rx_slot_done (lp : adi_msp_private) (a : rx_alloc_result)
    (skb skb_new : sk_buff) (addr : Nat)
    (hskb : lp.rx_skb lp.rx_next_done = some skb) (hready : ¬ rx_slot_not_ready lp skb)
    (hnew : a.skb = some skb_new) (hal : a.aligned = true) (hdma : a.dma = some addr) :
    adi_msp_rx_slot lp a =
      (adi_msp_rx_wu
        { lp with
          rx_skb := ring_set lp.rx_skb lp.rx_next_done (some (skb_set_data0 skb_new 0))
          rx_skb_dma := ring_set lp.rx_skb_dma lp.rx_next_done addr } skb).map
        (fun p => rx_step.done (rx_rearm p.1 lp.rx_next_done) p.2) := by
  unfold adi_msp_rx_slot
  simp only [hskb, hnew, hdma, hal, if_neg hready]
  cases adi_msp_rx_wu
    { lp with
      rx_skb := ring_set lp.rx_skb lp.rx_next_done (some (skb_set_data0 skb_new 0))
      rx_skb_dma := ring_set lp.rx_skb_dma lp.rx_next_done addr } skb with
  | none => rfl
  | some p => rfl

theorem rx_wu_continuation_on_empty (lp : adi_msp_private) (skb : sk_buff)
    (hempty : lp.prev_rx_skb_count = 0)
    (htype : skb_data_at skb 0 &&& WU_TYPE_MASK = WU_TYPE_RX_DATA)
    (hres : skb_data_at skb 0 &&& RX_DATA_WU_HEADER_RESERVED_BITS = 0)
    (hsof : skb_data_at skb 0 &&& RX_DATA_WU_HEADER_SOF = 0) :
    adi_msp_rx_wu lp skb = some (rx_set_and_drop lp skb, 0) := by
  unfold adi_msp_rx_wu
  dsimp only
  rw [if_pos ⟨htype, hres⟩, if_neg (not_not.mpr hsof), if_pos hempty]

theorem rx_wu_sof (lp : adi_msp_private) (skb : sk_buff)
    (htype : skb_data_at skb 0 &&& WU_TYPE_MASK = WU_TYPE_RX_DATA)
    (hres : skb_data_at skb 0 &&& RX_DATA_WU_HEADER_RESERVED_BITS = 0)
    (hsof : skb_data_at skb 0 &&& RX_DATA_WU_HEADER_SOF ≠ 0) :
    adi_msp_rx_wu lp skb =
      some ({ (if lp.prev_rx_skb_count > 0 then rx_count_error (adi_msp_drop_prev_rx_skb lp)
               else lp) with
              prev_rx_skb :=
                ring_set (if lp.prev_rx_skb_count > 0 then
                  rx_count_error (adi_msp_drop_prev_rx_skb lp) else lp).prev_rx_skb 0 (some skb)
              prev_rx_skb_count := 1 }, 0) := by
  unfold adi_msp_rx_wu
  dsimp only
  rw [if_pos ⟨htype, hres⟩, if_pos hsof]

theorem rx_wu_status_error (lp : adi_msp_private) (skb : sk_buff)
    (htype : skb_data_at skb 0 &&& WU_TYPE_MASK = WU_TYPE_RX_STAT)
    (hres : skb_data_at skb 0 &&& RX_STAT_WU_HEADER_RESERVED_BITS = 0)
    (hbad : skb_data_at skb 0 &&& RX_STAT_WU_HEADER_ERR ≠ 0 ∨
      skb_data_at skb 0 &&& RX_STAT_WU_HEADER_DROPPED_ERR ≠ 0) :
    adi_msp_rx_wu lp skb = some (rx_append_and_drop lp skb, 1) := by
  unfold adi_msp_rx_wu
  dsimp only
  rw [if_neg (by rw [htype]; simp), if_pos ⟨htype, hres⟩]
  by_cases hd : skb_data_at skb 0 &&& RX_STAT_WU_HEADER_DROPPED_ERR ≠ 0
  · rw [if_pos hd]
  · rw [if_neg hd]
    rcases hbad with he | hd2
    · rw [if_pos he]
    · exact absurd hd2 hd

/-- C11: when the loop body of `adi_msp_rx` processes a completed data work
unit (type `RX_DATA`, reserved bits clear) without the start-of-frame bit
while the reassembly set is empty, no frame is handed upstream, the buffer of
the work unit is released, `rx_errors` goes up by exactly 1, `rx_packets` and
`rx_bytes` are unchanged, the reassembly set is empty afterwards, and `count`
is not increased. -/
theorem rx_continuation_without_sof (lp : adi_msp_private) (a : rx_alloc_result)
    (skb skb_new : sk_buff) (addr : Nat)
    (hskb : lp.rx_skb lp.rx_next_done = some skb) (hready : ¬ rx_slot_not_ready lp skb)
    (hnew : a.skb = some skb_new) (hal : a.aligned = true) (hdma : a.dma = some addr)
    (htype : skb_data_at skb 0 &&& WU_TYPE_MASK = WU_TYPE_RX_DATA)
    (hres : skb_data_at skb 0 &&& RX_DATA_WU_HEADER_RESERVED_BITS = 0)
    (hsof : skb_data_at skb 0 &&& RX_DATA_WU_HEADER_SOF = 0)
    (hempty : lp.prev_rx_skb_count = 0) :
    ∃ r, adi_msp_rx_slot lp a = some (rx_step.done r 0) ∧
      r.received = lp.received ∧
      r.consumed = skb :: lp.consumed ∧
      r.stats.rx_errors = lp.stats.rx_errors + 1 ∧
      r.stats.rx_packets = lp.stats.rx_packets ∧
      r.stats.rx_bytes = lp.stats.rx_bytes ∧
      r.prev_rx_skb_count = 0 ∧ r.prev_rx_skb 0 = none := by
  rw [adi_msp_rx_slot_done lp a skb skb_new addr hskb hready hnew hal hdma,
    rx_wu_continuation_on_empty
      { lp with
        rx_skb := ring_set lp.rx_skb lp.rx_next_done (some (skb_set_data0 skb_new 0))
        rx_skb_dma := ring_set lp.rx_skb_dma lp.rx_next_done addr }
      skb hempty htype hres hsof, rx_set_and_drop_eq]
  exact ⟨_, rfl, rfl, rfl, rfl, rfl, rfl, rfl, rfl⟩

set_option maxRecDepth 8000 in
theorem rx_continuation_without_sof_witness :
    (rx_example_with rx_example_continuation).prev_rx_skb_count = 0 ∧
    skb_data_at rx_example_continuation 0 &&& RX_DATA_WU_HEADER_SOF = 0 ∧
    ∃ r, adi_msp_rx_slot (rx_example_with rx_example_continuation) (rx_alloc_ok 200) =
        some (rx_step.done r 0) ∧
      r.received = (rx_example_with rx_example_continuation).received ∧
      r.consumed = rx_example_continuation :: (rx_example_with rx_example_continuation).consumed ∧
      r.stats.rx_errors = (rx_example_with rx_example_continuation).stats.rx_errors + 1 :=
  ⟨by decide, by decide,
    (rx_continuation_without_sof (rx_example_with rx_example_continuation) (rx_alloc_ok 200)
      rx_example_continuation rx_example_fresh (0x10000 + 0x1000 * 200) rfl (by decide) rfl rfl
      rfl (by decide) (by decide) (by decide) (by decide)).imp
      (fun _ h => ⟨h.1, h.2.1, h.2.2.1, h.2.2.2.1⟩)⟩

/-- C12: when the loop body of `adi_msp_rx` processes a completed
start-of-frame data work unit, no frame is handed upstream and afterwards the
reassembly set holds exactly one buffer, the new work unit. If the set was not
empty, every buffer of the old set is released and `rx_errors` goes up by
exactly 1; if it was empty, nothing is released and `rx_errors` is unchanged. -/
theorem rx_start_of_frame (lp : adi_msp_private) (a : rx_alloc_result)
    (skb skb_new : sk_buff) (addr : Nat)
    (hskb : lp.rx_skb lp.rx_next_done = some skb) (hready : ¬ rx_slot_not_ready lp skb)
    (hnew : a.skb = some skb_new) (hal : a.aligned = true) (hdma : a.dma = some addr)
    (htype : skb_data_at skb 0 &&& WU_TYPE_MASK = WU_TYPE_RX_DATA)
    (hres : skb_data_at skb 0 &&& RX_DATA_WU_HEADER_RESERVED_BITS = 0)
    (hsof : skb_data_at skb 0 &&& RX_DATA_WU_HEADER_SOF ≠ 0)
    (_hbound : lp.prev_rx_skb_count ≤ PREV_RX_SKB_NUM) :
    ∃ r, adi_msp_rx_slot lp a = some (rx_step.done r 0) ∧
      r.received = lp.received ∧
      r.stats.rx_packets = lp.stats.rx_packets ∧ r.stats.rx_bytes = lp.stats.rx_bytes ∧
      r.prev_rx_skb_count = 1 ∧ r.prev_rx_skb 0 = some skb ∧ prev_rx_skb_list r = [skb] ∧
      (0 < lp.prev_rx_skb_count →
        r.consumed = (prev_rx_skb_list lp).reverse ++ lp.consumed ∧
        r.stats.rx_errors = lp.stats.rx_errors + 1) ∧
      (lp.prev_rx_skb_count = 0 →
        r.consumed = lp.consumed ∧ r.stats.rx_errors = lp.stats.rx_errors) := by
  rw [adi_msp_rx_slot_done lp a skb skb_new addr hskb hready hnew hal hdma,
    rx_wu_sof _ skb htype hres hsof]
  refine ⟨_, rfl, ?_⟩
  by_cases hc : lp.prev_rx_skb_count > 0
  · have hc2 : 0 < lp.prev_rx_skb_count := hc
    have hc3 : lp.prev_rx_skb_count ≠ 0 := by omega
    simp [rx_rearm, writel, hc2, hc3, adi_msp_drop_prev_rx_skb_eq, rx_count_error,
      prev_rx_skb_list, List.range_succ]
  · have hc2 : lp.prev_rx_skb_count = 0 := by omega
    simp [rx_rearm, writel, hc2, prev_rx_skb_list, List.range_succ]

set_option maxRecDepth 8000 in
theorem rx_start_of_frame_witness :
    (rx_example_pending_with rx_example_data).prev_rx_skb_count = 1 ∧
    ∃ r, adi_msp_rx_slot (rx_example_pending_with rx_example_data) (rx_alloc_ok 201) =
        some (rx_step.done r 0) ∧
      r.prev_rx_skb_count = 1 ∧
      r.stats.rx_errors = (rx_example_pending_with rx_example_data).stats.rx_errors + 1 :=
  ⟨by decide,
    (rx_start_of_frame (rx_example_pending_with rx_example_data) (rx_alloc_ok 201)
      rx_example_data rx_example_fresh (0x10000 + 0x1000 * 201) rfl (by decide) rfl rfl
      rfl (by decide) (by decide) (by decide) (by decide)).imp
      (fun _ h => ⟨h.1, h.2.2.2.2.1, (h.2.2.2.2.2.2.2.1 (by decide)).2⟩)⟩

/-- C13: when the loop body of `adi_msp_rx` processes a completed receive
status work unit (type `RX_STAT`, reserved bits clear) whose error bit or
dropped bit is set, then for every content of the reassembly set, the empty
one included: no frame is handed upstream, every pending buffer and then the
status buffer are released, `rx_errors` goes up by exactly 1, `rx_packets` and
`rx_bytes` are unchanged, the reassembly set is empty afterwards, and `count`
goes up by 1. -/
theorem rx_status_error_or_dropped (lp : adi_msp_private) (a : rx_alloc_result)
    (skb skb_new : sk_buff) (addr : Nat)
    (hskb : lp.rx_skb lp.rx_next_done = some skb) (hready : ¬ rx_slot_not_ready lp skb)
    (hnew : a.skb = some skb_new) (hal : a.aligned = true) (hdma : a.dma = some addr)
    (htype : skb_data_at skb 0 &&& WU_TYPE_MASK = WU_TYPE_RX_STAT)
    (hres : skb_data_at skb 0 &&& RX_STAT_WU_HEADER_RESERVED_BITS = 0)
    (hbad : skb_data_at skb 0 &&& RX_STAT_WU_HEADER_ERR ≠ 0 ∨
      skb_data_at skb 0 &&& RX_STAT_WU_HEADER_DROPPED_ERR ≠ 0)
    (_hbound : lp.prev_rx_skb_count < PREV_RX_SKB_NUM) :
    ∃ r, adi_msp_rx_slot lp a = some (rx_step.done r 1) ∧
      r.received = lp.received ∧
      r.consumed = (prev_rx_skb_list lp ++ [skb]).reverse ++ lp.consumed ∧
      r.stats.rx_errors = lp.stats.rx_errors + 1 ∧
      r.stats.rx_packets = lp.stats.rx_packets ∧
      r.stats.rx_bytes = lp.stats.rx_bytes ∧
      r.prev_rx_skb_count = 0 ∧ prev_rx_skb_list r = [] ∧
      ∀ i, i ≤ lp.prev_rx_skb_count → r.prev_rx_skb i = none := by
  rw [adi_msp_rx_slot_done lp a skb skb_new addr hskb hready hnew hal hdma,
    rx_wu_status_error _ skb htype hres hbad, rx_append_and_drop_eq]
  refine ⟨_, rfl, rfl, rfl, rfl, rfl, rfl, rfl, rfl, ?_⟩
  intro i hi
  simp only [rx_rearm, writel, Option.map_some']
  rw [if_pos (by omega)]

set_option maxRecDepth 8000 in
theorem rx_status_error_or_dropped_witness :
    (rx_example_pending_with rx_example_status_error).prev_rx_skb_count = 1 ∧
    skb_data_at rx_example_status_error 0 &&& RX_STAT_WU_HEADER_ERR ≠ 0 ∧
    ∃ r, adi_msp_rx_slot (rx_example_pending_with rx_example_status_error) (rx_alloc_ok 201) =
        some (rx_step.done r 1) ∧
      r.received = (rx_example_pending_with rx_example_status_error).received ∧
      r.stats.rx_errors =
        (rx_example_pending_with rx_example_status_error).stats.rx_errors + 1 ∧
      r.prev_rx_skb_count = 0 :=
  ⟨by decide, by decide,
    (rx_status_error_or_dropped (rx_example_pending_with rx_example_status_error)
      (rx_alloc_ok 201) rx_example_status_error rx_example_fresh (0x10000 + 0x1000 * 201) rfl
      (by decide) rfl rfl rfl (by decide) (by decide) (Or.inl (by decide)) (by decide)).imp
      (fun _ h => ⟨h.1, h.2.1, h.2.2.2.1, h.2.2.2.2.2.2.1⟩)⟩

theorem adi_msp_rx_wus_append (l1 l2 : List sk_buff) : ∀ lp : adi_msp_private,
    adi_msp_rx_wus lp (l1 ++ l2) = (adi_msp_rx_wus lp l1).bind (fun r => adi_msp_rx_wus r l2) := by
  induction l1 with
  | nil => intro lp; rfl
  | cons a t ih =>
    intro lp
    simp only [List.cons_append, adi_msp_rx_wus]
    cases adi_msp_rx_wu lp a with
    | none => rfl
    | some p => exact ih p.1

theorem rx_wu_delivers_only_on_one (lp r : adi_msp_private) (skb : sk_buff) (inc : Int)
    (h : adi_msp_rx_wu lp skb = some (r, inc)) (hrec : r.received ≠ lp.received) :
    skb_data_at skb 0 &&& WU_TYPE_MASK = WU_TYPE_RX_STAT ∧
    skb_data_at skb 0 &&& RX_STAT_WU_HEADER_RESERVED_BITS = 0 ∧
    skb_data_at skb 0 &&& RX_STAT_WU_HEADER_DROPPED_ERR = 0 ∧
    skb_data_at skb 0 &&& RX_STAT_WU_HEADER_ERR = 0 ∧
    lp.prev_rx_skb_count = 1 := by
  unfold adi_msp_rx_wu at h
  dsimp only at h
  have hdrop : ∀ lp1 : adi_msp_private,
      (rx_count_error (adi_msp_drop_prev_rx_skb lp1)).received = lp1.received := by
    intro lp1
    rw [adi_msp_drop_prev_rx_skb_eq]
    rfl
  split_ifs at h with c1 c2 c3 c4 c5 c6 c7 c8 c9 c10
  all_goals first
    | (simp only [Option.some.injEq, Prod.mk.injEq] at h
       obtain ⟨h, _⟩ := h
       subst h
       first
         | exact absurd rfl hrec
         | exact absurd (hdrop _) hrec)
    | skip
  · simp only [DATA_WU_PER_FRAME, RX_MAX_FRAME_SIZE, MTU, RX_WU_LEN] at c10
    refine ⟨c6.1, c6.2, by simpa using c7, by simpa using c8, by omega⟩

theorem rx_wu_continuation_step (lp : adi_msp_private) (skb : sk_buff)
    (htype : skb_data_at skb 0 &&& WU_TYPE_MASK = WU_TYPE_RX_DATA)
    (hres : skb_data_at skb 0 &&& RX_DATA_WU_HEADER_RESERVED_BITS = 0)
    (hsof : skb_data_at skb 0 &&& RX_DATA_WU_HEADER_SOF = 0)
    (hb : lp.prev_rx_skb_count < PREV_RX_SKB_NUM) :
    ∃ r, adi_msp_rx_wu lp skb = some (r, 0) ∧
      r.prev_rx_skb_count ≠ 1 ∧ r.prev_rx_skb_count < PREV_RX_SKB_NUM ∧
      r.received = lp.received ∧ lp.stats.rx_errors ≤ r.stats.rx_errors ∧
      r.stats.rx_packets = lp.stats.rx_packets ∧ r.stats.rx_bytes = lp.stats.rx_bytes := by
  unfold adi_msp_rx_wu
  dsimp only
  rw [if_pos ⟨htype, hres⟩, if_neg (not_not.mpr hsof)]
  simp only [PREV_RX_SKB_NUM] at hb ⊢
  by_cases h0 : lp.prev_rx_skb_count = 0
  · rw [if_pos h0, rx_set_and_drop_eq]
    exact ⟨_, rfl, by simp, by simp, rfl, by simp, rfl, rfl⟩
  · rw [if_neg h0]
    by_cases h5 : lp.prev_rx_skb_count = 6 - 1
    · rw [if_pos h5, rx_append_and_drop_eq]
      exact ⟨_, rfl, by simp, by simp, rfl, by simp, rfl, rfl⟩
    · rw [if_neg h5]
      refine ⟨_, rfl, ?_, ?_, rfl, le_refl _, rfl, rfl⟩
      · show lp.prev_rx_skb_count + 1 ≠ 1
        omega
      · show lp.prev_rx_skb_count + 1 < 6
        omega

theorem rx_wus_continuations (conts : List sk_buff) : ∀ lp : adi_msp_private,
    lp.prev_rx_skb_count < PREV_RX_SKB_NUM →
    (∀ c ∈ conts, skb_data_at c 0 &&& WU_TYPE_MASK = WU_TYPE_RX_DATA ∧
      skb_data_at c 0 &&& RX_DATA_WU_HEADER_RESERVED_BITS = 0 ∧
      skb_data_at c 0 &&& RX_DATA_WU_HEADER_SOF = 0) →
    ∃ r, adi_msp_rx_wus lp conts = some r ∧
      (conts ≠ [] ∨ lp.prev_rx_skb_count ≠ 1 → r.prev_rx_skb_count ≠ 1) ∧
      r.prev_rx_skb_count < PREV_RX_SKB_NUM ∧
      r.received = lp.received ∧ lp.stats.rx_errors ≤ r.stats.rx_errors ∧
      r.stats.rx_packets = lp.stats.rx_packets ∧ r.stats.rx_bytes = lp.stats.rx_bytes := by
  induction conts with
  | nil =>
    intro lp hb _
    exact ⟨lp, rfl, fun h => h.elim (fun h => absurd rfl h) id, hb, rfl, le_refl _, rfl, rfl⟩
  | cons c t ih =>
    intro lp hb hall
    obtain ⟨h1, h2, h3⟩ := hall c (List.mem_cons_self _ _)
    obtain ⟨r1, e1, a1, a2, a3, a4, a5, a6⟩ := rx_wu_continuation_step lp c h1 h2 h3 hb
    obtain ⟨r, e, b1, b2, b3, b4, b5, b6⟩ :=
      ih r1 a2 (fun x hx => hall x (List.mem_cons_of_mem _ hx))
    refine ⟨r, ?_, fun _ => b1 (Or.inr a1), b2, b3.trans a3, le_trans a4 b4, b5.trans a5,
      b6.trans a6⟩
    simp only [adi_msp_rx_wus, e1, Option.some_bind, e]

theorem rx_wu_status_not_one (lp : adi_msp_private) (skb : sk_buff)
    (htype : skb_data_at skb 0 &&& WU_TYPE_MASK = WU_TYPE_RX_STAT)
    (hres : skb_data_at skb 0 &&& RX_STAT_WU_HEADER_RESERVED_BITS = 0)
    (herr : skb_data_at skb 0 &&& RX_STAT_WU_HEADER_ERR = 0)
    (hdrop : skb_data_at skb 0 &&& RX_STAT_WU_HEADER_DROPPED_ERR = 0)
    (hne : lp.prev_rx_skb_count ≠ 1) :
    ∃ r inc, adi_msp_rx_wu lp skb = some (r, inc) ∧
      r.prev_rx_skb_count = 0 ∧ r.received = lp.received ∧
      r.stats.rx_errors = lp.stats.rx_errors + 1 ∧
      r.stats.rx_packets = lp.stats.rx_packets ∧ r.stats.rx_bytes = lp.stats.rx_bytes := by
  unfold adi_msp_rx_wu
  dsimp only
  rw [if_neg (by rw [htype]; simp), if_pos ⟨htype, hres⟩, if_neg (not_not.mpr hdrop),
    if_neg (not_not.mpr herr)]
  by_cases h0 : lp.prev_rx_skb_count = 0
  · rw [if_pos h0, rx_set_and_drop_eq]
    exact ⟨_, _, rfl, rfl, rfl, rfl, rfl, rfl⟩
  · rw [if_neg h0, if_pos (by simp only [DATA_WU_PER_FRAME, RX_MAX_FRAME_SIZE, MTU, RX_WU_LEN]; omega),
      rx_append_and_drop_eq]
    exact ⟨_, _, rfl, rfl, rfl, rfl, rfl, rfl⟩

/-- C18: `adi_msp_rx` hands a frame upstream only when a status work unit
finds exactly one work unit in the reassembly set (any work unit whose
processing adds to the frames handed upstream is of type `RX_STAT` and finds
`prev_rx_skb_count` = 1); and for every k >= 1, a start-of-frame data work
unit followed by k data work units without the start-of-frame bit and then a
status work unit with reserved, error and dropped bits clear hands no frame
upstream, increases `rx_errors`, leaves `rx_packets` and `rx_bytes` unchanged,
and leaves the reassembly set empty. -/
theorem rx_delivers_only_single_data_wu :
    (∀ (lp r : adi_msp_private) (skb : sk_buff) (inc : Int),
      adi_msp_rx_wu lp skb = some (r, inc) → r.received ≠ lp.received →
      skb_data_at skb 0 &&& WU_TYPE_MASK = WU_TYPE_RX_STAT ∧ lp.prev_rx_skb_count = 1) ∧
    (∀ (lp : adi_msp_private) (sof stat : sk_buff) (conts : List sk_buff),
      lp.prev_rx_skb_count < PREV_RX_SKB_NUM →
      (skb_data_at sof 0 &&& WU_TYPE_MASK = WU_TYPE_RX_DATA ∧
        skb_data_at sof 0 &&& RX_DATA_WU_HEADER_RESERVED_BITS = 0 ∧
        skb_data_at sof 0 &&& RX_DATA_WU_HEADER_SOF ≠ 0) →
      1 ≤ conts.length →
      (∀ c ∈ conts, skb_data_at c 0 &&& WU_TYPE_MASK = WU_TYPE_RX_DATA ∧
        skb_data_at c 0 &&& RX_DATA_WU_HEADER_RESERVED_BITS = 0 ∧
        skb_data_at c 0 &&& RX_DATA_WU_HEADER_SOF = 0) →
      (skb_data_at stat 0 &&& WU_TYPE_MASK = WU_TYPE_RX_STAT ∧
        skb_data_at stat 0 &&& RX_STAT_WU_HEADER_RESERVED_BITS = 0 ∧
        skb_data_at stat 0 &&& RX_STAT_WU_HEADER_ERR = 0 ∧
        skb_data_at stat 0 &&& RX_STAT_WU_HEADER_DROPPED_ERR = 0) →
      ∃ r, adi_msp_rx_wus lp (sof :: conts ++ [stat]) = some r ∧
        r.received = lp.received ∧
        lp.stats.rx_errors < r.stats.rx_errors ∧
        r.stats.rx_packets = lp.stats.rx_packets ∧ r.stats.rx_bytes = lp.stats.rx_bytes ∧
        r.prev_rx_skb_count = 0 ∧ prev_rx_skb_list r = []) := by
  constructor
  · intro lp r skb inc h hrec
    obtain ⟨h1, _, _, _, h5⟩ := rx_wu_delivers_only_on_one lp r skb inc h hrec
    exact ⟨h1, h5⟩
  · intro lp sof stat conts _ hsof hk hconts hstat
    have e0 := rx_wu_sof lp sof hsof.1 hsof.2.1 hsof.2.2
    have hdrop : ∀ lp1 : adi_msp_private,
        rx_count_error (adi_msp_drop_prev_rx_skb lp1) =
          { lp1 with
            prev_rx_skb := fun j => if j < lp1.prev_rx_skb_count then none else lp1.prev_rx_skb j
            prev_rx_skb_count := 0
            consumed := (prev_rx_skb_list lp1).reverse ++ lp1.consumed
            stats := { lp1.stats with rx_errors := lp1.stats.rx_errors + 1 } } := by
      intro lp1
      rw [adi_msp_drop_prev_rx_skb_eq]
      rfl
    obtain ⟨r0, e0', c1, c2, c3, c4, c5⟩ : ∃ r0, adi_msp_rx_wu lp sof = some (r0, 0) ∧
        r0.prev_rx_skb_count = 1 ∧ r0.received = lp.received ∧
        lp.stats.rx_errors ≤ r0.stats.rx_errors ∧
        r0.stats.rx_packets = lp.stats.rx_packets ∧ r0.stats.rx_bytes = lp.stats.rx_bytes := by
      refine ⟨_, e0, rfl, ?_⟩
      by_cases hc : lp.prev_rx_skb_count > 0
      · rw [if_pos hc, hdrop]
        exact ⟨rfl, Nat.le_succ _, rfl, rfl⟩
      · rw [if_neg hc]
        exact ⟨rfl, le_refl _, rfl, rfl⟩
    obtain ⟨r1, e1, b1, b2, b3, b4, b5, b6⟩ :=
      rx_wus_continuations conts r0 (by rw [c1]; simp) hconts
    have hne : conts ≠ [] := by
      intro h
      rw [h] at hk
      simp at hk
    obtain ⟨r2, inc, e2, d1, d2, d3, d4, d5⟩ :=
      rx_wu_status_not_one r1 stat hstat.1 hstat.2.1 hstat.2.2.1 hstat.2.2.2 (b1 (Or.inl hne))
    refine ⟨r2, ?_, by rw [d2, b3, c2], by omega, by rw [d4, b5, c4], by rw [d5, b6, c5], d1,
      by simp [prev_rx_skb_list, d1]⟩
    rw [List.cons_append, adi_msp_rx_wus, e0', Option.some_bind, adi_msp_rx_wus_append, e1,
      Option.some_bind, adi_msp_rx_wus, e2, Option.some_bind, adi_msp_rx_wus]

set_option maxRecDepth 8000 in
theorem rx_delivers_only_single_data_wu_witness :
    ∃ r, adi_msp_rx_wus adi_msp_opened
        (rx_example_data :: [rx_example_continuation] ++ [rx_example_status 46]) = some r ∧
      r.received = adi_msp_opened.received ∧
      adi_msp_opened.stats.rx_errors < r.stats.rx_errors :=
  (rx_delivers_only_single_data_wu.2 adi_msp_opened rx_example_data (rx_example_status 46)
    [rx_example_continuation] (by decide) (by decide) (by decide)
    (fun c hc => by
      rw [List.mem_singleton.1 hc]
      decide)
    (by decide)).imp
    (fun _ h => ⟨h.1, h.2.1, h.2.2.1⟩)

/-! ### Timestamps -/

theorem get_timestamp_ns_eq (wu : status_wu) (h2 : wu.timestamp2 < 4294967296) :
    get_timestamp_ns wu =
      (wu.timestamp1 + (wu.timestamp3 % 65536 * 4294967296 + wu.timestamp2) * 1000000000) %
        18446744073709551616 := by
  unfold get_timestamp_ns
  have ha : wu.timestamp3 &&& 0xffff = wu.timestamp3 % 65536 :=
    Nat.and_pow_two_sub_one_eq_mod wu.timestamp3 16
  have hb : ∀ s : Nat, s <<< 32 ||| wu.timestamp2 = s * 4294967296 + wu.timestamp2 := by
    intro s
    have := @Nat.mul_add_lt_is_or 32 wu.timestamp2 (by simpa using h2) s
    rw [Nat.shiftLeft_eq, Nat.mul_comm, ← this]
  simp only [ha, hb, NSEC_PER_SEC]

/-- C16 (as stated, refuted): for the status work unit with words w1 = w2 = 0
and w3 = 0xffff the seconds value is 65535 * 2^32, and `get_timestamp_ns` does
not return seconds * 1000000000 + nanoseconds: that number does not fit the
64-bit result, which is 10260666699661443072. -/
theorem get_timestamp_ns_wraps :
    get_timestamp_ns { timestamp0 := 0, timestamp1 := 0, timestamp2 := 0, timestamp3 := 0xffff } =
      10260666699661443072 ∧
    get_timestamp_ns { timestamp0 := 0, timestamp1 := 0, timestamp2 := 0, timestamp3 := 0xffff } ≠
      (0xffff % 2 ^ 16 * 2 ^ 32 + 0) * 1000000000 + 0 := by
  decide

/-- C16 (amended): for every status work unit viewed as four 32-bit words
w0..w3, `get_timestamp_ns` returns seconds * 1000000000 + nanoseconds reduced
modulo 2^64, where seconds is the 48-bit value (w3 mod 2^16) * 2^32 + w2 and
nanoseconds is w1; this is the number itself whenever it is below 2^64, so
whenever w3 mod 2^16 is below 4 (seconds below 2^34). The result does not depend on w0 (header byte, frame tag,
sub-nanosecond fraction) nor on the upper 16 bits of w3 (frame length). -/
theorem get_timestamp_ns_value (wu : status_wu)
    (h1 : wu.timestamp1 < 2 ^ 32) (h2 : wu.timestamp2 < 2 ^ 32) :
    get_timestamp_ns wu =
      ((wu.timestamp3 % 2 ^ 16 * 2 ^ 32 + wu.timestamp2) * 1000000000 + wu.timestamp1) % 2 ^ 64 ∧
    ((wu.timestamp3 % 2 ^ 16 * 2 ^ 32 + wu.timestamp2) * 1000000000 + wu.timestamp1 < 2 ^ 64 →
      get_timestamp_ns wu =
        (wu.timestamp3 % 2 ^ 16 * 2 ^ 32 + wu.timestamp2) * 1000000000 + wu.timestamp1) ∧
    (wu.timestamp3 % 2 ^ 16 < 4 →
      get_timestamp_ns wu =
        (wu.timestamp3 % 2 ^ 16 * 2 ^ 32 + wu.timestamp2) * 1000000000 + wu.timestamp1) ∧
    (∀ w0 hi, hi < 2 ^ 16 →
      get_timestamp_ns
        { wu with timestamp0 := w0, timestamp3 := hi * 2 ^ 16 + wu.timestamp3 % 2 ^ 16 } =
      get_timestamp_ns wu) := by
  have h2a : wu.timestamp2 < 4294967296 := by simpa using h2
  have h1a : wu.timestamp1 < 4294967296 := by simpa using h1
  have e := get_timestamp_ns_eq wu h2a
  have p16 : (2 : Nat) ^ 16 = 65536 := by norm_num
  have p32 : (2 : Nat) ^ 32 = 4294967296 := by norm_num
  have p64 : (2 : Nat) ^ 64 = 18446744073709551616 := by norm_num
  simp only [p16, p32, p64]
  refine ⟨by rw [e, Nat.add_comm], ?_, ?_, ?_⟩
  · intro h3
    rw [e]
    omega
  · intro h3
    rw [e]
    omega
  · intro w0 hi _
    rw [e, get_timestamp_ns_eq
      { wu with timestamp0 := w0, timestamp3 := hi * 65536 + wu.timestamp3 % 65536 } h2a]
    have : (hi * 65536 + wu.timestamp3 % 65536) % 65536 = wu.timestamp3 % 65536 := by omega
    simp only [this]

theorem get_timestamp_ns_value_witness :
    get_timestamp_ns
      { timestamp0 := 0x12340b, timestamp1 := 5, timestamp2 := 7, timestamp3 := 0x05ea0002 } =
      ((0x05ea0002 % 2 ^ 16 * 2 ^ 32 + 7) * 1000000000 + 5) % 2 ^ 64 :=
  (get_timestamp_ns_value
    { timestamp0 := 0x12340b, timestamp1 := 5, timestamp2 := 7, timestamp3 := 0x05ea0002 }
    (by decide) (by decide)).1

/-! ### Transmit status path: faults and completion -/

theorem adi_msp_status_slot_bad_type (lp : adi_msp_private)
    (hready : ¬ status_slot_not_ready lp)
    (htype : (adi_msp_status_wu lp lp.tx_next_done).byte0 &&& WU_TYPE_MASK ≠ WU_TYPE_TX_STAT) :
    adi_msp_status_slot lp = status_step.reset_tx (status_count_reset lp) := by
  unfold adi_msp_status_slot
  dsimp only
  rw [if_neg hready, if_pos htype]

theorem adi_msp_status_slot_no_skb (lp : adi_msp_private)
    (hready : ¬ status_slot_not_ready lp)
    (htype : (adi_msp_status_wu lp lp.tx_next_done).byte0 &&& WU_TYPE_MASK = WU_TYPE_TX_STAT)
    (hskb : lp.tx_skb lp.tx_next_done = none) :
    adi_msp_status_slot lp = status_step.reset_tx (status_count_reset lp) := by
  unfold adi_msp_status_slot
  dsimp only
  rw [if_neg hready, if_neg (not_not.mpr htype), hskb]

theorem adi_msp_status_slot_release_failed (lp : adi_msp_private) (skb : sk_buff)
    (hready : ¬ status_slot_not_ready lp)
    (htype : (adi_msp_status_wu lp lp.tx_next_done).byte0 &&& WU_TYPE_MASK = WU_TYPE_TX_STAT)
    (hskb : lp.tx_skb lp.tx_next_done = some skb)
    (hrel : (status_release_tag lp).1 < 0) :
    adi_msp_status_slot lp =
      status_step.reset_tx (status_count_reset (status_release_tag lp).2) := by
  unfold status_release_tag at hrel ⊢
  unfold adi_msp_status_slot
  dsimp only
  rw [if_neg hready, if_neg (not_not.mpr htype), hskb]
  dsimp only
  rw [if_pos hrel]

theorem adi_msp_status_slot_tag_mismatch (lp : adi_msp_private) (skb : sk_buff)
    (hready : ¬ status_slot_not_ready lp)
    (htype : (adi_msp_status_wu lp lp.tx_next_done).byte0 &&& WU_TYPE_MASK = WU_TYPE_TX_STAT)
    (hskb : lp.tx_skb lp.tx_next_done = some skb)
    (hrel : ¬ (status_release_tag lp).1 < 0)
    (htag : (adi_msp_status_wu lp lp.tx_next_done).frame_tag ≠ tx_wu_hdr_frame_tag skb) :
    adi_msp_status_slot lp =
      status_step.reset_tx
        (status_count_reset (status_wake_queue (status_release_tag lp).2)) := by
  unfold status_release_tag at hrel ⊢
  unfold adi_msp_status_slot
  dsimp only
  rw [if_neg hready, if_neg (not_not.mpr htype), hskb]
  dsimp only
  rw [if_neg hrel, if_pos htag]

theorem adi_msp_status_slot_tag_match (lp : adi_msp_private) (skb : sk_buff)
    (hready : ¬ status_slot_not_ready lp)
    (htype : (adi_msp_status_wu lp lp.tx_next_done).byte0 &&& WU_TYPE_MASK = WU_TYPE_TX_STAT)
    (hskb : lp.tx_skb lp.tx_next_done = some skb)
    (hrel : ¬ (status_release_tag lp).1 < 0)
    (htag : (adi_msp_status_wu lp lp.tx_next_done).frame_tag = tx_wu_hdr_frame_tag skb) :
    adi_msp_status_slot lp =
      status_step.done
        (status_reset_desc_and_wu
          (status_report (status_wake_queue (status_release_tag lp).2) skb
            (adi_msp_status_wu lp lp.tx_next_done))
          lp.tx_next_done) := by
  unfold status_release_tag at hrel ⊢
  unfold adi_msp_status_slot
  dsimp only
  rw [if_neg hready, if_neg (not_not.mpr htype), hskb]
  dsimp only
  rw [if_neg hrel, if_neg (not_not.mpr htag)]

theorem adi_msp_status_of_reset_tx (fuel : Nat) (lp r : adi_msp_private) (budget count : Int)
    (hb : count < budget) (h : adi_msp_status_slot lp = status_step.reset_tx r) :
    adi_msp_status_from budget (fuel + 1) count lp = some (count, r) := by
  unfold adi_msp_status_from
  rw [adi_msp_status_while, if_pos hb, h]

theorem status_release_tag_frame (lp : adi_msp_private) :
    ∃ a b c d, (status_release_tag lp).2 =
      { lp with
        tx_skb := ring_set lp.tx_skb lp.tx_next_done none, tx_count := lp.tx_count - 1
        last_nonptp_frame_tag := a, available_nonptp_frame_tag_count := b,
        last_ptp_frame_tag := c, available_ptp_frame_tag_count := d } := by
  obtain ⟨a, b, c, d, h⟩ := put_frame_tag_frame
    { lp with tx_skb := ring_set lp.tx_skb lp.tx_next_done none, tx_count := lp.tx_count - 1 }
    (adi_msp_status_wu lp lp.tx_next_done).frame_tag
    (decide ((adi_msp_status_wu lp lp.tx_next_done).byte0 &&& TX_STATUS_WU_PTP ≠ 0))
  exact ⟨a, b, c, d, h⟩

/-- C14: in `adi_msp_status`, for a complete status slot, each of the four
sequencing faults (the type of the status work unit is not `TX_STAT`; no
transmit buffer is recorded for the slot; `put_frame_tag` rejects the status
tag; the status tag differs from the tag in the transmit header) takes the loop
body to `reset_tx`, and the function, at that slot with any `count` below the
budget, returns `count` at once (a call that meets the fault in its first slot
returns 0): `tx_errors` and `tx_reset` are each increased by exactly 1,
`tx_packets` and `tx_bytes` are unchanged, the status work units and the status
descriptors are untouched, `tx_next_done` is not advanced and no register is
written. -/
theorem adi_msp_status_sequencing_fault (fuel : Nat) (lp : adi_msp_private)
    (budget count : Int) (hb : count < budget) (hready : ¬ status_slot_not_ready lp)
    (hfault :
      (adi_msp_status_wu lp lp.tx_next_done).byte0 &&& WU_TYPE_MASK ≠ WU_TYPE_TX_STAT ∨
      ((adi_msp_status_wu lp lp.tx_next_done).byte0 &&& WU_TYPE_MASK = WU_TYPE_TX_STAT ∧
        (lp.tx_skb lp.tx_next_done = none ∨
          ∃ skb, lp.tx_skb lp.tx_next_done = some skb ∧
            ((status_release_tag lp).1 < 0 ∨
              (adi_msp_status_wu lp lp.tx_next_done).frame_tag ≠ tx_wu_hdr_frame_tag skb)))) :
    ∃ r, adi_msp_status_slot lp = status_step.reset_tx r ∧
      adi_msp_status_from budget (fuel + 1) count lp = some (count, r) ∧
      (count = 0 → adi_msp_status (fuel + 1) lp budget = some (0, r)) ∧
      r.stats.tx_errors = lp.stats.tx_errors + 1 ∧
      r.stats.tx_reset = lp.stats.tx_reset + 1 ∧
      r.stats.tx_packets = lp.stats.tx_packets ∧
      r.stats.tx_bytes = lp.stats.tx_bytes ∧
      r.status_wu = lp.status_wu ∧
      r.tx_next_done = lp.tx_next_done ∧
      r.sd_ring = lp.sd_ring ∧
      r.mmio = lp.mmio := by
  have key : ∀ r, adi_msp_status_slot lp = status_step.reset_tx (status_count_reset r) →
      r.stats = lp.stats → r.status_wu = lp.status_wu → r.tx_next_done = lp.tx_next_done →
      r.sd_ring = lp.sd_ring → r.mmio = lp.mmio →
      ∃ r, adi_msp_status_slot lp = status_step.reset_tx r ∧
        adi_msp_status_from budget (fuel + 1) count lp = some (count, r) ∧
        (count = 0 → adi_msp_status (fuel + 1) lp budget = some (0, r)) ∧
        r.stats.tx_errors = lp.stats.tx_errors + 1 ∧
        r.stats.tx_reset = lp.stats.tx_reset + 1 ∧
        r.stats.tx_packets = lp.stats.tx_packets ∧
        r.stats.tx_bytes = lp.stats.tx_bytes ∧
        r.status_wu = lp.status_wu ∧
        r.tx_next_done = lp.tx_next_done ∧
        r.sd_ring = lp.sd_ring ∧
        r.mmio = lp.mmio := by
    intro r hr h1 h2 h3 h4 h5
    have hfrom := adi_msp_status_of_reset_tx fuel lp _ budget count hb hr
    refine ⟨_, hr, hfrom, ?_, ?_⟩
    · intro h0
      rw [h0] at hfrom
      exact hfrom
    · simp [status_count_reset, h1, h2, h3, h4, h5]
  obtain ⟨a, b, c, d, hrel⟩ := status_release_tag_frame lp
  obtain ⟨q, hq⟩ := status_wake_queue_eq (status_release_tag lp).2
  rcases hfault with h | ⟨ht, h | ⟨skb, hskb, h⟩⟩
  · exact key lp (adi_msp_status_slot_bad_type lp hready h) rfl rfl rfl rfl rfl
  · exact key lp (adi_msp_status_slot_no_skb lp hready ht h) rfl rfl rfl rfl rfl
  · by_cases hr : (status_release_tag lp).1 < 0
    · refine key _ (adi_msp_status_slot_release_failed lp skb hready ht hskb hr) ?_ ?_ ?_ ?_ ?_ <;>
        rw [hrel]
    · have htag : (adi_msp_status_wu lp lp.tx_next_done).frame_tag ≠ tx_wu_hdr_frame_tag skb := by
        rcases h with h | h
        · exact absurd h hr
        · exact h
      refine key _ (adi_msp_status_slot_tag_mismatch lp skb hready ht hskb hr htag)
        ?_ ?_ ?_ ?_ ?_ <;> rw [hq, hrel]

set_option maxRecDepth 8000 in
theorem adi_msp_status_sequencing_fault_witness :
    (adi_msp_status_wu tx_example_swapped_status tx_example_swapped_status.tx_next_done).frame_tag
      = 248 ∧
    (tx_example_swapped_status.tx_skb tx_example_swapped_status.tx_next_done).map
      tx_wu_hdr_frame_tag = some 1 ∧
    ∃ r, adi_msp_status 1 tx_example_swapped_status 64 = some (0, r) ∧
      r.stats.tx_errors = tx_example_swapped_status.stats.tx_errors + 1 ∧
      r.stats.tx_reset = tx_example_swapped_status.stats.tx_reset + 1 ∧
      r.tx_next_done = tx_example_swapped_status.tx_next_done :=
  ⟨by decide, by decide,
    (adi_msp_status_sequencing_fault 0 tx_example_swapped_status 64 0 (by decide) (by decide)
      (Or.inr ⟨by decide, Or.inr ⟨(tx_example_swapped_status.tx_skb 0).getD sk_buff_zero, rfl,
        Or.inr (by decide)⟩⟩)).imp
      (fun _ h => ⟨h.2.2.1 rfl, h.2.2.2.1, h.2.2.2.2.1, h.2.2.2.2.2.2.2.2.1⟩)⟩

theorem status_report_frame (lp : adi_msp_private) (skb : sk_buff) (wu : status_wu) :
    ∃ a b, status_report lp skb wu =
      { lp with stats := a, tstamp_tx := b, consumed := skb :: lp.consumed } := by
  unfold status_report napi_consume_skb
  dsimp only
  split_ifs <;> exact ⟨_, _, rfl⟩

theorem status_report_stats (lp : adi_msp_private) (skb : sk_buff) (wu : status_wu) :
    ((wu.byte0 &&& TX_STATUS_WU_ERR ≠ 0 ∨
        (skb.tx_flags.in_progress = true ∧ wu.byte0 &&& TX_STATUS_WU_PTP = 0)) →
      (status_report lp skb wu).stats =
        { lp.stats with tx_errors := lp.stats.tx_errors + 1 }) ∧
    (¬ (wu.byte0 &&& TX_STATUS_WU_ERR ≠ 0 ∨
        (skb.tx_flags.in_progress = true ∧ wu.byte0 &&& TX_STATUS_WU_PTP = 0)) →
      (status_report lp skb wu).stats =
        { lp.stats with
          tx_packets := lp.stats.tx_packets + 1
          tx_bytes := lp.stats.tx_bytes + tx_wu_hdr_frame_len skb }) := by
  unfold status_report napi_consume_skb
  dsimp only
  constructor
  · intro h
    by_cases he : wu.byte0 &&& TX_STATUS_WU_ERR ≠ 0
    · rw [if_pos he]
    · rw [if_neg he]
      rcases h with h | h
      · exact absurd h he
      · rw [if_pos h]
  · intro h
    rw [not_or] at h
    rw [if_neg h.1, if_neg h.2]
    split_ifs <;> rfl

/-- C15: for every complete status slot of `adi_msp_status` that passes the
type, buffer, tag-release and tag-match checks: if the error bit of the status
is set, or the buffer has `SKBTX_IN_PROGRESS` (the frame asked for a timestamp)
and the PTP bit of the status is clear, `tx_errors` goes up by exactly 1 and
`tx_packets` and `tx_bytes` are unchanged; otherwise `tx_packets` goes up by
exactly 1, `tx_bytes` by the frame length stored in the transmit header, and
`tx_errors` is unchanged. In all three cases the buffer is released, once, its
entry of `tx_skb` is cleared, the 16-byte status work unit of the slot is
zeroed, `tx_next_done` advances by one modulo 128 and the loop goes on with
`count + 1`. -/
theorem adi_msp_status_slot_completed (lp : adi_msp_private) (skb : sk_buff)
    (hready : ¬ status_slot_not_ready lp)
    (htype : (adi_msp_status_wu lp lp.tx_next_done).byte0 &&& WU_TYPE_MASK = WU_TYPE_TX_STAT)
    (hskb : lp.tx_skb lp.tx_next_done = some skb)
    (hrel : ¬ (status_release_tag lp).1 < 0)
    (htag : (adi_msp_status_wu lp lp.tx_next_done).frame_tag = tx_wu_hdr_frame_tag skb) :
    ∃ r, adi_msp_status_slot lp = status_step.done r ∧
      (((adi_msp_status_wu lp lp.tx_next_done).byte0 &&& TX_STATUS_WU_ERR ≠ 0 ∨
          (skb.tx_flags.in_progress = true ∧
            (adi_msp_status_wu lp lp.tx_next_done).byte0 &&& TX_STATUS_WU_PTP = 0)) →
        r.stats.tx_errors = lp.stats.tx_errors + 1 ∧
        r.stats.tx_packets = lp.stats.tx_packets ∧ r.stats.tx_bytes = lp.stats.tx_bytes) ∧
      (¬ ((adi_msp_status_wu lp lp.tx_next_done).byte0 &&& TX_STATUS_WU_ERR ≠ 0 ∨
          (skb.tx_flags.in_progress = true ∧
            (adi_msp_status_wu lp lp.tx_next_done).byte0 &&& TX_STATUS_WU_PTP = 0)) →
        r.stats.tx_packets = lp.stats.tx_packets + 1 ∧
        r.stats.tx_bytes = lp.stats.tx_bytes + tx_wu_hdr_frame_len skb ∧
        r.stats.tx_errors = lp.stats.tx_errors) ∧
      r.consumed = skb :: lp.consumed ∧
      r.tx_skb lp.tx_next_done = none ∧
      adi_msp_status_wu r lp.tx_next_done =
        { timestamp0 := 0, timestamp1 := 0, timestamp2 := 0, timestamp3 := 0 } ∧
      r.tx_next_done = (lp.tx_next_done + 1) % 128 ∧
      ∀ (budget count : Int) (fuel : Nat), count < budget →
        adi_msp_status_while budget (fuel + 1) count lp =
          adi_msp_status_while budget fuel (count + 1) r := by
  have hslot := adi_msp_status_slot_tag_match lp skb hready htype hskb hrel htag
  obtain ⟨a, b, c, d, hr⟩ := status_release_tag_frame lp
  obtain ⟨q, hq⟩ := status_wake_queue_eq (status_release_tag lp).2
  obtain ⟨s1, s2⟩ := status_report_stats (status_wake_queue (status_release_tag lp).2) skb
    (adi_msp_status_wu lp lp.tx_next_done)
  obtain ⟨x, y, hrep⟩ := status_report_frame (status_wake_queue (status_release_tag lp).2) skb
    (adi_msp_status_wu lp lp.tx_next_done)
  refine ⟨_, hslot, ?_, ?_, ?_, ?_, ?_, ?_, ?_⟩
  · intro h
    have := s1 h
    simp only [status_reset_desc_and_wu, writel]
    rw [this, hq, hr]
    exact ⟨rfl, rfl, rfl⟩
  · intro h
    have := s2 h
    simp only [status_reset_desc_and_wu, writel]
    rw [this, hq, hr]
    exact ⟨rfl, rfl, rfl⟩
  · simp only [status_reset_desc_and_wu, writel]
    rw [hrep, hq, hr]
  · simp only [status_reset_desc_and_wu, writel]
    rw [hrep, hq, hr]
    simp
  · simp [status_reset_desc_and_wu, writel, adi_msp_status_wu]
  · simp [status_reset_desc_and_wu, writel, ring_mask_succ]
  · intro budget count fuel hc
    rw [adi_msp_status_while, if_pos hc, hslot]

set_option maxRecDepth 8000 in
theorem adi_msp_status_slot_completed_witness :
    (adi_msp_status_wu tx_example_ptp_completed tx_example_ptp_completed.tx_next_done).byte0
      = 11 ∧
    ∃ r, adi_msp_status_slot tx_example_ptp_completed = status_step.done r ∧
      r.consumed.length = tx_example_ptp_completed.consumed.length + 1 ∧
      r.tx_next_done = (tx_example_ptp_completed.tx_next_done + 1) % 128 ∧
      r.stats.tx_packets = tx_example_ptp_completed.stats.tx_packets + 1 :=
  ⟨by decide,
    (adi_msp_status_slot_completed tx_example_ptp_completed
      ((tx_example_ptp_completed.tx_skb 0).getD sk_buff_zero) (by decide) (by decide) rfl
      (by decide) (by decide)).imp
      (fun _ h => ⟨h.1, by rw [h.2.2.2.1]; rfl, h.2.2.2.2.2.2.1, (h.2.2.1 (by decide)).1⟩)⟩

/-- For every state: when the status tag is released with success and differs
from the tag in the transmit header, the loop body of `adi_msp_status` leaves
through `reset_tx` with the buffer neither given to `napi_consume_skb` nor
recorded in `tx_skb` any more. -/
theorem adi_msp_status_slot_tag_mismatch_state (lp : adi_msp_private) (skb : sk_buff)
    (hready : ¬ status_slot_not_ready lp)
    (htype : (adi_msp_status_wu lp lp.tx_next_done).byte0 &&& WU_TYPE_MASK = WU_TYPE_TX_STAT)
    (hskb : lp.tx_skb lp.tx_next_done = some skb)
    (hrel : ¬ (status_release_tag lp).1 < 0)
    (htag : (adi_msp_status_wu lp lp.tx_next_done).frame_tag ≠ tx_wu_hdr_frame_tag skb) :
    ∃ r, adi_msp_status_slot lp = status_step.reset_tx r ∧
      r.consumed = lp.consumed ∧ r.tx_skb lp.tx_next_done = none ∧
      r.tx_count = lp.tx_count - 1 ∧ r.stats.tx_errors = lp.stats.tx_errors + 1 := by
  obtain ⟨a, b, c, d, hr⟩ := status_release_tag_frame lp
  obtain ⟨q, hq⟩ := status_wake_queue_eq (status_release_tag lp).2
  refine ⟨_, adi_msp_status_slot_tag_mismatch lp skb hready htype hskb hrel htag, ?_⟩
  simp only [status_count_reset]
  rw [hq, hr]
  exact ⟨rfl, by simp, rfl, rfl⟩

set_option maxRecDepth 8000 in
/-- C19 (the code departs from the claim): after two accepted submissions, a
non-timestamped frame in slot 0 (tag 1) and a timestamped frame in slot 1 (tag
248), the hardware reports the second frame first. `adi_msp_status` takes the
buffer of slot 0, releases tag 248 with success, finds that it differs from
tag 1 in the transmit header and goes to `reset_tx`: an error is counted, but
the buffer is not released (nothing was given to `napi_consume_skb`) and it is
no longer recorded in `tx_skb`, so nothing can release it later. -/
theorem adi_msp_status_tag_mismatch_leaks :
    tx_example_two_sent.stats.tx_dropped = 0 ∧ tx_example_two_sent.tx_count = 2 ∧
    (tx_example_swapped_status.tx_skb 0).map tx_wu_hdr_frame_tag = some 1 ∧
    (adi_msp_status_wu tx_example_swapped_status 0).frame_tag = 248 ∧
    (status_release_tag tx_example_swapped_status).1 = 0 ∧
    (adi_msp_status_slot tx_example_swapped_status).is_done = false ∧
    (adi_msp_status_slot tx_example_swapped_status).state.stats.tx_errors = 1 ∧
    (adi_msp_status_slot tx_example_swapped_status).state.consumed.length = 0 ∧
    ((adi_msp_status_slot tx_example_swapped_status).state.tx_skb 0).isNone = true ∧
    (adi_msp_status 1 tx_example_swapped_status 64).map
      (fun r => (r.1, r.2.stats.tx_errors, r.2.consumed.length, (r.2.tx_skb 0).isNone)) =
      some (0, 1, 0, true) := by
  decide

set_option maxRecDepth 8000 in
/-- C20 (as stated, refuted): after eight accepted submissions of timestamped
frames the PTP pool is empty and the queue is stopped; when `adi_msp_status`
processes the status of the first one, it wakes the queue although the PTP
availability counter is then equal to `ADI_MSP_STOP_QUEUE_TH`, not greater,
and the stop condition of `adi_msp_send_packet` holds for the next timestamped
frame (it would stop the queue again). -/
theorem adi_msp_status_wakes_at_threshold :
    tx_example_ptp_completed.queue_stopped = true ∧
    (adi_msp_status_slot tx_example_ptp_completed).is_done = true ∧
    (adi_msp_status_slot tx_example_ptp_completed).state.queue_stopped = false ∧
    (adi_msp_status_slot tx_example_ptp_completed).state.available_ptp_frame_tag_count =
      ADI_MSP_STOP_QUEUE_TH ∧
    (tx_stop_queue (adi_msp_status_slot tx_example_ptp_completed).state true).queue_stopped =
      true := by
  decide

theorem adi_msp_status_slot_after_release (lp : adi_msp_private) (skb : sk_buff)
    (hready : ¬ status_slot_not_ready lp)
    (htype : (adi_msp_status_wu lp lp.tx_next_done).byte0 &&& WU_TYPE_MASK = WU_TYPE_TX_STAT)
    (hskb : lp.tx_skb lp.tx_next_done = some skb)
    (hrel : ¬ (status_release_tag lp).1 < 0) :
    (adi_msp_status_slot lp).state.queue_stopped =
      (status_wake_queue (status_release_tag lp).2).queue_stopped ∧
    (adi_msp_status_slot lp).state.tx_count = lp.tx_count - 1 ∧
    (adi_msp_status_slot lp).state.available_ptp_frame_tag_count =
      (status_release_tag lp).2.available_ptp_frame_tag_count ∧
    (adi_msp_status_slot lp).state.available_nonptp_frame_tag_count =
      (status_release_tag lp).2.available_nonptp_frame_tag_count := by
  obtain ⟨a, b, c, d, hr⟩ := status_release_tag_frame lp
  obtain ⟨q, hq⟩ := status_wake_queue_eq (status_release_tag lp).2
  obtain ⟨x, y, hrep⟩ := status_report_frame (status_wake_queue (status_release_tag lp).2) skb
    (adi_msp_status_wu lp lp.tx_next_done)
  by_cases htag : (adi_msp_status_wu lp lp.tx_next_done).frame_tag = tx_wu_hdr_frame_tag skb
  · rw [adi_msp_status_slot_tag_match lp skb hready htype hskb hrel htag]
    refine ⟨?_, ?_, ?_, ?_⟩ <;>
      simp only [status_step.state, status_reset_desc_and_wu, writel, hrep] <;>
      rw [hq, hr]
  · rw [adi_msp_status_slot_tag_mismatch lp skb hready htype hskb hrel htag]
    refine ⟨?_, ?_, ?_, ?_⟩ <;>
      simp only [status_step.state, status_count_reset] <;>
      rw [hq, hr]

/-- C20 (amended): after releasing the tag of a slot with success,
`adi_msp_status` wakes the queue (the queue was stopped and is not afterwards)
if and only if the queue is stopped, `tx_count` is at most
`ADI_MSP_NUM_TDS - ADI_MSP_STOP_QUEUE_TH` and the availability counter of each
tag pool is at least `ADI_MSP_STOP_QUEUE_TH`, the counters taken after the
release; and right after a wake the conditions on which `adi_msp_send_packet`
drops a frame (`tx_count` at or above 128, availability 0) do not hold. -/
theorem adi_msp_status_wake (lp : adi_msp_private) (skb : sk_buff)
    (hready : ¬ status_slot_not_ready lp)
    (htype : (adi_msp_status_wu lp lp.tx_next_done).byte0 &&& WU_TYPE_MASK = WU_TYPE_TX_STAT)
    (hskb : lp.tx_skb lp.tx_next_done = some skb)
    (hrel : ¬ (status_release_tag lp).1 < 0) :
    ((lp.queue_stopped = true ∧ (adi_msp_status_slot lp).state.queue_stopped = false) ↔
      (lp.queue_stopped = true ∧
        lp.tx_count - 1 ≤ (ADI_MSP_NUM_TDS : Int) - ADI_MSP_STOP_QUEUE_TH ∧
        (status_release_tag lp).2.available_ptp_frame_tag_count ≥ ADI_MSP_STOP_QUEUE_TH ∧
        (status_release_tag lp).2.available_nonptp_frame_tag_count ≥ ADI_MSP_STOP_QUEUE_TH)) ∧
    ((lp.queue_stopped = true ∧ (adi_msp_status_slot lp).state.queue_stopped = false) →
      (adi_msp_status_slot lp).state.tx_count < ADI_MSP_NUM_TDS ∧
      available_count (adi_msp_status_slot lp).state true ≠ 0 ∧
      available_count (adi_msp_status_slot lp).state false ≠ 0) := by
  obtain ⟨h1, h2, h3, h4⟩ := adi_msp_status_slot_after_release lp skb hready htype hskb hrel
  obtain ⟨a, b, c, d, hr⟩ := status_release_tag_frame lp
  have hiff : (lp.queue_stopped = true ∧ (adi_msp_status_slot lp).state.queue_stopped = false) ↔
      (lp.queue_stopped = true ∧
        lp.tx_count - 1 ≤ (ADI_MSP_NUM_TDS : Int) - ADI_MSP_STOP_QUEUE_TH ∧
        (status_release_tag lp).2.available_ptp_frame_tag_count ≥ ADI_MSP_STOP_QUEUE_TH ∧
        (status_release_tag lp).2.available_nonptp_frame_tag_count ≥ ADI_MSP_STOP_QUEUE_TH) := by
    rw [h1]
    have hq : (status_release_tag lp).2.queue_stopped = lp.queue_stopped := by rw [hr]
    have hc : (status_release_tag lp).2.tx_count = lp.tx_count - 1 := by rw [hr]
    unfold status_wake_queue
    rw [hq, hc]
    constructor
    · rintro ⟨hs, hw⟩
      by_contra hcon
      rw [if_neg (fun h => hcon ⟨hs, h.2⟩)] at hw
      rw [hq, hs] at hw
      cases hw
    · rintro ⟨hs, hrest⟩
      rw [if_pos ⟨hs, hrest⟩]
      exact ⟨hs, rfl⟩
  refine ⟨hiff, fun hw => ?_⟩
  obtain ⟨_, g1, g2, g3⟩ := hiff.1 hw
  simp only [available_count, h2, h3, h4, ADI_MSP_NUM_TDS, ADI_MSP_STOP_QUEUE_TH, if_true,
    Bool.false_eq_true, if_false] at g1 g2 g3 ⊢
  omega

set_option maxRecDepth 8000 in
theorem adi_msp_status_wake_witness :
    tx_example_ptp_completed.queue_stopped = true ∧
    (adi_msp_status_slot tx_example_ptp_completed).state.queue_stopped = false ∧
    (adi_msp_status_slot tx_example_ptp_completed).state.tx_count < ADI_MSP_NUM_TDS ∧
    available_count (adi_msp_status_slot tx_example_ptp_completed).state true ≠ 0 :=
  ⟨by decide, by decide,
    ((adi_msp_status_wake tx_example_ptp_completed
      ((tx_example_ptp_completed.tx_skb 0).getD sk_buff_zero) (by decide) (by decide) rfl
      (by decide)).2 ⟨by decide, by decide⟩).1,
    ((adi_msp_status_wake tx_example_ptp_completed
      ((tx_example_ptp_completed.tx_skb 0).getD sk_buff_zero) (by decide) (by decide) rfl
      (by decide)).2 ⟨by decide, by decide⟩).2.1⟩

/-! ### Transmit descriptor chains -/

theorem ring_slots_succ (h n : Nat) : ring_slots h (n + 1) = ring_slots h n ++ [(h + n) % 128] := by
  simp [ring_slots, List.range_succ]

theorem ring_slots_length (h n : Nat) : (ring_slots h n).length = n := by
  simp [ring_slots]

theorem mem_ring_slots {h n x : Nat} : x ∈ ring_slots h n ↔ ∃ j, j < n ∧ x = (h + j) % 128 := by
  simp only [ring_slots, List.mem_map, List.mem_range]
  constructor
  · rintro ⟨j, hj, rfl⟩; exact ⟨j, hj, rfl⟩
  · rintro ⟨j, hj, rfl⟩; exact ⟨j, hj, rfl⟩

theorem tx_chain_linked_congr (lp r : adi_msp_private) (hdma : r.td_dma = lp.td_dma) :
    ∀ p : List Nat, (∀ x ∈ p, r.td_ring x = lp.td_ring x) → tx_chain_linked lp p →
      tx_chain_linked r p := by
  intro p
  induction p with
  | nil => intro _ _; trivial
  | cons a t ih =>
    intro hsame hl
    cases t with
    | nil =>
      simp only [tx_chain_linked] at hl ⊢
      rw [hsame a (List.mem_cons_self _ _)]
      exact hl
    | cons b rest =>
      simp only [tx_chain_linked] at hl ⊢
      rw [hsame a (List.mem_cons_self _ _)]
      refine ⟨hl.1, ?_, hl.2.2.1, ih (fun x hx => hsame x (List.mem_cons_of_mem _ hx)) hl.2.2.2⟩
      rw [hl.2.1]
      simp [adi_msp_tx_dma, hdma]

theorem tx_chain_linked_snoc (lp r : adi_msp_private) (a : Nat) (hdma : r.td_dma = lp.td_dma)
    (hnew : dma_cfg_flow (r.td_ring a).cfg = DMA_CFG_FLOW_STOP) :
    ∀ p : List Nat, (∀ x ∈ p.dropLast, r.td_ring x = lp.td_ring x) →
      (∀ l, p.getLast? = some l →
        dma_cfg_flow (r.td_ring l).cfg = DMA_CFG_FLOW_DSCL ∧
        (r.td_ring l).dscptr_nxt = u32 (adi_msp_tx_dma r a) ∧ a = ring_mask ((l : Int) + 1)) →
      tx_chain_linked lp p → tx_chain_linked r (p ++ [a]) := by
  intro p
  induction p with
  | nil =>
    intro _ _ _
    exact hnew
  | cons x t ih =>
    intro hsame hlast hl
    cases t with
    | nil =>
      obtain ⟨h1, h2, h3⟩ := hlast x rfl
      exact ⟨h1, h2, h3, hnew⟩
    | cons y rest =>
      simp only [tx_chain_linked] at hl
      have hx : r.td_ring x = lp.td_ring x := hsame x (by simp [List.dropLast])
      have hrec := ih (fun z hz => hsame z (by
          simp only [List.dropLast_cons₂, List.mem_cons]
          exact Or.inr hz))
        (fun l hl2 => hlast l (by simpa [List.getLast?_cons_cons] using hl2)) hl.2.2.2
      show tx_chain_linked r (x :: y :: (rest ++ [a]))
      simp only [tx_chain_linked]
      refine ⟨by rw [hx]; exact hl.1, ?_, hl.2.2.1, hrec⟩
      rw [hx, hl.2.1]
      simp [adi_msp_tx_dma, hdma]

theorem tx_fill_desc_flow (td : dma_desc) (addr wu_length : Nat) :
    dma_cfg_flow (tx_fill_desc td addr wu_length).cfg = DMA_CFG_FLOW_STOP := by
  unfold tx_fill_desc dma_cfg_flow
  dsimp only
  have h : min (builtin_ctz addr) 3 ≤ 3 := Nat.min_le_right _ _
  generalize min (builtin_ctz addr) 3 = m at h
  interval_cases m <;> decide

theorem dma_cfg_flow_chained (cfg : Nat) (h : dma_cfg_flow cfg = DMA_CFG_FLOW_STOP) :
    dma_cfg_flow (cfg ||| DMA_CFG_FLOW_DSCL) = DMA_CFG_FLOW_DSCL := by
  unfold dma_cfg_flow at h ⊢
  rw [Nat.and_comm, Nat.and_or_distrib_left, Nat.and_comm, h]
  decide

theorem tx_commit_td_ring (lp : adi_msp_private) (skb : sk_buff) (ptp : Bool)
    (addr wu_length : Nat) :
    (tx_commit lp skb ptp addr wu_length).td_dma = lp.td_dma ∧
    (tx_commit lp skb ptp addr wu_length).tx_count = lp.tx_count + 1 ∧
    (lp.tx_chain_status = chain_status.EMPTY →
      (tx_commit lp skb ptp addr wu_length).td_ring =
        ring_set lp.td_ring lp.tx_chain_tail
          (tx_fill_desc (lp.td_ring lp.tx_chain_tail) addr wu_length)) ∧
    (lp.tx_chain_status = chain_status.FILLED →
      (tx_commit lp skb ptp addr wu_length).td_ring =
        ring_set
          (ring_set lp.td_ring lp.tx_chain_tail
            (tx_fill_desc (lp.td_ring lp.tx_chain_tail) addr wu_length))
          (ring_mask ((lp.tx_chain_tail : Int) - 1))
          { lp.td_ring (ring_mask ((lp.tx_chain_tail : Int) - 1)) with
            cfg := (lp.td_ring (ring_mask ((lp.tx_chain_tail : Int) - 1))).cfg |||
              DMA_CFG_FLOW_DSCL
            dscptr_nxt := u32 (adi_msp_tx_dma lp lp.tx_chain_tail) }) := by
  have hne := ring_mask_pred_ne lp.tx_chain_tail
  refine ⟨?_, ?_, ?_, ?_⟩
  · obtain ⟨a, b, c, d, e, h⟩ := tx_commit_frame lp skb ptp addr wu_length
    rw [h]
    simp
  · obtain ⟨a, b, c, d, e, h⟩ := tx_commit_frame lp skb ptp addr wu_length
    rw [h]
  · intro hs
    by_cases hh : DMA_STAT_RUN lp.tx_dma_regs.stat = 0 <;>
      simp [tx_commit, tx_chain_submit, hh, hs, writel]
  · intro hs
    by_cases hh : DMA_STAT_RUN lp.tx_dma_regs.stat = 0 <;>
      simp [tx_commit, tx_chain_submit, hh, hs, writel, adi_msp_tx_dma, ring_set_ne _ _ _ hne]

theorem adi_msp_alloc_ring_rx_chain (alloc : Nat → rx_alloc_result) (n : Nat) :
    ∀ (i : Nat) (lp : adi_msp_private),
      (adi_msp_alloc_ring_rx alloc n i lp).2.tx_chain_head = lp.tx_chain_head ∧
      (adi_msp_alloc_ring_rx alloc n i lp).2.tx_chain_tail = lp.tx_chain_tail ∧
      (adi_msp_alloc_ring_rx alloc n i lp).2.tx_chain_status = lp.tx_chain_status ∧
      (adi_msp_alloc_ring_rx alloc n i lp).2.tx_count = lp.tx_count := by
  induction n with
  | zero => intro i lp; exact ⟨rfl, rfl, rfl, rfl⟩
  | succ n ih =>
    intro i lp
    unfold adi_msp_alloc_ring_rx
    cases (alloc i).skb with
    | none => exact ⟨rfl, rfl, rfl, rfl⟩
    | some skb0 =>
      dsimp only
      cases (alloc i).dma with
      | none => exact ⟨rfl, rfl, rfl, rfl⟩
      | some addr =>
        dsimp only
        exact ih (i + 1) _

theorem adi_msp_alloc_ring_chain {lp0 lp : adi_msp_private} {alloc : Nat → rx_alloc_result}
    {e : Int} (h : adi_msp_alloc_ring lp0 alloc = (e, lp)) :
    lp.tx_chain_head = 0 ∧ lp.tx_chain_tail = 0 ∧
    lp.tx_chain_status = chain_status.EMPTY ∧ lp.tx_count = 0 := by
  unfold adi_msp_alloc_ring at h
  dsimp only at h
  have hrx := adi_msp_alloc_ring_rx_chain alloc ADI_MSP_NUM_RDS 0
    { lp0 with
      td_ring := fun i =>
        if i < ADI_MSP_NUM_TDS then
          { dscptr_nxt := 0, addrstart := 0, cfg := 0, xcnt := 0, xmod := 0 }
        else lp0.td_ring i
      tx_next_done := 0, tx_chain_head := 0, tx_chain_tail := 0, tx_count := 0
      tx_chain_status := chain_status.EMPTY }
  generalize adi_msp_alloc_ring_rx alloc ADI_MSP_NUM_RDS 0 _ = r at h hrx
  obtain ⟨e1, lp1⟩ := r
  split at h
  · rename_i heq
    simp only [Prod.mk.injEq] at heq h
    obtain ⟨_, rfl⟩ := heq
    obtain ⟨_, rfl⟩ := h
    exact hrx
  · rename_i heq
    simp only [Prod.mk.injEq] at heq h
    obtain ⟨_, rfl⟩ := heq
    obtain ⟨_, rfl⟩ := h
    exact hrx

theorem adi_msp_open_chain {lp0 lp : adi_msp_private} {alloc : Nat → rx_alloc_result}
    {irq_ok : Bool} (h : adi_msp_open lp0 alloc irq_ok = some lp) :
    lp.tx_chain_head = 0 ∧ lp.tx_chain_tail = 0 ∧
    lp.tx_chain_status = chain_status.EMPTY ∧ lp.tx_count = 0 := by
  unfold adi_msp_open at h
  dsimp only at h
  rcases hr : adi_msp_alloc_ring
    (writel (writel (writel lp0 0 mmio_reg.tx_dma_cfg) 0 mmio_reg.status_dma_cfg) 0
      mmio_reg.rx_dma_cfg) alloc with ⟨e, lp1⟩
  rw [hr] at h
  have hc := adi_msp_alloc_ring_chain hr
  split at h
  · cases irq_ok
    · simp at h
    · simp only [if_true, Option.some.injEq] at h
      subst h
      rename_i heq
      simp only [Prod.mk.injEq] at heq
      obtain ⟨_, rfl⟩ := heq
      simpa [writel] using hc
  · simp at h

theorem adi_msp_status_slot_tx_frame (lp : adi_msp_private) :
    (adi_msp_status_slot lp).state.td_ring = lp.td_ring ∧
    (adi_msp_status_slot lp).state.td_dma = lp.td_dma ∧
    (adi_msp_status_slot lp).state.tx_chain_head = lp.tx_chain_head ∧
    (adi_msp_status_slot lp).state.tx_chain_tail = lp.tx_chain_tail ∧
    (adi_msp_status_slot lp).state.tx_chain_status = lp.tx_chain_status := by
  obtain ⟨a, b, c, d, hr⟩ := status_release_tag_frame lp
  obtain ⟨q, hq⟩ := status_wake_queue_eq (status_release_tag lp).2
  by_cases hready : status_slot_not_ready lp
  · have : adi_msp_status_slot lp = status_step.stop lp := by
      unfold adi_msp_status_slot
      dsimp only
      rw [if_pos hready]
    rw [this]
    exact ⟨rfl, rfl, rfl, rfl, rfl⟩
  by_cases htype :
      (adi_msp_status_wu lp lp.tx_next_done).byte0 &&& WU_TYPE_MASK = WU_TYPE_TX_STAT
  swap
  · rw [adi_msp_status_slot_bad_type lp hready htype]
    exact ⟨rfl, rfl, rfl, rfl, rfl⟩
  cases hskb : lp.tx_skb lp.tx_next_done with
  | none =>
    rw [adi_msp_status_slot_no_skb lp hready htype hskb]
    exact ⟨rfl, rfl, rfl, rfl, rfl⟩
  | some skb =>
    by_cases hrel : (status_release_tag lp).1 < 0
    · rw [adi_msp_status_slot_release_failed lp skb hready htype hskb hrel]
      simp only [status_step.state, status_count_reset]
      rw [hr]
      exact ⟨rfl, rfl, rfl, rfl, rfl⟩
    by_cases htag : (adi_msp_status_wu lp lp.tx_next_done).frame_tag = tx_wu_hdr_frame_tag skb
    · obtain ⟨x, y, hrep⟩ :=
        status_report_frame (status_wake_queue (status_release_tag lp).2) skb
          (adi_msp_status_wu lp lp.tx_next_done)
      rw [adi_msp_status_slot_tag_match lp skb hready htype hskb hrel htag]
      simp only [status_step.state, status_reset_desc_and_wu, writel]
      rw [hrep, hq, hr]
      exact ⟨rfl, rfl, rfl, rfl, rfl⟩
    · rw [adi_msp_status_slot_tag_mismatch lp skb hready htype hskb hrel htag]
      simp only [status_step.state, status_count_reset]
      rw [hq, hr]
      exact ⟨rfl, rfl, rfl, rfl, rfl⟩

theorem tx_chain_inv_of_frame {lp r : adi_msp_private} {p : List Nat}
    (h : tx_chain_inv lp p)
    (h1 : r.td_ring = lp.td_ring) (h2 : r.td_dma = lp.td_dma)
    (h3 : r.tx_chain_head = lp.tx_chain_head) (h4 : r.tx_chain_tail = lp.tx_chain_tail)
    (h5 : r.tx_chain_status = lp.tx_chain_status) (h6 : (p.length : Int) ≤ r.tx_count) :
    tx_chain_inv r p := by
  obtain ⟨a1, a2, a3, _, a5, a6⟩ := h
  refine ⟨by rw [h3]; exact a1, by rw [h3]; exact a2, by rw [h3, h4]; exact a3, h6,
    by rw [h5]; exact a5, ?_⟩
  exact tx_chain_linked_congr lp r h2 p (fun x _ => by rw [h1]) a6

theorem ring_slots_nodup_snoc {h n x : Nat} (hn : n < 128) (hx : x ∈ ring_slots h n) :
    x ≠ (h + n) % 128 := by
  obtain ⟨j, hj, rfl⟩ := mem_ring_slots.1 hx
  omega

theorem tx_chain_linked_last (lp : adi_msp_private) (l : Nat) :
    ∀ p : List Nat, tx_chain_linked lp (p ++ [l]) →
      dma_cfg_flow (lp.td_ring l).cfg = DMA_CFG_FLOW_STOP := by
  intro p
  induction p with
  | nil => intro h; exact h
  | cons x t ih =>
    intro h
    cases t with
    | nil => exact h.2.2.2
    | cons y rest => exact ih h.2.2.2

theorem tx_commit_linked (lp : adi_msp_private) (p : List Nat) (skb : sk_buff) (ptp : Bool)
    (addr wu_length : Nat) (h : tx_chain_inv lp p) (hc : lp.tx_count < 128) :
    tx_chain_linked (tx_commit lp skb ptp addr wu_length) (p ++ [lp.tx_chain_tail]) := by
  obtain ⟨a1, a2, a3, a4, a5, a6⟩ := h
  obtain ⟨t1, _, t3, t4⟩ := tx_commit_td_ring lp skb ptp addr wu_length
  have hn : p.length < 128 := by omega
  apply tx_chain_linked_snoc lp _ _ t1
  · by_cases hs : lp.tx_chain_status = chain_status.EMPTY
    · rw [t3 hs, ring_set_same]
      exact tx_fill_desc_flow _ _ _
    · rw [t4 (chain_status_ne_empty hs), ring_set_ne _ _ _ (ring_mask_pred_ne _).symm,
        ring_set_same]
      exact tx_fill_desc_flow _ _ _
  · intro x hx
    by_cases hs : lp.tx_chain_status = chain_status.EMPTY
    · rw [a5.1 hs] at hx
      simp at hx
    · have hxp : x ∈ p := List.mem_of_mem_dropLast hx
      rw [a2] at hxp hx
      obtain ⟨j, hj, hxj⟩ := mem_ring_slots.1 hxp
      have hj2 : j + 1 < p.length := by
        rcases Nat.lt_or_ge (j + 1) p.length with h | h
        · exact h
        · exfalso
          have hp : p.length = (p.length - 1) + 1 := by omega
          rw [hp, ring_slots_succ, List.dropLast_concat] at hx
          obtain ⟨k, hk, hxk⟩ := mem_ring_slots.1 hx
          omega
      rw [t4 (chain_status_ne_empty hs), ring_set_ne _ _ _ (by
          rw [a3]; unfold ring_mask; omega),
        ring_set_ne _ _ _ (by rw [a3]; omega)]
  · intro l hl
    have hpne : p ≠ [] := by
      intro h0
      rw [h0] at hl
      simp at hl
    have hs : lp.tx_chain_status = chain_status.FILLED :=
      chain_status_ne_empty (fun h => hpne (a5.1 h))
    have hlen : 0 < p.length := List.length_pos.2 hpne
    have hp : p.length = (p.length - 1) + 1 := by omega
    have hl2 : l = (lp.tx_chain_head + (p.length - 1)) % 128 := by
      rw [a2, hp, ring_slots_succ, List.getLast?_concat] at hl
      simp only [Option.some.injEq] at hl
      rw [← hl]
    have hprev : ring_mask ((lp.tx_chain_tail : Int) - 1) = l := by
      rw [hl2, a3]; unfold ring_mask; omega
    rw [t4 hs, hprev, ring_set_same]
    refine ⟨dma_cfg_flow_chained _ ?_, ?_, ?_⟩
    · have hlin := a6
      rw [a2, hp, ring_slots_succ, ← hl2] at hlin
      exact tx_chain_linked_last lp l _ hlin
    · simp [adi_msp_tx_dma, t1]
    · rw [hl2, a3]; unfold ring_mask; omega
  · exact a6

theorem tx_commit_stats (lp : adi_msp_private) (skb : sk_buff) (ptp : Bool)
    (addr wu_length : Nat) :
    (tx_commit lp skb ptp addr wu_length).stats = lp.stats := by
  obtain ⟨a, b, c, d, e, h⟩ := tx_commit_frame lp skb ptp addr wu_length
  rw [h]
  simp

theorem tx_commit_inv (lp : adi_msp_private) (p : List Nat) (skb : sk_buff) (ptp : Bool)
    (addr wu_length : Nat) (h : tx_chain_inv lp p) (hc : lp.tx_count < 128) :
    tx_chain_inv (tx_commit lp skb ptp addr wu_length)
      (if DMA_STAT_RUN lp.tx_dma_regs.stat = DMA_STAT_HALT then [] else p ++ [lp.tx_chain_tail]) := by
  have hlink := tx_commit_linked lp p skb ptp addr wu_length h hc
  obtain ⟨a1, a2, a3, a4, a5, a6⟩ := h
  obtain ⟨_, t2, _, _⟩ := tx_commit_td_ring lp skb ptp addr wu_length
  obtain ⟨c1, c2, c3, c4⟩ := tx_commit_chain lp skb ptp addr wu_length
  simp only [DMA_STAT_HALT]
  by_cases hh : DMA_STAT_RUN lp.tx_dma_regs.stat = 0
  · rw [if_pos hh]
    have hres : (tx_commit lp skb ptp addr wu_length).tx_chain_head = (lp.tx_chain_tail + 1) % 128 ∧
        (tx_commit lp skb ptp addr wu_length).tx_chain_tail = (lp.tx_chain_tail + 1) % 128 ∧
        (tx_commit lp skb ptp addr wu_length).tx_chain_status = chain_status.EMPTY := by
      by_cases hs : lp.tx_chain_status = chain_status.EMPTY
      · obtain ⟨x1, x2, x3, _⟩ := c1 hh hs
        exact ⟨x1, x2, x3⟩
      · obtain ⟨x1, x2, x3, _⟩ := c2 hh (chain_status_ne_empty hs)
        exact ⟨x1, x2, x3⟩
    obtain ⟨x1, x2, x3⟩ := hres
    refine ⟨by rw [x1]; omega, rfl, by rw [x1, x2]; simp, by rw [t2]; simp; omega,
      by rw [x3]; simp, trivial⟩
  · rw [if_neg hh]
    have hres : (tx_commit lp skb ptp addr wu_length).tx_chain_head = lp.tx_chain_head ∧
        (tx_commit lp skb ptp addr wu_length).tx_chain_tail = (lp.tx_chain_tail + 1) % 128 ∧
        (tx_commit lp skb ptp addr wu_length).tx_chain_status = chain_status.FILLED := by
      by_cases hs : lp.tx_chain_status = chain_status.EMPTY
      · obtain ⟨x1, x2, x3, _⟩ := c3 hh hs
        exact ⟨x1, x2, x3⟩
      · obtain ⟨x1, x2, x3, _⟩ := c4 hh (chain_status_ne_empty hs)
        exact ⟨x1, x2, x3⟩
    obtain ⟨x1, x2, x3⟩ := hres
    refine ⟨by rw [x1]; exact a1, ?_, ?_, ?_, ?_, hlink⟩
    · rw [x1, List.length_append, List.length_singleton, ring_slots_succ, ← a2, a3]
    · rw [x1, x2, List.length_append, List.length_singleton, a3]
      omega
    · rw [t2, List.length_append, List.length_singleton]
      push_cast
      omega
    · rw [x3]
      simp

theorem status_restart_tx_cases (lp : adi_msp_private) :
    (DMA_STAT_RUN lp.tx_dma_regs.stat = DMA_STAT_HALT ∧
        lp.tx_chain_status = chain_status.FILLED →
      (status_restart_tx lp).tx_chain_head = lp.tx_chain_tail ∧
      (status_restart_tx lp).tx_chain_tail = lp.tx_chain_tail ∧
      (status_restart_tx lp).tx_chain_status = chain_status.EMPTY ∧
      (status_restart_tx lp).tx_count = lp.tx_count ∧
      (status_restart_tx lp).mmio =
        ⟨mmio_reg.tx_dma_cfg, u32 (TX_DMA_CFG_COMMON ||| DMA_CFG_FLOW_DSCL)⟩ ::
          ⟨mmio_reg.tx_dma_dscptr_nxt, u32 (adi_msp_tx_dma lp lp.tx_chain_head)⟩ :: lp.mmio) ∧
    (¬ (DMA_STAT_RUN lp.tx_dma_regs.stat = DMA_STAT_HALT ∧
        lp.tx_chain_status = chain_status.FILLED) →
      status_restart_tx lp = lp) := by
  unfold status_restart_tx
  constructor
  · rintro ⟨hh, hs⟩
    rw [if_pos hh, if_pos hs]
    exact ⟨rfl, rfl, rfl, rfl, rfl⟩
  · intro hc
    by_cases hh : DMA_STAT_RUN lp.tx_dma_regs.stat = DMA_STAT_HALT
    · rw [if_pos hh, if_neg (fun hs => hc ⟨hh, hs⟩)]
    · rw [if_neg hh]

theorem tx_reachable_inv {lp : adi_msp_private} {p : List Nat} (h : tx_reachable lp p) :
    tx_chain_inv lp p := by
  induction h with
  | alloc_ring lp0 lp alloc h =>
    obtain ⟨h1, h2, h3, h4⟩ := adi_msp_alloc_ring_chain h
    exact ⟨by rw [h1]; decide, rfl, by rw [h1, h2]; rfl, by rw [h4]; rfl, by rw [h3]; simp,
      trivial⟩
  | opened lp0 lp alloc irq_ok h =>
    obtain ⟨h1, h2, h3, h4⟩ := adi_msp_open_chain h
    exact ⟨by rw [h1]; decide, rfl, by rw [h1, h2]; rfl, by rw [h4]; rfl, by rw [h3]; simp,
      trivial⟩
  | send lp r p cfg skb expand_ok map _ hwf hr ih =>
    unfold tx_pending_after_send
    by_cases hacc : r.stats.tx_dropped = lp.stats.tx_dropped
    · rw [if_pos hacc]
      obtain ⟨_, hc, _, b, skb1, skb2, addr, _, _, _, hrr⟩ :=
        adi_msp_send_packet_accepted cfg lp r skb expand_ok map hwf hr hacc
      rw [hrr]
      exact tx_commit_inv { lp with queue_stopped := b } p _ _ _ _
        (tx_chain_inv_of_frame ih rfl rfl rfl rfl rfl ih.2.2.2.1) hc
    · rw [if_neg hacc]
      rcases adi_msp_send_packet_cases cfg lp skb expand_ok map hwf with hd | ha
      · obtain ⟨b, skb1, hd⟩ := hd
        rw [hd] at hr
        simp only [Option.some.injEq] at hr
        subst hr
        exact tx_chain_inv_of_frame ih rfl rfl rfl rfl rfl ih.2.2.2.1
      · obtain ⟨_, _, _, _, _, _, _, _, _, ha⟩ := ha
        rw [ha] at hr
        simp only [Option.some.injEq] at hr
        subst hr
        exfalso
        apply hacc
        obtain ⟨b, hb⟩ := tx_stop_queue_eq lp skb.tx_flags.hw_tstamp
        rw [tx_commit_stats, hb]
  | restart lp p _ ih =>
    obtain ⟨e1, e2⟩ := status_restart_tx_cases lp
    unfold tx_pending_after_restart
    by_cases hc : DMA_STAT_RUN lp.tx_dma_regs.stat = DMA_STAT_HALT ∧
        lp.tx_chain_status = chain_status.FILLED
    · rw [if_pos hc]
      obtain ⟨x1, x2, x3, x4, x5⟩ := e1 hc
      obtain ⟨a1, a2, a3, a4, a5, a6⟩ := ih
      refine ⟨by rw [x1]; omega, rfl, by rw [x1, x2]; simp; omega, by rw [x4]; simp; omega,
        by rw [x3]; simp, trivial⟩
    · rw [if_neg hc, e2 hc]
      exact ih
  | status_slot lp p _ hle ih =>
    obtain ⟨h1, h2, h3, h4, h5⟩ := adi_msp_status_slot_tx_frame lp
    exact tx_chain_inv_of_frame ih h1 h2 h3 h4 h5 hle
  | tx_dma lp p regs _ ih =>
    exact tx_chain_inv_of_frame ih rfl rfl rfl rfl rfl ih.2.2.2.1
  | status_dma lp p idx wu regs _ ih =>
    exact tx_chain_inv_of_frame ih rfl rfl rfl rfl rfl ih.2.2.2.1

/-- C17: in every state reachable after `adi_msp_alloc_ring`, when an
accepted call of `adi_msp_send_packet` finds the transmit DMA halted and so
starts it (fewer than 128 frames are then in flight): the address written to
the next-descriptor register is that of the oldest slot submitted since the
DMA was last started; the descriptors from that slot up to the slot just
submitted are linked, each with flow mode `DMA_CFG_FLOW_DSCL` and a next
pointer equal to the address of the following slot, and the descriptor just
submitted has flow mode `DMA_CFG_FLOW_STOP`. When the chain was `EMPTY` the
started slot is the slot just submitted. -/
theorem tx_dma_start_chain (lp r : adi_msp_private) (p : List Nat) (cfg : build_config)
    (skb : sk_buff) (expand_ok : Bool) (map : Option Nat)
    (hreach : tx_reachable lp p)
    (hwf : skb.data + skb.len ≤ skb.buf_end)
    (hr : adi_msp_send_packet cfg lp skb expand_ok map = some r)
    (hacc : r.stats.tx_dropped = lp.stats.tx_dropped)
    (hhalt : DMA_STAT_RUN lp.tx_dma_regs.stat = DMA_STAT_HALT) :
    lp.tx_count < ADI_MSP_NUM_TDS ∧
    ∃ first, (p ++ [lp.tx_chain_tail]).head? = some first ∧
      r.mmio =
        ⟨mmio_reg.tx_dma_cfg, u32 (TX_DMA_CFG_COMMON ||| DMA_CFG_FLOW_DSCL)⟩ ::
          ⟨mmio_reg.tx_dma_dscptr_nxt, u32 (adi_msp_tx_dma r first)⟩ :: lp.mmio ∧
      tx_chain_linked r (p ++ [lp.tx_chain_tail]) ∧
      (lp.tx_chain_status = chain_status.EMPTY → p = [] ∧ first = lp.tx_chain_tail) := by
  have hinv := tx_reachable_inv hreach
  obtain ⟨_, hc, _, b, skb1, skb2, addr, _, _, _, hrr⟩ :=
    adi_msp_send_packet_accepted cfg lp r skb expand_ok map hwf hr hacc
  have hinvq : tx_chain_inv { lp with queue_stopped := b } p :=
    tx_chain_inv_of_frame hinv rfl rfl rfl rfl rfl hinv.2.2.2.1
  have hlink := tx_commit_linked { lp with queue_stopped := b } p
    (tx_fill_header lp skb2 (tx_ptp skb) (tx_frame_length cfg skb)) skb.tx_flags.hw_tstamp addr
    (tx_wu_length cfg skb) hinvq hc
  obtain ⟨t1, _, _, _⟩ := tx_commit_td_ring { lp with queue_stopped := b }
    (tx_fill_header lp skb2 (tx_ptp skb) (tx_frame_length cfg skb)) skb.tx_flags.hw_tstamp addr
    (tx_wu_length cfg skb)
  obtain ⟨c1, c2, _, _⟩ := tx_commit_chain { lp with queue_stopped := b }
    (tx_fill_header lp skb2 (tx_ptp skb) (tx_frame_length cfg skb)) skb.tx_flags.hw_tstamp addr
    (tx_wu_length cfg skb)
  rw [← hrr] at hlink t1 c1 c2
  obtain ⟨a1, a2, a3, a4, a5, a6⟩ := hinv
  have hmmio : r.mmio =
      ⟨mmio_reg.tx_dma_cfg, u32 (TX_DMA_CFG_COMMON ||| DMA_CFG_FLOW_DSCL)⟩ ::
        ⟨mmio_reg.tx_dma_dscptr_nxt, u32 (adi_msp_tx_dma r lp.tx_chain_head)⟩ :: lp.mmio := by
    have hd : adi_msp_tx_dma r lp.tx_chain_head = adi_msp_tx_dma lp lp.tx_chain_head := by
      simp only [adi_msp_tx_dma, t1]
    rw [hd]
    by_cases hs : lp.tx_chain_status = chain_status.EMPTY
    · exact (c1 hhalt hs).2.2.2.2
    · exact (c2 hhalt (chain_status_ne_empty hs)).2.2.2.2
  have hfirst : (p ++ [lp.tx_chain_tail]).head? = some lp.tx_chain_head := by
    cases hp : p with
    | nil =>
      rw [hp] at a3
      simp only [List.nil_append, List.head?_cons, Option.some.injEq, a3, List.length_nil]
      omega
    | cons x t =>
      rw [hp] at a2
      simp only [List.length_cons, ring_slots, List.range_succ_eq_map, List.map_cons] at a2
      have hx : x = lp.tx_chain_head := by
        have := (List.cons.inj a2).1
        omega
      simp [hx]
  refine ⟨by simpa using hc, lp.tx_chain_head, hfirst, hmmio, hlink, fun hs => ?_⟩
  have hp : p = [] := a5.1 hs
  refine ⟨hp, ?_⟩
  rw [hp] at a3
  simp only [List.length_nil] at a3
  omega

set_option maxRecDepth 8000 in
/-- On the example with two frames queued while the DMA runs: slots 0 and 1
are linked, slot 2 is not part of the chain before the third submission, and
the third submission, made with the DMA halted, links slots 0, 1, 2, starts
the DMA at the descriptor of slot 0 (address 0x1000) and leaves the chain
`EMPTY` with head and tail at slot 3. -/
theorem tx_example_started_chain :
    tx_chain_linked tx_example_halted [0, 1] ∧
    ¬ tx_chain_linked tx_example_halted [0, 1, 2] ∧
    tx_chain_linked tx_example_started [0, 1, 2] ∧
    tx_example_started.mmio.head? =
      some ⟨mmio_reg.tx_dma_cfg, u32 (TX_DMA_CFG_COMMON ||| DMA_CFG_FLOW_DSCL)⟩ ∧
    tx_example_started.mmio.tail.head? =
      some ⟨mmio_reg.tx_dma_dscptr_nxt, 0x1000⟩ ∧
    (tx_example_started.tx_chain_head, tx_example_started.tx_chain_tail,
      tx_example_started.tx_chain_status) = (3, 3, chain_status.EMPTY) := by
  decide

set_option maxRecDepth 8000 in
theorem tx_example_halted_reachable : tx_reachable tx_example_halted [0, 1] := by
  have h0 : tx_reachable adi_msp_opened [] :=
    tx_reachable.opened _ _ _ _ adi_msp_opened_eq
  have h1 : tx_reachable tx_example_running [] := tx_reachable.tx_dma _ _ _ h0
  have h2 := tx_reachable.send tx_example_running (tx_example_queued 1) [] ⟨false, false⟩
    (tx_skb_of_len 64) true (some (0x20000 + 0x1000 * 0)) h1 (by decide) (by rfl)
  have e2 : tx_pending_after_send tx_example_running (tx_example_queued 1) [] = [0] := by decide
  rw [e2] at h2
  have h3 := tx_reachable.send (tx_example_queued 1) (tx_example_queued 2) [0] ⟨false, false⟩
    (tx_skb_of_len 64) true (some (0x20000 + 0x1000 * 1)) h2 (by decide) (by rfl)
  have e3 : tx_pending_after_send (tx_example_queued 1) (tx_example_queued 2) [0] = [0, 1] := by
    decide
  rw [e3] at h3
  exact tx_reachable.tx_dma _ _ _ h3

set_option maxRecDepth 8000 in
theorem tx_dma_start_chain_witness :
    tx_reachable tx_example_halted [0, 1] ∧
    DMA_STAT_RUN tx_example_halted.tx_dma_regs.stat = DMA_STAT_HALT ∧
    ∃ first : Nat, ([0, 1] ++ [tx_example_halted.tx_chain_tail]).head? = some first ∧
      tx_example_started.mmio =
        ⟨mmio_reg.tx_dma_cfg, u32 (TX_DMA_CFG_COMMON ||| DMA_CFG_FLOW_DSCL)⟩ ::
          ⟨mmio_reg.tx_dma_dscptr_nxt, u32 (adi_msp_tx_dma tx_example_started first)⟩ ::
            tx_example_halted.mmio ∧
      tx_chain_linked tx_example_started ([0, 1] ++ [tx_example_halted.tx_chain_tail]) :=
  ⟨tx_example_halted_reachable, by decide,
    (tx_dma_start_chain tx_example_halted tx_example_started [0, 1] ⟨false, false⟩
      (tx_skb_of_len 64) true (some 0x22000) tx_example_halted_reachable (by decide) (by rfl)
      (by decide) (by decide)).2.imp
      (fun _ h => ⟨h.1, h.2.1, h.2.2.1⟩)⟩

/-! ### The polling functions on the example states -/

set_option maxRecDepth 8000 in
/-- On the example with a 46-byte frame in receive slots 0 and 1, the whole
of `adi_msp_rx` with budget 64 returns 1, hands one frame of 46 bytes upstream,
leaves `rx_next_done` at slot 2 and restarts the halted receive DMA there. -/
theorem adi_msp_rx_example :
    (adi_msp_rx (fun k => rx_alloc_ok (200 + k)) 10 (rx_example_filled 46) 64).map
        (fun r => (r.1, r.2.stats.rx_packets, r.2.stats.rx_bytes, r.2.stats.rx_errors,
          r.2.received.map (fun f => (skb_frame_bytes f).length), r.2.rx_next_done,
          r.2.prev_rx_skb_count, r.2.mmio.head?)) =
      some (1, 1, 46, 0, [46], 2, 0,
        some ⟨mmio_reg.rx_dma_cfg, RX_DMA_CFG_COMMON ||| DMA_CFG_FLOW_DSCL⟩) := by
  rfl

set_option maxRecDepth 8000 in
/-- On the example with one 64-byte frame in flight and its status work unit
in slot 0, the whole of `adi_msp_status` with budget 64 returns 1, counts one
packet of 64 bytes, frees slot 0 and gives the tag back. -/
theorem adi_msp_status_example :
    (adi_msp_status 10 (tx_example_completed ⟨false, true⟩ 64) 64).map
        (fun r => (r.1, r.2.stats.tx_packets, r.2.stats.tx_bytes, r.2.stats.tx_errors,
          r.2.tx_next_done, r.2.tx_count, r.2.available_nonptp_frame_tag_count,
          r.2.consumed.length)) =
      some (1, 1, 64, 0, 1, 0, 247, 1) := by
  rfl

/-! ### PTP clock -/

/-- C30: `tstamp_to_timespec` is claimed to yield a `tv_nsec` in `[0, 10^9)` for
every time of day with `nanoseconds < 10^9`.  For the time of day
`(5 s, 999999999 ns)` with the fraction `0x8000` the function rounds the
nanoseconds up to `10^9` and leaves `tv_sec` at 5: the carry into the seconds
is missing, and the result is not a normalised `timespec64`. -/
theorem tstamp_to_timespec_no_carry :
    tstamp_to_timespec { frac_nanoseconds := 0x8000, nanoseconds := 999999999, seconds := 5 } =
      { tv_sec := 5, tv_nsec := 1000000000 } ∧
    ¬ (tstamp_to_timespec
        { frac_nanoseconds := 0x8000, nanoseconds := 999999999, seconds := 5 }).tv_nsec <
      1000000000 := by
  decide

/-- What `tstamp_to_timespec` yields for a time of day with
`nanoseconds < 10^9`: `tv_sec` is the seconds field, `tv_nsec` is the
nanoseconds below the fraction `0x8000` and the nanoseconds plus one from
there on, so that `tv_nsec` lies in `[0, 10^9]` and is below `10^9` unless the
nanoseconds are `999999999` and the fraction is at least `0x8000`. -/
theorem tstamp_to_timespec_value (tstamp : tod_tstamp)
    (hf : tstamp.frac_nanoseconds < 65536) (hn : tstamp.nanoseconds < 1000000000)
    (hs : tstamp.seconds < 9223372036854775808) :
    (tstamp_to_timespec tstamp).tv_sec = tstamp.seconds ∧
    (tstamp.frac_nanoseconds < 0x8000 →
      (tstamp_to_timespec tstamp).tv_nsec = tstamp.nanoseconds) ∧
    (0x8000 ≤ tstamp.frac_nanoseconds →
      (tstamp_to_timespec tstamp).tv_nsec = tstamp.nanoseconds + 1) ∧
    (0 ≤ (tstamp_to_timespec tstamp).tv_nsec ∧ (tstamp_to_timespec tstamp).tv_nsec ≤ 1000000000) ∧
    ((tstamp_to_timespec tstamp).tv_nsec < 1000000000 ↔
      ¬ (tstamp.nanoseconds = 999999999 ∧ 0x8000 ≤ tstamp.frac_nanoseconds)) := by
  unfold tstamp_to_timespec s64_of_u64
  simp only [TOD_FRAC_NANO_NUM]
  have h1 : tstamp.seconds % 18446744073709551616 = tstamp.seconds := by omega
  have h2 : (tstamp.nanoseconds + 1) % 4294967296 = tstamp.nanoseconds + 1 := by omega
  rw [h1, h2, if_pos hs]
  refine ⟨rfl, ?_, ?_, ?_, ?_⟩
  · intro h
    rw [if_pos (by omega)]
  · intro h
    rw [if_neg (by omega)]
    push_cast
    rfl
  · split_ifs <;> push_cast <;> omega
  · split_ifs <;> push_cast <;> omega

/-- The remainder of the truncating division by `10^9` is above `-10^9`. -/
theorem tmod_nano_gt (a : Int) : -1000000000 < Int.tmod a 1000000000 := by
  rcases a with m | m
  · have := @Int.tmod_nonneg (Int.ofNat m) 1000000000 (Int.ofNat_nonneg m)
    omega
  · show -1000000000 < -(((m.succ % 1000000000 : Nat) : Int))
    have : m.succ % 1000000000 < 1000000000 := Nat.mod_lt _ (by decide)
    omega

/-- C29: `_tod_adjtime` is claimed to write back `(s + 1) * 10^9 + n + delta`
also when adding the sub-second part of `delta` carries into the seconds.  In
PPS mode, for the reading `(100 s, 500000000 ns)` and `delta = 2600000000`
(2 s + 600000000 ns) the sum of the nanoseconds carries, and the function
writes `(102 s, 100000000 ns)`: the carry branch adds the carried second but
not the two whole seconds of `delta`, where `(104 s, 100000000 ns)` is due. -/
theorem _tod_adjtime_carry_drops_seconds :
    _tod_adjtime hw_tod_trig_mode.HW_TOD_TRIG_MODE_PPS { ns := 0, frac_ns := 0 }
        (some { frac_nanoseconds := 0, nanoseconds := 500000000, seconds := 100 }) 2600000000 =
      some { frac_nanoseconds := 0, nanoseconds := 100000000, seconds := 102 } ∧
    (102 : Int) * 1000000000 + 100000000 ≠ (100 + 1) * 1000000000 + 500000000 + 2600000000 := by
  decide

/-- What `_tod_adjtime` writes back in PPS mode for a reading `(s, n)` with
`n < 10^9` when the result is not negative: the nanoseconds are below `10^9`;
when the sub-second part of `delta` does not carry (`n + r < 10^9`, also when it
borrows) the time written is `(s + 1) * 10^9 + n + delta`, and when it carries
the whole seconds of `delta` are missing from it. -/
theorem _tod_adjtime_pps_value (trig_delay : tod_trig_delay) (tstamp : tod_tstamp)
    (delta : Int)
    (hn : tstamp.nanoseconds < 1000000000) (hs : tstamp.seconds < 281474976710656)
    (hd : -9223372036854775808 ≤ delta ∧ delta < 9223372036854775808)
    (hpos : 0 ≤ ((tstamp.seconds : Int) + 1) * 1000000000 + tstamp.nanoseconds + delta) :
    ∃ w, _tod_adjtime hw_tod_trig_mode.HW_TOD_TRIG_MODE_PPS trig_delay (some tstamp) delta =
        some w ∧
      w.nanoseconds < 1000000000 ∧
      (1000000000 ≤ (tstamp.nanoseconds : Int) + Int.tmod delta 1000000000 →
        (w.seconds : Int) * 1000000000 + w.nanoseconds =
          ((tstamp.seconds : Int) + 1) * 1000000000 + tstamp.nanoseconds + delta -
            Int.tdiv delta 1000000000 * 1000000000) ∧
      ((tstamp.nanoseconds : Int) + Int.tmod delta 1000000000 < 1000000000 →
        (w.seconds : Int) * 1000000000 + w.nanoseconds =
          ((tstamp.seconds : Int) + 1) * 1000000000 + tstamp.nanoseconds + delta) := by
  have hqr : Int.tmod delta 1000000000 + 1000000000 * Int.tdiv delta 1000000000 = delta :=
    Int.tmod_add_tdiv delta 1000000000
  have hr1 : Int.tmod delta 1000000000 < 1000000000 :=
    Int.tmod_lt_of_pos delta (by decide)
  have hr2 : -1000000000 < Int.tmod delta 1000000000 := tmod_nano_gt delta
  unfold _tod_adjtime div_s64_rem
  simp only [TOD_1_SEC_IN_NANO, reduceCtorEq, if_false, u32_of_int, u64_of_int, Nat.cast_ofNat]
  generalize Int.tmod delta 1000000000 = r at hqr hr1 hr2 ⊢
  generalize Int.tdiv delta 1000000000 = q at hqr ⊢
  obtain ⟨f, n, s⟩ := tstamp
  simp only at hn hs hpos ⊢
  by_cases hb : r < 0 ∧ r.natAbs > n
  · rw [if_pos hb]
    simp only
    have e1 : ((1000000000 : Int) + r + (n : Int)) % 4294967296 =
        1000000000 + r + n := by omega
    rw [e1]
    have e2 : (1000000000 + r + (n : Int)).toNat < 1000000000 := by omega
    rw [if_pos e2]
    refine ⟨_, rfl, e2, ?_, ?_⟩ <;> intro h <;> simp only <;> omega
  · rw [if_neg hb]
    simp only
    have e1 : ((n : Int) + r) % 4294967296 = n + r := by omega
    rw [e1]
    by_cases e2 : ((n : Int) + r).toNat < 1000000000
    · rw [if_pos e2]
      refine ⟨_, rfl, e2, ?_, ?_⟩ <;> intro h <;> simp only <;> omega
    · rw [if_neg e2]
      refine ⟨_, rfl, ?_, ?_, ?_⟩ <;> (try intro h) <;> simp only <;> omega

/-! ### Transmit descriptor geometry -/

/-- The count of trailing zero bits of a positive number below `2 ^ fuel`: the
power of two with that exponent divides the number and the next one does
not. -/
theorem ctz_bits_spec : ∀ (fuel x : Nat), 0 < x → x < 2 ^ fuel →
    2 ^ ctz_bits fuel x ∣ x ∧ ¬ 2 ^ (ctz_bits fuel x + 1) ∣ x := by
  intro fuel
  induction fuel with
  | zero =>
    intro x h0 h1
    simp at h1
    omega
  | succ k ih =>
    intro x h0 h1
    unfold ctz_bits
    by_cases hodd : x % 2 = 1
    · rw [if_pos hodd]
      refine ⟨by simp, ?_⟩
      simp only [zero_add, pow_one]
      omega
    · rw [if_neg hodd]
      have hx : x = 2 * (x / 2) := by omega
      have h2 : 0 < x / 2 := by omega
      have h3 : x / 2 < 2 ^ k := by
        rw [pow_succ] at h1
        omega
      obtain ⟨ha, hb⟩ := ih (x / 2) h2 h3
      have hx2 : x = (x / 2) * 2 := by omega
      constructor
      · rw [Nat.add_comm, pow_succ]
        nth_rewrite 2 [hx2]
        exact Nat.mul_dvd_mul_right ha 2
      · intro hc
        apply hb
        rw [Nat.add_comm 1, pow_succ] at hc
        nth_rewrite 2 [hx2] at hc
        exact (Nat.mul_dvd_mul_iff_right (by decide : 0 < 2)).mp hc

/-- The descriptor that `tx_fill_desc` sets up for a non-zero 32-bit address. -/
theorem tx_fill_desc_geometry (td : dma_desc) (a n : Nat) (ha0 : 0 < a) (ha : a < 4294967296) :
    (tx_fill_desc td a n).xmod = 2 ^ min (builtin_ctz a) 3 ∧
    ((tx_fill_desc td a n).cfg >>> 8) &&& 7 = min (builtin_ctz a) 3 ∧
    (tx_fill_desc td a n).xmod ∣ a ∧
    (tx_fill_desc td a n).xmod ≤ 8 ∧
    ((tx_fill_desc td a n).xmod < 8 → ¬ 2 * (tx_fill_desc td a n).xmod ∣ a) ∧
    (tx_fill_desc td a n).xcnt =
      (n + (tx_fill_desc td a n).xmod - 1) / (tx_fill_desc td a n).xmod ∧
    n ≤ (tx_fill_desc td a n).xcnt * (tx_fill_desc td a n).xmod ∧
    (((tx_fill_desc td a n).xcnt : Int) - 1) * (tx_fill_desc td a n).xmod < n := by
  have hc : builtin_ctz a = ctz_bits 32 a := by
    unfold builtin_ctz
    rw [Nat.mod_eq_of_lt ha]
  obtain ⟨h1, h2⟩ := ctz_bits_spec 32 a ha0 (by simpa using ha)
  rw [← hc] at h1 h2
  have hm : min (builtin_ctz a) 3 ≤ 3 := Nat.min_le_right _ _
  have hd : 2 ^ min (builtin_ctz a) 3 ∣ a :=
    Nat.dvd_trans (Nat.pow_dvd_pow 2 (Nat.min_le_left _ _)) h1
  have hn : min (builtin_ctz a) 3 < 3 → ¬ 2 ^ (min (builtin_ctz a) 3 + 1) ∣ a := by
    intro hlt
    have : min (builtin_ctz a) 3 = builtin_ctz a := by omega
    rw [this]
    exact h2
  unfold tx_fill_desc
  dsimp only
  generalize min (builtin_ctz a) 3 = m at hm hd hn
  interval_cases m
  · refine ⟨by decide, by decide, by simp, by decide, ?_, by simp, by simp, ?_⟩
    · intro _
      simpa using hn (by decide)
    · simp
  · have e : (1 <<< 1 : Nat) = 2 := by decide
    rw [e]
    refine ⟨by decide, by decide, by simpa using hd, by decide, ?_, rfl, ?_, ?_⟩
    · intro _
      simpa using hn (by decide)
    · omega
    · omega
  · have e : (1 <<< 2 : Nat) = 4 := by decide
    rw [e]
    refine ⟨by decide, by decide, by simpa using hd, by decide, ?_, rfl, ?_, ?_⟩
    · intro _
      simpa using hn (by decide)
    · omega
    · omega
  · have e : (1 <<< 3 : Nat) = 8 := by decide
    rw [e]
    refine ⟨by decide, by decide, by simpa using hd, by decide, ?_, rfl, ?_, ?_⟩
    · intro h
      exact absurd h (by decide)
    · omega
    · omega

/-- The descriptor at the old chain tail after `tx_commit`. -/
theorem tx_commit_td_at_tail (lp : adi_msp_private) (skb : sk_buff) (ptp : Bool)
    (addr wu_length : Nat) :
    (tx_commit lp skb ptp addr wu_length).td_ring lp.tx_chain_tail =
      tx_fill_desc (lp.td_ring lp.tx_chain_tail) addr wu_length := by
  obtain ⟨_, _, he, hf⟩ := tx_commit_td_ring lp skb ptp addr wu_length
  by_cases hs : lp.tx_chain_status = chain_status.EMPTY
  · rw [he hs, ring_set_same]
  · rw [hf (chain_status_ne_empty hs), ring_set_ne _ _ _ (ring_mask_pred_ne lp.tx_chain_tail).symm,
      ring_set_same]

/-- C24: for every accepted submission in `adi_msp_send_packet` whose work unit
of `n = tx_wu_length` bytes is mapped at a non-zero 32-bit address `a`, the
descriptor of the slot has `xmod = 2 ^ min (ctz a) 3`, which is the largest
power of two dividing `a` capped at 8 (`xmod` divides `a`, is at most 8, and
when it is below 8 its double does not divide `a`); bits 10:8 of `cfg` hold
`min (ctz a) 3`; and `xcnt = ceil (n / xmod)`, that is `xcnt * xmod >= n` and
`(xcnt - 1) * xmod < n`. -/
theorem adi_msp_send_packet_desc_geometry (cfg : build_config) (lp r : adi_msp_private)
    (skb : sk_buff) (expand_ok : Bool) (a : Nat)
    (hwf : skb.data + skb.len ≤ skb.buf_end)
    (ha0 : 0 < a) (ha : a < 4294967296)
    (hr : adi_msp_send_packet cfg lp skb expand_ok (some a) = some r)
    (hacc : r.stats.tx_dropped = lp.stats.tx_dropped) :
    (r.td_ring lp.tx_chain_tail).addrstart = a ∧
    (r.td_ring lp.tx_chain_tail).xmod = 2 ^ min (builtin_ctz a) 3 ∧
    ((r.td_ring lp.tx_chain_tail).cfg >>> 8) &&& 7 = min (builtin_ctz a) 3 ∧
    (r.td_ring lp.tx_chain_tail).xmod ∣ a ∧
    (r.td_ring lp.tx_chain_tail).xmod ≤ 8 ∧
    ((r.td_ring lp.tx_chain_tail).xmod < 8 → ¬ 2 * (r.td_ring lp.tx_chain_tail).xmod ∣ a) ∧
    (r.td_ring lp.tx_chain_tail).xcnt =
      (tx_wu_length cfg skb + (r.td_ring lp.tx_chain_tail).xmod - 1) /
        (r.td_ring lp.tx_chain_tail).xmod ∧
    tx_wu_length cfg skb ≤
      (r.td_ring lp.tx_chain_tail).xcnt * (r.td_ring lp.tx_chain_tail).xmod ∧
    (((r.td_ring lp.tx_chain_tail).xcnt : Int) - 1) * (r.td_ring lp.tx_chain_tail).xmod <
      tx_wu_length cfg skb := by
  obtain ⟨_, _, _, b, skb1, skb2, addr, _, _, hmap, hrr⟩ :=
    adi_msp_send_packet_accepted cfg lp r skb expand_ok (some a) hwf hr hacc
  simp only [Option.some.injEq] at hmap
  subst hmap
  have ht := tx_commit_td_at_tail { lp with queue_stopped := b }
    (tx_fill_header lp skb2 (tx_ptp skb) (tx_frame_length cfg skb))
    skb.tx_flags.hw_tstamp a (tx_wu_length cfg skb)
  rw [← hrr] at ht
  simp only at ht
  rw [ht]
  refine ⟨?_, tx_fill_desc_geometry _ a _ ha0 ha⟩
  unfold tx_fill_desc u32
  simp only
  exact Nat.mod_eq_of_lt ha

set_option maxRecDepth 8000 in
theorem adi_msp_send_packet_desc_geometry_witness :
    (adi_msp_send_packet ⟨false, true⟩ adi_msp_opened (tx_skb_of_len 61) true
        (some 0x20004)).isSome = true ∧
    ((((adi_msp_send_packet ⟨false, true⟩ adi_msp_opened (tx_skb_of_len 61) true
        (some 0x20004)).getD adi_msp_opened).td_ring adi_msp_opened.tx_chain_tail).xmod = 4 ∧
      (((adi_msp_send_packet ⟨false, true⟩ adi_msp_opened (tx_skb_of_len 61) true
        (some 0x20004)).getD adi_msp_opened).td_ring adi_msp_opened.tx_chain_tail).xcnt = 18) ∧
    tx_wu_length ⟨false, true⟩ (tx_skb_of_len 61) ≤
      (((adi_msp_send_packet ⟨false, true⟩ adi_msp_opened (tx_skb_of_len 61) true
        (some 0x20004)).getD adi_msp_opened).td_ring adi_msp_opened.tx_chain_tail).xcnt *
      (((adi_msp_send_packet ⟨false, true⟩ adi_msp_opened (tx_skb_of_len 61) true
        (some 0x20004)).getD adi_msp_opened).td_ring adi_msp_opened.tx_chain_tail).xmod :=
  ⟨by decide, by decide,
    (adi_msp_send_packet_desc_geometry ⟨false, true⟩ adi_msp_opened
      ((adi_msp_send_packet ⟨false, true⟩ adi_msp_opened (tx_skb_of_len 61) true
        (some 0x20004)).getD adi_msp_opened)
      (tx_skb_of_len 61) true 0x20004 (by decide) (by decide) (by decide) (by rfl)
      (by decide)).2.2.2.2.2.2.2.1⟩

/-! ### Receive path: buffer bounds -/

/-- When `rx_deliver` panics: exactly when the frame length of the status work
unit plus the 2-byte data header does not fit behind the data of the pending
buffer. -/
theorem rx_deliver_panics_iff (lp : adi_msp_private) (skb skb_prev : sk_buff)
    (hp : lp.prev_rx_skb 0 = some skb_prev) :
    rx_deliver lp skb = none ↔
      skb_prev.data + skb_prev.len + ((status_wu_of_skb skb).frame_len + RX_DATA_WU_HEADER_LEN) >
        skb_prev.buf_end := by
  unfold rx_deliver
  rw [hp]
  dsimp only
  unfold skb_put
  simp only [RX_DATA_WU_HEADER_LEN, gt_iff_lt]
  by_cases h : skb_prev.buf_end <
      skb_prev.data + skb_prev.len + ((status_wu_of_skb skb).frame_len + 2)
  · cases hte : lp.hwtstamp_rx_en <;> simp [h]
  · cases hte : lp.hwtstamp_rx_en <;> simp [h]

set_option maxRecDepth 8000 in
/-- C23: the delivery of `adi_msp_rx` is claimed to stay within the 1537-byte
receive buffer for every value of the 16-bit frame length field.  The state has
one pending data work unit, and the status work unit of slot 1 has type
`WU_TYPE_RX_STAT` with reserved, error and dropped bits clear, so it is
accepted for delivery; its frame length field is 65535.  `skb_put` is asked to
extend the data buffer to 65537 bytes, which is past the end of the buffer:
it panics, in `rx_deliver` and so in the loop body of `adi_msp_rx`. -/
theorem rx_deliver_overruns_buffer :
    (rx_example_pending_with (rx_example_status 65535)).prev_rx_skb_count = 1 ∧
    ((rx_example_pending_with (rx_example_status 65535)).prev_rx_skb 0).isSome = true ∧
    (rx_example_pending_with (rx_example_status 65535)).rx_next_done = 1 ∧
    (skb_data_at (rx_example_status 65535) 0 &&& WU_TYPE_MASK = WU_TYPE_RX_STAT ∧
      skb_data_at (rx_example_status 65535) 0 &&& RX_STAT_WU_HEADER_RESERVED_BITS = 0 ∧
      skb_data_at (rx_example_status 65535) 0 &&& RX_STAT_WU_HEADER_ERR = 0 ∧
      skb_data_at (rx_example_status 65535) 0 &&& RX_STAT_WU_HEADER_DROPPED_ERR = 0) ∧
    (status_wu_of_skb (rx_example_status 65535)).frame_len = 65535 ∧
    RX_WU_BUF_SIZE < (status_wu_of_skb (rx_example_status 65535)).frame_len +
      RX_DATA_WU_HEADER_LEN ∧
    (((rx_example_pending_with (rx_example_status 65535)).prev_rx_skb 0).bind
      (fun skb_prev => skb_put skb_prev
        ((status_wu_of_skb (rx_example_status 65535)).frame_len +
          RX_DATA_WU_HEADER_LEN))).isNone = true ∧
    (rx_deliver (rx_example_pending_with (rx_example_status 65535))
      (rx_example_status 65535)).isNone = true ∧
    (adi_msp_rx_slot (rx_example_pending_with (rx_example_status 65535))
      (rx_alloc_ok 201)).isNone = true := by
  decide

/-! ### The receive loop: case analysis and induction -/

/-- Induction over the loop of `adi_msp_rx`: a property `P` of the count and
the state that every loop body and every `goto msp_rx_loop` keeps, and from
which every return establishes `Q` of the returned count and state, gives `Q`
of whatever `adi_msp_rx_from` returns. -/
theorem adi_msp_rx_from_induct (alloc : Nat → rx_alloc_result) (budget : Int)
    (P Q : Int → adi_msp_private → Prop)
    (hdone : ∀ count lp a r inc, count < budget → P count lp →
      adi_msp_rx_slot lp a = some (rx_step.done r inc) → P (count + inc) r)
    (hstop : ∀ count lp a r att, count < budget → P count lp →
      adi_msp_rx_slot lp a = some (rx_step.stop r att) → P count r)
    (hgoto : ∀ count lp r, P count lp →
      rx_after_loop lp budget count = some (none, r) → P count r)
    (hret : ∀ count lp c r, P count lp →
      rx_after_loop lp budget count = some (some c, r) → Q c r) :
    ∀ (fuel : Nat) (count : Int) (k : Nat) (lp : adi_msp_private) (c : Int)
      (r : adi_msp_private),
      P count lp → adi_msp_rx_from alloc budget fuel count k lp = some (c, r) → Q c r := by
  intro fuel
  induction fuel with
  | zero =>
    intro count k lp c r _ h
    simp [adi_msp_rx_from] at h
  | succ n ih =>
    intro count k lp c r hP h
    unfold adi_msp_rx_from at h
    by_cases hb : count < budget
    · rw [if_pos hb] at h
      rcases hs : adi_msp_rx_slot lp (alloc k) with _ | st
      · rw [hs] at h
        simp at h
      · rw [hs] at h
        cases st with
        | done lp1 inc =>
          simp only at h
          exact ih _ _ _ _ _ (hdone count lp _ lp1 inc hb hP hs) h
        | stop lp1 att =>
          simp only at h
          have hP1 := hstop count lp _ lp1 att hb hP hs
          rcases ha : rx_after_loop lp1 budget count with _ | ⟨oc, lp2⟩
          · rw [ha] at h
            simp at h
          · rw [ha] at h
            cases oc with
            | none =>
              simp only at h
              exact ih _ _ _ _ _ (hgoto count lp1 lp2 hP1 ha) h
            | some c1 =>
              simp only [Option.some.injEq, Prod.mk.injEq] at h
              obtain ⟨rfl, rfl⟩ := h
              exact hret count lp1 _ _ hP1 ha
    · rw [if_neg hb] at h
      rcases ha : rx_after_loop lp budget count with _ | ⟨oc, lp2⟩
      · rw [ha] at h
        simp at h
      · rw [ha] at h
        cases oc with
        | none =>
          simp only at h
          exact ih _ _ _ _ _ (hgoto count lp lp2 hP ha) h
        | some c1 =>
          simp only [Option.some.injEq, Prod.mk.injEq] at h
          obtain ⟨rfl, rfl⟩ := h
          exact hret count lp _ _ hP ha

/-- What the code of `adi_msp_rx` after the loop returns. -/
theorem rx_after_loop_cases (lp : adi_msp_private) (budget count : Int) (oc : Option Int)
    (r : adi_msp_private) (h : rx_after_loop lp budget count = some (oc, r)) :
    (oc = some count ∨ oc = some (min count (budget - 1)) ∨ (oc = none ∧ count < budget)) ∧
    ∃ n m, r = { lp with rx_dma_halt_cnt := n, mmio := m } := by
  unfold rx_after_loop at h
  by_cases hh : DMA_STAT_RUN lp.rx_dma_regs.stat = DMA_STAT_HALT
  · rw [if_pos hh] at h
    dsimp only at h
    rcases hs : lp.rx_skb lp.rx_next_done with _ | skb
    · rw [hs] at h
      simp at h
    · rw [hs] at h
      dsimp only at h
      by_cases h0 : skb_data_at skb 0 = 0
      · rw [if_pos h0] at h
        simp only [Option.some.injEq, Prod.mk.injEq] at h
        obtain ⟨rfl, rfl⟩ := h
        exact ⟨Or.inr (Or.inl rfl), _, _, rfl⟩
      · rw [if_neg h0] at h
        by_cases hc : count < budget
        · rw [if_pos hc] at h
          simp only [Option.some.injEq, Prod.mk.injEq] at h
          obtain ⟨rfl, rfl⟩ := h
          exact ⟨Or.inr (Or.inr ⟨rfl, hc⟩), _, lp.mmio, rfl⟩
        · rw [if_neg hc] at h
          simp only [Option.some.injEq, Prod.mk.injEq] at h
          obtain ⟨rfl, rfl⟩ := h
          exact ⟨Or.inl rfl, _, lp.mmio, rfl⟩
  · rw [if_neg hh] at h
    simp only [Option.some.injEq, Prod.mk.injEq] at h
    obtain ⟨rfl, rfl⟩ := h
    exact ⟨Or.inl rfl, lp.rx_dma_halt_cnt, lp.mmio, rfl⟩

/-- How the loop body of `adi_msp_rx` can end: a `break` with the state
unchanged, a `break` after the mapping error with the new buffer released, or
the slot consumed, where the work unit is classified in the state that has the
replacement buffer in the slot and the descriptor is rearmed. -/
theorem adi_msp_rx_slot_cases (lp : adi_msp_private) (a : rx_alloc_result) (st : rx_step)
    (h : adi_msp_rx_slot lp a = some st) :
    (∃ att, st = rx_step.stop lp att) ∨
    (∃ skb_new, st = rx_step.stop (napi_consume_skb lp skb_new) true) ∨
    (∃ skb skb_new addr lp1 inc,
      lp.rx_skb lp.rx_next_done = some skb ∧ ¬ rx_slot_not_ready lp skb ∧
      a.skb = some skb_new ∧ a.dma = some addr ∧
      adi_msp_rx_wu
        { lp with
          rx_skb := ring_set lp.rx_skb lp.rx_next_done (some (skb_set_data0 skb_new 0))
          rx_skb_dma := ring_set lp.rx_skb_dma lp.rx_next_done addr } skb = some (lp1, inc) ∧
      st = rx_step.done (rx_rearm lp1 lp.rx_next_done) inc) := by
  unfold adi_msp_rx_slot at h
  dsimp only at h
  rcases hs : lp.rx_skb lp.rx_next_done with _ | skb
  · rw [hs] at h
    simp at h
  · rw [hs] at h
    dsimp only at h
    by_cases hnr : rx_slot_not_ready lp skb
    · rw [if_pos hnr] at h
      simp only [Option.some.injEq] at h
      exact Or.inl ⟨false, h.symm⟩
    · rw [if_neg hnr] at h
      rcases hn : a.skb with _ | skb_new
      · rw [hn] at h
        simp only [Option.some.injEq] at h
        exact Or.inl ⟨true, h.symm⟩
      · rw [hn] at h
        dsimp only at h
        by_cases hal : a.aligned = false
        · rw [if_pos hal] at h
          simp only [Option.some.injEq] at h
          exact Or.inl ⟨true, h.symm⟩
        · rw [if_neg hal] at h
          rcases hd : a.dma with _ | addr
          · rw [hd] at h
            simp only [Option.some.injEq] at h
            exact Or.inr (Or.inl ⟨_, h.symm⟩)
          · rw [hd] at h
            dsimp only at h
            rcases hw : adi_msp_rx_wu
              { lp with
                rx_skb := ring_set lp.rx_skb lp.rx_next_done (some (skb_set_data0 skb_new 0))
                rx_skb_dma := ring_set lp.rx_skb_dma lp.rx_next_done addr } skb with _ | ⟨lp1, inc⟩
            · rw [hw] at h
              simp at h
            · rw [hw] at h
              simp only [Option.some.injEq] at h
              exact Or.inr (Or.inr ⟨skb, skb_new, addr, lp1, inc, rfl, hnr, rfl, rfl, hw, h.symm⟩)

/-! ### Reassembly set -/

/-- What `rx_deliver` leaves of the reassembly set. -/
theorem rx_deliver_prev (lp r : adi_msp_private) (skb : sk_buff)
    (h : rx_deliver lp skb = some r) :
    r.prev_rx_skb_count = 0 ∧ r.prev_rx_skb = ring_set lp.prev_rx_skb 0 none := by
  unfold rx_deliver at h
  rcases hp : lp.prev_rx_skb 0 with _ | skb_prev
  · rw [hp] at h
    simp at h
  · rw [hp] at h
    dsimp only at h
    split at h
    · simp at h
    · simp only [Option.some.injEq] at h
      subst h
      exact ⟨rfl, rfl⟩

/-- One work unit in `adi_msp_rx`: from a reassembly set of at most 5 buffers
the set has at most 5 buffers afterwards, and no entry of `prev_rx_skb` from
index 6 on is written. -/
theorem adi_msp_rx_wu_bound (lp r : adi_msp_private) (skb : sk_buff) (inc : Int)
    (hc : lp.prev_rx_skb_count ≤ 5) (h : adi_msp_rx_wu lp skb = some (r, inc)) :
    r.prev_rx_skb_count ≤ 5 ∧ ∀ i, 6 ≤ i → r.prev_rx_skb i = lp.prev_rx_skb i := by
  have hset : (rx_set_and_drop lp skb).prev_rx_skb_count ≤ 5 ∧
      ∀ i, 6 ≤ i → (rx_set_and_drop lp skb).prev_rx_skb i = lp.prev_rx_skb i := by
    rw [rx_set_and_drop_eq]
    refine ⟨by simp, fun i hi => ?_⟩
    simp only
    rw [if_neg (by omega)]
  have happ : (rx_append_and_drop lp skb).prev_rx_skb_count ≤ 5 ∧
      ∀ i, 6 ≤ i → (rx_append_and_drop lp skb).prev_rx_skb i = lp.prev_rx_skb i := by
    rw [rx_append_and_drop_eq]
    refine ⟨by simp, fun i hi => ?_⟩
    simp only
    rw [if_neg (by omega)]
  unfold adi_msp_rx_wu at h
  dsimp only at h
  split_ifs at h with h1 h2 h3 h4 h5 h6 h7 h8 h9 h10
  all_goals first
    | (simp only [Option.some.injEq, Prod.mk.injEq] at h
       obtain ⟨rfl, rfl⟩ := h
       first
         | exact hset
         | exact happ
         | (refine ⟨by first | decide | (simp only [PREV_RX_SKB_NUM] at *; omega), fun i hi => ?_⟩
            try simp only [rx_count_error, adi_msp_drop_prev_rx_skb_eq]
            rw [ring_set_ne _ _ _ (by omega)]
            try rw [if_neg (by omega)]))
    | (rcases hd : rx_deliver lp skb with _ | r1
       · rw [hd] at h
         simp at h
       · rw [hd] at h
         simp only [Option.map_some', Option.some.injEq, Prod.mk.injEq] at h
         obtain ⟨rfl, rfl⟩ := h
         obtain ⟨e1, e2⟩ := rx_deliver_prev lp _ skb hd
         rw [e1, e2]
         exact ⟨by omega, fun i hi => ring_set_ne _ _ _ (by omega)⟩)

/-- A sequence of work units in `adi_msp_rx`, from a reassembly set of at most
5 buffers. -/
theorem adi_msp_rx_wus_bound (wus : List sk_buff) : ∀ (lp m : adi_msp_private),
    lp.prev_rx_skb_count ≤ 5 → adi_msp_rx_wus lp wus = some m →
    m.prev_rx_skb_count ≤ 5 ∧ ∀ i, 6 ≤ i → m.prev_rx_skb i = lp.prev_rx_skb i := by
  induction wus with
  | nil =>
    intro lp m hc h
    simp only [adi_msp_rx_wus, Option.some.injEq] at h
    subst h
    exact ⟨hc, fun _ _ => rfl⟩
  | cons skb rest ih =>
    intro lp m hc h
    simp only [adi_msp_rx_wus] at h
    rcases hw : adi_msp_rx_wu lp skb with _ | ⟨lp1, inc⟩
    · rw [hw] at h
      simp at h
    · rw [hw] at h
      simp only [Option.some_bind] at h
      obtain ⟨h1, h2⟩ := adi_msp_rx_wu_bound lp lp1 skb inc hc hw
      obtain ⟨h3, h4⟩ := ih lp1 m h1 h
      exact ⟨h3, fun i hi => (h4 i hi).trans (h2 i hi)⟩

/-- C27: for every sequence `wus` of received work units, whatever their
header bytes, that `adi_msp_rx` processes from the empty reassembly set, after
each work unit (after every initial part `pre` of the sequence)
`prev_rx_skb_count` is at most `PREV_RX_SKB_NUM - 1 = 5`, and no entry of
`prev_rx_skb` at an index from `PREV_RX_SKB_NUM = 6` on has been written: every
write `prev_rx_skb[i]` has `i < 6`. -/
theorem rx_reassembly_set_bound (lp r : adi_msp_private) (wus : List sk_buff)
    (h0 : lp.prev_rx_skb_count = 0) (hr : adi_msp_rx_wus lp wus = some r) :
    ∀ pre suf, wus = pre ++ suf →
      ∃ m, adi_msp_rx_wus lp pre = some m ∧
        m.prev_rx_skb_count ≤ PREV_RX_SKB_NUM - 1 ∧
        ∀ i, PREV_RX_SKB_NUM ≤ i → m.prev_rx_skb i = lp.prev_rx_skb i := by
  intro pre suf hw
  subst hw
  rw [adi_msp_rx_wus_append] at hr
  rcases hp : adi_msp_rx_wus lp pre with _ | m
  · rw [hp] at hr
    simp at hr
  · exact ⟨m, rfl, adi_msp_rx_wus_bound pre lp m (by omega) hp⟩

set_option maxRecDepth 8000 in
theorem rx_reassembly_set_bound_witness :
    adi_msp_opened.prev_rx_skb_count = 0 ∧
    ((adi_msp_rx_wus adi_msp_opened
      (rx_example_data :: List.replicate 4 rx_example_continuation)).map
        (fun m => m.prev_rx_skb_count)) = some 5 ∧
    ((adi_msp_rx_wus adi_msp_opened
      (rx_example_data :: List.replicate 5 rx_example_continuation)).map
        (fun m => m.prev_rx_skb_count)) = some 0 ∧
    ∃ m, adi_msp_rx_wus adi_msp_opened
        (rx_example_data :: List.replicate 4 rx_example_continuation) = some m ∧
      m.prev_rx_skb_count ≤ PREV_RX_SKB_NUM - 1 ∧
      ∀ i, PREV_RX_SKB_NUM ≤ i → m.prev_rx_skb i = adi_msp_opened.prev_rx_skb i :=
  ⟨by decide, by decide, by decide,
    rx_reassembly_set_bound adi_msp_opened
      ((adi_msp_rx_wus adi_msp_opened
        (rx_example_data :: List.replicate 5 rx_example_continuation)).getD adi_msp_opened)
      (rx_example_data :: List.replicate 5 rx_example_continuation) (by decide) (by rfl)
      (rx_example_data :: List.replicate 4 rx_example_continuation) [rx_example_continuation]
      (by rfl)⟩

/-- The frame of `rx_rearm`. -/
theorem rx_rearm_frame (lp : adi_msp_private) (idx : Nat) :
    ∃ a b c, rx_rearm lp idx = { lp with rd_ring := a, rx_next_done := b, mmio := c } :=
  ⟨_, _, _, rfl⟩

/-- A call of `adi_msp_rx` keeps the bound on the reassembly set: from a set of
at most 5 buffers it returns with at most 5, and no entry of `prev_rx_skb` from
index 6 on is written. -/
theorem adi_msp_rx_prev_bound (alloc : Nat → rx_alloc_result) (budget : Int) (fuel : Nat)
    (lp r : adi_msp_private) (c : Int) (hc : lp.prev_rx_skb_count ≤ 5)
    (h : adi_msp_rx alloc fuel lp budget = some (c, r)) :
    r.prev_rx_skb_count ≤ 5 ∧ ∀ i, 6 ≤ i → r.prev_rx_skb i = lp.prev_rx_skb i := by
  refine adi_msp_rx_from_induct alloc budget
    (fun _ s => s.prev_rx_skb_count ≤ 5 ∧ ∀ i, 6 ≤ i → s.prev_rx_skb i = lp.prev_rx_skb i)
    (fun _ s => s.prev_rx_skb_count ≤ 5 ∧ ∀ i, 6 ≤ i → s.prev_rx_skb i = lp.prev_rx_skb i)
    ?_ ?_ ?_ ?_ fuel 0 0 lp c r ⟨hc, fun _ _ => rfl⟩ h
  · intro count s a s1 inc _ hP hs
    rcases adi_msp_rx_slot_cases s a _ hs with ⟨att, he⟩ | ⟨skb_new, he⟩ |
      ⟨skb, skb_new, addr, lp1, inc1, _, _, _, _, hw, he⟩
    · cases he
    · cases he
    · simp only [rx_step.done.injEq] at he
      obtain ⟨rfl, rfl⟩ := he
      obtain ⟨h1, h2⟩ := adi_msp_rx_wu_bound
        { s with
          rx_skb := ring_set s.rx_skb s.rx_next_done (some (skb_set_data0 skb_new 0))
          rx_skb_dma := ring_set s.rx_skb_dma s.rx_next_done addr } lp1 skb inc hP.1 hw
      obtain ⟨a1, b1, c1, hre⟩ := rx_rearm_frame lp1 s.rx_next_done
      rw [hre]
      exact ⟨h1, fun i hi => (h2 i hi).trans (hP.2 i hi)⟩
  · intro count s a s1 att _ hP hs
    rcases adi_msp_rx_slot_cases s a _ hs with ⟨att, he⟩ | ⟨skb_new, he⟩ |
      ⟨skb, skb_new, addr, lp1, inc1, _, _, _, _, hw, he⟩
    · simp only [rx_step.stop.injEq] at he
      obtain ⟨rfl, _⟩ := he
      exact hP
    · simp only [rx_step.stop.injEq] at he
      obtain ⟨rfl, _⟩ := he
      exact hP
    · cases he
  · intro count s s1 hP ha
    obtain ⟨_, n, m, rfl⟩ := rx_after_loop_cases s budget count _ _ ha
    exact hP
  · intro count s c1 s1 hP ha
    obtain ⟨_, n, m, rfl⟩ := rx_after_loop_cases s budget count _ _ ha
    exact hP

/-! ### Transmit chain indices -/

/-- C25: in every state reachable from `adi_msp_alloc_ring` (or `adi_msp_open`)
through submissions with `adi_msp_send_packet`, accepted or dropped, through
the chain restart of `adi_msp_status` and through the status slots it
processes, whatever the transmit DMA shows at each step (`p` lists the slots
queued behind `tx_chain_head` and not yet started): when the chain state is
`EMPTY`, `tx_chain_head` equals `tx_chain_tail`, and both indices are in
`[0, 127]`. -/
theorem tx_chain_empty_head_eq_tail (lp : adi_msp_private) (p : List Nat)
    (h : tx_reachable lp p) :
    (lp.tx_chain_status = chain_status.EMPTY → lp.tx_chain_head = lp.tx_chain_tail) ∧
    lp.tx_chain_head < ADI_MSP_NUM_TDS ∧ lp.tx_chain_tail < ADI_MSP_NUM_TDS := by
  obtain ⟨h1, _, h3, _, h5, _⟩ := tx_reachable_inv h
  simp only [ADI_MSP_NUM_TDS]
  refine ⟨fun he => ?_, h1, by omega⟩
  have hp := h5.mp he
  subst hp
  simp only [List.length_nil, Nat.add_zero] at h3
  omega

set_option maxRecDepth 8000 in
theorem tx_chain_empty_head_eq_tail_witness :
    tx_reachable tx_example_started [] ∧
    tx_example_started.tx_chain_status = chain_status.EMPTY ∧
    tx_example_started.tx_chain_head = 3 ∧
    tx_example_started.tx_chain_head = tx_example_started.tx_chain_tail :=
  ⟨tx_reachable.send tx_example_halted tx_example_started [0, 1] ⟨false, false⟩
      (tx_skb_of_len 64) true (some 0x22000) tx_example_halted_reachable (by decide) (by rfl),
    by decide, by decide,
    (tx_chain_empty_head_eq_tail tx_example_started []
      (tx_reachable.send tx_example_halted tx_example_started [0, 1] ⟨false, false⟩
        (tx_skb_of_len 64) true (some 0x22000) tx_example_halted_reachable (by decide)
        (by rfl))).1 (by decide)⟩

/-! ### The status loop: case analysis and induction -/

/-- How the loop body of `adi_msp_status` can end: a `break`; `reset_tx` for a
work unit of the wrong type or a slot without buffer; `reset_tx` after a failed
release of the tag; `reset_tx` after a released tag that differs from the one in
the transmit header; or the slot consumed. -/
theorem adi_msp_status_slot_cases (lp : adi_msp_private) :
    (status_slot_not_ready lp ∧ adi_msp_status_slot lp = status_step.stop lp) ∨
    (¬ status_slot_not_ready lp ∧
      ((adi_msp_status_wu lp lp.tx_next_done).byte0 &&& WU_TYPE_MASK ≠ WU_TYPE_TX_STAT ∨
        lp.tx_skb lp.tx_next_done = none) ∧
      adi_msp_status_slot lp = status_step.reset_tx (status_count_reset lp)) ∨
    (∃ skb, ¬ status_slot_not_ready lp ∧
      (adi_msp_status_wu lp lp.tx_next_done).byte0 &&& WU_TYPE_MASK = WU_TYPE_TX_STAT ∧
      lp.tx_skb lp.tx_next_done = some skb ∧
      (status_release_tag lp).1 < 0 ∧
      adi_msp_status_slot lp =
        status_step.reset_tx (status_count_reset (status_release_tag lp).2)) ∨
    (∃ skb, ¬ status_slot_not_ready lp ∧
      (adi_msp_status_wu lp lp.tx_next_done).byte0 &&& WU_TYPE_MASK = WU_TYPE_TX_STAT ∧
      lp.tx_skb lp.tx_next_done = some skb ∧
      ¬ (status_release_tag lp).1 < 0 ∧
      adi_msp_status_slot lp =
        status_step.reset_tx
          (status_count_reset (status_wake_queue (status_release_tag lp).2))) ∨
    (∃ skb, ¬ status_slot_not_ready lp ∧
      (adi_msp_status_wu lp lp.tx_next_done).byte0 &&& WU_TYPE_MASK = WU_TYPE_TX_STAT ∧
      lp.tx_skb lp.tx_next_done = some skb ∧
      ¬ (status_release_tag lp).1 < 0 ∧
      adi_msp_status_slot lp =
        status_step.done
          (status_reset_desc_and_wu
            (status_report (status_wake_queue (status_release_tag lp).2) skb
              (adi_msp_status_wu lp lp.tx_next_done))
            lp.tx_next_done)) := by
  by_cases hready : status_slot_not_ready lp
  · left
    refine ⟨hready, ?_⟩
    unfold adi_msp_status_slot
    dsimp only
    rw [if_pos hready]
  · by_cases htype :
      (adi_msp_status_wu lp lp.tx_next_done).byte0 &&& WU_TYPE_MASK = WU_TYPE_TX_STAT
    · rcases hskb : lp.tx_skb lp.tx_next_done with _ | skb
      · exact Or.inr (Or.inl ⟨hready, Or.inr rfl,
          adi_msp_status_slot_no_skb lp hready htype hskb⟩)
      · by_cases hrel : (status_release_tag lp).1 < 0
        · exact Or.inr (Or.inr (Or.inl ⟨skb, hready, htype, rfl, hrel,
            adi_msp_status_slot_release_failed lp skb hready htype hskb hrel⟩))
        · by_cases htag :
            (adi_msp_status_wu lp lp.tx_next_done).frame_tag = tx_wu_hdr_frame_tag skb
          · exact Or.inr (Or.inr (Or.inr (Or.inr ⟨skb, hready, htype, rfl, hrel,
              adi_msp_status_slot_tag_match lp skb hready htype hskb hrel htag⟩)))
          · exact Or.inr (Or.inr (Or.inr (Or.inl ⟨skb, hready, htype, rfl, hrel,
              adi_msp_status_slot_tag_mismatch lp skb hready htype hskb hrel htag⟩)))
    · exact Or.inr (Or.inl ⟨hready, Or.inl htype,
        adi_msp_status_slot_bad_type lp hready htype⟩)

/-- Induction over the `while` loop of `adi_msp_status`: a property of the
count and the state that every loop body keeps holds when the loop is left. -/
theorem adi_msp_status_while_induct (budget : Int) (P : Int → adi_msp_private → Prop)
    (hstep : ∀ count lp, count < budget → P count lp →
      P (count + (if (adi_msp_status_slot lp).is_done then 1 else 0))
        (adi_msp_status_slot lp).state) :
    ∀ (fuel : Nat) (count : Int) (lp : adi_msp_private) (b : Bool) (c : Int)
      (r : adi_msp_private),
      P count lp → adi_msp_status_while budget fuel count lp = some (b, c, r) → P c r := by
  intro fuel
  induction fuel with
  | zero =>
    intro count lp b c r _ h
    simp [adi_msp_status_while] at h
  | succ n ih =>
    intro count lp b c r hP h
    unfold adi_msp_status_while at h
    by_cases hb : count < budget
    · rw [if_pos hb] at h
      have hs := hstep count lp hb hP
      rcases hst : adi_msp_status_slot lp with s | s | s
      · rw [hst] at h hs
        simp only [Option.some.injEq, Prod.mk.injEq] at h
        obtain ⟨_, rfl, rfl⟩ := h
        simpa [status_step.is_done, status_step.state] using hs
      · rw [hst] at h hs
        simp only [Option.some.injEq, Prod.mk.injEq] at h
        obtain ⟨_, rfl, rfl⟩ := h
        simpa [status_step.is_done, status_step.state] using hs
      · rw [hst] at h hs
        simp only at h
        exact ih _ _ _ _ _ (by simpa [status_step.is_done, status_step.state] using hs) h
    · rw [if_neg hb] at h
      simp only [Option.some.injEq, Prod.mk.injEq] at h
      obtain ⟨_, rfl, rfl⟩ := h
      exact hP

/-- The `while` loop of `adi_msp_status` returns when its fuel is
`budget - count + 1`. -/
theorem adi_msp_status_while_returns (budget : Int) :
    ∀ (fuel : Nat) (count : Int) (lp : adi_msp_private),
      (budget - count).toNat < fuel →
      ∃ b c r, adi_msp_status_while budget fuel count lp = some (b, c, r) := by
  intro fuel
  induction fuel with
  | zero => intro count lp h; omega
  | succ n ih =>
    intro count lp h
    unfold adi_msp_status_while
    by_cases hb : count < budget
    · rw [if_pos hb]
      rcases hst : adi_msp_status_slot lp with s | s | s
      · exact ⟨_, _, _, rfl⟩
      · exact ⟨_, _, _, rfl⟩
      · exact ih _ _ (by omega)
    · rw [if_neg hb]
      exact ⟨_, _, _, rfl⟩

/-- Induction over `adi_msp_status`: a property `P` of the count and the state
that every loop body, the restart of the transmit DMA and the count of a halt
keep, and from which `Q` follows for the count returned, gives `Q` of whatever
`adi_msp_status_from` returns. -/
theorem adi_msp_status_from_induct (budget : Int) (P Q : Int → adi_msp_private → Prop)
    (hstep : ∀ count lp, count < budget → P count lp →
      P (count + (if (adi_msp_status_slot lp).is_done then 1 else 0))
        (adi_msp_status_slot lp).state)
    (hrestart : ∀ count lp, P count lp → P count (status_restart_tx lp))
    (hhalt : ∀ count lp n m, P count lp →
      P count { lp with status_dma_halt_cnt := n, mmio := m })
    (hret : ∀ count lp c, P count lp → (c = count ∨ c = min count (budget - 1)) → Q c lp) :
    ∀ (fuel : Nat) (count : Int) (lp : adi_msp_private) (c : Int) (r : adi_msp_private),
      P count lp → adi_msp_status_from budget fuel count lp = some (c, r) → Q c r := by
  intro fuel
  induction fuel with
  | zero =>
    intro count lp c r _ h
    simp [adi_msp_status_from] at h
  | succ n ih =>
    intro count lp c r hP h
    unfold adi_msp_status_from at h
    rcases hw : adi_msp_status_while budget ((budget - count).toNat + 1) count lp with
      _ | ⟨b, c1, lp1⟩
    · rw [hw] at h
      simp at h
    · rw [hw] at h
      have hP1 := adi_msp_status_while_induct budget P hstep _ _ _ _ _ _ hP hw
      cases b with
      | true =>
        simp only [Option.some.injEq, Prod.mk.injEq] at h
        obtain ⟨rfl, rfl⟩ := h
        exact hret _ _ _ hP1 (Or.inl rfl)
      | false =>
        dsimp only at h
        have hP2 := hrestart _ _ hP1
        by_cases hh : DMA_STAT_RUN (status_restart_tx lp1).status_dma_regs.stat = DMA_STAT_HALT
        · rw [if_pos hh] at h
          by_cases h0 : (adi_msp_status_wu (status_restart_tx lp1)
              (status_restart_tx lp1).tx_next_done).byte0 = 0
          · rw [if_pos h0] at h
            simp only [Option.some.injEq, Prod.mk.injEq] at h
            obtain ⟨rfl, rfl⟩ := h
            exact hret _ _ _ (hhalt _ (status_restart_tx lp1) _ _ hP2) (Or.inr rfl)
          · rw [if_neg h0] at h
            by_cases hc : c1 < budget
            · rw [if_pos hc] at h
              exact ih _ _ _ _ (hhalt _ (status_restart_tx lp1) _ _ hP2) h
            · rw [if_neg hc] at h
              simp only [Option.some.injEq, Prod.mk.injEq] at h
              obtain ⟨rfl, rfl⟩ := h
              exact hret _ _ _ (hhalt _ (status_restart_tx lp1) _ _ hP2) (Or.inl rfl)
        · rw [if_neg hh] at h
          simp only [Option.some.injEq, Prod.mk.injEq] at h
          obtain ⟨rfl, rfl⟩ := h
          exact hret _ _ _ hP2 (Or.inl rfl)

/-! ### Work counts of the polling functions -/

/-- A work unit adds 0 or 1 to the count of `adi_msp_rx`. -/
theorem adi_msp_rx_wu_inc (lp r : adi_msp_private) (skb : sk_buff) (inc : Int)
    (h : adi_msp_rx_wu lp skb = some (r, inc)) : inc = 0 ∨ inc = 1 := by
  unfold adi_msp_rx_wu at h
  dsimp only at h
  split_ifs at h
  all_goals first
    | (simp only [Option.some.injEq, Prod.mk.injEq] at h
       obtain ⟨_, rfl⟩ := h
       first | exact Or.inl rfl | exact Or.inr rfl)
    | (rcases hd : rx_deliver lp skb with _ | r1
       · rw [hd] at h
         simp at h
       · rw [hd] at h
         simp only [Option.map_some', Option.some.injEq, Prod.mk.injEq] at h
         obtain ⟨_, rfl⟩ := h
         exact Or.inr rfl)

/-- The count that `adi_msp_rx` returns for a budget that is not negative: at
most the budget, and at least 0 when the budget is at least 1; for the budget
0 it is at least -1. -/
theorem adi_msp_rx_count_bound (alloc : Nat → rx_alloc_result) (budget : Int) (fuel : Nat)
    (lp r : adi_msp_private) (c : Int) (hb : 0 ≤ budget)
    (h : adi_msp_rx alloc fuel lp budget = some (c, r)) :
    min 0 (budget - 1) ≤ c ∧ c ≤ budget := by
  refine adi_msp_rx_from_induct alloc budget
    (fun n _ => 0 ≤ n ∧ n ≤ budget) (fun n _ => min 0 (budget - 1) ≤ n ∧ n ≤ budget)
    ?_ ?_ ?_ ?_ fuel 0 0 lp c r ⟨le_refl 0, hb⟩ h
  · intro count s a s1 inc hlt hP hs
    rcases adi_msp_rx_slot_cases s a _ hs with ⟨att, he⟩ | ⟨skb_new, he⟩ |
      ⟨skb, skb_new, addr, lp1, inc1, _, _, _, _, hw, he⟩
    · cases he
    · cases he
    · simp only [rx_step.done.injEq] at he
      obtain ⟨_, rfl⟩ := he
      rcases adi_msp_rx_wu_inc _ _ _ _ hw with h0 | h1
      · subst h0
        simp only [add_zero]
        exact hP
      · subst h1
        exact ⟨by omega, by omega⟩
  · intro count s a s1 att _ hP _
    exact hP
  · intro count s s1 hP _
    exact hP
  · intro count s c1 s1 hP ha
    obtain ⟨hc, _⟩ := rx_after_loop_cases s budget count _ _ ha
    simp only [Option.some.injEq, reduceCtorEq, false_and, or_false] at hc
    rcases hc with rfl | rfl
    · exact ⟨by omega, hP.2⟩
    · exact ⟨by omega, by omega⟩

/-- The count that `adi_msp_status` returns for a budget that is not negative:
at most the budget, and at least 0 when the budget is at least 1; for the
budget 0 it is at least -1. -/
theorem adi_msp_status_count_bound (budget : Int) (fuel : Nat)
    (lp r : adi_msp_private) (c : Int) (hb : 0 ≤ budget)
    (h : adi_msp_status fuel lp budget = some (c, r)) :
    min 0 (budget - 1) ≤ c ∧ c ≤ budget := by
  refine adi_msp_status_from_induct budget
    (fun n _ => 0 ≤ n ∧ n ≤ budget) (fun n _ => min 0 (budget - 1) ≤ n ∧ n ≤ budget)
    ?_ ?_ ?_ ?_ fuel 0 lp c r ⟨le_refl 0, hb⟩ h
  · intro count s hlt hP
    split_ifs
    · exact ⟨by omega, by omega⟩
    · simpa using hP
  · intro count s hP
    exact hP
  · intro count s n m hP
    exact hP
  · intro count s c1 hP hc
    rcases hc with rfl | rfl
    · exact ⟨by omega, hP.2⟩
    · exact ⟨by omega, by omega⟩

/-- The restart branch of the code after the loop of `adi_msp_rx`: the count
returned is the smaller of the count and `budget - 1`. -/
theorem rx_after_loop_restart (lp : adi_msp_private) (budget count : Int) (skb : sk_buff)
    (hh : DMA_STAT_RUN lp.rx_dma_regs.stat = DMA_STAT_HALT)
    (hs : lp.rx_skb lp.rx_next_done = some skb) (h0 : skb_data_at skb 0 = 0) :
    (rx_after_loop lp budget count).map Prod.fst = some (some (min count (budget - 1))) := by
  unfold rx_after_loop
  rw [if_pos hh]
  dsimp only
  rw [hs]
  dsimp only
  rw [if_pos h0]
  rfl

set_option maxRecDepth 8000 in
/-- C21: the count returned by `adi_msp_rx` and by `adi_msp_status` is claimed
to be between 0 and the budget for every budget, 0 included, and still not
negative after a restart of the halted DMA.  In the state after `adi_msp_open`,
with the receive and the status DMA showing halted and their next slots still
empty, a call with budget 0 does not enter the loop, restarts the DMA and
returns `min(0, 0 - 1) = -1`, in `adi_msp_rx` and in `adi_msp_status` alike. -/
theorem adi_msp_poll_budget_zero_negative :
    DMA_STAT_RUN adi_msp_opened.rx_dma_regs.stat = DMA_STAT_HALT ∧
    (adi_msp_opened.rx_skb adi_msp_opened.rx_next_done).map (fun skb => skb_data_at skb 0) =
      some 0 ∧
    (adi_msp_rx rx_alloc_ok 1 adi_msp_opened 0).map Prod.fst = some (-1) ∧
    DMA_STAT_RUN adi_msp_opened.status_dma_regs.stat = DMA_STAT_HALT ∧
    (adi_msp_status_wu adi_msp_opened adi_msp_opened.tx_next_done).byte0 = 0 ∧
    (adi_msp_status 1 adi_msp_opened 0).map Prod.fst = some (-1) := by
  decide

/-! ### Receive path: allocation failure -/

/-- The loop body of `adi_msp_rx` when the replacement buffer cannot be
allocated, is misaligned or cannot be mapped, for a slot that is ready: a
`break` that leaves the state as it is, up to the release of the new buffer
after a mapping error. -/
theorem adi_msp_rx_slot_alloc_failure (lp : adi_msp_private) (a : rx_alloc_result)
    (skb : sk_buff) (hs : lp.rx_skb lp.rx_next_done = some skb)
    (hready : ¬ rx_slot_not_ready lp skb)
    (hfail : a.skb = none ∨ a.aligned = false ∨ a.dma = none) :
    ∃ cons, adi_msp_rx_slot lp a = some (rx_step.stop { lp with consumed := cons } true) := by
  unfold adi_msp_rx_slot
  dsimp only
  rw [hs]
  dsimp only
  rw [if_neg hready]
  rcases hn : a.skb with _ | skb_new
  · exact ⟨lp.consumed, rfl⟩
  · dsimp only
    by_cases hal : a.aligned = false
    · rw [if_pos hal]
      exact ⟨lp.consumed, rfl⟩
    · rw [if_neg hal]
      rcases hd : a.dma with _ | addr
      · exact ⟨_, rfl⟩
      · rcases hfail with h | h | h
        · rw [hn] at h
          cases h
        · exact absurd h hal
        · rw [hd] at h
          cases h

/-- One round of `adi_msp_rx` under a failing allocation, with the receive DMA
halted, the slot at `rx_next_done` ready and budget left: the function is back
at the label `msp_rx_loop` with the same count, and the state differs only in
`rx_dma_halt_cnt` and in the buffers released. -/
theorem adi_msp_rx_alloc_failure_round (alloc : Nat → rx_alloc_result) (budget : Int)
    (fuel : Nat) (count : Int) (k : Nat) (lp : adi_msp_private) (skb : sk_buff)
    (hb : count < budget)
    (hs : lp.rx_skb lp.rx_next_done = some skb) (hready : ¬ rx_slot_not_ready lp skb)
    (hh : DMA_STAT_RUN lp.rx_dma_regs.stat = DMA_STAT_HALT)
    (hfail : (alloc k).skb = none ∨ (alloc k).aligned = false ∨ (alloc k).dma = none) :
    ∃ cons, adi_msp_rx_from alloc budget (fuel + 1) count k lp =
      adi_msp_rx_from alloc budget fuel count (k + 1)
        { lp with rx_dma_halt_cnt := lp.rx_dma_halt_cnt + 1, consumed := cons } := by
  obtain ⟨cons, hslot⟩ := adi_msp_rx_slot_alloc_failure lp (alloc k) skb hs hready hfail
  refine ⟨cons, ?_⟩
  have h0 : ¬ skb_data_at skb 0 = 0 := fun h => hready (Or.inl h)
  have ha : rx_after_loop { lp with consumed := cons } budget count =
      some (none, { lp with rx_dma_halt_cnt := lp.rx_dma_halt_cnt + 1, consumed := cons }) := by
    unfold rx_after_loop
    dsimp only
    rw [if_pos hh, hs]
    dsimp only
    rw [if_neg h0, if_pos hb]
  rw [adi_msp_rx_from, if_pos hb, hslot]
  dsimp only
  rw [ha]
  rfl

/-- Under an allocation that keeps failing, with the receive DMA halted, the
slot at `rx_next_done` ready and budget left, `adi_msp_rx` does not return:
whatever the fuel, it runs out. -/
theorem adi_msp_rx_alloc_failure_loops (alloc : Nat → rx_alloc_result) (budget : Int)
    (count : Int) (hb : count < budget)
    (hfail : ∀ k, (alloc k).skb = none ∨ (alloc k).aligned = false ∨ (alloc k).dma = none) :
    ∀ (fuel k : Nat) (lp : adi_msp_private) (skb : sk_buff),
      lp.rx_skb lp.rx_next_done = some skb → ¬ rx_slot_not_ready lp skb →
      DMA_STAT_RUN lp.rx_dma_regs.stat = DMA_STAT_HALT →
      adi_msp_rx_from alloc budget fuel count k lp = none := by
  intro fuel
  induction fuel with
  | zero =>
    intro k lp skb _ _ _
    rfl
  | succ n ih =>
    intro k lp skb hs hready hh
    obtain ⟨cons, hr⟩ :=
      adi_msp_rx_alloc_failure_round alloc budget n count k lp skb hb hs hready hh (hfail k)
    rw [hr]
    exact ih (k + 1) _ skb hs hready hh

set_option maxRecDepth 8000 in
/-- C22: `adi_msp_rx` is claimed to return when the replacement buffer cannot be
allocated, also with the receive DMA halted and the slot not empty.  In the
state after `adi_msp_open` in which the hardware has filled slot 0 and the DMA
shows halted, with `napi_alloc_skb` returning null at every call and budget 64:
the loop body ends in `break` with the state unchanged (the slot is not
consumed), the code after the loop finds the DMA halted, the slot not empty and
budget left and takes `goto msp_rx_loop`, back to the same failing allocation;
whatever the fuel, the function does not return.  With the DMA showing as
running the same call returns 0. -/
theorem adi_msp_rx_alloc_failure_never_returns :
    DMA_STAT_RUN (rx_example_with rx_example_data).rx_dma_regs.stat = DMA_STAT_HALT ∧
    ¬ rx_slot_not_ready (rx_example_with rx_example_data) rx_example_data ∧
    adi_msp_rx_slot (rx_example_with rx_example_data) rx_alloc_fail =
      some (rx_step.stop (rx_example_with rx_example_data) true) ∧
    (rx_after_loop (rx_example_with rx_example_data) 64 0).map Prod.fst = some none ∧
    (∀ fuel, adi_msp_rx (fun _ => rx_alloc_fail) fuel (rx_example_with rx_example_data) 64 =
      none) ∧
    adi_msp_rx (fun _ => rx_alloc_fail) 1 rx_example_running 64 =
      some (0, rx_example_running) :=
  ⟨by decide, by decide, rfl, by decide,
    fun fuel => adi_msp_rx_alloc_failure_loops (fun _ => rx_alloc_fail) 64 0 (by decide)
      (fun _ => Or.inl rfl) fuel 0 (rx_example_with rx_example_data) rx_example_data rfl
      (by decide) (by decide),
    rfl⟩

/-! ### Conservation of tags and slots -/

/-- Entries that hold a buffer in the first `n` slots, when slot `i ≥ n` is
written. -/
theorem countP_ring_set_ge (f : Nat → Option sk_buff) (i : Nat) (v : Option sk_buff) (n : Nat)
    (h : n ≤ i) :
    (List.range n).countP (fun j => (ring_set f i v j).isSome) =
      (List.range n).countP (fun j => (f j).isSome) := by
  apply List.countP_congr
  intro j hj
  rw [List.mem_range] at hj
  rw [ring_set_ne _ _ _ (by omega)]

/-- Entries that hold a buffer in the first `n` slots, when slot `i < n` is
written. -/
theorem countP_ring_set_lt (f : Nat → Option sk_buff) (i : Nat) (v : Option sk_buff) :
    ∀ n, i < n →
      (((List.range n).countP (fun j => (ring_set f i v j).isSome) : Nat) : Int) =
        ((List.range n).countP (fun j => (f j).isSome) : Nat) -
          (if (f i).isSome then 1 else 0) + (if v.isSome then 1 else 0) := by
  intro n
  induction n with
  | zero => intro h; omega
  | succ n ih =>
    intro h
    rw [List.range_succ, List.countP_append, List.countP_append]
    by_cases hi : i = n
    · subst hi
      rw [countP_ring_set_ge f i v i (le_refl i)]
      simp only [List.countP_cons, List.countP_nil, ring_set_same, zero_add]
      cases v <;> cases f i <;> simp
    · rw [Nat.cast_add, ih (by omega), Nat.cast_add]
      simp only [List.countP_cons, List.countP_nil, zero_add]
      rw [ring_set_ne _ _ _ (fun h => hi h.symm)]
      omega

theorem tx_skb_occupied_congr (lp r : adi_msp_private) (h : r.tx_skb = lp.tx_skb) :
    tx_skb_occupied r = tx_skb_occupied lp := by
  unfold tx_skb_occupied
  rw [h]

/-- The count of occupied slots after a store into `tx_skb[i]`. -/
theorem tx_skb_occupied_set (lp r : adi_msp_private) (i : Nat) (v : Option sk_buff)
    (hi : i < 128) (h : r.tx_skb = ring_set lp.tx_skb i v) :
    (tx_skb_occupied r : Int) =
      tx_skb_occupied lp - (if (lp.tx_skb i).isSome then 1 else 0) +
        (if v.isSome then 1 else 0) := by
  unfold tx_skb_occupied
  rw [h]
  exact countP_ring_set_lt lp.tx_skb i v 128 hi

theorem tx_skb_occupied_empty (lp : adi_msp_private) (h : ∀ i, lp.tx_skb i = none) :
    tx_skb_occupied lp = 0 := by
  unfold tx_skb_occupied
  rw [List.countP_eq_zero]
  intro j _
  rw [h j]
  simp

theorem adi_msp_alloc_ring_rx_tx_frame (alloc : Nat → rx_alloc_result) (n : Nat) :
    ∀ (i : Nat) (lp : adi_msp_private),
      (adi_msp_alloc_ring_rx alloc n i lp).2.tx_skb = lp.tx_skb ∧
      (adi_msp_alloc_ring_rx alloc n i lp).2.tx_next_done = lp.tx_next_done := by
  induction n with
  | zero => intro i lp; exact ⟨rfl, rfl⟩
  | succ n ih =>
    intro i lp
    unfold adi_msp_alloc_ring_rx
    cases (alloc i).skb with
    | none => exact ⟨rfl, rfl⟩
    | some skb0 =>
      dsimp only
      cases (alloc i).dma with
      | none => exact ⟨rfl, rfl⟩
      | some addr =>
        dsimp only
        exact ih (i + 1) _

theorem adi_msp_alloc_ring_tx_frame {lp0 lp : adi_msp_private} {alloc : Nat → rx_alloc_result}
    {e : Int} (h : adi_msp_alloc_ring lp0 alloc = (e, lp)) :
    lp.tx_skb = lp0.tx_skb ∧ lp.tx_next_done = 0 := by
  unfold adi_msp_alloc_ring at h
  dsimp only at h
  have hrx := adi_msp_alloc_ring_rx_tx_frame alloc ADI_MSP_NUM_RDS 0
    { lp0 with
      td_ring := fun i =>
        if i < ADI_MSP_NUM_TDS then
          { dscptr_nxt := 0, addrstart := 0, cfg := 0, xcnt := 0, xmod := 0 }
        else lp0.td_ring i
      tx_next_done := 0, tx_chain_head := 0, tx_chain_tail := 0, tx_count := 0
      tx_chain_status := chain_status.EMPTY }
  generalize adi_msp_alloc_ring_rx alloc ADI_MSP_NUM_RDS 0 _ = r at h hrx
  obtain ⟨e1, lp1⟩ := r
  split at h
  · rename_i heq
    simp only [Prod.mk.injEq] at heq h
    obtain ⟨_, rfl⟩ := heq
    obtain ⟨_, rfl⟩ := h
    exact hrx
  · rename_i heq
    simp only [Prod.mk.injEq] at heq h
    obtain ⟨_, rfl⟩ := heq
    obtain ⟨_, rfl⟩ := h
    exact hrx

/-- The transmit side of the state after `adi_msp_open`. -/
theorem adi_msp_open_tx_state {lp0 lp : adi_msp_private} {alloc : Nat → rx_alloc_result}
    {irq_ok : Bool} (h : adi_msp_open lp0 alloc irq_ok = some lp) :
    lp.tx_skb = lp0.tx_skb ∧ lp.tx_next_done = 0 ∧ lp.tx_chain_tail = 0 ∧ lp.tx_count = 0 ∧
    lp.available_nonptp_frame_tag_count = 247 ∧ lp.available_ptp_frame_tag_count = 8 := by
  unfold adi_msp_open at h
  dsimp only at h
  rcases hr : adi_msp_alloc_ring
    (writel (writel (writel lp0 0 mmio_reg.tx_dma_cfg) 0 mmio_reg.status_dma_cfg) 0
      mmio_reg.rx_dma_cfg) alloc with ⟨e, lp1⟩
  rw [hr] at h
  have hf := adi_msp_alloc_ring_tx_frame hr
  have hc := adi_msp_alloc_ring_chain hr
  split at h
  · cases irq_ok
    · simp at h
    · simp only [if_true, Option.some.injEq] at h
      subst h
      rename_i heq
      simp only [Prod.mk.injEq] at heq
      obtain ⟨_, rfl⟩ := heq
      refine ⟨?_, ?_, ?_, ?_, ?_, ?_⟩
      · simpa [writel] using hf.1
      · simpa [writel] using hf.2
      · simpa [writel] using hc.2.1
      · simpa [writel] using hc.2.2.2
      · simp [writel]
      · simp [writel]
  · simp at h

/-- A release of a tag in the range of its pool adds 1 to the availability
counter of the pool, whether `put_frame_tag` returns 0 or -1. -/
theorem put_frame_tag_available_sum (lp : adi_msp_private) (tag : Nat) (ptp : Bool)
    (h : in_pool ptp tag) :
    (put_frame_tag lp tag ptp).2.available_nonptp_frame_tag_count +
        (put_frame_tag lp tag ptp).2.available_ptp_frame_tag_count =
      lp.available_nonptp_frame_tag_count + lp.available_ptp_frame_tag_count + 1 := by
  unfold in_pool at h
  unfold put_frame_tag
  rw [if_neg (by omega)]
  dsimp only
  cases ptp <;> split_ifs <;>
    simp [set_available_count, set_last_tag, available_count] <;> omega

/-- An acquisition from a pool that is not exhausted takes 1 from the
availability counter of the pool. -/
theorem get_frame_tag_available_sum (lp : adi_msp_private) (ptp : Bool)
    (h : available_count lp ptp ≠ 0) :
    (get_frame_tag lp ptp).2.available_nonptp_frame_tag_count +
        (get_frame_tag lp ptp).2.available_ptp_frame_tag_count =
      lp.available_nonptp_frame_tag_count + lp.available_ptp_frame_tag_count - 1 := by
  unfold get_frame_tag
  rw [if_neg h]
  dsimp only
  cases ptp <;> split_ifs <;>
    simp [set_available_count, set_next_tag, available_count] <;> omega

theorem tx_commit_tail (lp : adi_msp_private) (skb : sk_buff) (ptp : Bool)
    (addr wu_length : Nat) :
    (tx_commit lp skb ptp addr wu_length).tx_chain_tail = (lp.tx_chain_tail + 1) % 128 := by
  obtain ⟨h1, h2, h3, h4⟩ := tx_commit_chain lp skb ptp addr wu_length
  by_cases hh : DMA_STAT_RUN lp.tx_dma_regs.stat = 0
  · by_cases hs : lp.tx_chain_status = chain_status.EMPTY
    · exact (h1 hh hs).2.1
    · exact (h2 hh (chain_status_ne_empty hs)).2.1
  · by_cases hs : lp.tx_chain_status = chain_status.EMPTY
    · exact (h3 hh hs).2.1
    · exact (h4 hh (chain_status_ne_empty hs)).2.1

/-- What `tx_commit` does to the slots and the counters. -/
theorem tx_commit_conserve (lp : adi_msp_private) (skb : sk_buff) (ptp : Bool)
    (addr wu_length : Nat) (ha : available_count lp ptp ≠ 0) :
    (tx_commit lp skb ptp addr wu_length).tx_count = lp.tx_count + 1 ∧
    (tx_commit lp skb ptp addr wu_length).tx_skb =
      ring_set lp.tx_skb lp.tx_chain_tail (some skb) ∧
    (tx_commit lp skb ptp addr wu_length).tx_next_done = lp.tx_next_done ∧
    (tx_commit lp skb ptp addr wu_length).tx_chain_tail = (lp.tx_chain_tail + 1) % 128 ∧
    (tx_commit lp skb ptp addr wu_length).available_nonptp_frame_tag_count +
        (tx_commit lp skb ptp addr wu_length).available_ptp_frame_tag_count =
      lp.available_nonptp_frame_tag_count + lp.available_ptp_frame_tag_count - 1 := by
  have ht := tx_commit_tail lp skb ptp addr wu_length
  have hs := get_frame_tag_available_sum lp ptp ha
  obtain ⟨a, b, c, d, e, h⟩ := tx_commit_frame lp skb ptp addr wu_length
  rw [h] at ht ⊢
  refine ⟨rfl, rfl, ?_, ht, ?_⟩
  · simp
  · simpa using hs

/-- The state after `status_release_tag` for a tag in the range of its pool. -/
theorem status_release_tag_conserve (lp : adi_msp_private) (h : status_tag_in_pool lp) :
    (status_release_tag lp).2.tx_count = lp.tx_count - 1 ∧
    (status_release_tag lp).2.tx_skb = ring_set lp.tx_skb lp.tx_next_done none ∧
    (status_release_tag lp).2.tx_next_done = lp.tx_next_done ∧
    (status_release_tag lp).2.tx_chain_tail = lp.tx_chain_tail ∧
    (status_release_tag lp).2.available_nonptp_frame_tag_count +
        (status_release_tag lp).2.available_ptp_frame_tag_count =
      lp.available_nonptp_frame_tag_count + lp.available_ptp_frame_tag_count + 1 := by
  have hs := put_frame_tag_available_sum
    { lp with tx_skb := ring_set lp.tx_skb lp.tx_next_done none, tx_count := lp.tx_count - 1 }
    _ _ h
  obtain ⟨a, b, c, d, hf⟩ := status_release_tag_frame lp
  unfold status_release_tag at hf ⊢
  rw [hf] at hs ⊢
  exact ⟨rfl, rfl, rfl, rfl, hs⟩

theorem status_reset_desc_and_wu_next (lp : adi_msp_private) (idx : Nat) :
    ∃ a b c, status_reset_desc_and_wu lp idx =
      { lp with status_wu := a, sd_ring := b, tx_next_done := ring_mask ((idx : Int) + 1),
                mmio := c } :=
  ⟨_, _, _, rfl⟩

/-- What the loop body of `adi_msp_status` does to the slots and the counters
when the tag of the work unit is in the range of its pool: nothing, or the
buffer of the slot is taken, and then either the slot is consumed or the body
leaves through `reset_tx`. -/
theorem adi_msp_status_slot_conserve (lp : adi_msp_private) (h : status_tag_in_pool lp) :
    (¬ status_fault_after_take lp ∧
      (adi_msp_status_slot lp).state.tx_skb = lp.tx_skb ∧
      (adi_msp_status_slot lp).state.tx_count = lp.tx_count ∧
      (adi_msp_status_slot lp).state.tx_next_done = lp.tx_next_done ∧
      (adi_msp_status_slot lp).state.tx_chain_tail = lp.tx_chain_tail ∧
      (adi_msp_status_slot lp).state.available_nonptp_frame_tag_count =
        lp.available_nonptp_frame_tag_count ∧
      (adi_msp_status_slot lp).state.available_ptp_frame_tag_count =
        lp.available_ptp_frame_tag_count) ∨
    ((lp.tx_skb lp.tx_next_done).isSome = true ∧
      (adi_msp_status_slot lp).state.tx_skb = ring_set lp.tx_skb lp.tx_next_done none ∧
      (adi_msp_status_slot lp).state.tx_count = lp.tx_count - 1 ∧
      (adi_msp_status_slot lp).state.tx_chain_tail = lp.tx_chain_tail ∧
      (adi_msp_status_slot lp).state.available_nonptp_frame_tag_count +
          (adi_msp_status_slot lp).state.available_ptp_frame_tag_count =
        lp.available_nonptp_frame_tag_count + lp.available_ptp_frame_tag_count + 1 ∧
      ((¬ status_fault_after_take lp ∧
          (adi_msp_status_slot lp).state.tx_next_done = (lp.tx_next_done + 1) % 128) ∨
        (status_fault_after_take lp ∧
          (adi_msp_status_slot lp).state.tx_next_done = lp.tx_next_done))) := by
  obtain ⟨r1, r2, r3, r4, r5⟩ := status_release_tag_conserve lp h
  rcases adi_msp_status_slot_cases lp with ⟨hn, he⟩ | ⟨hn, hc, he⟩ | ⟨skb, hn, ht, hs, hr, he⟩ |
    ⟨skb, hn, ht, hs, hr, he⟩ | ⟨skb, hn, ht, hs, hr, he⟩
  · left
    refine ⟨fun hf => hf.1 hn, ?_⟩
    rw [he]
    exact ⟨rfl, rfl, rfl, rfl, rfl, rfl⟩
  · left
    refine ⟨fun hf => ?_, ?_⟩
    · rcases hc with hc | hc
      · exact hc hf.2.1
      · have := hf.2.2.1
        rw [hc] at this
        cases this
    · rw [he]
      exact ⟨rfl, rfl, rfl, rfl, rfl, rfl⟩
  · right
    have hfault : status_fault_after_take lp := by
      refine ⟨hn, ht, by rw [hs]; rfl, ?_⟩
      rw [he]
      rfl
    rw [he]
    simp only [status_step.state, status_count_reset]
    exact ⟨by rw [hs]; rfl, r2, r1, r4, r5, Or.inr ⟨hfault, r3⟩⟩
  · right
    have hfault : status_fault_after_take lp := by
      refine ⟨hn, ht, by rw [hs]; rfl, ?_⟩
      rw [he]
      rfl
    obtain ⟨q, hq⟩ := status_wake_queue_eq (status_release_tag lp).2
    rw [he]
    simp only [status_step.state, status_count_reset]
    rw [hq]
    exact ⟨by rw [hs]; rfl, r2, r1, r4, r5, Or.inr ⟨hfault, r3⟩⟩
  · right
    have hnf : ¬ status_fault_after_take lp := by
      intro hf
      have := hf.2.2.2
      rw [he] at this
      cases this
    obtain ⟨q, hq⟩ := status_wake_queue_eq (status_release_tag lp).2
    obtain ⟨a, b, hrep⟩ := status_report_frame (status_wake_queue (status_release_tag lp).2) skb
      (adi_msp_status_wu lp lp.tx_next_done)
    obtain ⟨x, y, z, hres⟩ := status_reset_desc_and_wu_next
      (status_report (status_wake_queue (status_release_tag lp).2) skb
        (adi_msp_status_wu lp lp.tx_next_done)) lp.tx_next_done
    rw [he]
    simp only [status_step.state]
    rw [hres, hrep, hq]
    exact ⟨by rw [hs]; rfl, r2, r1, r4, r5, Or.inl ⟨hnf, ring_mask_succ lp.tx_next_done⟩⟩

theorem status_restart_tx_frame (lp : adi_msp_private) :
    ∃ a b c, status_restart_tx lp =
      { lp with tx_chain_head := a, tx_chain_status := b, mmio := c } := by
  unfold status_restart_tx
  split_ifs
  · exact ⟨_, _, _, rfl⟩
  · exact ⟨lp.tx_chain_head, lp.tx_chain_status, lp.mmio, rfl⟩
  · exact ⟨lp.tx_chain_head, lp.tx_chain_status, lp.mmio, rfl⟩

/-- The invariant depends on the slots and the counters only. -/
theorem tx_conserve_inv_congr (lp r : adi_msp_private) (clean : Bool)
    (h1 : r.tx_skb = lp.tx_skb) (h2 : r.tx_count = lp.tx_count)
    (h3 : r.tx_next_done = lp.tx_next_done) (h4 : r.tx_chain_tail = lp.tx_chain_tail)
    (h5 : r.available_nonptp_frame_tag_count = lp.available_nonptp_frame_tag_count)
    (h6 : r.available_ptp_frame_tag_count = lp.available_ptp_frame_tag_count)
    (h : tx_conserve_inv lp clean) : tx_conserve_inv r clean := by
  unfold tx_conserve_inv at h ⊢
  rw [tx_skb_occupied_congr lp r h1, h1, h2, h3, h4, h5, h6]
  exact h

/-- An accepted submission keeps the invariant. -/
theorem tx_conserve_inv_commit (lp r : adi_msp_private) (clean : Bool) (skb : sk_buff)
    (hc : lp.tx_count < 128)
    (h1 : r.tx_count = lp.tx_count + 1)
    (h2 : r.tx_skb = ring_set lp.tx_skb lp.tx_chain_tail (some skb))
    (h3 : r.tx_next_done = lp.tx_next_done)
    (h4 : r.tx_chain_tail = (lp.tx_chain_tail + 1) % 128)
    (h5 : r.available_nonptp_frame_tag_count + r.available_ptp_frame_tag_count =
      lp.available_nonptp_frame_tag_count + lp.available_ptp_frame_tag_count - 1)
    (h : tx_conserve_inv lp clean) : tx_conserve_inv r clean := by
  obtain ⟨i1, i2, i3, i4, i5, i6⟩ := h
  have hocc := tx_skb_occupied_set lp r lp.tx_chain_tail (some skb) i5 h2
  simp only [Option.isSome_some, if_true] at hocc
  refine ⟨by omega, by omega, ?_, by omega, by omega, ?_⟩
  · split_ifs at hocc <;> omega
  · intro hcl
    obtain ⟨j1, j2, j3⟩ := i6 hcl
    have hempty : ¬ (lp.tx_skb lp.tx_chain_tail).isSome = true := by
      rw [j2 _ i5]
      omega
    rw [if_neg hempty] at hocc
    refine ⟨by omega, ?_, by omega⟩
    intro i hi
    rw [h2, h1, h3]
    by_cases hit : i = lp.tx_chain_tail
    · subst hit
      rw [ring_set_same]
      simp only [Option.isSome_some, true_iff]
      omega
    · rw [ring_set_ne _ _ _ hit, j2 i hi]
      omega

/-- A loop body of `adi_msp_status` that takes the buffer of its slot keeps
the invariant, with the flag cleared when it leaves through `reset_tx`. -/
theorem tx_conserve_inv_take (lp r : adi_msp_private) (clean fault : Bool)
    (h0 : (lp.tx_skb lp.tx_next_done).isSome = true)
    (h1 : r.tx_count = lp.tx_count - 1)
    (h2 : r.tx_skb = ring_set lp.tx_skb lp.tx_next_done none)
    (h3 : (fault = false ∧ r.tx_next_done = (lp.tx_next_done + 1) % 128) ∨
      (fault = true ∧ r.tx_next_done = lp.tx_next_done))
    (h4 : r.tx_chain_tail = lp.tx_chain_tail)
    (h5 : r.available_nonptp_frame_tag_count + r.available_ptp_frame_tag_count =
      lp.available_nonptp_frame_tag_count + lp.available_ptp_frame_tag_count + 1)
    (h : tx_conserve_inv lp clean) : tx_conserve_inv r (clean && !fault) := by
  obtain ⟨i1, i2, i3, i4, i5, i6⟩ := h
  have hocc := tx_skb_occupied_set lp r lp.tx_next_done none i4 h2
  rw [if_pos h0] at hocc
  simp only [Option.isSome_none, Bool.false_eq_true, if_false] at hocc
  refine ⟨by omega, by omega, by omega, ?_, by omega, ?_⟩
  · rcases h3 with ⟨_, h3⟩ | ⟨_, h3⟩ <;> omega
  · intro hcl
    rcases h3 with ⟨hf, h3⟩ | ⟨hf, h3⟩
    · subst hf
      simp only [Bool.not_false, Bool.and_true] at hcl
      obtain ⟨j1, j2, j3⟩ := i6 hcl
      have hpos : 0 < lp.tx_count.toNat := by
        have := (j2 _ i4).mp h0
        omega
      refine ⟨by omega, ?_, by omega⟩
      intro i hi
      rw [h2, h1, h3]
      by_cases hit : i = lp.tx_next_done
      · subst hit
        rw [ring_set_same]
        simp only [Option.isSome_none, Bool.false_eq_true, false_iff]
        omega
      · rw [ring_set_ne _ _ _ hit, j2 i hi]
        omega
    · subst hf
      simp at hcl

/-- Every reachable state satisfies the invariant. -/
theorem tx_conserve_reachable_inv {lp : adi_msp_private} {clean : Bool}
    (h : tx_conserve_reachable lp clean) : tx_conserve_inv lp clean := by
  induction h with
  | opened lp0 lp alloc irq_ok hempty hopen =>
    obtain ⟨h1, h2, h3, h4, h5, h6⟩ := adi_msp_open_tx_state hopen
    have hocc : tx_skb_occupied lp = 0 :=
      tx_skb_occupied_empty lp (fun i => by rw [h1]; exact hempty i)
    refine ⟨by omega, by omega, by omega, by omega, by omega, fun _ => ⟨?_, ?_, by omega⟩⟩
    · rw [h2, h3, h4]
      rfl
    · intro i hi
      rw [h1, hempty i, h4]
      simp
  | send lp r clean cfg skb expand_ok map _ hwf hr ih =>
    rcases adi_msp_send_packet_cases cfg lp skb expand_ok map hwf with
      ⟨b, skb1, hd⟩ | ⟨_, hc, ha, skb1, skb2, addr, _, _, _, hacc⟩
    · rw [hd] at hr
      simp only [Option.some.injEq] at hr
      subst hr
      exact tx_conserve_inv_congr lp _ clean rfl rfl rfl rfl rfl rfl ih
    · rw [hacc] at hr
      simp only [Option.some.injEq] at hr
      subst hr
      obtain ⟨b, hb⟩ := tx_stop_queue_eq lp skb.tx_flags.hw_tstamp
      rw [hb]
      obtain ⟨c1, c2, c3, c4, c5⟩ := tx_commit_conserve { lp with queue_stopped := b }
        (tx_fill_header { lp with queue_stopped := b } skb2 (tx_ptp skb)
          (tx_frame_length cfg skb))
        skb.tx_flags.hw_tstamp addr (tx_wu_length cfg skb) ha
      exact tx_conserve_inv_commit lp _ clean _ hc c1 c2 c3 c4 c5 ih
  | status_slot lp clean _ hpool ih =>
    rcases adi_msp_status_slot_conserve lp hpool with ⟨hnf, h1, h2, h3, h4, h5, h6⟩ |
      ⟨h0, h2, h1, h4, h5, h3⟩
    · have hd : decide (status_fault_after_take lp) = false := decide_eq_false hnf
      rw [hd]
      simp only [Bool.not_false, Bool.and_true]
      exact tx_conserve_inv_congr lp _ clean h1 h2 h3 h4 h5 h6 ih
    · refine tx_conserve_inv_take lp _ clean (decide (status_fault_after_take lp)) h0 h1 h2 ?_
        h4 h5 ih
      rcases h3 with ⟨hnf, h3⟩ | ⟨hf, h3⟩
      · exact Or.inl ⟨decide_eq_false hnf, h3⟩
      · exact Or.inr ⟨decide_eq_true hf, h3⟩
  | restart lp clean _ ih =>
    obtain ⟨a, b, c, hf⟩ := status_restart_tx_frame lp
    rw [hf]
    exact tx_conserve_inv_congr lp _ clean rfl rfl rfl rfl rfl rfl ih
  | tx_dma lp clean regs _ ih =>
    exact tx_conserve_inv_congr lp _ clean rfl rfl rfl rfl rfl rfl ih
  | status_dma lp clean idx wu regs _ ih =>
    exact tx_conserve_inv_congr lp _ clean rfl rfl rfl rfl rfl rfl ih

/-- A submission of a well-formed buffer returns. -/
theorem adi_msp_send_packet_returns (cfg : build_config) (lp : adi_msp_private) (skb : sk_buff)
    (expand_ok : Bool) (map : Option Nat) (hwf : skb.data + skb.len ≤ skb.buf_end) :
    adi_msp_send_packet cfg lp skb expand_ok map =
      some ((adi_msp_send_packet cfg lp skb expand_ok map).getD lp) := by
  rcases adi_msp_send_packet_cases cfg lp skb expand_ok map hwf with
    ⟨b, skb1, hd⟩ | ⟨_, _, _, skb1, skb2, addr, _, _, _, hacc⟩
  · rw [hd]
    rfl
  · rw [hacc]
    rfl

set_option maxRecDepth 8000 in
theorem tx_example_faulted_reachable : tx_conserve_reachable tx_example_faulted false := by
  have h0 : tx_conserve_reachable adi_msp_opened true :=
    tx_conserve_reachable.opened _ _ _ _ (fun _ => rfl) adi_msp_opened_eq
  have h1 : tx_conserve_reachable (tx_example_sent ⟨false, false⟩ 64) true :=
    tx_conserve_reachable.send adi_msp_opened _ true ⟨false, false⟩ (tx_skb_of_len 64) true
      (some 0x20000) h0 (by decide) (by rfl)
  have h2 := tx_conserve_reachable.status_dma _ true 0
    { timestamp0 := 3 + 256 * 5, timestamp1 := 0, timestamp2 := 0, timestamp3 := 0 }
    { dscptr_prv := 0, addr_cur := 0, stat := 0 } h1
  have h3 := tx_conserve_reachable.status_slot _ true h2 (by decide)
  have e : (true && !decide (status_fault_after_take
      (status_wu_arrives (tx_example_sent ⟨false, false⟩ 64) 0
        { timestamp0 := 3 + 256 * 5, timestamp1 := 0, timestamp2 := 0, timestamp3 := 0 }
        { dscptr_prv := 0, addr_cur := 0, stat := 0 }))) = false := by
    decide
  rw [e] at h3
  exact h3

theorem tx_example_refilled_reachable :
    ∀ n, tx_conserve_reachable (tx_example_refilled n) false := by
  intro n
  induction n with
  | zero => exact tx_example_faulted_reachable
  | succ n ih =>
    exact tx_conserve_reachable.send _ _ false ⟨false, false⟩ (tx_skb_of_len 64) true
      (some (0x30000 + 0x1000 * n)) ih (by decide)
      (adi_msp_send_packet_returns _ _ _ _ _ (by decide))

set_option maxRecDepth 100000 in
theorem tx_example_overwritten_reachable :
    tx_conserve_reachable tx_example_overwritten false := by
  have h1 := tx_conserve_reachable.status_dma _ false 0
    { timestamp0 := 3 + 256 * 1, timestamp1 := 0, timestamp2 := 0, timestamp3 := 0 }
    { dscptr_prv := 0, addr_cur := 0, stat := 0 } (tx_example_refilled_reachable 128)
  have h2 := tx_conserve_reachable.status_slot _ false h1 (by decide)
  exact tx_conserve_reachable.send _ _ false ⟨false, false⟩ (tx_skb_of_len 64) true
    (some 0x20000) h2 (by decide) (adi_msp_send_packet_returns _ _ _ _ _ (by decide))

set_option maxRecDepth 100000 in
/-- C26 (as stated, refuted): a reachable state in which `tx_count` is not the
number of non-empty `tx_skb` slots.  After `adi_msp_open` one frame is
submitted (slot 0, tag 1); the status work unit of slot 0 carries tag 5, which
is in the range of its pool but not the tag due, so the release fails:
`adi_msp_status` has cleared slot 0 and leaves through `reset_tx` with
`tx_next_done` still 0.  128 more frames are accepted, into slots 1 to 127 and
then 0, the queue running at each submission.  The status work unit of slot 0
now carries tag 1: it is released, the queue is woken, and since the buffer of
slot 0 carries another tag the slot is cleared again without `tx_next_done`
moving.  The next submission is accepted (`tx_count` is 127) and goes to the
chain tail, slot 1, which still holds a buffer: `tx_count` becomes 128 while
127 slots hold a buffer; the sum with the two availability counters is still
255. -/
theorem tx_count_exceeds_occupied_slots :
    tx_conserve_reachable tx_example_overwritten false ∧
    status_tag_in_pool
      (status_wu_arrives (tx_example_sent ⟨false, false⟩ 64) 0
        { timestamp0 := 3 + 256 * 5, timestamp1 := 0, timestamp2 := 0, timestamp3 := 0 }
        { dscptr_prv := 0, addr_cur := 0, stat := 0 }) ∧
    (tx_example_refilled 127).queue_stopped = false ∧
    (tx_example_refilled 128).stats.tx_dropped = 0 ∧
    (tx_example_refilled 128).tx_count = 128 ∧
    tx_skb_occupied (tx_example_refilled 128) = 128 ∧
    status_tag_in_pool tx_example_refilled_status ∧
    tx_example_faulted_again.queue_stopped = false ∧
    tx_example_faulted_again.tx_next_done = 0 ∧
    tx_example_faulted_again.tx_chain_tail = 1 ∧
    (tx_example_faulted_again.tx_skb 1).isSome = true ∧
    tx_example_overwritten.stats.tx_dropped = 0 ∧
    tx_example_overwritten.available_nonptp_frame_tag_count +
      tx_example_overwritten.available_ptp_frame_tag_count +
      tx_example_overwritten.tx_count = 255 ∧
    tx_example_overwritten.tx_count = 128 ∧
    tx_skb_occupied tx_example_overwritten = 127 :=
  ⟨tx_example_overwritten_reachable, by decide⟩

/-- C26 (amended): in every state reachable from `adi_msp_open` on a closed
device through submissions, accepted or dropped, and through the processing of
status slots whose tag lies in the range of the pool selected by the PTP bit:
the two availability counters and `tx_count` add up to 255, `tx_count` never
exceeds 128, and the number of non-empty `tx_skb` slots is at most `tx_count`;
the two are equal as long as no status slot has been left through `reset_tx`
after its buffer was taken (`clean`). -/
theorem tx_conservation (lp : adi_msp_private) (clean : Bool)
    (h : tx_conserve_reachable lp clean) :
    lp.available_nonptp_frame_tag_count + lp.available_ptp_frame_tag_count + lp.tx_count =
      255 ∧
    lp.tx_count ≤ ADI_MSP_NUM_TDS ∧
    (tx_skb_occupied lp : Int) ≤ lp.tx_count ∧
    (clean = true → lp.tx_count = tx_skb_occupied lp) := by
  obtain ⟨i1, i2, i3, _, _, i6⟩ := tx_conserve_reachable_inv h
  exact ⟨i1, i2, i3, fun hc => (i6 hc).2.2.symm⟩

set_option maxRecDepth 8000 in
theorem tx_conservation_witness :
    tx_conserve_reachable (tx_example_sent ⟨false, false⟩ 64) true ∧
    (tx_example_sent ⟨false, false⟩ 64).tx_count = 1 ∧
    tx_skb_occupied (tx_example_sent ⟨false, false⟩ 64) = 1 ∧
    ((tx_example_sent ⟨false, false⟩ 64).tx_count : Int) =
      tx_skb_occupied (tx_example_sent ⟨false, false⟩ 64) :=
  ⟨tx_conserve_reachable.send adi_msp_opened _ true ⟨false, false⟩ (tx_skb_of_len 64) true
      (some 0x20000)
      (tx_conserve_reachable.opened _ _ _ _ (fun _ => rfl) adi_msp_opened_eq) (by decide)
      (by rfl),
    by decide, by decide,
    (tx_conservation (tx_example_sent ⟨false, false⟩ 64) true
      (tx_conserve_reachable.send adi_msp_opened _ true ⟨false, false⟩ (tx_skb_of_len 64) true
        (some 0x20000)
        (tx_conserve_reachable.opened _ _ _ _ (fun _ => rfl) adi_msp_opened_eq) (by decide)
        (by rfl))).2.2.2 rfl⟩

/-! ### Receive and status descriptor rings -/

/-- The chaining of the receive ring and of the status ring. -/
theorem desc_rings_congr (lp r : adi_msp_private)
    (h1 : r.rd_ring = lp.rd_ring) (h2 : r.rd_dma = lp.rd_dma)
    (h3 : r.rx_next_done = lp.rx_next_done) (h4 : r.sd_ring = lp.sd_ring)
    (h5 : r.sd_dma = lp.sd_dma) (h6 : r.tx_next_done = lp.tx_next_done)
    (h : desc_ring_chained lp.rd_ring (adi_msp_rx_dma lp) lp.rx_next_done ∧
      desc_ring_chained lp.sd_ring (adi_msp_status_dma lp) lp.tx_next_done) :
    desc_ring_chained r.rd_ring (adi_msp_rx_dma r) r.rx_next_done ∧
      desc_ring_chained r.sd_ring (adi_msp_status_dma r) r.tx_next_done := by
  have e1 : adi_msp_rx_dma r = adi_msp_rx_dma lp := by
    funext i
    unfold adi_msp_rx_dma
    rw [h2]
  have e2 : adi_msp_status_dma r = adi_msp_status_dma lp := by
    funext i
    unfold adi_msp_status_dma
    rw [h5]
  rw [h1, h3, h4, h6, e1, e2]
  exact h

/-- A consumed slot keeps the chaining: the descriptor of slot `idx` stops the
chain, the one before it chains on, and the ring index advances. -/
theorem desc_ring_chained_advance (ring ring1 : Nat → dma_desc) (addr : Int → Nat) (idx : Nat)
    (h : desc_ring_chained ring addr idx)
    (h1 : ∀ i, i ≠ idx → i ≠ ring_mask ((idx : Int) - 1) → ring1 i = ring i)
    (h2 : (ring1 idx).dscptr_nxt = (ring idx).dscptr_nxt)
    (h3 : dma_cfg_flow (ring1 idx).cfg = DMA_CFG_FLOW_STOP)
    (h4 : (ring1 (ring_mask ((idx : Int) - 1))).dscptr_nxt =
      (ring (ring_mask ((idx : Int) - 1))).dscptr_nxt)
    (h5 : dma_cfg_flow (ring1 (ring_mask ((idx : Int) - 1))).cfg = DMA_CFG_FLOW_DSCL) :
    desc_ring_chained ring1 addr (ring_mask ((idx : Int) + 1)) := by
  obtain ⟨hlt, hr⟩ := h
  have hne := ring_mask_pred_ne idx
  have hm : ring_mask (((ring_mask ((idx : Int) + 1) : Nat) : Int) - 1) = idx := by
    unfold ring_mask
    omega
  have hpl : ring_mask ((idx : Int) - 1) < 128 := by
    unfold ring_mask
    omega
  refine ⟨by unfold ring_mask; omega, fun i hi => ?_⟩
  rw [hm]
  by_cases hi1 : i = idx
  · subst hi1
    refine ⟨by rw [h2]; exact (hr i hi).1, ⟨fun _ => rfl, fun _ => h3⟩, fun hc => absurd rfl hc⟩
  · by_cases hi2 : i = ring_mask ((idx : Int) - 1)
    · subst hi2
      refine ⟨by rw [h4]; exact (hr _ hpl).1, ⟨fun hc => ?_, fun hc => absurd hc hi1⟩,
        fun _ => h5⟩
      rw [h5] at hc
      exact absurd hc (by decide)
    · rw [h1 i hi1 hi2]
      obtain ⟨a, b, c⟩ := hr i hi
      refine ⟨a, ⟨fun hc => absurd (b.mp hc) hi2, fun hc => absurd hc hi1⟩, fun _ => c hi2⟩

theorem rx_cfg_flow :
    dma_cfg_flow (RX_DMA_CFG_COMMON ||| DMA_CFG_FLOW_STOP) = DMA_CFG_FLOW_STOP ∧
    dma_cfg_flow (RX_DMA_CFG_COMMON ||| DMA_CFG_FLOW_DSCL) = DMA_CFG_FLOW_DSCL ∧
    dma_cfg_flow (STATUS_DMA_CFG_COMMON ||| DMA_CFG_FLOW_STOP) = DMA_CFG_FLOW_STOP ∧
    dma_cfg_flow (STATUS_DMA_CFG_COMMON ||| DMA_CFG_FLOW_DSCL) = DMA_CFG_FLOW_DSCL := by
  decide

/-- The descriptor ring after `rx_rearm`. -/
theorem rx_rearm_chained (lp : adi_msp_private)
    (h : desc_ring_chained lp.rd_ring (adi_msp_rx_dma lp) lp.rx_next_done) :
    desc_ring_chained (rx_rearm lp lp.rx_next_done).rd_ring
      (adi_msp_rx_dma (rx_rearm lp lp.rx_next_done)) (rx_rearm lp lp.rx_next_done).rx_next_done := by
  have hne := ring_mask_pred_ne lp.rx_next_done
  have e : adi_msp_rx_dma (rx_rearm lp lp.rx_next_done) = adi_msp_rx_dma lp := rfl
  rw [e]
  apply desc_ring_chained_advance lp.rd_ring _ _ lp.rx_next_done h
  · intro i h1 h2
    simp only [rx_rearm, writel]
    rw [ring_set_ne _ _ _ h2, ring_set_ne _ _ _ h1]
  · simp only [rx_rearm, writel]
    rw [ring_set_ne _ _ _ hne.symm, ring_set_same]
  · simp only [rx_rearm, writel]
    rw [ring_set_ne _ _ _ hne.symm, ring_set_same]
    exact rx_cfg_flow.1
  · simp only [rx_rearm, writel]
    rw [ring_set_same, ring_set_ne _ _ _ hne]
  · simp only [rx_rearm, writel]
    rw [ring_set_same]
    exact rx_cfg_flow.2.1

/-- The descriptor ring after `status_reset_desc_and_wu`. -/
theorem status_reset_desc_and_wu_chained (lp : adi_msp_private)
    (h : desc_ring_chained lp.sd_ring (adi_msp_status_dma lp) lp.tx_next_done) :
    desc_ring_chained (status_reset_desc_and_wu lp lp.tx_next_done).sd_ring
      (adi_msp_status_dma (status_reset_desc_and_wu lp lp.tx_next_done))
      (status_reset_desc_and_wu lp lp.tx_next_done).tx_next_done := by
  have hne := ring_mask_pred_ne lp.tx_next_done
  have e : adi_msp_status_dma (status_reset_desc_and_wu lp lp.tx_next_done) =
      adi_msp_status_dma lp := rfl
  rw [e]
  apply desc_ring_chained_advance lp.sd_ring _ _ lp.tx_next_done h
  · intro i h1 h2
    simp only [status_reset_desc_and_wu, writel]
    rw [ring_set_ne _ _ _ h2, ring_set_ne _ _ _ h1]
  · simp only [status_reset_desc_and_wu, writel]
    rw [ring_set_ne _ _ _ hne.symm, ring_set_same]
  · simp only [status_reset_desc_and_wu, writel]
    rw [ring_set_ne _ _ _ hne.symm, ring_set_same]
    exact rx_cfg_flow.2.2.1
  · simp only [status_reset_desc_and_wu, writel]
    rw [ring_set_same, ring_set_ne _ _ _ hne]
  · simp only [status_reset_desc_and_wu, writel]
    rw [ring_set_same]
    exact rx_cfg_flow.2.2.2

/-- The frame of `rx_deliver`. -/
theorem rx_deliver_fields (lp r : adi_msp_private) (skb : sk_buff)
    (h : rx_deliver lp skb = some r) :
    ∃ a b c d e, r =
      { lp with prev_rx_skb := a, prev_rx_skb_count := b, stats := c, consumed := d,
                received := e } := by
  unfold rx_deliver at h
  rcases hp : lp.prev_rx_skb 0 with _ | skb_prev
  · rw [hp] at h
    simp at h
  · rw [hp] at h
    dsimp only at h
    split at h
    · simp at h
    · simp only [Option.some.injEq] at h
      subst h
      exact ⟨_, _, _, _, _, rfl⟩

/-- The classification of a work unit in `adi_msp_rx` changes the reassembly
set, the statistics and the traces of released and delivered buffers only. -/
theorem adi_msp_rx_wu_frame (lp r : adi_msp_private) (skb : sk_buff) (inc : Int)
    (h : adi_msp_rx_wu lp skb = some (r, inc)) :
    ∃ a b c d e, r =
      { lp with prev_rx_skb := a, prev_rx_skb_count := b, stats := c, consumed := d,
                received := e } := by
  have hset : ∃ a b c d e, rx_set_and_drop lp skb =
      { lp with prev_rx_skb := a, prev_rx_skb_count := b, stats := c, consumed := d,
                received := e } := by
    rw [rx_set_and_drop_eq]
    exact ⟨_, _, _, _, lp.received, rfl⟩
  have happ : ∃ a b c d e, rx_append_and_drop lp skb =
      { lp with prev_rx_skb := a, prev_rx_skb_count := b, stats := c, consumed := d,
                received := e } := by
    rw [rx_append_and_drop_eq]
    exact ⟨_, _, _, _, lp.received, rfl⟩
  unfold adi_msp_rx_wu at h
  dsimp only at h
  split_ifs at h
  all_goals first
    | (simp only [Option.some.injEq, Prod.mk.injEq] at h
       obtain ⟨rfl, _⟩ := h
       first
         | exact hset
         | exact happ
         | exact ⟨_, _, lp.stats, lp.consumed, lp.received, rfl⟩
         | (simp only [rx_count_error, adi_msp_drop_prev_rx_skb_eq]
            exact ⟨_, _, _, _, lp.received, rfl⟩))
    | (rcases hd : rx_deliver lp skb with _ | r1
       · rw [hd] at h
         simp at h
       · rw [hd] at h
         simp only [Option.map_some', Option.some.injEq, Prod.mk.injEq] at h
         obtain ⟨rfl, _⟩ := h
         exact rx_deliver_fields lp _ skb hd)

/-- The loop body of `adi_msp_rx` keeps the chaining of both rings. -/
theorem adi_msp_rx_slot_chained (lp : adi_msp_private) (a : rx_alloc_result) (st : rx_step)
    (hs : adi_msp_rx_slot lp a = some st)
    (h : desc_ring_chained lp.rd_ring (adi_msp_rx_dma lp) lp.rx_next_done ∧
      desc_ring_chained lp.sd_ring (adi_msp_status_dma lp) lp.tx_next_done) :
    desc_ring_chained st.state.rd_ring (adi_msp_rx_dma st.state) st.state.rx_next_done ∧
      desc_ring_chained st.state.sd_ring (adi_msp_status_dma st.state)
        st.state.tx_next_done := by
  rcases adi_msp_rx_slot_cases lp a st hs with ⟨att, he⟩ | ⟨skb_new, he⟩ |
    ⟨skb, skb_new, addr, lp1, inc, _, _, _, _, hw, he⟩
  · subst he
    exact h
  · subst he
    exact h
  · subst he
    obtain ⟨p, q, x, y, z, hf⟩ := adi_msp_rx_wu_frame _ lp1 skb inc hw
    have h1 : desc_ring_chained lp1.rd_ring (adi_msp_rx_dma lp1) lp1.rx_next_done ∧
        desc_ring_chained lp1.sd_ring (adi_msp_status_dma lp1) lp1.tx_next_done := by
      rw [hf]
      exact h
    have e : lp1.rx_next_done = lp.rx_next_done := by rw [hf]
    simp only [rx_step.state]
    rw [← e]
    exact ⟨rx_rearm_chained lp1 h1.1, h1.2⟩

/-- The loop body of `adi_msp_status` keeps the chaining of both rings. -/
theorem adi_msp_status_slot_chained (lp : adi_msp_private)
    (h : desc_ring_chained lp.rd_ring (adi_msp_rx_dma lp) lp.rx_next_done ∧
      desc_ring_chained lp.sd_ring (adi_msp_status_dma lp) lp.tx_next_done) :
    desc_ring_chained (adi_msp_status_slot lp).state.rd_ring
        (adi_msp_rx_dma (adi_msp_status_slot lp).state)
        (adi_msp_status_slot lp).state.rx_next_done ∧
      desc_ring_chained (adi_msp_status_slot lp).state.sd_ring
        (adi_msp_status_dma (adi_msp_status_slot lp).state)
        (adi_msp_status_slot lp).state.tx_next_done := by
  obtain ⟨a, b, c, d, hrel⟩ := status_release_tag_frame lp
  obtain ⟨q, hq⟩ := status_wake_queue_eq (status_release_tag lp).2
  rcases adi_msp_status_slot_cases lp with ⟨_, he⟩ | ⟨_, _, he⟩ | ⟨skb, _, _, _, _, he⟩ |
    ⟨skb, _, _, _, _, he⟩ | ⟨skb, _, _, _, _, he⟩
  · rw [he]
    exact h
  · rw [he]
    exact h
  · rw [he]
    simp only [status_step.state, status_count_reset]
    rw [hrel]
    exact h
  · rw [he]
    simp only [status_step.state, status_count_reset]
    rw [hq, hrel]
    exact h
  · rw [he]
    simp only [status_step.state]
    obtain ⟨x, y, hrep⟩ := status_report_frame (status_wake_queue (status_release_tag lp).2) skb
      (adi_msp_status_wu lp lp.tx_next_done)
    generalize status_report (status_wake_queue (status_release_tag lp).2) skb
      (adi_msp_status_wu lp lp.tx_next_done) = sr at hrep ⊢
    have h1 : desc_ring_chained sr.rd_ring (adi_msp_rx_dma sr) sr.rx_next_done ∧
        desc_ring_chained sr.sd_ring (adi_msp_status_dma sr) sr.tx_next_done := by
      rw [hrep, hq, hrel]
      exact h
    have e : sr.tx_next_done = lp.tx_next_done := by
      rw [hrep, hq, hrel]
    rw [← e]
    exact ⟨h1.1, status_reset_desc_and_wu_chained _ h1.2⟩

/-- The receive loop of `adi_msp_alloc_ring` when it returns 0: it has set up
the descriptors `i` to `i + n - 1`, each pointing to the next one and all in
descriptor-list flow mode except descriptor 127, which stops. -/
theorem adi_msp_alloc_ring_rx_ring (alloc : Nat → rx_alloc_result) (n : Nat) :
    ∀ (i : Nat) (lp r : adi_msp_private), adi_msp_alloc_ring_rx alloc n i lp = (0, r) →
      r.rd_dma = lp.rd_dma ∧ r.sd_dma = lp.sd_dma ∧ r.status_wu_dma = lp.status_wu_dma ∧
      r.tx_next_done = lp.tx_next_done ∧
      ∀ j, (i ≤ j ∧ j < i + n →
          (r.rd_ring j).dscptr_nxt = u32 (adi_msp_rx_dma lp ((j : Int) + 1)) ∧
          (r.rd_ring j).cfg = RX_DMA_CFG_COMMON |||
            (if j = ADI_MSP_NUM_RDS - 1 then DMA_CFG_FLOW_STOP else DMA_CFG_FLOW_DSCL)) ∧
        (¬ (i ≤ j ∧ j < i + n) → r.rd_ring j = lp.rd_ring j) := by
  induction n with
  | zero =>
    intro i lp r h
    simp only [adi_msp_alloc_ring_rx, Prod.mk.injEq, true_and] at h
    subst h
    exact ⟨rfl, rfl, rfl, rfl, fun j => ⟨fun hj => by omega, fun _ => rfl⟩⟩
  | succ n ih =>
    intro i lp r h
    unfold adi_msp_alloc_ring_rx at h
    rcases hs : (alloc i).skb with _ | skb0
    · rw [hs] at h
      simp at h
    · rw [hs] at h
      dsimp only at h
      rcases hd : (alloc i).dma with _ | addr
      · rw [hd] at h
        simp at h
      · rw [hd] at h
        dsimp only at h
        obtain ⟨h1, h2, h3, h4, h5⟩ := ih (i + 1) _ r h
        refine ⟨h1, h2, h3, h4, fun j => ⟨fun hj => ?_, fun hj => ?_⟩⟩
        · by_cases hji : j = i
          · subst hji
            rw [(h5 j).2 (by omega)]
            constructor <;> simp [adi_msp_rx_dma]
          · exact (h5 j).1 (by omega)
        · rw [(h5 j).2 (by omega)]
          simp only
          rw [ring_set_ne _ _ _ (by omega), ring_set_ne _ _ _ (by omega)]

/-- A ring whose descriptors point to the next one and are all in
descriptor-list flow mode except descriptor 127 is chained for the ring
index 0. -/
theorem desc_ring_chained_init (ring : Nat → dma_desc) (addr : Int → Nat) (common : Nat)
    (hs : dma_cfg_flow (common ||| DMA_CFG_FLOW_STOP) = DMA_CFG_FLOW_STOP)
    (hd : dma_cfg_flow (common ||| DMA_CFG_FLOW_DSCL) = DMA_CFG_FLOW_DSCL)
    (h : ∀ i, i < 128 → (ring i).dscptr_nxt = u32 (addr ((i : Int) + 1)) ∧
      (ring i).cfg = common ||| (if i = 127 then DMA_CFG_FLOW_STOP else DMA_CFG_FLOW_DSCL)) :
    desc_ring_chained ring addr 0 := by
  have hm : ring_mask (((0 : Nat) : Int) - 1) = 127 := by decide
  refine ⟨by decide, fun i hi => ?_⟩
  obtain ⟨a, b⟩ := h i hi
  rw [hm, b]
  refine ⟨a, ?_, ?_⟩
  · by_cases h127 : i = 127
    · rw [if_pos h127]
      exact ⟨fun _ => h127, fun _ => hs⟩
    · rw [if_neg h127]
      exact ⟨fun hc => by rw [hd] at hc; exact absurd hc (by decide), fun hc => absurd hc h127⟩
  · intro h127
    rw [if_neg h127]
    exact hd

/-- The rings after a successful `adi_msp_alloc_ring`. -/
theorem adi_msp_alloc_ring_chained {lp0 lp : adi_msp_private} {alloc : Nat → rx_alloc_result}
    (h : adi_msp_alloc_ring lp0 alloc = (0, lp)) :
    desc_ring_chained lp.rd_ring (adi_msp_rx_dma lp) lp.rx_next_done ∧
      desc_ring_chained lp.sd_ring (adi_msp_status_dma lp) lp.tx_next_done := by
  unfold adi_msp_alloc_ring at h
  dsimp only at h
  rcases hr : adi_msp_alloc_ring_rx alloc ADI_MSP_NUM_RDS 0
    { lp0 with
      td_ring := fun i =>
        if i < ADI_MSP_NUM_TDS then
          { dscptr_nxt := 0, addrstart := 0, cfg := 0, xcnt := 0, xmod := 0 }
        else lp0.td_ring i
      tx_next_done := 0, tx_chain_head := 0, tx_chain_tail := 0, tx_count := 0
      tx_chain_status := chain_status.EMPTY } with ⟨e1, lp1⟩
  rw [hr] at h
  split at h
  · rename_i heq
    simp only [Prod.mk.injEq] at heq h
    obtain ⟨rfl, rfl⟩ := heq
    replace h := h.2
    obtain ⟨h1, h2, h3, h4, h5⟩ := adi_msp_alloc_ring_rx_ring alloc _ _ _ _ hr
    have f1 : lp.rd_ring = lp1.rd_ring := by rw [← h]
    have f2 : adi_msp_rx_dma lp = adi_msp_rx_dma lp1 := by rw [← h]; rfl
    have f3 : lp.rx_next_done = 0 := by rw [← h]
    have f4 : adi_msp_status_dma lp = adi_msp_status_dma lp1 := by rw [← h]; rfl
    have f5 : lp.tx_next_done = 0 := by rw [← h]; exact h4
    have f6 : ∀ i, i < 128 → lp.sd_ring i =
        { cfg := STATUS_DMA_CFG_COMMON |||
            (if i = ADI_MSP_NUM_SDS - 1 then DMA_CFG_FLOW_STOP else DMA_CFG_FLOW_DSCL)
          xcnt := STATUS_WU_LEN / STATUS_XMOD
          xmod := STATUS_XMOD
          addrstart := u32 (adi_msp_status_wu_dma lp1 i)
          dscptr_nxt := u32 (adi_msp_status_dma lp1 (i + 1)) } := by
      intro i hi
      rw [← h]
      simp only [ADI_MSP_NUM_SDS, ADI_MSP_NUM_TDS]
      rw [if_pos hi]
      rfl
    rw [f1, f2, f3, f4, f5]
    constructor
    · apply desc_ring_chained_init _ _ RX_DMA_CFG_COMMON rx_cfg_flow.1 rx_cfg_flow.2.1
      intro i hi
      obtain ⟨a, b⟩ := (h5 i).1 ⟨Nat.zero_le i, by simpa using hi⟩
      rw [a, b]
      refine ⟨?_, rfl⟩
      unfold adi_msp_rx_dma
      rw [h1]
    · apply desc_ring_chained_init _ _ STATUS_DMA_CFG_COMMON rx_cfg_flow.2.2.1
        rx_cfg_flow.2.2.2
      intro i hi
      rw [f6 i hi]
      exact ⟨rfl, rfl⟩
  · rename_i e2 lp2 hne heq
    simp only [Prod.mk.injEq] at h heq
    obtain ⟨rfl, rfl⟩ := heq
    obtain ⟨rfl, rfl⟩ := h
    exact (hne rfl).elim

/-- The rings after a successful `adi_msp_open`. -/
theorem adi_msp_open_chained {lp0 lp : adi_msp_private} {alloc : Nat → rx_alloc_result}
    {irq_ok : Bool} (h : adi_msp_open lp0 alloc irq_ok = some lp) :
    desc_ring_chained lp.rd_ring (adi_msp_rx_dma lp) lp.rx_next_done ∧
      desc_ring_chained lp.sd_ring (adi_msp_status_dma lp) lp.tx_next_done := by
  unfold adi_msp_open at h
  dsimp only at h
  rcases hr : adi_msp_alloc_ring
    (writel (writel (writel lp0 0 mmio_reg.tx_dma_cfg) 0 mmio_reg.status_dma_cfg) 0
      mmio_reg.rx_dma_cfg) alloc with ⟨e, lp1⟩
  rw [hr] at h
  split at h
  · cases irq_ok
    · simp at h
    · simp only [if_true, Option.some.injEq] at h
      rename_i heq
      simp only [Prod.mk.injEq] at heq
      obtain ⟨rfl, rfl⟩ := heq
      have hc := adi_msp_alloc_ring_chained hr
      rw [← h]
      exact desc_rings_congr lp1 _ rfl rfl rfl rfl rfl rfl hc
  · simp at h

/-- A submission leaves the receive and status rings alone. -/
theorem adi_msp_send_packet_rings (cfg : build_config) (lp r : adi_msp_private)
    (skb : sk_buff) (expand_ok : Bool) (map : Option Nat)
    (hwf : skb.data + skb.len ≤ skb.buf_end)
    (hr : adi_msp_send_packet cfg lp skb expand_ok map = some r) :
    r.rd_ring = lp.rd_ring ∧ r.rd_dma = lp.rd_dma ∧ r.rx_next_done = lp.rx_next_done ∧
    r.sd_ring = lp.sd_ring ∧ r.sd_dma = lp.sd_dma ∧ r.tx_next_done = lp.tx_next_done := by
  rcases adi_msp_send_packet_cases cfg lp skb expand_ok map hwf with
    ⟨b, skb1, hd⟩ | ⟨_, _, _, skb1, skb2, addr, _, _, _, hacc⟩
  · rw [hd] at hr
    simp only [Option.some.injEq] at hr
    subst hr
    exact ⟨rfl, rfl, rfl, rfl, rfl, rfl⟩
  · rw [hacc] at hr
    simp only [Option.some.injEq] at hr
    subst hr
    obtain ⟨b, hb⟩ := tx_stop_queue_eq lp skb.tx_flags.hw_tstamp
    rw [hb]
    obtain ⟨a1, a2, a3, a4, a5, hf⟩ := tx_commit_frame { lp with queue_stopped := b }
      (tx_fill_header { lp with queue_stopped := b } skb2 (tx_ptp skb)
        (tx_frame_length cfg skb))
      skb.tx_flags.hw_tstamp addr (tx_wu_length cfg skb)
    rw [hf]
    obtain ⟨g1, g2, g3, g4, hg⟩ := get_frame_tag_frame { lp with queue_stopped := b }
      skb.tx_flags.hw_tstamp
    rw [hg]
    exact ⟨rfl, rfl, rfl, rfl, rfl, rfl⟩

/-- A call of `adi_msp_rx` keeps the chaining of both rings. -/
theorem adi_msp_rx_chained (alloc : Nat → rx_alloc_result) (fuel : Nat) (budget c : Int)
    (lp r : adi_msp_private) (h : adi_msp_rx alloc fuel lp budget = some (c, r))
    (hc : desc_ring_chained lp.rd_ring (adi_msp_rx_dma lp) lp.rx_next_done ∧
      desc_ring_chained lp.sd_ring (adi_msp_status_dma lp) lp.tx_next_done) :
    desc_ring_chained r.rd_ring (adi_msp_rx_dma r) r.rx_next_done ∧
      desc_ring_chained r.sd_ring (adi_msp_status_dma r) r.tx_next_done := by
  refine adi_msp_rx_from_induct alloc budget
    (fun _ s => desc_ring_chained s.rd_ring (adi_msp_rx_dma s) s.rx_next_done ∧
      desc_ring_chained s.sd_ring (adi_msp_status_dma s) s.tx_next_done)
    (fun _ s => desc_ring_chained s.rd_ring (adi_msp_rx_dma s) s.rx_next_done ∧
      desc_ring_chained s.sd_ring (adi_msp_status_dma s) s.tx_next_done)
    ?_ ?_ ?_ ?_ fuel 0 0 lp c r hc h
  · intro count s a s1 inc _ hP hs
    exact adi_msp_rx_slot_chained s a _ hs hP
  · intro count s a s1 att _ hP hs
    exact adi_msp_rx_slot_chained s a _ hs hP
  · intro count s s1 hP ha
    obtain ⟨_, n, m, rfl⟩ := rx_after_loop_cases s budget count _ _ ha
    exact hP
  · intro count s c1 s1 hP ha
    obtain ⟨_, n, m, rfl⟩ := rx_after_loop_cases s budget count _ _ ha
    exact hP

/-- A call of `adi_msp_status` keeps the chaining of both rings. -/
theorem adi_msp_status_chained (fuel : Nat) (budget c : Int)
    (lp r : adi_msp_private) (h : adi_msp_status fuel lp budget = some (c, r))
    (hc : desc_ring_chained lp.rd_ring (adi_msp_rx_dma lp) lp.rx_next_done ∧
      desc_ring_chained lp.sd_ring (adi_msp_status_dma lp) lp.tx_next_done) :
    desc_ring_chained r.rd_ring (adi_msp_rx_dma r) r.rx_next_done ∧
      desc_ring_chained r.sd_ring (adi_msp_status_dma r) r.tx_next_done := by
  refine adi_msp_status_from_induct budget
    (fun _ s => desc_ring_chained s.rd_ring (adi_msp_rx_dma s) s.rx_next_done ∧
      desc_ring_chained s.sd_ring (adi_msp_status_dma s) s.tx_next_done)
    (fun _ s => desc_ring_chained s.rd_ring (adi_msp_rx_dma s) s.rx_next_done ∧
      desc_ring_chained s.sd_ring (adi_msp_status_dma s) s.tx_next_done)
    ?_ ?_ ?_ ?_ fuel 0 lp c r hc h
  · intro count s _ hP
    exact adi_msp_status_slot_chained s hP
  · intro count s hP
    obtain ⟨a, b, c, hf⟩ := status_restart_tx_frame s
    rw [hf]
    exact hP
  · intro count s n m hP
    exact hP
  · intro count s c1 hP _
    exact hP

/-- Every reachable state has both rings chained. -/
theorem desc_rings_reachable_chained {lp : adi_msp_private} (h : desc_rings_reachable lp) :
    desc_ring_chained lp.rd_ring (adi_msp_rx_dma lp) lp.rx_next_done ∧
      desc_ring_chained lp.sd_ring (adi_msp_status_dma lp) lp.tx_next_done := by
  induction h with
  | alloc_ring lp0 lp alloc h => exact adi_msp_alloc_ring_chained h
  | opened lp0 lp alloc irq_ok h => exact adi_msp_open_chained h
  | rx_slot lp a st _ hs ih => exact adi_msp_rx_slot_chained lp a st hs ih
  | rx lp r alloc fuel budget c _ hr ih => exact adi_msp_rx_chained alloc fuel budget c lp r hr ih
  | status_slot lp _ ih => exact adi_msp_status_slot_chained lp ih
  | status lp r fuel budget c _ hr ih => exact adi_msp_status_chained fuel budget c lp r hr ih
  | send lp r cfg skb expand_ok map _ hwf hr ih =>
    obtain ⟨h1, h2, h3, h4, h5, h6⟩ := adi_msp_send_packet_rings cfg lp r skb expand_ok map hwf hr
    exact desc_rings_congr lp r h1 h2 h3 h4 h5 h6 ih
  | rx_dma lp idx buf regs _ ih => exact desc_rings_congr lp _ rfl rfl rfl rfl rfl rfl ih
  | tx_dma lp regs _ ih => exact desc_rings_congr lp _ rfl rfl rfl rfl rfl rfl ih
  | status_dma lp idx wu regs _ ih => exact desc_rings_congr lp _ rfl rfl rfl rfl rfl rfl ih

/-- C28: after `adi_msp_alloc_ring` and after every slot consumed by
`adi_msp_rx` and by `adi_msp_status` (in every state reachable through their
loop bodies and whole calls, submissions and the work units and register
changes of the hardware), in the receive ring and in the status ring alike:
exactly one descriptor has stop flow mode, the one at index
`(next_done - 1) mod 128` (`rx_next_done` for the receive ring, `tx_next_done`
for the status ring), every other descriptor has descriptor-list flow mode,
and the next pointer of descriptor `i` is the address of descriptor
`(i + 1) mod 128` (in the 32 bits of the field). -/
theorem desc_rings_chained (lp : adi_msp_private) (h : desc_rings_reachable lp) :
    desc_ring_chained lp.rd_ring (adi_msp_rx_dma lp) lp.rx_next_done ∧
      desc_ring_chained lp.sd_ring (adi_msp_status_dma lp) lp.tx_next_done :=
  desc_rings_reachable_chained h

set_option maxRecDepth 8000 in
theorem rings_example_reachable : desc_rings_reachable rings_example := by
  have h0 : desc_rings_reachable adi_msp_opened :=
    desc_rings_reachable.opened _ _ _ _ adi_msp_opened_eq
  have h1 : desc_rings_reachable rings_example_received :=
    desc_rings_reachable.rx_dma _ _ _ _ h0
  have h2 := desc_rings_reachable.rx_slot rings_example_received (rx_alloc_ok 200)
    ((adi_msp_rx_slot rings_example_received (rx_alloc_ok 200)).getD
      (rx_step.stop rings_example_received false)) h1 (by rfl)
  have h3 := desc_rings_reachable.send _
    ((adi_msp_send_packet ⟨false, false⟩
      ((adi_msp_rx_slot rings_example_received (rx_alloc_ok 200)).getD
        (rx_step.stop rings_example_received false)).state
      (tx_skb_of_len 64) true (some 0x20000)).getD rings_example_received)
    ⟨false, false⟩ (tx_skb_of_len 64) true (some 0x20000) h2 (by decide) (by rfl)
  have h4 := desc_rings_reachable.status_dma _ 0
    { timestamp0 := 3 + 256 * 1, timestamp1 := 0, timestamp2 := 0, timestamp3 := 0 }
    { dscptr_prv := 0, addr_cur := 0, stat := 0 } h3
  exact desc_rings_reachable.status_slot _ h4

set_option maxRecDepth 8000 in
theorem desc_rings_chained_witness :
    desc_rings_reachable rings_example ∧
    rings_example.rx_next_done = 1 ∧ rings_example.tx_next_done = 1 ∧
    dma_cfg_flow (rings_example.rd_ring 0).cfg = DMA_CFG_FLOW_STOP ∧
    dma_cfg_flow (rings_example.sd_ring 0).cfg = DMA_CFG_FLOW_STOP ∧
    dma_cfg_flow (rings_example.rd_ring 127).cfg = DMA_CFG_FLOW_DSCL ∧
    dma_cfg_flow (rings_example.sd_ring 127).cfg = DMA_CFG_FLOW_DSCL ∧
    (desc_ring_chained rings_example.rd_ring (adi_msp_rx_dma rings_example)
        rings_example.rx_next_done ∧
      desc_ring_chained rings_example.sd_ring (adi_msp_status_dma rings_example)
        rings_example.tx_next_done) :=
  ⟨rings_example_reachable, by decide, by decide, by decide, by decide, by decide, by decide,
    desc_rings_chained rings_example rings_example_reachable⟩

/-! ### The readiness test of the receive loop -/

set_option maxRecDepth 8000 in
/-- The sum `addrstart + RX_WU_LEN` of the readiness test wraps at `2^32`: for a
receive buffer mapped at `0xfffffc00`, within 1536 bytes of 4 GiB, with the
current address `0xfffffe00` inside it and no previous descriptor recorded,
the sum is `0x200`, the current address is not below it, and the slot is
ready. -/
theorem rx_slot_ready_across_wrap :
    u32 (0xfffffc00 + RX_WU_LEN) = 0x200 ∧
    ¬ rx_slot_not_ready
      { rx_example_with rx_example_data with
        rd_ring := ring_set (rx_example_with rx_example_data).rd_ring 0
          { (rx_example_with rx_example_data).rd_ring 0 with addrstart := 0xfffffc00 }
        rx_dma_regs := { dscptr_prv := 0, addr_cur := 0xfffffe00, stat := 0 } }
      rx_example_data := by
  decide

end AdiMsp
